import Mathlib

/-!
ECPL front end: lexer and parser

A shallow embedding of `src/lexer/lexer.cpp`, `src/lexer/token.h`,
`src/ast/ast.h` and `src/parser/parser.cpp`, followed by theorems about them.

Conventions of the embedding.

* A source byte (`char`) is a `Char`; the source text is a `List Char` indexed by
  the cursor `current`.  `std::isalpha`, `std::isdigit`, `std::isalnum` and
  `std::isxdigit` are the "C" locale classifications (ASCII only).
* `int` line and column counters are natural numbers (they only grow from 1).
* The diagnostic sink `error_cb` is the list of diagnostics a function returns
  (lexer) or a field of the parser state (parser); a diagnostic is
  `(line, column, message)`.
* Every `while`/`for(;;)` loop is a function recursive on a fuel argument.  In the
  lexer each iteration consumes a character, so the loops are started with the
  number of characters left and the fuel never runs out.  In the parser the fuel
  bounds the call depth and the iteration count; `none` means the fuel ran out.
-/

namespace lex

/-- The enumeration `TokenType` of `token.h`. -/
inductive TokenType where
  | ILLEGAL | EOF_TOKEN
  | IDENT | INT | FLOAT | CHAR | STRING | BOOL | NONE
  | KW_MODULE | KW_PACKAGE | KW_IMPORT | KW_PUB | KW_FN | KW_STRUCT | KW_ENUM
  | KW_INTERFACE | KW_CONST | KW_MUT | KW_IF | KW_ELSE | KW_MATCH | KW_FOR | KW_IN
  | KW_RETURN | KW_BREAK | KW_CONTINUE | KW_AS | KW_IS | KW_GO | KW_DEFER
  | KW_SELECT | KW_SWITCH | KW_TRUE | KW_FALSE | KW_NONE | KW_OR | KW_TYPE
  | KW_IMPORTAS
  | LPAREN | RPAREN | LBRACE | RBRACE | LBRACK | RBRACK | COMMA | DOT | COLON
  | SEMICOLON | ARROW | QUESTION
  | PLUS | MINUS | STAR | SLASH | PERCENT | CARET | AMP | PIPE | BANG | TILDE
  | ASSIGN | PLUS_ASSIGN | MINUS_ASSIGN | MUL_ASSIGN | DIV_ASSIGN | MOD_ASSIGN
  | EQ | NEQ | LT | GT | LE | GE | AND | OR | BIT_AND | BIT_OR | BIT_XOR
  | SHL | SHR | ARROW_R | NEWLINE
  | PLUSPLUS | MINUSMINUS
  | DEREF | ADDRESS_OF
  | KW_BYTE | ELLIPSIS
  deriving DecidableEq, Repr, Inhabited

/-- Source position `(line, column)`, both starting at 1. -/
structure Position where
  line : Nat := 1
  column : Nat := 1
  deriving DecidableEq, Repr, Inhabited

/-- A token; `end_` is the field `end` of the source. -/
structure Token where
  type : TokenType := TokenType.ILLEGAL
  lexeme : String := ""
  start : Position := {}
  end_ : Position := {}
  deriving DecidableEq, Repr, Inhabited

/-- One call of a diagnostic sink: `error_cb(line, column, msg)`. -/
structure Diag where
  line : Nat
  column : Nat
  msg : String
  deriving DecidableEq, Repr, Inhabited

/-- The table `keywords` of `lexer.cpp`, in the order of its initializer list (a key
that occurs twice keeps its first entry). -/
def keywords : List (String × TokenType) :=
  [("import", TokenType.KW_IMPORT),
   ("pub", TokenType.KW_PUB),
   ("fn", TokenType.KW_FN),
   ("struct", TokenType.KW_STRUCT),
   ("enum", TokenType.KW_ENUM),
   ("const", TokenType.KW_CONST),
   ("if", TokenType.KW_IF),
   ("else", TokenType.KW_ELSE),
   ("match", TokenType.KW_MATCH),
   ("for", TokenType.KW_FOR),
   ("in", TokenType.KW_IN),
   ("return", TokenType.KW_RETURN),
   ("break", TokenType.KW_BREAK),
   ("continue", TokenType.KW_CONTINUE),
   ("true", TokenType.KW_TRUE),
   ("false", TokenType.KW_FALSE),
   ("byte", TokenType.KW_BYTE),
   ("struct", TokenType.KW_STRUCT),
   ("package", TokenType.KW_PACKAGE),
   ("import", TokenType.KW_IMPORT),
   ("...", TokenType.ELLIPSIS)]

/-- The data members of `Lexer` (`last_pos` is written once and never read; the sink
`error_cb` is the returned diagnostic list). -/
structure Lexer where
  src : List Char
  current : Nat := 0
  line : Nat := 1
  column : Nat := 1
  deriving DecidableEq, Repr, Inhabited

/-- The NUL character that `advance` and `peek_char` return past the end. -/
def NUL : Char := Char.ofNat 0

/-- `std::isdigit` in the "C" locale. -/
def isdigit (c : Char) : Bool := decide ('0' ≤ c) && decide (c ≤ '9')

/-- `std::isalpha` in the "C" locale. -/
def isalpha (c : Char) : Bool :=
  (decide ('a' ≤ c) && decide (c ≤ 'z')) || (decide ('A' ≤ c) && decide (c ≤ 'Z'))

/-- `std::isalnum` in the "C" locale. -/
def isalnum (c : Char) : Bool := isalpha c || isdigit c

/-- `std::isxdigit` in the "C" locale. -/
def isxdigit (c : Char) : Bool :=
  isdigit c || (decide ('a' ≤ c) && decide (c ≤ 'f')) || (decide ('A' ≤ c) && decide (c ≤ 'F'))

/-- `Lexer::is_ident_start`. -/
def is_ident_start (c : Char) : Bool := isalpha c || decide (c = '_')

/-- `Lexer::is_ident_part`. -/
def is_ident_part (c : Char) : Bool := isalnum c || decide (c = '_')

/-- `Lexer::is_at_end`. -/
def is_at_end (L : Lexer) : Bool := decide (L.current ≥ L.src.length)

/-- `Lexer::advance`: the consumed character and the lexer after it. -/
def advance (L : Lexer) : Char × Lexer :=
  if is_at_end L then (NUL, L)
  else
    let c := L.src.getD L.current NUL
    if c = '\n' then
      (c, { L with current := L.current + 1, line := L.line + 1, column := 1 })
    else
      (c, { L with current := L.current + 1, column := L.column + 1 })

/-- `Lexer::peek_char(ahead)`. -/
def peek_char (L : Lexer) (ahead : Nat) : Char :=
  L.src.getD (L.current + ahead) NUL

/-- The loop of `Lexer::peek_nonspace_char`, on the local variables `idx`, `found`. -/
def peek_nonspace_loop (src : List Char) (ahead : Nat) : Nat → Nat → Nat → Char
  | 0, _, _ => NUL
  | fuel + 1, idx, found =>
    if idx < src.length then
      let ch := src.getD idx NUL
      if ch = ' ' ∨ ch = '\t' ∨ ch = '\r' ∨ ch = '\n' then
        peek_nonspace_loop src ahead fuel (idx + 1) found
      else if found = ahead then ch
      else peek_nonspace_loop src ahead fuel (idx + 1) (found + 1)
    else NUL

/-- `Lexer::peek_nonspace_char(ahead)`. -/
def peek_nonspace_char (L : Lexer) (ahead : Nat) : Char :=
  peek_nonspace_loop L.src ahead (L.src.length - L.current) L.current 0

/-- `Lexer::match`. -/
def match_ (L : Lexer) (expected : Char) : Bool × Lexer :=
  if is_at_end L then (false, L)
  else if L.src.getD L.current NUL ≠ expected then (false, L)
  else if expected = '\n' then
    (true, { L with current := L.current + 1, line := L.line + 1, column := 1 })
  else
    (true, { L with current := L.current + 1, column := L.column + 1 })

/-- `Lexer::emit_error`: the diagnostic handed to the sink. -/
def emit_error (L : Lexer) (msg : String) : Diag :=
  { line := L.line, column := L.column, msg := msg }

/-- `Lexer::make_token`. -/
def make_token (type : TokenType) (lexeme : String) (start end_ : Position) : Token :=
  { type := type, lexeme := lexeme, start := start, end_ := end_ }

/-- `Lexer::make_token_single`. -/
def make_token_single (type : TokenType) (lexeme : String) (start : Position) : Token :=
  make_token type lexeme start { start with column := start.column + lexeme.length - 1 }

/-- The position `Position{line, column}` of the cursor. -/
def here (L : Lexer) : Position := { line := L.line, column := L.column }

/-- `src.substr(st, current - st)`. -/
def substr (L : Lexer) (st : Nat) : String :=
  String.mk ((L.src.drop st).take (L.current - st))

/-- The loop `while (p(peek_char())) advance();`. -/
def advance_while (p : Char → Bool) : Nat → Lexer → Lexer
  | 0, L => L
  | fuel + 1, L =>
    if p (peek_char L 0) then advance_while p fuel (advance L).2 else L

/-- The loop `while (!is_at_end() && peek_char() != stop) advance();`, which also
appends the consumed characters to `acc`. -/
def advance_until (stop : Char) : Nat → Lexer → List Char → Lexer × List Char
  | 0, L, acc => (L, acc)
  | fuel + 1, L, acc =>
    if !is_at_end L && decide (peek_char L 0 ≠ stop) then
      advance_until stop fuel (advance L).2 (acc ++ [(advance L).1])
    else (L, acc)

/-- The characters left from the cursor on: a bound on the iterations of any loop
that consumes one character per iteration. -/
def remaining (L : Lexer) : Nat := L.src.length - L.current

/-- The block-comment loop of `skip_whitespace_and_comments`, on `depth`. -/
def block_comment_loop : Nat → Lexer → Nat → Lexer × Nat
  | 0, L, depth => (L, depth)
  | fuel + 1, L, depth =>
    if !is_at_end L && decide (depth > 0) then
      let ch := (advance L).1
      let L1 := (advance L).2
      if ch = '/' ∧ peek_char L1 0 = '*' then
        block_comment_loop fuel (advance L1).2 (depth + 1)
      else if ch = '*' ∧ peek_char L1 0 = '/' then
        block_comment_loop fuel (advance L1).2 (depth - 1)
      else block_comment_loop fuel L1 depth
    else (L, depth)

/-- The `for (;;)` loop of `Lexer::skip_whitespace_and_comments`. -/
def skip_loop (emit_newline : Bool) :
    Nat → Lexer → List Token → List Token × Lexer × List Diag
  | 0, L, out => (out, L, [])
  | fuel + 1, L, out =>
    let c := peek_char L 0
    if c = ' ' ∨ c = '\t' ∨ c = '\r' then
      skip_loop emit_newline fuel (advance L).2 out
    else if c = '\n' then
      let p := here L
      let L1 := (advance L).2
      let q := here L1
      skip_loop emit_newline fuel L1
        (if emit_newline then out ++ [make_token TokenType.NEWLINE "\n" p q] else out)
    else if c = '/' then
      if peek_char L 1 = '/' then
        let L2 := (advance (advance L).2).2
        let L3 := (advance_until '\n' (remaining L2) L2 []).1
        skip_loop emit_newline fuel L3 out
      else if peek_char L 1 = '*' then
        let L2 := (advance (advance L).2).2
        let r := block_comment_loop (remaining L2) L2 1
        let errs := if r.2 ≠ 0 then [emit_error r.1 "unclosed block comment"] else []
        let rest := skip_loop emit_newline fuel r.1 out
        (rest.1, rest.2.1, errs ++ rest.2.2)
      else (out, L, [])
    else (out, L, [])

/-- `Lexer::skip_whitespace_and_comments(out, emit_newline)`. -/
def skip_whitespace_and_comments (L : Lexer) (out : List Token) (emit_newline : Bool) :
    List Token × Lexer × List Diag :=
  skip_loop emit_newline (remaining L + 1) L out

/-- The loop of `Lexer::identifier_or_keyword` and the lookup in `keywords`. -/
def identifier_or_keyword (L : Lexer) (start : Position) : Token × Lexer × List Diag :=
  let st := L.current
  let L1 := (advance L).2
  let L2 := advance_while is_ident_part (remaining L1) L1
  let lexeme := substr L2 st
  match keywords.lookup lexeme with
  | some kw => (make_token kw lexeme start (here L2), L2, [])
  | none => (make_token TokenType.IDENT lexeme start (here L2), L2, [])

/-- The octal-digit loop of `Lexer::number_literal`; the flag is
`invalid_octal_digit`. -/
def octal_loop : Nat → Lexer → Lexer × Bool
  | 0, L => (L, false)
  | fuel + 1, L =>
    if isdigit (peek_char L 0) then
      let p := peek_char L 0
      if '0' ≤ p ∧ p ≤ '7' then octal_loop fuel (advance L).2
      else (advance_while isdigit (remaining L) L, true)
    else (L, false)

/-- `Lexer::number_literal`. -/
def number_literal (L : Lexer) (start : Position) : Token × Lexer × List Diag :=
  let st := L.current
  if peek_char L 0 = '0' ∧ (peek_char L 1).toNat ||| 0x20 = 'x'.toNat then
    let L2 := (advance (advance L).2).2
    let L3 := advance_while isxdigit (remaining L2) L2
    (make_token TokenType.INT (substr L3 st) start (here L3), L3, [])
  else if peek_char L 0 = '0' ∧ (peek_char L 1).toNat ||| 0x20 = 'b'.toNat then
    let L2 := (advance (advance L).2).2
    let L3 := advance_while (fun c => decide (c = '0') || decide (c = '1')) (remaining L2) L2
    (make_token TokenType.INT (substr L3 st) start (here L3), L3, [])
  else if peek_char L 0 = '0' ∧ isdigit (peek_char L 1) = true then
    let L1 := (advance L).2
    let r := octal_loop (remaining L1) L1
    let errs := if r.2 then [emit_error r.1 "invalid digit in octal literal"] else []
    (make_token TokenType.INT (substr r.1 st) start (here r.1), r.1, errs)
  else
    let L1 := advance_while isdigit (remaining L) L
    let frac : Bool := decide (peek_char L1 0 = '.') && isdigit (peek_char L1 1)
    let L2 := if frac then advance_while isdigit (remaining (advance L1).2) (advance L1).2 else L1
    if peek_char L2 0 = 'e' ∨ peek_char L2 0 = 'E' then
      let L3 := (advance L2).2
      let L4 := if peek_char L3 0 = '+' ∨ peek_char L3 0 = '-' then (advance L3).2 else L3
      let errs :=
        if isdigit (peek_char L4 0) then []
        else [emit_error L4 "malformed exponent in number literal"]
      let L5 := advance_while isdigit (remaining L4) L4
      (make_token TokenType.FLOAT (substr L5 st) start (here L5), L5, errs)
    else
      (make_token (if frac then TokenType.FLOAT else TokenType.INT) (substr L2 st) start
        (here L2), L2, [])

/-- The loop of `Lexer::string_literal` for a double-quoted literal, on the buffer
`sb`.  The flag tells whether the closing quote was consumed (the `return` inside
the loop). -/
def string_loop : Nat → Lexer → List Char → Bool × Lexer × List Char × List Diag
  | 0, L, sb => (false, L, sb, [])
  | fuel + 1, L, sb =>
    if is_at_end L then (false, L, sb, [])
    else
      let ch := (advance L).1
      let L1 := (advance L).2
      if ch = '\\' then
        if is_at_end L1 then
          (false, L1, sb ++ ['\\'], [emit_error L1 "unterminated escape in string"])
        else
          string_loop fuel (advance L1).2 (sb ++ ['\\', (advance L1).1])
      else if ch = '"' then (true, L1, sb, [])
      else string_loop fuel L1 (sb ++ [ch])

/-- `Lexer::string_literal`. -/
def string_literal (L : Lexer) (start : Position) (quote : Char) :
    Token × Lexer × List Diag :=
  let st := L.current - 1
  if quote = '`' then
    let r := advance_until '`' (remaining L) L [quote]
    if is_at_end r.1 then
      (make_token TokenType.ILLEGAL (String.mk r.2) start (here r.1), r.1,
        [emit_error r.1 "unterminated raw string literal"])
    else
      let L2 := (advance r.1).2
      (make_token TokenType.STRING (substr L2 st) start (here L2), L2, [])
  else
    let r := string_loop (remaining L) L [quote]
    if r.1 then
      (make_token TokenType.STRING (substr r.2.1 st) start (here r.2.1), r.2.1, r.2.2.2)
    else
      (make_token TokenType.ILLEGAL (String.mk r.2.2.1) start (here r.2.1), r.2.1,
        r.2.2.2 ++ [emit_error r.2.1 "unterminated string literal"])

/-- `Lexer::char_literal`. -/
def char_literal (L : Lexer) (start : Position) : Token × Lexer × List Diag :=
  let st := L.current - 1
  if is_at_end L then
    (make_token TokenType.ILLEGAL "'" start (here L), L,
      [emit_error L "unterminated char literal"])
  else
    let ch := (advance L).1
    let L1 := (advance L).2
    if ch = '\\' ∧ is_at_end L1 = true then
      (make_token TokenType.ILLEGAL "'\\" start (here L1), L1,
        [emit_error L1 "unterminated char escape"])
    else
      let L2 := if ch = '\\' then (advance L1).2 else L1
      let bad : Bool := decide (peek_char L2 0 ≠ '\'')
      let errs := if bad then [emit_error L2 "unterminated/invalid char literal"] else []
      let L3 := if bad then (advance_until '\'' (remaining L2) L2 []).1 else L2
      let L4 := if peek_char L3 0 = '\'' then (advance L3).2 else L3
      (make_token TokenType.CHAR (substr L4 st) start (here L4), L4, errs)

/-- The `--current; if (column > 1) --column;` of `Lexer::scan_token`. -/
def unread (L : Lexer) : Lexer :=
  { L with current := L.current - 1, column := if L.column > 1 then L.column - 1 else L.column }

/-- `Lexer::scan_token`. -/
def scan_token (L : Lexer) : Token × Lexer × List Diag :=
  let start := here L
  let c := (advance L).1
  let L1 := (advance L).2
  let L2 := (advance L1).2
  if c = '(' then (make_token_single TokenType.LPAREN "(" start, L1, [])
  else if c = ')' then (make_token_single TokenType.RPAREN ")" start, L1, [])
  else if c = '{' then (make_token_single TokenType.LBRACE "\x7b" start, L1, [])
  else if c = '}' then (make_token_single TokenType.RBRACE "\x7d" start, L1, [])
  else if c = '[' then (make_token_single TokenType.LBRACK "[" start, L1, [])
  else if c = ']' then (make_token_single TokenType.RBRACK "]" start, L1, [])
  else if c = ',' then (make_token_single TokenType.COMMA "," start, L1, [])
  else if c = '.' then (make_token_single TokenType.DOT "." start, L1, [])
  else if c = ':' then
    if peek_char L1 0 = '=' then (make_token TokenType.ASSIGN ":=" start (here L2), L2, [])
    else (make_token_single TokenType.COLON ":" start, L1, [])
  else if c = ';' then (make_token_single TokenType.SEMICOLON ";" start, L1, [])
  else if c = '?' then (make_token_single TokenType.QUESTION "?" start, L1, [])
  else if c = '+' then
    if peek_char L1 0 = '=' then
      (make_token TokenType.PLUS_ASSIGN "+=" start (here L2), L2, [])
    else if peek_char L1 0 = '+' then
      (make_token TokenType.PLUSPLUS "++" start (here L2), L2, [])
    else (make_token_single TokenType.PLUS "+" start, L1, [])
  else if c = '-' then
    if peek_char L1 0 = '=' then
      (make_token TokenType.MINUS_ASSIGN "-=" start (here L2), L2, [])
    else if peek_char L1 0 = '>' then
      (make_token TokenType.ARROW "->" start (here L2), L2, [])
    else if peek_char L1 0 = '-' then
      (make_token TokenType.MINUSMINUS "--" start (here L2), L2, [])
    else (make_token_single TokenType.MINUS "-" start, L1, [])
  else if c = '*' then
    if peek_char L1 0 = '=' then
      (make_token TokenType.MUL_ASSIGN "*=" start (here L2), L2, [])
    else
      let next := peek_nonspace_char L1 0
      if is_ident_start next = true ∨ next = '*' ∨ next = '&' ∨ next = '(' ∨ next = '[' then
        (make_token_single TokenType.DEREF "*" start, L1, [])
      else (make_token_single TokenType.STAR "*" start, L1, [])
  else if c = '/' then
    if peek_char L1 0 = '=' then
      (make_token TokenType.DIV_ASSIGN "/=" start (here L2), L2, [])
    else (make_token_single TokenType.SLASH "/" start, L1, [])
  else if c = '%' then
    if peek_char L1 0 = '=' then
      (make_token TokenType.MOD_ASSIGN "%=" start (here L2), L2, [])
    else (make_token_single TokenType.PERCENT "%" start, L1, [])
  else if c = '^' then (make_token_single TokenType.CARET "^" start, L1, [])
  else if c = '&' then
    if peek_char L1 0 = '&' then (make_token TokenType.AND "&&" start (here L2), L2, [])
    else
      let next := peek_nonspace_char L1 0
      if is_ident_start next = true ∨ next = '*' ∨ next = '&' ∨ next = '(' ∨ next = '[' then
        (make_token_single TokenType.ADDRESS_OF "&" start, L1, [])
      else (make_token_single TokenType.BIT_AND "&" start, L1, [])
  else if c = '|' then
    if peek_char L1 0 = '|' then (make_token TokenType.OR "||" start (here L2), L2, [])
    else (make_token_single TokenType.BIT_OR "|" start, L1, [])
  else if c = '!' then
    if peek_char L1 0 = '=' then (make_token TokenType.NEQ "!=" start (here L2), L2, [])
    else (make_token_single TokenType.BANG "!" start, L1, [])
  else if c = '~' then (make_token_single TokenType.TILDE "~" start, L1, [])
  else if c = '=' then
    if peek_char L1 0 = '=' then (make_token TokenType.EQ "==" start (here L2), L2, [])
    else if peek_char L1 0 = '>' then
      (make_token TokenType.ARROW_R "=>" start (here L2), L2, [])
    else (make_token_single TokenType.ASSIGN "=" start, L1, [])
  else if c = '<' then
    if peek_char L1 0 = '=' then (make_token TokenType.LE "<=" start (here L2), L2, [])
    else if peek_char L1 0 = '<' then
      (make_token TokenType.SHL "<<" start (here L2), L2, [])
    else (make_token_single TokenType.LT "<" start, L1, [])
  else if c = '>' then
    if peek_char L1 0 = '=' then (make_token TokenType.GE ">=" start (here L2), L2, [])
    else if peek_char L1 0 = '>' then
      (make_token TokenType.SHR ">>" start (here L2), L2, [])
    else (make_token_single TokenType.GT ">" start, L1, [])
  else if c = '\'' then char_literal L1 start
  else if c = '"' ∨ c = '`' then string_literal L1 start c
  else if isdigit c then number_literal (unread L1) start
  else if is_ident_start c then identifier_or_keyword (unread L1) start
  else
    (make_token TokenType.ILLEGAL (String.mk [c]) start (here L1), L1,
      [emit_error L1 ("unexpected character '" ++ String.mk [c] ++ "'")])

/-- `Lexer::next_token`. -/
def next_token (L : Lexer) : Token × Lexer × List Diag :=
  let r := skip_whitespace_and_comments L [] true
  match r.1 with
  | t :: _ => (t, r.2.1, r.2.2)
  | [] =>
    if is_at_end r.2.1 then
      (make_token TokenType.EOF_TOKEN "" (here r.2.1) (here r.2.1), r.2.1, r.2.2)
    else
      let s := scan_token r.2.1
      (s.1, s.2.1, r.2.2 ++ s.2.2)

/-- The `for` loop of `Lexer::peek`, run on the copy. -/
def peek_loop : Nat → Lexer → Token → Token × Lexer × List Diag
  | 0, copy, t => (t, copy, [])
  | i + 1, copy, _ =>
    let r := next_token copy
    let r2 := peek_loop i r.2.1 r.1
    (r2.1, r2.2.1, r.2.2 ++ r2.2.2)

/-- `Lexer::peek(k)`: the token, the lexer `*this` after the call, and the
diagnostics that the copy sent to the shared sink. -/
def peek (L : Lexer) (k : Int) : Token × Lexer × List Diag :=
  let r := peek_loop k.toNat L {}
  (r.1, L, r.2.2)

/-- The `for (;;)` loop of `Lexer::tokenize_all`; `none` when the fuel runs out. -/
def tokenize_loop : Nat → Lexer → List Token → Option (List Token × Lexer × List Diag)
  | 0, _, _ => none
  | fuel + 1, L, out =>
    let r := next_token L
    if r.1.type = TokenType.EOF_TOKEN then some (out ++ [r.1], r.2.1, r.2.2)
    else
      match tokenize_loop fuel r.2.1 (out ++ [r.1]) with
      | some r2 => some (r2.1, r2.2.1, r.2.2 ++ r2.2.2)
      | none => none

/-- `Lexer::tokenize_all`, with the loop given `fuel` iterations. -/
def tokenize_all (fuel : Nat) (L : Lexer) : Option (List Token × Lexer × List Diag) :=
  tokenize_loop fuel L []

/-- The constructor `Lexer(src, error_cb)`. -/
def Lexer.new (src : String) : Lexer := { src := src.toList }

end lex

namespace ast

open lex (TokenType)

/-- The type nodes of `ast.h` (`Type` and its subclasses). -/
inductive Ty where
  | NamedType (name : String)
  | PointerType (base : Ty)
  | ArrayType (elem : Ty) (is_slice : Bool) (size : Nat)
  | FuncType (params : List Ty) (ret : Option Ty)
  deriving Inhabited

mutual
/-- Decidable equality of type nodes. -/
def Ty.decEq : (a b : Ty) → Decidable (a = b)
  | .NamedType x0, .NamedType y0 =>
    match (inferInstance : Decidable (x0 = y0)) with
    | isFalse h => isFalse (by intro e; cases e; exact h rfl)
    | isTrue h0 =>
      isTrue (by cases h0; rfl)
  | .PointerType x0, .PointerType y0 =>
    match Ty.decEq x0 y0 with
    | isFalse h => isFalse (by intro e; cases e; exact h rfl)
    | isTrue h0 =>
      isTrue (by cases h0; rfl)
  | .ArrayType x0 x1 x2, .ArrayType y0 y1 y2 =>
    match Ty.decEq x0 y0 with
    | isFalse h => isFalse (by intro e; cases e; exact h rfl)
    | isTrue h0 =>
    match (inferInstance : Decidable (x1 = y1)) with
    | isFalse h => isFalse (by intro e; cases e; exact h rfl)
    | isTrue h1 =>
    match (inferInstance : Decidable (x2 = y2)) with
    | isFalse h => isFalse (by intro e; cases e; exact h rfl)
    | isTrue h2 =>
      isTrue (by cases h0; cases h1; cases h2; rfl)
  | .FuncType x0 x1, .FuncType y0 y1 =>
    match Ty.decEqList x0 y0 with
    | isFalse h => isFalse (by intro e; cases e; exact h rfl)
    | isTrue h0 =>
    match Ty.decEqOption x1 y1 with
    | isFalse h => isFalse (by intro e; cases e; exact h rfl)
    | isTrue h1 =>
      isTrue (by cases h0; cases h1; rfl)
  | .NamedType _, .PointerType _ => isFalse (by intro e; cases e)
  | .NamedType _, .ArrayType _ _ _ => isFalse (by intro e; cases e)
  | .NamedType _, .FuncType _ _ => isFalse (by intro e; cases e)
  | .PointerType _, .NamedType _ => isFalse (by intro e; cases e)
  | .PointerType _, .ArrayType _ _ _ => isFalse (by intro e; cases e)
  | .PointerType _, .FuncType _ _ => isFalse (by intro e; cases e)
  | .ArrayType _ _ _, .NamedType _ => isFalse (by intro e; cases e)
  | .ArrayType _ _ _, .PointerType _ => isFalse (by intro e; cases e)
  | .ArrayType _ _ _, .FuncType _ _ => isFalse (by intro e; cases e)
  | .FuncType _ _, .NamedType _ => isFalse (by intro e; cases e)
  | .FuncType _ _, .PointerType _ => isFalse (by intro e; cases e)
  | .FuncType _ _, .ArrayType _ _ _ => isFalse (by intro e; cases e)
termination_by structural a => a
/-- Decidable equality of lists of type nodes. -/
def Ty.decEqList : (a b : List Ty) → Decidable (a = b)
  | [], [] => isTrue rfl
  | [], _ :: _ => isFalse (by intro e; cases e)
  | _ :: _, [] => isFalse (by intro e; cases e)
  | x :: xs, y :: ys =>
    match Ty.decEq x y with
    | isFalse h => isFalse (by intro e; cases e; exact h rfl)
    | isTrue h0 =>
    match Ty.decEqList xs ys with
    | isFalse h => isFalse (by intro e; cases e; exact h rfl)
    | isTrue h1 => isTrue (by cases h0; cases h1; rfl)
termination_by structural a => a
/-- Decidable equality of optional type nodes. -/
def Ty.decEqOption : (a b : Option Ty) → Decidable (a = b)
  | none, none => isTrue rfl
  | none, some _ => isFalse (by intro e; cases e)
  | some _, none => isFalse (by intro e; cases e)
  | some x, some y =>
    match Ty.decEq x y with
    | isFalse h => isFalse (by intro e; cases e; exact h rfl)
    | isTrue h0 => isTrue (by cases h0; rfl)
termination_by structural a => a
end

instance : DecidableEq Ty := Ty.decEq

/-- The expression nodes of `ast.h`.  A `StructFieldInit` is the pair
`(name, value)`; `ArrayLiteral.array_type` is `none` for the null pointer. -/
inductive Expr where
  | Ident (name : String)
  | Literal (raw : String) (t : TokenType)
  | UnaryExpr (op : String) (rhs : Expr)
  | BinaryExpr (op : String) (left right : Expr)
  | CallExpr (callee : Expr) (args : List Expr)
  | ArrayLiteral (array_type : Option Ty) (elements : List Expr)
  | ByteArrayLiteral (elems : List Expr)
  | MemberExpr (object : Expr) (member : String)
  | IndexExpr (collection index : Expr)
  | PostfixExpr (op : String) (lhs : Expr)
  | StructLiteral (type : Ty) (inits : List (Option String × Expr))
  deriving Inhabited

mutual
/-- Decidable equality of expressions. -/
def Expr.decEq : (a b : Expr) → Decidable (a = b)
  | .Ident x0, .Ident y0 =>
    match (inferInstance : Decidable (x0 = y0)) with
    | isFalse h => isFalse (by intro e; cases e; exact h rfl)
    | isTrue h0 =>
      isTrue (by cases h0; rfl)
  | .Literal x0 x1, .Literal y0 y1 =>
    match (inferInstance : Decidable (x0 = y0)) with
    | isFalse h => isFalse (by intro e; cases e; exact h rfl)
    | isTrue h0 =>
    match (inferInstance : Decidable (x1 = y1)) with
    | isFalse h => isFalse (by intro e; cases e; exact h rfl)
    | isTrue h1 =>
      isTrue (by cases h0; cases h1; rfl)
  | .UnaryExpr x0 x1, .UnaryExpr y0 y1 =>
    match (inferInstance : Decidable (x0 = y0)) with
    | isFalse h => isFalse (by intro e; cases e; exact h rfl)
    | isTrue h0 =>
    match Expr.decEq x1 y1 with
    | isFalse h => isFalse (by intro e; cases e; exact h rfl)
    | isTrue h1 =>
      isTrue (by cases h0; cases h1; rfl)
  | .BinaryExpr x0 x1 x2, .BinaryExpr y0 y1 y2 =>
    match (inferInstance : Decidable (x0 = y0)) with
    | isFalse h => isFalse (by intro e; cases e; exact h rfl)
    | isTrue h0 =>
    match Expr.decEq x1 y1 with
    | isFalse h => isFalse (by intro e; cases e; exact h rfl)
    | isTrue h1 =>
    match Expr.decEq x2 y2 with
    | isFalse h => isFalse (by intro e; cases e; exact h rfl)
    | isTrue h2 =>
      isTrue (by cases h0; cases h1; cases h2; rfl)
  | .CallExpr x0 x1, .CallExpr y0 y1 =>
    match Expr.decEq x0 y0 with
    | isFalse h => isFalse (by intro e; cases e; exact h rfl)
    | isTrue h0 =>
    match Expr.decEqList x1 y1 with
    | isFalse h => isFalse (by intro e; cases e; exact h rfl)
    | isTrue h1 =>
      isTrue (by cases h0; cases h1; rfl)
  | .ArrayLiteral x0 x1, .ArrayLiteral y0 y1 =>
    match (inferInstance : Decidable (x0 = y0)) with
    | isFalse h => isFalse (by intro e; cases e; exact h rfl)
    | isTrue h0 =>
    match Expr.decEqList x1 y1 with
    | isFalse h => isFalse (by intro e; cases e; exact h rfl)
    | isTrue h1 =>
      isTrue (by cases h0; cases h1; rfl)
  | .ByteArrayLiteral x0, .ByteArrayLiteral y0 =>
    match Expr.decEqList x0 y0 with
    | isFalse h => isFalse (by intro e; cases e; exact h rfl)
    | isTrue h0 =>
      isTrue (by cases h0; rfl)
  | .MemberExpr x0 x1, .MemberExpr y0 y1 =>
    match Expr.decEq x0 y0 with
    | isFalse h => isFalse (by intro e; cases e; exact h rfl)
    | isTrue h0 =>
    match (inferInstance : Decidable (x1 = y1)) with
    | isFalse h => isFalse (by intro e; cases e; exact h rfl)
    | isTrue h1 =>
      isTrue (by cases h0; cases h1; rfl)
  | .IndexExpr x0 x1, .IndexExpr y0 y1 =>
    match Expr.decEq x0 y0 with
    | isFalse h => isFalse (by intro e; cases e; exact h rfl)
    | isTrue h0 =>
    match Expr.decEq x1 y1 with
    | isFalse h => isFalse (by intro e; cases e; exact h rfl)
    | isTrue h1 =>
      isTrue (by cases h0; cases h1; rfl)
  | .PostfixExpr x0 x1, .PostfixExpr y0 y1 =>
    match (inferInstance : Decidable (x0 = y0)) with
    | isFalse h => isFalse (by intro e; cases e; exact h rfl)
    | isTrue h0 =>
    match Expr.decEq x1 y1 with
    | isFalse h => isFalse (by intro e; cases e; exact h rfl)
    | isTrue h1 =>
      isTrue (by cases h0; cases h1; rfl)
  | .StructLiteral x0 x1, .StructLiteral y0 y1 =>
    match (inferInstance : Decidable (x0 = y0)) with
    | isFalse h => isFalse (by intro e; cases e; exact h rfl)
    | isTrue h0 =>
    match Expr.decEqInits x1 y1 with
    | isFalse h => isFalse (by intro e; cases e; exact h rfl)
    | isTrue h1 =>
      isTrue (by cases h0; cases h1; rfl)
  | .Ident _, .Literal _ _ => isFalse (by intro e; cases e)
  | .Ident _, .UnaryExpr _ _ => isFalse (by intro e; cases e)
  | .Ident _, .BinaryExpr _ _ _ => isFalse (by intro e; cases e)
  | .Ident _, .CallExpr _ _ => isFalse (by intro e; cases e)
  | .Ident _, .ArrayLiteral _ _ => isFalse (by intro e; cases e)
  | .Ident _, .ByteArrayLiteral _ => isFalse (by intro e; cases e)
  | .Ident _, .MemberExpr _ _ => isFalse (by intro e; cases e)
  | .Ident _, .IndexExpr _ _ => isFalse (by intro e; cases e)
  | .Ident _, .PostfixExpr _ _ => isFalse (by intro e; cases e)
  | .Ident _, .StructLiteral _ _ => isFalse (by intro e; cases e)
  | .Literal _ _, .Ident _ => isFalse (by intro e; cases e)
  | .Literal _ _, .UnaryExpr _ _ => isFalse (by intro e; cases e)
  | .Literal _ _, .BinaryExpr _ _ _ => isFalse (by intro e; cases e)
  | .Literal _ _, .CallExpr _ _ => isFalse (by intro e; cases e)
  | .Literal _ _, .ArrayLiteral _ _ => isFalse (by intro e; cases e)
  | .Literal _ _, .ByteArrayLiteral _ => isFalse (by intro e; cases e)
  | .Literal _ _, .MemberExpr _ _ => isFalse (by intro e; cases e)
  | .Literal _ _, .IndexExpr _ _ => isFalse (by intro e; cases e)
  | .Literal _ _, .PostfixExpr _ _ => isFalse (by intro e; cases e)
  | .Literal _ _, .StructLiteral _ _ => isFalse (by intro e; cases e)
  | .UnaryExpr _ _, .Ident _ => isFalse (by intro e; cases e)
  | .UnaryExpr _ _, .Literal _ _ => isFalse (by intro e; cases e)
  | .UnaryExpr _ _, .BinaryExpr _ _ _ => isFalse (by intro e; cases e)
  | .UnaryExpr _ _, .CallExpr _ _ => isFalse (by intro e; cases e)
  | .UnaryExpr _ _, .ArrayLiteral _ _ => isFalse (by intro e; cases e)
  | .UnaryExpr _ _, .ByteArrayLiteral _ => isFalse (by intro e; cases e)
  | .UnaryExpr _ _, .MemberExpr _ _ => isFalse (by intro e; cases e)
  | .UnaryExpr _ _, .IndexExpr _ _ => isFalse (by intro e; cases e)
  | .UnaryExpr _ _, .PostfixExpr _ _ => isFalse (by intro e; cases e)
  | .UnaryExpr _ _, .StructLiteral _ _ => isFalse (by intro e; cases e)
  | .BinaryExpr _ _ _, .Ident _ => isFalse (by intro e; cases e)
  | .BinaryExpr _ _ _, .Literal _ _ => isFalse (by intro e; cases e)
  | .BinaryExpr _ _ _, .UnaryExpr _ _ => isFalse (by intro e; cases e)
  | .BinaryExpr _ _ _, .CallExpr _ _ => isFalse (by intro e; cases e)
  | .BinaryExpr _ _ _, .ArrayLiteral _ _ => isFalse (by intro e; cases e)
  | .BinaryExpr _ _ _, .ByteArrayLiteral _ => isFalse (by intro e; cases e)
  | .BinaryExpr _ _ _, .MemberExpr _ _ => isFalse (by intro e; cases e)
  | .BinaryExpr _ _ _, .IndexExpr _ _ => isFalse (by intro e; cases e)
  | .BinaryExpr _ _ _, .PostfixExpr _ _ => isFalse (by intro e; cases e)
  | .BinaryExpr _ _ _, .StructLiteral _ _ => isFalse (by intro e; cases e)
  | .CallExpr _ _, .Ident _ => isFalse (by intro e; cases e)
  | .CallExpr _ _, .Literal _ _ => isFalse (by intro e; cases e)
  | .CallExpr _ _, .UnaryExpr _ _ => isFalse (by intro e; cases e)
  | .CallExpr _ _, .BinaryExpr _ _ _ => isFalse (by intro e; cases e)
  | .CallExpr _ _, .ArrayLiteral _ _ => isFalse (by intro e; cases e)
  | .CallExpr _ _, .ByteArrayLiteral _ => isFalse (by intro e; cases e)
  | .CallExpr _ _, .MemberExpr _ _ => isFalse (by intro e; cases e)
  | .CallExpr _ _, .IndexExpr _ _ => isFalse (by intro e; cases e)
  | .CallExpr _ _, .PostfixExpr _ _ => isFalse (by intro e; cases e)
  | .CallExpr _ _, .StructLiteral _ _ => isFalse (by intro e; cases e)
  | .ArrayLiteral _ _, .Ident _ => isFalse (by intro e; cases e)
  | .ArrayLiteral _ _, .Literal _ _ => isFalse (by intro e; cases e)
  | .ArrayLiteral _ _, .UnaryExpr _ _ => isFalse (by intro e; cases e)
  | .ArrayLiteral _ _, .BinaryExpr _ _ _ => isFalse (by intro e; cases e)
  | .ArrayLiteral _ _, .CallExpr _ _ => isFalse (by intro e; cases e)
  | .ArrayLiteral _ _, .ByteArrayLiteral _ => isFalse (by intro e; cases e)
  | .ArrayLiteral _ _, .MemberExpr _ _ => isFalse (by intro e; cases e)
  | .ArrayLiteral _ _, .IndexExpr _ _ => isFalse (by intro e; cases e)
  | .ArrayLiteral _ _, .PostfixExpr _ _ => isFalse (by intro e; cases e)
  | .ArrayLiteral _ _, .StructLiteral _ _ => isFalse (by intro e; cases e)
  | .ByteArrayLiteral _, .Ident _ => isFalse (by intro e; cases e)
  | .ByteArrayLiteral _, .Literal _ _ => isFalse (by intro e; cases e)
  | .ByteArrayLiteral _, .UnaryExpr _ _ => isFalse (by intro e; cases e)
  | .ByteArrayLiteral _, .BinaryExpr _ _ _ => isFalse (by intro e; cases e)
  | .ByteArrayLiteral _, .CallExpr _ _ => isFalse (by intro e; cases e)
  | .ByteArrayLiteral _, .ArrayLiteral _ _ => isFalse (by intro e; cases e)
  | .ByteArrayLiteral _, .MemberExpr _ _ => isFalse (by intro e; cases e)
  | .ByteArrayLiteral _, .IndexExpr _ _ => isFalse (by intro e; cases e)
  | .ByteArrayLiteral _, .PostfixExpr _ _ => isFalse (by intro e; cases e)
  | .ByteArrayLiteral _, .StructLiteral _ _ => isFalse (by intro e; cases e)
  | .MemberExpr _ _, .Ident _ => isFalse (by intro e; cases e)
  | .MemberExpr _ _, .Literal _ _ => isFalse (by intro e; cases e)
  | .MemberExpr _ _, .UnaryExpr _ _ => isFalse (by intro e; cases e)
  | .MemberExpr _ _, .BinaryExpr _ _ _ => isFalse (by intro e; cases e)
  | .MemberExpr _ _, .CallExpr _ _ => isFalse (by intro e; cases e)
  | .MemberExpr _ _, .ArrayLiteral _ _ => isFalse (by intro e; cases e)
  | .MemberExpr _ _, .ByteArrayLiteral _ => isFalse (by intro e; cases e)
  | .MemberExpr _ _, .IndexExpr _ _ => isFalse (by intro e; cases e)
  | .MemberExpr _ _, .PostfixExpr _ _ => isFalse (by intro e; cases e)
  | .MemberExpr _ _, .StructLiteral _ _ => isFalse (by intro e; cases e)
  | .IndexExpr _ _, .Ident _ => isFalse (by intro e; cases e)
  | .IndexExpr _ _, .Literal _ _ => isFalse (by intro e; cases e)
  | .IndexExpr _ _, .UnaryExpr _ _ => isFalse (by intro e; cases e)
  | .IndexExpr _ _, .BinaryExpr _ _ _ => isFalse (by intro e; cases e)
  | .IndexExpr _ _, .CallExpr _ _ => isFalse (by intro e; cases e)
  | .IndexExpr _ _, .ArrayLiteral _ _ => isFalse (by intro e; cases e)
  | .IndexExpr _ _, .ByteArrayLiteral _ => isFalse (by intro e; cases e)
  | .IndexExpr _ _, .MemberExpr _ _ => isFalse (by intro e; cases e)
  | .IndexExpr _ _, .PostfixExpr _ _ => isFalse (by intro e; cases e)
  | .IndexExpr _ _, .StructLiteral _ _ => isFalse (by intro e; cases e)
  | .PostfixExpr _ _, .Ident _ => isFalse (by intro e; cases e)
  | .PostfixExpr _ _, .Literal _ _ => isFalse (by intro e; cases e)
  | .PostfixExpr _ _, .UnaryExpr _ _ => isFalse (by intro e; cases e)
  | .PostfixExpr _ _, .BinaryExpr _ _ _ => isFalse (by intro e; cases e)
  | .PostfixExpr _ _, .CallExpr _ _ => isFalse (by intro e; cases e)
  | .PostfixExpr _ _, .ArrayLiteral _ _ => isFalse (by intro e; cases e)
  | .PostfixExpr _ _, .ByteArrayLiteral _ => isFalse (by intro e; cases e)
  | .PostfixExpr _ _, .MemberExpr _ _ => isFalse (by intro e; cases e)
  | .PostfixExpr _ _, .IndexExpr _ _ => isFalse (by intro e; cases e)
  | .PostfixExpr _ _, .StructLiteral _ _ => isFalse (by intro e; cases e)
  | .StructLiteral _ _, .Ident _ => isFalse (by intro e; cases e)
  | .StructLiteral _ _, .Literal _ _ => isFalse (by intro e; cases e)
  | .StructLiteral _ _, .UnaryExpr _ _ => isFalse (by intro e; cases e)
  | .StructLiteral _ _, .BinaryExpr _ _ _ => isFalse (by intro e; cases e)
  | .StructLiteral _ _, .CallExpr _ _ => isFalse (by intro e; cases e)
  | .StructLiteral _ _, .ArrayLiteral _ _ => isFalse (by intro e; cases e)
  | .StructLiteral _ _, .ByteArrayLiteral _ => isFalse (by intro e; cases e)
  | .StructLiteral _ _, .MemberExpr _ _ => isFalse (by intro e; cases e)
  | .StructLiteral _ _, .IndexExpr _ _ => isFalse (by intro e; cases e)
  | .StructLiteral _ _, .PostfixExpr _ _ => isFalse (by intro e; cases e)
termination_by structural a => a
/-- Decidable equality of expression lists. -/
def Expr.decEqList : (a b : List Expr) → Decidable (a = b)
  | [], [] => isTrue rfl
  | [], _ :: _ => isFalse (by intro e; cases e)
  | _ :: _, [] => isFalse (by intro e; cases e)
  | x :: xs, y :: ys =>
    match Expr.decEq x y with
    | isFalse h => isFalse (by intro e; cases e; exact h rfl)
    | isTrue h0 =>
    match Expr.decEqList xs ys with
    | isFalse h => isFalse (by intro e; cases e; exact h rfl)
    | isTrue h1 => isTrue (by cases h0; cases h1; rfl)
termination_by structural a => a
/-- Decidable equality of struct field initializers. -/
def Expr.decEqInits : (a b : List (Option String × Expr)) → Decidable (a = b)
  | [], [] => isTrue rfl
  | [], _ :: _ => isFalse (by intro e; cases e)
  | _ :: _, [] => isFalse (by intro e; cases e)
  | (n, x) :: xs, (m, y) :: ys =>
    match (inferInstance : Decidable (n = m)) with
    | isFalse h => isFalse (by intro e; cases e; exact h rfl)
    | isTrue hn =>
    match Expr.decEq x y with
    | isFalse h => isFalse (by intro e; cases e; exact h rfl)
    | isTrue h0 =>
    match Expr.decEqInits xs ys with
    | isFalse h => isFalse (by intro e; cases e; exact h rfl)
    | isTrue h1 => isTrue (by cases hn; cases h0; cases h1; rfl)
termination_by structural a => a
end

instance : DecidableEq Expr := Expr.decEq

/-- The statement nodes of `ast.h`.  A `BlockStmt` pointer held by another node is
its statement list; a null pointer is `none`. -/
inductive Stmt where
  | ExprStmt (expr : Expr)
  | ReturnStmt (expr : Option Expr)
  | VarDecl (name : String) (type : Option Ty) (init : Option Expr)
  | AssignStmt (target value : Expr)
  | BlockStmt (stmts : List Stmt)
  | IfStmt (cond : Expr) (then_blk : List Stmt) (else_blk : Option (List Stmt))
  | ForInStmt (var : String) (var_type : Option Ty) (iterable : Expr) (body : List Stmt)
  | ForStmt (body : List Stmt)
  | ForCStyleStmt (init : Option Stmt) (cond post : Option Expr) (body : List Stmt)
  | BreakStmt
  | ContinueStmt
  deriving Inhabited

mutual
/-- Decidable equality of statements. -/
def Stmt.decEq : (a b : Stmt) → Decidable (a = b)
  | .ExprStmt x0, .ExprStmt y0 =>
    match (inferInstance : Decidable (x0 = y0)) with
    | isFalse h => isFalse (by intro e; cases e; exact h rfl)
    | isTrue h0 =>
      isTrue (by cases h0; rfl)
  | .ReturnStmt x0, .ReturnStmt y0 =>
    match (inferInstance : Decidable (x0 = y0)) with
    | isFalse h => isFalse (by intro e; cases e; exact h rfl)
    | isTrue h0 =>
      isTrue (by cases h0; rfl)
  | .VarDecl x0 x1 x2, .VarDecl y0 y1 y2 =>
    match (inferInstance : Decidable (x0 = y0)) with
    | isFalse h => isFalse (by intro e; cases e; exact h rfl)
    | isTrue h0 =>
    match (inferInstance : Decidable (x1 = y1)) with
    | isFalse h => isFalse (by intro e; cases e; exact h rfl)
    | isTrue h1 =>
    match (inferInstance : Decidable (x2 = y2)) with
    | isFalse h => isFalse (by intro e; cases e; exact h rfl)
    | isTrue h2 =>
      isTrue (by cases h0; cases h1; cases h2; rfl)
  | .AssignStmt x0 x1, .AssignStmt y0 y1 =>
    match (inferInstance : Decidable (x0 = y0)) with
    | isFalse h => isFalse (by intro e; cases e; exact h rfl)
    | isTrue h0 =>
    match (inferInstance : Decidable (x1 = y1)) with
    | isFalse h => isFalse (by intro e; cases e; exact h rfl)
    | isTrue h1 =>
      isTrue (by cases h0; cases h1; rfl)
  | .BlockStmt x0, .BlockStmt y0 =>
    match Stmt.decEqList x0 y0 with
    | isFalse h => isFalse (by intro e; cases e; exact h rfl)
    | isTrue h0 =>
      isTrue (by cases h0; rfl)
  | .IfStmt x0 x1 x2, .IfStmt y0 y1 y2 =>
    match (inferInstance : Decidable (x0 = y0)) with
    | isFalse h => isFalse (by intro e; cases e; exact h rfl)
    | isTrue h0 =>
    match Stmt.decEqList x1 y1 with
    | isFalse h => isFalse (by intro e; cases e; exact h rfl)
    | isTrue h1 =>
    match Stmt.decEqOptList x2 y2 with
    | isFalse h => isFalse (by intro e; cases e; exact h rfl)
    | isTrue h2 =>
      isTrue (by cases h0; cases h1; cases h2; rfl)
  | .ForInStmt x0 x1 x2 x3, .ForInStmt y0 y1 y2 y3 =>
    match (inferInstance : Decidable (x0 = y0)) with
    | isFalse h => isFalse (by intro e; cases e; exact h rfl)
    | isTrue h0 =>
    match (inferInstance : Decidable (x1 = y1)) with
    | isFalse h => isFalse (by intro e; cases e; exact h rfl)
    | isTrue h1 =>
    match (inferInstance : Decidable (x2 = y2)) with
    | isFalse h => isFalse (by intro e; cases e; exact h rfl)
    | isTrue h2 =>
    match Stmt.decEqList x3 y3 with
    | isFalse h => isFalse (by intro e; cases e; exact h rfl)
    | isTrue h3 =>
      isTrue (by cases h0; cases h1; cases h2; cases h3; rfl)
  | .ForStmt x0, .ForStmt y0 =>
    match Stmt.decEqList x0 y0 with
    | isFalse h => isFalse (by intro e; cases e; exact h rfl)
    | isTrue h0 =>
      isTrue (by cases h0; rfl)
  | .ForCStyleStmt x0 x1 x2 x3, .ForCStyleStmt y0 y1 y2 y3 =>
    match Stmt.decEqOption x0 y0 with
    | isFalse h => isFalse (by intro e; cases e; exact h rfl)
    | isTrue h0 =>
    match (inferInstance : Decidable (x1 = y1)) with
    | isFalse h => isFalse (by intro e; cases e; exact h rfl)
    | isTrue h1 =>
    match (inferInstance : Decidable (x2 = y2)) with
    | isFalse h => isFalse (by intro e; cases e; exact h rfl)
    | isTrue h2 =>
    match Stmt.decEqList x3 y3 with
    | isFalse h => isFalse (by intro e; cases e; exact h rfl)
    | isTrue h3 =>
      isTrue (by cases h0; cases h1; cases h2; cases h3; rfl)
  | .BreakStmt, .BreakStmt => isTrue rfl
  | .ContinueStmt, .ContinueStmt => isTrue rfl
  | .ExprStmt _, .ReturnStmt _ => isFalse (by intro e; cases e)
  | .ExprStmt _, .VarDecl _ _ _ => isFalse (by intro e; cases e)
  | .ExprStmt _, .AssignStmt _ _ => isFalse (by intro e; cases e)
  | .ExprStmt _, .BlockStmt _ => isFalse (by intro e; cases e)
  | .ExprStmt _, .IfStmt _ _ _ => isFalse (by intro e; cases e)
  | .ExprStmt _, .ForInStmt _ _ _ _ => isFalse (by intro e; cases e)
  | .ExprStmt _, .ForStmt _ => isFalse (by intro e; cases e)
  | .ExprStmt _, .ForCStyleStmt _ _ _ _ => isFalse (by intro e; cases e)
  | .ExprStmt _, .BreakStmt => isFalse (by intro e; cases e)
  | .ExprStmt _, .ContinueStmt => isFalse (by intro e; cases e)
  | .ReturnStmt _, .ExprStmt _ => isFalse (by intro e; cases e)
  | .ReturnStmt _, .VarDecl _ _ _ => isFalse (by intro e; cases e)
  | .ReturnStmt _, .AssignStmt _ _ => isFalse (by intro e; cases e)
  | .ReturnStmt _, .BlockStmt _ => isFalse (by intro e; cases e)
  | .ReturnStmt _, .IfStmt _ _ _ => isFalse (by intro e; cases e)
  | .ReturnStmt _, .ForInStmt _ _ _ _ => isFalse (by intro e; cases e)
  | .ReturnStmt _, .ForStmt _ => isFalse (by intro e; cases e)
  | .ReturnStmt _, .ForCStyleStmt _ _ _ _ => isFalse (by intro e; cases e)
  | .ReturnStmt _, .BreakStmt => isFalse (by intro e; cases e)
  | .ReturnStmt _, .ContinueStmt => isFalse (by intro e; cases e)
  | .VarDecl _ _ _, .ExprStmt _ => isFalse (by intro e; cases e)
  | .VarDecl _ _ _, .ReturnStmt _ => isFalse (by intro e; cases e)
  | .VarDecl _ _ _, .AssignStmt _ _ => isFalse (by intro e; cases e)
  | .VarDecl _ _ _, .BlockStmt _ => isFalse (by intro e; cases e)
  | .VarDecl _ _ _, .IfStmt _ _ _ => isFalse (by intro e; cases e)
  | .VarDecl _ _ _, .ForInStmt _ _ _ _ => isFalse (by intro e; cases e)
  | .VarDecl _ _ _, .ForStmt _ => isFalse (by intro e; cases e)
  | .VarDecl _ _ _, .ForCStyleStmt _ _ _ _ => isFalse (by intro e; cases e)
  | .VarDecl _ _ _, .BreakStmt => isFalse (by intro e; cases e)
  | .VarDecl _ _ _, .ContinueStmt => isFalse (by intro e; cases e)
  | .AssignStmt _ _, .ExprStmt _ => isFalse (by intro e; cases e)
  | .AssignStmt _ _, .ReturnStmt _ => isFalse (by intro e; cases e)
  | .AssignStmt _ _, .VarDecl _ _ _ => isFalse (by intro e; cases e)
  | .AssignStmt _ _, .BlockStmt _ => isFalse (by intro e; cases e)
  | .AssignStmt _ _, .IfStmt _ _ _ => isFalse (by intro e; cases e)
  | .AssignStmt _ _, .ForInStmt _ _ _ _ => isFalse (by intro e; cases e)
  | .AssignStmt _ _, .ForStmt _ => isFalse (by intro e; cases e)
  | .AssignStmt _ _, .ForCStyleStmt _ _ _ _ => isFalse (by intro e; cases e)
  | .AssignStmt _ _, .BreakStmt => isFalse (by intro e; cases e)
  | .AssignStmt _ _, .ContinueStmt => isFalse (by intro e; cases e)
  | .BlockStmt _, .ExprStmt _ => isFalse (by intro e; cases e)
  | .BlockStmt _, .ReturnStmt _ => isFalse (by intro e; cases e)
  | .BlockStmt _, .VarDecl _ _ _ => isFalse (by intro e; cases e)
  | .BlockStmt _, .AssignStmt _ _ => isFalse (by intro e; cases e)
  | .BlockStmt _, .IfStmt _ _ _ => isFalse (by intro e; cases e)
  | .BlockStmt _, .ForInStmt _ _ _ _ => isFalse (by intro e; cases e)
  | .BlockStmt _, .ForStmt _ => isFalse (by intro e; cases e)
  | .BlockStmt _, .ForCStyleStmt _ _ _ _ => isFalse (by intro e; cases e)
  | .BlockStmt _, .BreakStmt => isFalse (by intro e; cases e)
  | .BlockStmt _, .ContinueStmt => isFalse (by intro e; cases e)
  | .IfStmt _ _ _, .ExprStmt _ => isFalse (by intro e; cases e)
  | .IfStmt _ _ _, .ReturnStmt _ => isFalse (by intro e; cases e)
  | .IfStmt _ _ _, .VarDecl _ _ _ => isFalse (by intro e; cases e)
  | .IfStmt _ _ _, .AssignStmt _ _ => isFalse (by intro e; cases e)
  | .IfStmt _ _ _, .BlockStmt _ => isFalse (by intro e; cases e)
  | .IfStmt _ _ _, .ForInStmt _ _ _ _ => isFalse (by intro e; cases e)
  | .IfStmt _ _ _, .ForStmt _ => isFalse (by intro e; cases e)
  | .IfStmt _ _ _, .ForCStyleStmt _ _ _ _ => isFalse (by intro e; cases e)
  | .IfStmt _ _ _, .BreakStmt => isFalse (by intro e; cases e)
  | .IfStmt _ _ _, .ContinueStmt => isFalse (by intro e; cases e)
  | .ForInStmt _ _ _ _, .ExprStmt _ => isFalse (by intro e; cases e)
  | .ForInStmt _ _ _ _, .ReturnStmt _ => isFalse (by intro e; cases e)
  | .ForInStmt _ _ _ _, .VarDecl _ _ _ => isFalse (by intro e; cases e)
  | .ForInStmt _ _ _ _, .AssignStmt _ _ => isFalse (by intro e; cases e)
  | .ForInStmt _ _ _ _, .BlockStmt _ => isFalse (by intro e; cases e)
  | .ForInStmt _ _ _ _, .IfStmt _ _ _ => isFalse (by intro e; cases e)
  | .ForInStmt _ _ _ _, .ForStmt _ => isFalse (by intro e; cases e)
  | .ForInStmt _ _ _ _, .ForCStyleStmt _ _ _ _ => isFalse (by intro e; cases e)
  | .ForInStmt _ _ _ _, .BreakStmt => isFalse (by intro e; cases e)
  | .ForInStmt _ _ _ _, .ContinueStmt => isFalse (by intro e; cases e)
  | .ForStmt _, .ExprStmt _ => isFalse (by intro e; cases e)
  | .ForStmt _, .ReturnStmt _ => isFalse (by intro e; cases e)
  | .ForStmt _, .VarDecl _ _ _ => isFalse (by intro e; cases e)
  | .ForStmt _, .AssignStmt _ _ => isFalse (by intro e; cases e)
  | .ForStmt _, .BlockStmt _ => isFalse (by intro e; cases e)
  | .ForStmt _, .IfStmt _ _ _ => isFalse (by intro e; cases e)
  | .ForStmt _, .ForInStmt _ _ _ _ => isFalse (by intro e; cases e)
  | .ForStmt _, .ForCStyleStmt _ _ _ _ => isFalse (by intro e; cases e)
  | .ForStmt _, .BreakStmt => isFalse (by intro e; cases e)
  | .ForStmt _, .ContinueStmt => isFalse (by intro e; cases e)
  | .ForCStyleStmt _ _ _ _, .ExprStmt _ => isFalse (by intro e; cases e)
  | .ForCStyleStmt _ _ _ _, .ReturnStmt _ => isFalse (by intro e; cases e)
  | .ForCStyleStmt _ _ _ _, .VarDecl _ _ _ => isFalse (by intro e; cases e)
  | .ForCStyleStmt _ _ _ _, .AssignStmt _ _ => isFalse (by intro e; cases e)
  | .ForCStyleStmt _ _ _ _, .BlockStmt _ => isFalse (by intro e; cases e)
  | .ForCStyleStmt _ _ _ _, .IfStmt _ _ _ => isFalse (by intro e; cases e)
  | .ForCStyleStmt _ _ _ _, .ForInStmt _ _ _ _ => isFalse (by intro e; cases e)
  | .ForCStyleStmt _ _ _ _, .ForStmt _ => isFalse (by intro e; cases e)
  | .ForCStyleStmt _ _ _ _, .BreakStmt => isFalse (by intro e; cases e)
  | .ForCStyleStmt _ _ _ _, .ContinueStmt => isFalse (by intro e; cases e)
  | .BreakStmt, .ExprStmt _ => isFalse (by intro e; cases e)
  | .BreakStmt, .ReturnStmt _ => isFalse (by intro e; cases e)
  | .BreakStmt, .VarDecl _ _ _ => isFalse (by intro e; cases e)
  | .BreakStmt, .AssignStmt _ _ => isFalse (by intro e; cases e)
  | .BreakStmt, .BlockStmt _ => isFalse (by intro e; cases e)
  | .BreakStmt, .IfStmt _ _ _ => isFalse (by intro e; cases e)
  | .BreakStmt, .ForInStmt _ _ _ _ => isFalse (by intro e; cases e)
  | .BreakStmt, .ForStmt _ => isFalse (by intro e; cases e)
  | .BreakStmt, .ForCStyleStmt _ _ _ _ => isFalse (by intro e; cases e)
  | .BreakStmt, .ContinueStmt => isFalse (by intro e; cases e)
  | .ContinueStmt, .ExprStmt _ => isFalse (by intro e; cases e)
  | .ContinueStmt, .ReturnStmt _ => isFalse (by intro e; cases e)
  | .ContinueStmt, .VarDecl _ _ _ => isFalse (by intro e; cases e)
  | .ContinueStmt, .AssignStmt _ _ => isFalse (by intro e; cases e)
  | .ContinueStmt, .BlockStmt _ => isFalse (by intro e; cases e)
  | .ContinueStmt, .IfStmt _ _ _ => isFalse (by intro e; cases e)
  | .ContinueStmt, .ForInStmt _ _ _ _ => isFalse (by intro e; cases e)
  | .ContinueStmt, .ForStmt _ => isFalse (by intro e; cases e)
  | .ContinueStmt, .ForCStyleStmt _ _ _ _ => isFalse (by intro e; cases e)
  | .ContinueStmt, .BreakStmt => isFalse (by intro e; cases e)
termination_by structural a => a
/-- Decidable equality of statement lists. -/
def Stmt.decEqList : (a b : List Stmt) → Decidable (a = b)
  | [], [] => isTrue rfl
  | [], _ :: _ => isFalse (by intro e; cases e)
  | _ :: _, [] => isFalse (by intro e; cases e)
  | x :: xs, y :: ys =>
    match Stmt.decEq x y with
    | isFalse h => isFalse (by intro e; cases e; exact h rfl)
    | isTrue h0 =>
    match Stmt.decEqList xs ys with
    | isFalse h => isFalse (by intro e; cases e; exact h rfl)
    | isTrue h1 => isTrue (by cases h0; cases h1; rfl)
termination_by structural a => a
/-- Decidable equality of optional statements. -/
def Stmt.decEqOption : (a b : Option Stmt) → Decidable (a = b)
  | none, none => isTrue rfl
  | none, some _ => isFalse (by intro e; cases e)
  | some _, none => isFalse (by intro e; cases e)
  | some x, some y =>
    match Stmt.decEq x y with
    | isFalse h => isFalse (by intro e; cases e; exact h rfl)
    | isTrue h0 => isTrue (by cases h0; rfl)
termination_by structural a => a
/-- Decidable equality of optional blocks. -/
def Stmt.decEqOptList : (a b : Option (List Stmt)) → Decidable (a = b)
  | none, none => isTrue rfl
  | none, some _ => isFalse (by intro e; cases e)
  | some _, none => isFalse (by intro e; cases e)
  | some x, some y =>
    match Stmt.decEqList x y with
    | isFalse h => isFalse (by intro e; cases e; exact h rfl)
    | isTrue h0 => isTrue (by cases h0; rfl)
termination_by structural a => a
end

instance : DecidableEq Stmt := Stmt.decEq

mutual
/-- `StructDecl` of `ast.h` (`nested_decls` is never filled by the parser). -/
inductive StructDecl where
  | mk (name : String) (fields : List StructField) (is_pub : Bool)
/-- `StructField` of `ast.h`; `type` and `inline_struct` are nullable pointers. -/
inductive StructField where
  | mk (name : String) (type : Option Ty) (inline_struct : Option StructDecl) (is_pub : Bool)
end

mutual
/-- Decidable equality of struct declarations. -/
def StructDecl.decEq : (a b : StructDecl) → Decidable (a = b)
  | .mk x0 x1 x2, .mk y0 y1 y2 =>
    match (inferInstance : Decidable (x0 = y0)) with
    | isFalse h => isFalse (by intro e; cases e; exact h rfl)
    | isTrue h0 =>
    match StructField.decEqList x1 y1 with
    | isFalse h => isFalse (by intro e; cases e; exact h rfl)
    | isTrue h1 =>
    match (inferInstance : Decidable (x2 = y2)) with
    | isFalse h => isFalse (by intro e; cases e; exact h rfl)
    | isTrue h2 =>
      isTrue (by cases h0; cases h1; cases h2; rfl)
termination_by structural a => a
/-- Decidable equality of struct fields. -/
def StructField.decEq : (a b : StructField) → Decidable (a = b)
  | .mk x0 x1 x2 x3, .mk y0 y1 y2 y3 =>
    match (inferInstance : Decidable (x0 = y0)) with
    | isFalse h => isFalse (by intro e; cases e; exact h rfl)
    | isTrue h0 =>
    match (inferInstance : Decidable (x1 = y1)) with
    | isFalse h => isFalse (by intro e; cases e; exact h rfl)
    | isTrue h1 =>
    match StructDecl.decEqOption x2 y2 with
    | isFalse h => isFalse (by intro e; cases e; exact h rfl)
    | isTrue h2 =>
    match (inferInstance : Decidable (x3 = y3)) with
    | isFalse h => isFalse (by intro e; cases e; exact h rfl)
    | isTrue h3 =>
      isTrue (by cases h0; cases h1; cases h2; cases h3; rfl)
termination_by structural a => a
/-- Decidable equality of field lists. -/
def StructField.decEqList : (a b : List StructField) → Decidable (a = b)
  | [], [] => isTrue rfl
  | [], _ :: _ => isFalse (by intro e; cases e)
  | _ :: _, [] => isFalse (by intro e; cases e)
  | x :: xs, y :: ys =>
    match StructField.decEq x y with
    | isFalse h => isFalse (by intro e; cases e; exact h rfl)
    | isTrue h0 =>
    match StructField.decEqList xs ys with
    | isFalse h => isFalse (by intro e; cases e; exact h rfl)
    | isTrue h1 => isTrue (by cases h0; cases h1; rfl)
termination_by structural a => a
/-- Decidable equality of optional inline structs. -/
def StructDecl.decEqOption : (a b : Option StructDecl) → Decidable (a = b)
  | none, none => isTrue rfl
  | none, some _ => isFalse (by intro e; cases e)
  | some _, none => isFalse (by intro e; cases e)
  | some x, some y =>
    match StructDecl.decEq x y with
    | isFalse h => isFalse (by intro e; cases e; exact h rfl)
    | isTrue h0 => isTrue (by cases h0; rfl)
termination_by structural a => a
end

instance : DecidableEq StructDecl := StructDecl.decEq
instance : DecidableEq StructField := StructField.decEq

/-- The fields of a struct declaration. -/
def StructDecl.fields : StructDecl → List StructField
  | StructDecl.mk _ fs _ => fs

/-- The name of a struct declaration. -/
def StructDecl.name : StructDecl → String
  | StructDecl.mk n _ _ => n

/-- `Param` of `ast.h`. -/
structure Param where
  name : String
  type : Ty
  variadic : Bool := false
  deriving DecidableEq, Inhabited

/-- The declaration nodes of `ast.h` (`ModuleDecl` is an alias of `PackageDecl`). -/
inductive Decl where
  | PackageDecl (name : String)
  | ImportDecl (path : String) (path_parts : List String) (alias_ : Option String)
  | StructDecl (decl : StructDecl)
  | FuncDecl (name : String) (receiver_name : Option String) (params : List Param)
      (ret_type : Option Ty) (is_pub : Bool) (body : List Stmt)
  | StmtDecl (stmt : Stmt)
  deriving DecidableEq

/-- `Program` of `ast.h`. -/
structure Program where
  decls : List Decl := []
  deriving DecidableEq

end ast

/-- `decode_string_literal_content`, the hexadecimal digit loop of the `\x` escape:
the index after the digits and `val`. -/
def decode_hex_loop (lexeme : List Char) (end_ : Nat) : Nat → Nat → Nat → Nat → Nat × Nat
  | 0, i, _, val => (i, val)
  | fuel + 1, i, digits, val =>
    if i < end_ ∧ digits < 2 ∧ lex.isxdigit (lexeme.getD i lex.NUL) = true then
      let hx := lexeme.getD i lex.NUL
      let v := val * 16
      let v :=
        if '0' ≤ hx ∧ hx ≤ '9' then v + (hx.toNat - '0'.toNat)
        else if 'a' ≤ hx ∧ hx ≤ 'f' then v + (10 + (hx.toNat - 'a'.toNat))
        else if 'A' ≤ hx ∧ hx ≤ 'F' then v + (10 + (hx.toNat - 'A'.toNat))
        else v
      decode_hex_loop lexeme end_ fuel (i + 1) (digits + 1) v
    else (i, val)

/-- `decode_string_literal_content`, the main loop for a double-quoted literal. -/
def decode_loop (lexeme : List Char) (end_ : Nat) : Nat → Nat → List Char → List Char
  | 0, _, out => out
  | fuel + 1, i, out =>
    if i < end_ then
      let c := lexeme.getD i lex.NUL
      if c = '\\' ∧ i + 1 < end_ then
        let esc := lexeme.getD (i + 1) lex.NUL
        if esc = 'n' then decode_loop lexeme end_ fuel (i + 2) (out ++ ['\n'])
        else if esc = 'r' then decode_loop lexeme end_ fuel (i + 2) (out ++ ['\r'])
        else if esc = 't' then decode_loop lexeme end_ fuel (i + 2) (out ++ ['\t'])
        else if esc = '\\' then decode_loop lexeme end_ fuel (i + 2) (out ++ ['\\'])
        else if esc = '"' then decode_loop lexeme end_ fuel (i + 2) (out ++ ['"'])
        else if esc = '\'' then decode_loop lexeme end_ fuel (i + 2) (out ++ ['\''])
        else if esc = 'x' then
          let r := decode_hex_loop lexeme end_ 2 (i + 2) 0 0
          decode_loop lexeme end_ fuel r.1 (out ++ [Char.ofNat (r.2 % 256)])
        else decode_loop lexeme end_ fuel (i + 2) (out ++ [esc])
      else decode_loop lexeme end_ fuel (i + 1) (out ++ [c])
    else out

/-- `decode_string_literal_content` of `parser.cpp`. -/
def decode_string_literal_content (lexeme : String) : List Char :=
  let l := lexeme.toList
  if l.length < 2 then []
  else if l.head? = some '`' then (l.drop 1).take (l.length - 2)
  else decode_loop l (l.length - 1) l.length 1 []

namespace path

open lex (Token TokenType Position Diag Lexer)
open ast

/-- The data members of `Parser`; `lex_diags` is what the lexer has sent to its sink
and `diags` what the parser has sent to its own. -/
structure Parser where
  lexer : Lexer
  cur : Token
  prev : Token := {}
  lex_diags : List Diag := []
  diags : List Diag := []
  deriving DecidableEq, Inhabited

/-- The constructor `Parser(lx, error_cb)`. -/
def Parser.new (lx : Lexer) : Parser :=
  let r := lex.next_token lx
  { lexer := r.2.1, cur := r.1, lex_diags := r.2.2 }

/-- `Parser::advance`. -/
def advance (P : Parser) : Parser :=
  let r := lex.next_token P.lexer
  { P with prev := P.cur, cur := r.1, lexer := r.2.1, lex_diags := P.lex_diags ++ r.2.2 }

/-- `Parser::check`. -/
def check (P : Parser) (t : TokenType) : Bool := decide (P.cur.type = t)

/-- `Parser::match`: the parser after the call (the result is `check P t`). -/
def match_ (P : Parser) (t : TokenType) : Parser :=
  if check P t then advance P else P

/-- `Parser::emit_error`. -/
def emit_error (P : Parser) (at_ : Token) (msg : String) : Parser :=
  { P with diags := P.diags ++ [{ line := at_.start.line, column := at_.start.column, msg := msg }] }

/-- `Parser::expect`. -/
def expect (P : Parser) (t : TokenType) (msg : String) : Token × Parser :=
  if check P t then (P.cur, advance P)
  else ({ type := t, lexeme := "", start := P.cur.start, end_ := P.cur.end_ }, emit_error P P.cur msg)

/-- `Parser::is_at_end`. -/
def is_at_end (P : Parser) : Bool := decide (P.cur.type = TokenType.EOF_TOKEN)

/-- The call `lexer.peek(k)` made by the parser. -/
def lexer_peek (P : Parser) (k : Int) : Token × Parser :=
  let r := lex.peek P.lexer k
  (r.1, { P with lexer := r.2.1, lex_diags := P.lex_diags ++ r.2.2 })

/-- `Parser::peek_next`. -/
def peek_next (P : Parser) : Token × Parser := lexer_peek P 1

/-- `Parser::skip_newlines`. -/
def skip_newlines : Nat → Parser → Option Parser
  | 0, _ => none
  | fuel + 1, P => if check P TokenType.NEWLINE then skip_newlines fuel (advance P) else some P

/-- The loop `while (check(DEREF) || check(ADDRESS_OF))` that collects `ptr_prefix`. -/
def ptr_prefix_loop : Nat → Parser → List Char → Option (List Char × Parser)
  | 0, _, _ => none
  | fuel + 1, P, pre =>
    if check P TokenType.DEREF || check P TokenType.ADDRESS_OF then
      if check P TokenType.DEREF then ptr_prefix_loop fuel (advance P) (pre ++ ['*'])
      else ptr_prefix_loop fuel (advance P) (pre ++ ['&'])
    else some (pre, P)

/-- The loop `for (char c : ptr_prefix) base = PointerType(base)`. -/
def wrap_pointers ( ptr_prefix : List Char) (base : Ty) : Ty :=
  ptr_prefix.foldl (fun b _ => Ty.PointerType b) base

/-- The base type name after the prefixes of a type: `byte` (keyword or identifier)
when `byte_base` is set, else an identifier. -/
def parse_base_type (byte_base : Bool) (msg : String) (P : Parser) : Ty × Parser :=
  if byte_base && (check P TokenType.KW_BYTE ||
      (check P TokenType.IDENT && decide (P.cur.lexeme = "byte"))) then
    (Ty.NamedType "byte", advance P)
  else
    let r := expect P TokenType.IDENT msg
    (Ty.NamedType r.1.lexeme, r.2)

/-- The common body of `Parser::parse_type` and of the two lambdas `parse_type_local`:
they differ in the message for a missing `]` and in whether `byte` is a base type. -/
def parse_type_with (byte_base : Bool) (rbrack_msg : String) (fuel : Nat) (P : Parser) :
    Option (Ty × Parser) :=
  match ptr_prefix_loop fuel P [] with
  | none => none
  | some ( ptr_prefix, P1) =>
    if check P1 TokenType.LBRACK then
      let P2 := (expect (advance P1) TokenType.RBRACK rbrack_msg).2
      let r := parse_base_type byte_base "expected element type after '[]'" P2
      some (wrap_pointers ptr_prefix (Ty.ArrayType r.1 true 0), r.2)
    else
      let r := parse_base_type byte_base "expected type name" P1
      some (wrap_pointers ptr_prefix r.1, r.2)

/-- `Parser::parse_type`. -/
def parse_type (fuel : Nat) (P : Parser) : Option (Ty × Parser) :=
  parse_type_with true "expected ']' after '[' in array type" fuel P

/-- The lambda `parse_type_local` of `Parser::parse_stmt`. -/
def parse_type_local_stmt (fuel : Nat) (P : Parser) : Option (Ty × Parser) :=
  parse_type_with true "expected ']' in array type" fuel P

/-- The lambda `parse_type_local` of `Parser::parse_struct_decl`. -/
def parse_type_local_struct (fuel : Nat) (P : Parser) : Option (Ty × Parser) :=
  parse_type_with false "expected ']' in array type" fuel P

/-- The loop `while (match(DOT))` of a dotted name: `full` and the parts. -/
def dotted_loop (msg : String) :
    Nat → Parser → String → List String → Option (String × List String × Parser)
  | 0, _, _, _ => none
  | fuel + 1, P, full, parts =>
    if check P TokenType.DOT then
      let r := expect (advance P) TokenType.IDENT msg
      dotted_loop msg fuel r.2 (full ++ "." ++ r.1.lexeme) (parts ++ [r.1.lexeme])
    else some (full, parts, P)

/-- `Parser::parse_module_decl`. -/
def parse_module_decl (fuel : Nat) (P : Parser) : Option (Option Decl × Parser) :=
  if check P TokenType.KW_MODULE || check P TokenType.KW_PACKAGE then
    let r := expect (advance P) TokenType.IDENT "expected module/package name"
    match dotted_loop "expected identifier in module/package name" fuel r.2 r.1.lexeme [] with
    | none => none
    | some (full, _, P1) => some (some (Decl.PackageDecl full), match_ P1 TokenType.NEWLINE)
  else some (none, emit_error P P.cur "expected 'module' or 'package'")

/-- `Parser::parse_import_decl`. -/
def parse_import_decl (fuel : Nat) (P : Parser) : Option (Option Decl × Parser) :=
  let P0 := (expect P TokenType.KW_IMPORT "expected 'import'").2
  let first := expect P0 TokenType.IDENT "expected import path"
  match dotted_loop "expected identifier in import path" fuel first.2 first.1.lexeme
      [first.1.lexeme] with
  | none => none
  | some (full, parts, P1) =>
    if check P1 TokenType.KW_AS then
      let aliasTk := expect (advance P1) TokenType.IDENT "expected alias after 'as'"
      some (some (Decl.ImportDecl full parts (some aliasTk.1.lexeme)),
        match_ aliasTk.2 TokenType.NEWLINE)
    else some (some (Decl.ImportDecl full parts none), match_ P1 TokenType.NEWLINE)

/-- The `dynamic_cast<Ident *>` of `Parser::parse_stmt`. -/
def as_ident : Expr → Option String
  | Expr.Ident name => some name
  | _ => none

/-- The `ByteArrayLiteral(const std::vector<uint8_t> &)` constructor applied to the
decoded bytes of a string literal: one `INT` literal per byte. -/
def byte_array_of_string (lexeme : String) : Expr :=
  Expr.ByteArrayLiteral
    ((decode_string_literal_content lexeme).map
      (fun ch => Expr.Literal (toString (ch.toNat % 256)) TokenType.INT))

mutual

/-- `Parser::parse_block`. -/
def parse_block : Nat → Parser → Option (List Stmt × Parser)
  | 0, _ => none
  | fuel + 1, P => do
    let P1 := (expect P TokenType.LBRACE "expected '\x7b' to start block").2
    let P2 ← skip_newlines fuel P1
    let (stmts, P3) ← parse_block_loop fuel P2 []
    some (stmts, (expect P3 TokenType.RBRACE "expected '\x7d' to end block").2)

/-- The `while (!check(RBRACE) && !is_at_end())` loop of `Parser::parse_block`. -/
def parse_block_loop : Nat → Parser → List Stmt → Option (List Stmt × Parser)
  | 0, _, _ => none
  | fuel + 1, P, stmts =>
    if !check P TokenType.RBRACE && !is_at_end P then do
      let (s, P1) ← parse_stmt fuel P
      let P2 ← skip_newlines fuel P1
      parse_block_loop fuel P2 (stmts ++ s.toList)
    else some (stmts, P)

/-- `Parser::parse_stmt`; the statement is `none` for `nullptr`. -/
def parse_stmt : Nat → Parser → Option (Option Stmt × Parser)
  | 0, _ => none
  | fuel + 1, P0 => do
    let P ← skip_newlines fuel P0
    if check P TokenType.KW_BREAK then
      some (some Stmt.BreakStmt, match_ (advance P) TokenType.NEWLINE)
    else if check P TokenType.KW_CONTINUE then
      some (some Stmt.ContinueStmt, match_ (advance P) TokenType.NEWLINE)
    else if check P TokenType.KW_RETURN then do
      let (expr, P1) ← parse_expression fuel (advance P)
      some (some (Stmt.ReturnStmt (some expr)), match_ P1 TokenType.NEWLINE)
    else if check P TokenType.KW_IF then do
      let (cond, P1) ← parse_expression fuel (advance P)
      let (then_blk, P2) ← parse_block fuel P1
      if check P2 TokenType.KW_ELSE then
        let P3 := advance P2
        if check P3 TokenType.LBRACE then do
          let (else_blk, P4) ← parse_block fuel P3
          some (some (Stmt.IfStmt cond then_blk (some else_blk)), P4)
        else if check P3 TokenType.KW_IF then do
          let (nested_if, P4) ← parse_stmt fuel P3
          some (some (Stmt.IfStmt cond then_blk (some nested_if.toList)), P4)
        else some (some (Stmt.IfStmt cond then_blk none), P3)
      else some (some (Stmt.IfStmt cond then_blk none), P2)
    else if check P TokenType.KW_FOR then parse_stmt_for fuel (advance P)
    else if check P TokenType.LBRACE then do
      let (blk, P1) ← parse_block fuel P
      some (some (Stmt.BlockStmt blk), P1)
    else do
      let (lhs, P1) ← parse_expression fuel P
      if (as_ident lhs).isSome && check P1 TokenType.COLON then do
        let (annotated_type, P2) ← parse_type_local_stmt fuel (advance P1)
        if check P2 TokenType.ASSIGN &&
            (decide (P2.cur.lexeme = ":=") || decide (P2.cur.lexeme = "=")) then do
          let (rhs, P3) ← parse_expression fuel (advance P2)
          some (some (Stmt.VarDecl ((as_ident lhs).getD "") (some annotated_type) (some rhs)),
            match_ P3 TokenType.NEWLINE)
        else
          some (none, emit_error P2 P2.cur
            "expected ':=' or '=' after type annotation in variable declaration")
      else if check P1 TokenType.ASSIGN then do
        let assignTk := P1.cur
        let (rhs, P2) ← parse_expression fuel (advance P1)
        let P3 := match_ P2 TokenType.NEWLINE
        if assignTk.lexeme = ":=" then
          match as_ident lhs with
          | some name => some (some (Stmt.VarDecl name none (some rhs)), P3)
          | none =>
            some (none, emit_error P3 assignTk
              "':=' can only be used with an identifier on the left-hand side")
        else some (some (Stmt.AssignStmt lhs rhs), P3)
      else some (some (Stmt.ExprStmt lhs), match_ P1 TokenType.NEWLINE)

/-- The `KW_FOR` branch of `Parser::parse_stmt`, entered after the `advance()` over
`for`. -/
def parse_stmt_for : Nat → Parser → Option (Option Stmt × Parser)
  | 0, _ => none
  | fuel + 1, P =>
    if check P TokenType.LPAREN then do
      let P1 := advance P
      let (initStmt, P2) ←
        (if !check P1 TokenType.SEMICOLON then
          if check P1 TokenType.IDENT &&
              decide ((lexer_peek P1 1).1.type = TokenType.COLON) then do
            let id := P1.cur
            let (annotated_type, P2) ← parse_type fuel (advance (advance (lexer_peek P1 1).2))
            if check P2 TokenType.ASSIGN &&
                (decide (P2.cur.lexeme = ":=") || decide (P2.cur.lexeme = "=")) then do
              let (rhs, P3) ← parse_expression fuel (advance P2)
              some (some (Stmt.VarDecl id.lexeme (some annotated_type) (some rhs)), P3)
            else
              some (some (Stmt.VarDecl id.lexeme (some annotated_type)
                  (some (Expr.Literal "" TokenType.ILLEGAL))),
                emit_error P2 P2.cur "expected ':=' or '=' after type annotation in for-init")
          else
            -- the second condition re-evaluates `check(IDENT)` and peeks again
            let Pa := if check P1 TokenType.IDENT then (lexer_peek P1 1).2 else P1
            let isAssign := check Pa TokenType.IDENT &&
              decide ((lexer_peek Pa 1).1.type = TokenType.ASSIGN)
            let Pb := if check Pa TokenType.IDENT then (lexer_peek Pa 1).2 else Pa
            let Pc := if isAssign then (lexer_peek Pb 1).2 else Pb
            if isAssign && decide ((lexer_peek Pb 1).1.lexeme = ":=") then do
              let id := Pc.cur
              let (rhs, P3) ← parse_expression fuel (advance (advance Pc))
              some (some (Stmt.VarDecl id.lexeme none (some rhs)), P3)
            else do
              let (e, P3) ← parse_expression fuel Pc
              some (some (Stmt.ExprStmt e), P3)
        else some (none, P1) : Option (Option Stmt × Parser))
      let P3 := (expect P2 TokenType.SEMICOLON "expected ';' after for-init").2
      let (condExpr, P4) ←
        (if !check P3 TokenType.SEMICOLON then do
          let (e, P4) ← parse_expression fuel P3
          some (some e, P4)
        else some (none, P3) : Option (Option Expr × Parser))
      let P5 := (expect P4 TokenType.SEMICOLON "expected ';' after for-cond").2
      let (postExpr, P6) ←
        (if !check P5 TokenType.RPAREN then do
          let (e, P6) ← parse_expression fuel P5
          some (some e, P6)
        else some (none, P5) : Option (Option Expr × Parser))
      let P7 := (expect P6 TokenType.RPAREN "expected ')' after for clauses").2
      let (body, P8) ← parse_block fuel P7
      some (some (Stmt.ForCStyleStmt initStmt condExpr postExpr body), P8)
    else if check P TokenType.IDENT then do
      let id := P.cur
      let P1 := (expect (advance P) TokenType.KW_IN "expected 'in' in for loop").2
      let (iterable, P2) ← parse_expression fuel P1
      let (body, P3) ← parse_block fuel P2
      some (some (Stmt.ForInStmt id.lexeme none iterable body), P3)
    else do
      let (body, P1) ← parse_block fuel P
      some (some (Stmt.ForStmt body), P1)

/-- `Parser::parse_expression`. -/
def parse_expression : Nat → Parser → Option (Expr × Parser)
  | 0, _ => none
  | fuel + 1, P => parse_logical_or fuel P

/-- `Parser::parse_logical_or`. -/
def parse_logical_or : Nat → Parser → Option (Expr × Parser)
  | 0, _ => none
  | fuel + 1, P => do
    let (left, P1) ← parse_logical_and fuel P
    parse_logical_or_loop fuel left P1

/-- The `while` loop of `Parser::parse_logical_or`. -/
def parse_logical_or_loop : Nat → Expr → Parser → Option (Expr × Parser)
  | 0, _, _ => none
  | fuel + 1, left, P =>
    if check P TokenType.OR then do
      let op := P.cur
      let (right, P1) ← parse_logical_and fuel (advance P)
      parse_logical_or_loop fuel (Expr.BinaryExpr op.lexeme left right) P1
    else some (left, P)

/-- `Parser::parse_logical_and`. -/
def parse_logical_and : Nat → Parser → Option (Expr × Parser)
  | 0, _ => none
  | fuel + 1, P => do
    let (left, P1) ← parse_bitwise_and fuel P
    parse_logical_and_loop fuel left P1

/-- The `while` loop of `Parser::parse_logical_and`. -/
def parse_logical_and_loop : Nat → Expr → Parser → Option (Expr × Parser)
  | 0, _, _ => none
  | fuel + 1, left, P =>
    if check P TokenType.AND then do
      let op := P.cur
      let (right, P1) ← parse_bitwise_and fuel (advance P)
      parse_logical_and_loop fuel (Expr.BinaryExpr op.lexeme left right) P1
    else some (left, P)

/-- `Parser::parse_bitwise_and`. -/
def parse_bitwise_and : Nat → Parser → Option (Expr × Parser)
  | 0, _ => none
  | fuel + 1, P => do
    let (left, P1) ← parse_equality fuel P
    parse_bitwise_and_loop fuel left P1

/-- The `while` loop of `Parser::parse_bitwise_and`. -/
def parse_bitwise_and_loop : Nat → Expr → Parser → Option (Expr × Parser)
  | 0, _, _ => none
  | fuel + 1, left, P =>
    if check P TokenType.ADDRESS_OF then do
      let op := P.cur
      let (right, P1) ← parse_equality fuel (advance P)
      parse_bitwise_and_loop fuel (Expr.BinaryExpr op.lexeme left right) P1
    else some (left, P)

/-- `Parser::parse_equality`. -/
def parse_equality : Nat → Parser → Option (Expr × Parser)
  | 0, _ => none
  | fuel + 1, P => do
    let (left, P1) ← parse_comparison fuel P
    parse_equality_loop fuel left P1

/-- The `while` loop of `Parser::parse_equality`. -/
def parse_equality_loop : Nat → Expr → Parser → Option (Expr × Parser)
  | 0, _, _ => none
  | fuel + 1, left, P =>
    if check P TokenType.EQ || check P TokenType.NEQ then do
      let op := P.cur
      let (right, P1) ← parse_comparison fuel (advance P)
      parse_equality_loop fuel (Expr.BinaryExpr op.lexeme left right) P1
    else some (left, P)

/-- `Parser::parse_comparison`. -/
def parse_comparison : Nat → Parser → Option (Expr × Parser)
  | 0, _ => none
  | fuel + 1, P => do
    let (left, P1) ← parse_shift fuel P
    parse_comparison_loop fuel left P1

/-- The `while` loop of `Parser::parse_comparison`. -/
def parse_comparison_loop : Nat → Expr → Parser → Option (Expr × Parser)
  | 0, _, _ => none
  | fuel + 1, left, P =>
    if check P TokenType.LT || check P TokenType.GT || check P TokenType.LE ||
        check P TokenType.GE then do
      let op := P.cur
      let (right, P1) ← parse_shift fuel (advance P)
      parse_comparison_loop fuel (Expr.BinaryExpr op.lexeme left right) P1
    else some (left, P)

/-- `Parser::parse_shift`. -/
def parse_shift : Nat → Parser → Option (Expr × Parser)
  | 0, _ => none
  | fuel + 1, P => do
    let (left, P1) ← parse_additive fuel P
    parse_shift_loop fuel left P1

/-- The `while` loop of `Parser::parse_shift`. -/
def parse_shift_loop : Nat → Expr → Parser → Option (Expr × Parser)
  | 0, _, _ => none
  | fuel + 1, left, P =>
    if check P TokenType.SHL || check P TokenType.SHR then do
      let op := P.cur
      let (right, P1) ← parse_additive fuel (advance P)
      parse_shift_loop fuel (Expr.BinaryExpr op.lexeme left right) P1
    else some (left, P)

/-- `Parser::parse_additive`. -/
def parse_additive : Nat → Parser → Option (Expr × Parser)
  | 0, _ => none
  | fuel + 1, P => do
    let (left, P1) ← parse_multiplicative fuel P
    parse_additive_loop fuel left P1

/-- The `while` loop of `Parser::parse_additive`. -/
def parse_additive_loop : Nat → Expr → Parser → Option (Expr × Parser)
  | 0, _, _ => none
  | fuel + 1, left, P =>
    if check P TokenType.PLUS || check P TokenType.MINUS then do
      let op := P.cur
      let (right, P1) ← parse_multiplicative fuel (advance P)
      parse_additive_loop fuel (Expr.BinaryExpr op.lexeme left right) P1
    else some (left, P)

/-- `Parser::parse_multiplicative`. -/
def parse_multiplicative : Nat → Parser → Option (Expr × Parser)
  | 0, _ => none
  | fuel + 1, P => do
    let (left, P1) ← parse_unary fuel P
    parse_multiplicative_loop fuel left P1

/-- The `while` loop of `Parser::parse_multiplicative`. -/
def parse_multiplicative_loop : Nat → Expr → Parser → Option (Expr × Parser)
  | 0, _, _ => none
  | fuel + 1, left, P =>
    if check P TokenType.STAR || check P TokenType.DEREF || check P TokenType.SLASH ||
        check P TokenType.PERCENT then do
      let op := P.cur
      let op_lexeme := if op.type = TokenType.DEREF then "*" else op.lexeme
      let (right, P1) ← parse_unary fuel (advance P)
      parse_multiplicative_loop fuel (Expr.BinaryExpr op_lexeme left right) P1
    else some (left, P)

/-- `Parser::parse_unary`. -/
def parse_unary : Nat → Parser → Option (Expr × Parser)
  | 0, _ => none
  | fuel + 1, P =>
    if check P TokenType.BANG || check P TokenType.MINUS || check P TokenType.PLUS ||
        check P TokenType.PLUSPLUS || check P TokenType.MINUSMINUS ||
        check P TokenType.DEREF || check P TokenType.ADDRESS_OF then do
      let op := P.cur
      let (rhs, P1) ← parse_unary fuel (advance P)
      let op_lex :=
        if op.type = TokenType.DEREF then "*"
        else if op.type = TokenType.ADDRESS_OF then "&"
        else op.lexeme
      some (Expr.UnaryExpr op_lex rhs, P1)
    else if check P TokenType.LBRACK then
      let next1 := lexer_peek P 1
      let next2 := lexer_peek next1.2 2
      let next3 := lexer_peek next2.2 3
      if next1.1.type = TokenType.RBRACK ∧ next2.1.type = TokenType.IDENT ∧
          next3.1.type = TokenType.LBRACE then do
        let typeTk := expect (advance (advance next3.2)) TokenType.IDENT
          "expected type name after '[]' in typed array literal"
        let P1 := (expect typeTk.2 TokenType.LBRACE
          "expected '\x7b' to start typed array literal").2
        let P2 ← skip_newlines fuel P1
        let (elems, P3) ←
          (if !check P2 TokenType.RBRACE then parse_elems_loop TokenType.RBRACE fuel P2 []
           else some ([], P2))
        let P4 := (expect P3 TokenType.RBRACE "expected '\x7d' to close typed array literal").2
        parse_postfix fuel
          (Expr.ArrayLiteral (some (Ty.ArrayType (Ty.NamedType typeTk.1.lexeme) true 0)) elems) P4
      else do
        let (arrLit, P1) ← parse_array_literal fuel next3.2
        parse_postfix fuel arrLit P1
    else parse_primary fuel P

/-- The `while (true)` loop over the comma-separated elements of an array literal; the
same loop occurs in `parse_unary` (closing token `}`), `parse_array_literal` and
`parse_byte_array_literal` (closing token `]`). -/
def parse_elems_loop (close : TokenType) : Nat → Parser → List Expr → Option (List Expr × Parser)
  | 0, _, _ => none
  | fuel + 1, P, elems => do
    let P1 ← skip_newlines fuel P
    let (elem, P2) ← parse_expression fuel P1
    let P3 ← skip_newlines fuel P2
    if check P3 TokenType.COMMA then do
      let P4 ← skip_newlines fuel (advance P3)
      if check P4 close then some (elems ++ [elem], P4)
      else parse_elems_loop close fuel P4 (elems ++ [elem])
    else some (elems ++ [elem], P3)

/-- `Parser::parse_array_literal`. -/
def parse_array_literal : Nat → Parser → Option (Expr × Parser)
  | 0, _ => none
  | fuel + 1, P => do
    let P1 := (expect P TokenType.LBRACK "expected '[' to start array literal").2
    let P2 ← skip_newlines fuel P1
    let (elems, P3) ←
      (if !check P2 TokenType.RBRACK then parse_elems_loop TokenType.RBRACK fuel P2 []
       else some ([], P2))
    some (Expr.ArrayLiteral none elems,
      (expect P3 TokenType.RBRACK "expected ']' to close array literal").2)

/-- `Parser::parse_byte_array_literal`. -/
def parse_byte_array_literal : Nat → Parser → Option (Expr × Parser)
  | 0, _ => none
  | fuel + 1, P => do
    let P1 := (expect P TokenType.LBRACK "expected '[' to start byte array literal").2
    let P2 ← skip_newlines fuel P1
    let (elems, P3) ←
      (if !check P2 TokenType.RBRACK then parse_elems_loop TokenType.RBRACK fuel P2 []
       else some ([], P2))
    some (Expr.ByteArrayLiteral elems,
      (expect P3 TokenType.RBRACK "expected ']' to close byte array literal").2)

/-- `Parser::parse_postfix`: the function is its `while (true)` loop. -/
def parse_postfix : Nat → Expr → Parser → Option (Expr × Parser)
  | 0, _, _ => none
  | fuel + 1, left, P =>
    if check P TokenType.LBRACK then do
      let (idxExpr, P1) ← parse_expression fuel (advance P)
      let P2 := (expect P1 TokenType.RBRACK "expected ']' after index").2
      parse_postfix fuel (Expr.IndexExpr left idxExpr) P2
    else if check P TokenType.PLUSPLUS || check P TokenType.MINUSMINUS then
      parse_postfix fuel (Expr.PostfixExpr P.cur.lexeme left) (advance P)
    else if check P TokenType.DOT then
      let memberTk := expect (advance P) TokenType.IDENT "expected member name after '.'"
      parse_postfix fuel (Expr.MemberExpr left memberTk.1.lexeme) memberTk.2
    else some (left, P)

/-- The `while (true)` loop over the arguments of a call in `Parser::parse_primary`. -/
def parse_args_loop : Nat → Parser → List Expr → Option (List Expr × Parser)
  | 0, _, _ => none
  | fuel + 1, P, args => do
    let (arg, P1) ← parse_expression fuel P
    if check P1 TokenType.COMMA then parse_args_loop fuel (advance P1) (args ++ [arg])
    else some (args ++ [arg], P1)

/-- The `while (true)` loop over the field initializers of a struct literal in
`Parser::parse_primary`. -/
def parse_inits_loop :
    Nat → Parser → List (Option String × Expr) → Option (List (Option String × Expr) × Parser)
  | 0, _, _ => none
  | fuel + 1, P, inits => do
    let P1 ← skip_newlines fuel P
    let (init, P2) ←
      (if check P1 TokenType.IDENT && decide ((peek_next P1).1.type = TokenType.COLON) then do
        let nameTk := P1.cur
        let P2 := (expect (advance (peek_next P1).2) TokenType.COLON
          "expected ':' in struct field init").2
        let (val, P3) ← parse_expression fuel P2
        some ((some nameTk.lexeme, val), P3)
      else do
        let Pa := if check P1 TokenType.IDENT then (peek_next P1).2 else P1
        let (val, P3) ← parse_expression fuel Pa
        some ((none, val), P3) : Option ((Option String × Expr) × Parser))
    let P3 ← skip_newlines fuel P2
    if check P3 TokenType.COMMA then do
      let P4 ← skip_newlines fuel (advance P3)
      if check P4 TokenType.RBRACE then some (inits ++ [init], P4)
      else parse_inits_loop fuel P4 (inits ++ [init])
    else some (inits ++ [init], P3)

/-- `Parser::parse_primary`. -/
def parse_primary : Nat → Parser → Option (Expr × Parser)
  | 0, _ => none
  | fuel + 1, P =>
    if check P TokenType.INT || check P TokenType.FLOAT || check P TokenType.STRING ||
        check P TokenType.CHAR then
      parse_postfix fuel (Expr.Literal P.cur.lexeme P.cur.type) (advance P)
    else if check P TokenType.LBRACK then do
      let (arrLit, P1) ← parse_array_literal fuel P
      parse_postfix fuel arrLit P1
    else if check P TokenType.IDENT then
      let id := P.cur
      let P1 := advance P
      if check P1 TokenType.LPAREN then do
        let P2 := advance P1
        let (args, P3) ←
          (if !check P2 TokenType.RPAREN then parse_args_loop fuel P2 [] else some ([], P2))
        let P4 := (expect P3 TokenType.RPAREN "expected ')' in call").2
        parse_postfix fuel (Expr.CallExpr (Expr.Ident id.lexeme) args) P4
      else if check P1 TokenType.LBRACE then do
        let P2 ← skip_newlines fuel (advance P1)
        let (inits, P3) ←
          (if !check P2 TokenType.RBRACE then parse_inits_loop fuel P2 [] else some ([], P2))
        let P4 := (expect P3 TokenType.RBRACE "expected '\x7d' to close struct literal").2
        parse_postfix fuel (Expr.StructLiteral (Ty.NamedType id.lexeme) inits) P4
      else parse_postfix fuel (Expr.Ident id.lexeme) P1
    else if check P TokenType.LPAREN then do
      let (e, P1) ← parse_expression fuel (advance P)
      parse_postfix fuel e (expect P1 TokenType.RPAREN "expected ')'").2
    else if check P TokenType.KW_BYTE ||
        (check P TokenType.IDENT && decide (P.cur.lexeme = "byte")) then
      let P1 := advance P
      if check P1 TokenType.LBRACK then do
        let (byteArr, P2) ← parse_byte_array_literal fuel P1
        parse_postfix fuel byteArr P2
      else if check P1 TokenType.STRING then
        parse_postfix fuel (byte_array_of_string P1.cur.lexeme) (advance P1)
      else
        parse_postfix fuel (Expr.ByteArrayLiteral [])
          (emit_error P1 P1.cur "expected '[' or string literal after 'byte'")
    else
      parse_postfix fuel (Expr.Literal "" TokenType.ILLEGAL)
        (advance (emit_error P P.cur "unexpected token in expression"))

end

/-- The inner `while` loop of `Parser::parse_struct_decl` over the fields of an inline
struct. -/
def inline_fields_loop : Nat → Parser → List StructField → Option (List StructField × Parser)
  | 0, _, _ => none
  | fuel + 1, P, fields =>
    if !check P TokenType.RBRACE && !is_at_end P then do
      let fn := expect P TokenType.IDENT "expected field name in inline struct"
      let (ft, P1) ← parse_type_local_struct fuel fn.2
      let P2 ← skip_newlines fuel (match_ P1 TokenType.NEWLINE)
      inline_fields_loop fuel P2 (fields ++ [StructField.mk fn.1.lexeme (some ft) none false])
    else some (fields, P)

/-- The outer `while` loop of `Parser::parse_struct_decl` over the fields. -/
def struct_fields_loop : Nat → Parser → List StructField → Option (List StructField × Parser)
  | 0, _, _ => none
  | fuel + 1, P, fields =>
    if !check P TokenType.RBRACE && !is_at_end P then do
      let fieldNameTk := expect P TokenType.IDENT "expected field name in struct"
      let P1 := fieldNameTk.2
      let (field, P2) ←
        (if check P1 TokenType.KW_STRUCT then do
          let P2 := (expect (advance P1) TokenType.LBRACE
            "expected '\x7b' for inline struct in field").2
          let P3 ← skip_newlines fuel P2
          let (inl, P4) ← inline_fields_loop fuel P3 []
          let P5 := (expect P4 TokenType.RBRACE "expected '\x7d' after inline struct").2
          some (StructField.mk fieldNameTk.1.lexeme none (some (StructDecl.mk "" inl false)) false,
            P5)
        else do
          let (ty, P2) ← parse_type_local_struct fuel P1
          some (StructField.mk fieldNameTk.1.lexeme (some ty) none false, P2)
        : Option (StructField × Parser))
      let P3 ← skip_newlines fuel (match_ P2 TokenType.NEWLINE)
      struct_fields_loop fuel P3 (fields ++ [field])
    else some (fields, P)

/-- `Parser::parse_struct_decl`. -/
def parse_struct_decl (fuel : Nat) (P : Parser) (is_pub : Bool) : Option (Option Decl × Parser) := do
  let P1 := (expect P TokenType.KW_STRUCT "expected 'struct'").2
  let nameTk := expect P1 TokenType.IDENT "expected struct name"
  let P2 := (expect nameTk.2 TokenType.LBRACE "expected '\x7b' after struct name").2
  let P3 ← skip_newlines fuel P2
  let (fields, P4) ← struct_fields_loop fuel P3 []
  some (some (Decl.StructDecl (StructDecl.mk nameTk.1.lexeme fields is_pub)),
    (expect P4 TokenType.RBRACE "expected '\x7d' to close struct").2)

/-- The lambda `consume_ellipsis` of `Parser::parse_function_decl`. -/
def consume_ellipsis (P : Parser) : Bool × Parser :=
  if check P TokenType.ELLIPSIS then (true, advance P)
  else if check P TokenType.DOT then
    let p1 := lexer_peek P 1
    if p1.1.type = TokenType.DOT then
      let p2 := lexer_peek p1.2 2
      if p2.1.type = TokenType.DOT then (true, advance (advance (advance p2.2)))
      else (false, p2.2)
    else (false, p1.2)
  else (false, P)

/-- The loop `while (!check(RPAREN) && !is_at_end()) advance();` that skips the rest of
a parameter list after a misplaced variadic parameter. -/
def skip_to_rparen : Nat → Parser → Option Parser
  | 0, _ => none
  | fuel + 1, P =>
    if !check P TokenType.RPAREN && !is_at_end P then skip_to_rparen fuel (advance P)
    else some P

/-- The `while (true)` loop of `Parser::parse_function_decl` over the parameters. -/
def params_loop : Nat → Parser → List Param → Option (List Param × Parser)
  | 0, _, _ => none
  | fuel + 1, P, params => do
    let (prefix_before_name, P1) ← ptr_prefix_loop fuel P []
    let id := expect P1 TokenType.IDENT "expected parameter name"
    let ell := consume_ellipsis id.2
    let is_variadic := ell.1
    let P2 := ell.2
    let (typePtr, P3) ←
      (if check P2 TokenType.LBRACK || check P2 TokenType.IDENT || check P2 TokenType.KW_BYTE ||
          check P2 TokenType.DEREF || check P2 TokenType.ADDRESS_OF then
        parse_type fuel P2
      else if is_variadic then some (Ty.NamedType "any", P2)
      else if !prefix_before_name.isEmpty then
        some (wrap_pointers prefix_before_name (Ty.NamedType "int"), P2)
      else
        some (Ty.NamedType "int", emit_error P2 P2.cur
          "expected parameter type after name (use: 'name type', e.g. 'x int')"))
    let params1 := params ++ [{ name := id.1.lexeme, type := typePtr, variadic := is_variadic }]
    if is_variadic then
      if check P3 TokenType.COMMA then do
        let P4 := advance P3
        let P5 ← skip_to_rparen fuel
          (emit_error P4 P4.cur "variadic parameter must be the last parameter")
        some (params1, P5)
      else some (params1, P3)
    else if check P3 TokenType.COMMA then params_loop fuel (advance P3) params1
    else some (params1, P3)

/-- `Parser::parse_function_decl`. -/
def parse_function_decl (fuel : Nat) (P : Parser) (is_pub : Bool) :
    Option (Option Decl × Parser) := do
  let P1 := (expect P TokenType.KW_FN "expected 'fn'").2
  let firstTk := expect P1 TokenType.IDENT "expected function or method name"
  let isMethod := check firstTk.2 TokenType.DOT
  let methodTk := expect (advance firstTk.2) TokenType.IDENT "expected method name after '.'"
  let receiverName := if isMethod then some firstTk.1.lexeme else none
  let funcName := if isMethod then methodTk.1.lexeme else firstTk.1.lexeme
  let P2 := if isMethod then methodTk.2 else firstTk.2
  let P3 := (expect P2 TokenType.LPAREN "expected '(' after fn name").2
  let (params, P4) ←
    (if !check P3 TokenType.RPAREN then params_loop fuel P3 [] else some ([], P3))
  let P5 := (expect P4 TokenType.RPAREN "expected ')' after params").2
  let (ret_type_ptr, P6) ←
    (if check P5 TokenType.IDENT || check P5 TokenType.LBRACK || check P5 TokenType.DEREF ||
        check P5 TokenType.ADDRESS_OF || check P5 TokenType.KW_BYTE then do
      let (t, P6) ← parse_type fuel P5
      some (some t, P6)
    else some (none, P5) : Option (Option Ty × Parser))
  let (body, P7) ← parse_block fuel P6
  some (some (Decl.FuncDecl funcName receiverName params ret_type_ptr is_pub body), P7)

/-- `Parser::parse_decl`. -/
def parse_decl (fuel : Nat) (P : Parser) : Option (Option Decl × Parser) :=
  let is_pub := check P TokenType.KW_PUB
  let P1 := if is_pub then advance P else P
  if check P1 TokenType.KW_STRUCT then parse_struct_decl fuel P1 is_pub
  else if check P1 TokenType.KW_FN then parse_function_decl fuel P1 is_pub
  else
    match parse_stmt fuel P1 with
    | none => none
    | some (stmt, P2) => some (stmt.map Decl.StmtDecl, P2)

/-- The `while (!is_at_end())` loop of `Parser::parse_program`. -/
def parse_program_loop : Nat → Parser → List Decl → Option (List Decl × Parser)
  | 0, _, _ => none
  | fuel + 1, P, decls =>
    if !is_at_end P then do
      let (d, P1) ←
        (if check P TokenType.KW_MODULE || check P TokenType.KW_PACKAGE then
          parse_module_decl fuel P
        else if check P TokenType.KW_IMPORT then parse_import_decl fuel P
        else parse_decl fuel P)
      let P2 ← skip_newlines fuel P1
      parse_program_loop fuel P2 (decls ++ d.toList)
    else some (decls, P)

/-- `Parser::parse_program`, its loop given `fuel`; `none` when the fuel runs out. -/
def parse_program (fuel : Nat) (P : Parser) : Option (Program × Parser) :=
  match parse_program_loop fuel P [] with
  | none => none
  | some (decls, P1) => some ({ decls := decls }, P1)

/-- The driver's `Lexer lx(source, ...); Parser parser(lx, ...); parser.parse_program()`. -/
def parse_source (fuel : Nat) (source : String) : Option (Program × Parser) :=
  parse_program fuel (Parser.new (Lexer.new source))

end path


namespace lex

/-- The lexer after `k` calls of `next_token`. -/
def lexer_after (k : Nat) (L : Lexer) : Lexer :=
  (fun l => (next_token l).2.1)^[k] L

/-- The lexer `L2` is the lexer `L1` moved forward over the same source. -/
def Lexer.Le (L1 L2 : Lexer) : Prop :=
  L2.src = L1.src ∧ L1.current ≤ L2.current

end lex

namespace lex

/-- A lexing step from `L` with result `r` has kept the source and moved the cursor
forward by at least one character. -/
@[reducible] def Progress (L : Lexer) (r : Token × Lexer × List Diag) : Prop :=
  r.2.1.src = L.src ∧ L.current < r.2.1.current

/-- The token of a lexing step is neither `EOF` nor `NEWLINE`. -/
@[reducible] def Proper (r : Token × Lexer × List Diag) : Prop :=
  r.1.type ≠ TokenType.EOF_TOKEN ∧ r.1.type ≠ TokenType.NEWLINE

end lex

namespace lex

/-- The first character of `l` that is not a space, tab, carriage return or line feed,
if there is one. -/
def first_nonspace (l : List Char) : Option Char :=
  (l.dropWhile (fun c => decide (c = ' ' ∨ c = '\t' ∨ c = '\r' ∨ c = '\n'))).head?

/-- The character is a letter, `_`, `*`, `&`, `(` or `[`. -/
def starts_operand : Option Char → Bool
  | none => false
  | some c =>
    isalpha c || decide (c = '_') || decide (c = '*') || decide (c = '&') ||
      decide (c = '(') || decide (c = '[')

end lex

namespace lex

/-- The words `[A-Za-z_][A-Za-z0-9_]*`. -/
def ident_shaped : List Char → Bool
  | [] => false
  | c :: cs => is_ident_start c && cs.all is_ident_part

/-- The token kinds named `KW_...`. -/
def is_keyword_kind (t : TokenType) : Bool :=
  t ∈ [TokenType.KW_MODULE, TokenType.KW_PACKAGE, TokenType.KW_IMPORT, TokenType.KW_PUB,
    TokenType.KW_FN, TokenType.KW_STRUCT, TokenType.KW_ENUM, TokenType.KW_INTERFACE,
    TokenType.KW_CONST, TokenType.KW_MUT, TokenType.KW_IF, TokenType.KW_ELSE,
    TokenType.KW_MATCH, TokenType.KW_FOR, TokenType.KW_IN, TokenType.KW_RETURN,
    TokenType.KW_BREAK, TokenType.KW_CONTINUE, TokenType.KW_AS, TokenType.KW_IS,
    TokenType.KW_GO, TokenType.KW_DEFER, TokenType.KW_SELECT, TokenType.KW_SWITCH,
    TokenType.KW_TRUE, TokenType.KW_FALSE, TokenType.KW_NONE, TokenType.KW_OR,
    TokenType.KW_TYPE, TokenType.KW_IMPORTAS, TokenType.KW_BYTE]

/-- The keywords as the specification lists them. -/
def spec_keywords : List String :=
  ["fn", "struct", "if", "else", "for", "in", "return", "break", "continue", "pub",
   "import", "package", "byte", "true", "false", "as"]

/-- The identifier-shaped keys of the table `keywords`. -/
def table_keywords : List String :=
  ["import", "pub", "fn", "struct", "enum", "const", "if", "else", "match", "for", "in",
   "return", "break", "continue", "true", "false", "byte", "package"]

end lex

namespace lex

/-- The position of the character after `c`, when `c` stands at `p` (the counting of
`Lexer::advance`). -/
def next_position (p : Position) (c : Char) : Position :=
  if c = '\n' then { line := p.line + 1, column := 1 } else { p with column := p.column + 1 }

/-- Position `a` is not after position `b`. -/
def Position.le (a b : Position) : Bool :=
  decide (a.line < b.line) || (decide (a.line = b.line) && decide (a.column ≤ b.column))

/-- The characters of `src` (whose first character stands at `p`) that stand at a
position from `s` through `e`, both inclusive. -/
def text_between_from : List Char → Position → Position → Position → List Char
  | [], _, _, _ => []
  | c :: cs, p, s, e =>
    (if Position.le s p && Position.le p e then [c] else []) ++
      text_between_from cs (next_position p c) s e

/-- The source text from position `s` through position `e`, both inclusive. -/
def text_between (src : String) (s e : Position) : String :=
  String.mk (text_between_from src.toList {} s e)

end lex

namespace path

open lex (Token TokenType)
open ast

/-- The token that is current after `k` calls of `advance`. -/
def ahead (k : Nat) (P : Parser) : Token := (advance^[k] P).cur

/-- The binary-operator levels of the expression parser, from `parse_logical_or`
(level 0) to `parse_multiplicative` (level 7); level 8 and above is `parse_unary`. -/
def parse_level : Nat → Nat → Parser → Option (Expr × Parser)
  | 0 => parse_logical_or
  | 1 => parse_logical_and
  | 2 => parse_bitwise_and
  | 3 => parse_equality
  | 4 => parse_comparison
  | 5 => parse_shift
  | 6 => parse_additive
  | 7 => parse_multiplicative
  | _ => parse_unary

/-- The `while` loop of the parser of each binary-operator level. -/
def level_loop : Nat → Nat → Expr → Parser → Option (Expr × Parser)
  | 0 => parse_logical_or_loop
  | 1 => parse_logical_and_loop
  | 2 => parse_bitwise_and_loop
  | 3 => parse_equality_loop
  | 4 => parse_comparison_loop
  | 5 => parse_shift_loop
  | 6 => parse_additive_loop
  | 7 => parse_multiplicative_loop
  | _ => fun _ left P => some (left, P)

/-- The level at which the parser consumes a token kind as a binary operator. -/
def binop_level : TokenType → Option Nat
  | TokenType.OR => some 0
  | TokenType.AND => some 1
  | TokenType.ADDRESS_OF => some 2
  | TokenType.EQ => some 3
  | TokenType.NEQ => some 3
  | TokenType.LT => some 4
  | TokenType.GT => some 4
  | TokenType.LE => some 4
  | TokenType.GE => some 4
  | TokenType.SHL => some 5
  | TokenType.SHR => some 5
  | TokenType.PLUS => some 6
  | TokenType.MINUS => some 6
  | TokenType.STAR => some 7
  | TokenType.DEREF => some 7
  | TokenType.SLASH => some 7
  | TokenType.PERCENT => some 7
  | _ => none

/-- The operator text that a `BinaryExpr` gets from its operator token. -/
def binop_text (t : Token) : String :=
  if t.type = TokenType.DEREF then "*" else t.lexeme

/-- The operator text that a `UnaryExpr` gets from its operator token. -/
def unop_text (t : Token) : String :=
  if t.type = TokenType.DEREF then "*"
  else if t.type = TokenType.ADDRESS_OF then "&"
  else t.lexeme

/-- The token kinds that `parse_unary` takes as a prefix operator. -/
def is_prefix_op (t : TokenType) : Bool :=
  t ∈ [TokenType.BANG, TokenType.MINUS, TokenType.PLUS, TokenType.PLUSPLUS,
    TokenType.MINUSMINUS, TokenType.DEREF, TokenType.ADDRESS_OF]

/-- The token kinds that continue a primary expression: a call, a struct literal or a
postfix operator. -/
def continues_primary (t : TokenType) : Bool :=
  t ∈ [TokenType.LPAREN, TokenType.LBRACE, TokenType.LBRACK, TokenType.PLUSPLUS,
    TokenType.MINUSMINUS, TokenType.DOT]

/-- A token kind after which an expression ends: no binary operator and nothing that
continues a primary expression. -/
def ends_expression (t : TokenType) : Bool :=
  (binop_level t).isNone && !continues_primary t

/-- With at least `N` units of fuel `f` returns `r` from the state `P`. -/
def Parses {α : Type} (f : Nat → Parser → Option (α × Parser)) (N : Nat) (P : Parser)
    (r : α × Parser) : Prop :=
  ∀ n, N ≤ n → f n P = some r

end path


namespace ast

/-- At most one parameter of the list is variadic, and a variadic parameter stands at
the last position. -/
def variadic_last (ps : List Param) : Prop :=
  (ps.filter (fun p => p.variadic)).length ≤ 1 ∧
  ∀ i (h : i < ps.length), (ps.get ⟨i, h⟩).variadic = true → i + 1 = ps.length

/-- The parameters of a function declaration satisfy `variadic_last` (other
declarations have no parameters). -/
def params_ok : Decl → Prop
  | Decl.FuncDecl _ _ params _ _ _ => variadic_last params
  | _ => True

end ast

namespace lex

/-- The text after an opening `"` holds the closing quote: a `"` that is not the
character after a backslash (a backslash takes the next character with it). -/
def closes_string : List Char → Bool
  | [] => false
  | c :: cs =>
    if c = '\\' then
      match cs with
      | [] => false
      | _ :: rest => closes_string rest
    else if c = '"' then true
    else closes_string cs

end lex

namespace ast

/-- The value of a hexadecimal digit. -/
def hex_digit_value (c : Char) : Nat :=
  if '0' ≤ c ∧ c ≤ '9' then c.toNat - '0'.toNat
  else if 'a' ≤ c ∧ c ≤ 'f' then 10 + (c.toNat - 'a'.toNat)
  else if 'A' ≤ c ∧ c ≤ 'F' then 10 + (c.toNat - 'A'.toNat)
  else 0

/-- A piece of the text between the quotes of a string literal: an ordinary character,
one of the escapes `\n`, `\t`, `\\`, `\"`, or `\xHH` with two hexadecimal digits. -/
inductive StrItem where
  | plain (c : Char)
  | newline
  | tab
  | backslash
  | quote
  | hex (h1 h2 : Char)
  deriving DecidableEq

/-- The source text of an item. -/
def StrItem.text : StrItem → List Char
  | StrItem.plain c => [c]
  | StrItem.newline => ['\\', 'n']
  | StrItem.tab => ['\\', 't']
  | StrItem.backslash => ['\\', '\\']
  | StrItem.quote => ['\\', '"']
  | StrItem.hex h1 h2 => ['\\', 'x', h1, h2]

/-- The byte that an item stands for. -/
def StrItem.byte : StrItem → Nat
  | StrItem.plain c => c.toNat
  | StrItem.newline => 10
  | StrItem.tab => 9
  | StrItem.backslash => 92
  | StrItem.quote => 34
  | StrItem.hex h1 h2 => 16 * hex_digit_value h1 + hex_digit_value h2

/-- An ordinary character is a byte other than the backslash and the double quote; the
digits of a hexadecimal escape are hexadecimal digits. -/
def StrItem.ok : StrItem → Bool
  | StrItem.plain c => decide (c ≠ '\\') && decide (c ≠ '"') && decide (c.toNat < 256)
  | StrItem.hex h1 h2 => lex.isxdigit h1 && lex.isxdigit h2
  | _ => true

/-- The source text of a sequence of items. -/
def items_text : List StrItem → List Char
  | [] => []
  | it :: rest => it.text ++ items_text rest

/-- The double-quoted literal whose text is the given items. -/
def quoted (items : List StrItem) : String :=
  String.mk ('"' :: (items_text items ++ ['"']))

/-- The elements of the `ByteArrayLiteral` for the given items: one `INT` literal per
byte. -/
def byte_literals (items : List StrItem) : List Expr :=
  items.map (fun it => Expr.Literal (toString it.byte) lex.TokenType.INT)

end ast

/-!
The code generator (`src/codegen`).

LLVM types are the values of `LType`; an identified struct type is known by its name (the
renaming that LLVM applies when a name is taken is left out).  The maps of the class
`CodeGen` are association lists.  A function of the code generator takes the state of the
generator and returns the new one; `Except` carries a C++ exception that is thrown.
-/

namespace codegen

open ast

/-- The LLVM types that the code generator uses. -/
inductive LType where
  | void
  | i1
  | i8
  | i32
  | i64
  | float
  | double
  | ptr (pointee : LType)
  | struct (name : String)
  deriving DecidableEq, Repr, Inhabited

/-- `Type::isIntegerTy()`. -/
def LType.isIntegerTy : LType → Bool
  | LType.i1 | LType.i8 | LType.i32 | LType.i64 => true
  | _ => false

/-- `Type::isFloatingPointTy()`. -/
def LType.isFloatingPointTy : LType → Bool
  | LType.float | LType.double => true
  | _ => false

/-- `Type::isPointerTy()`. -/
def LType.isPointerTy : LType → Bool
  | LType.ptr _ => true
  | _ => false

/-- `Type::isStructTy()`. -/
def LType.isStructTy : LType → Bool
  | LType.struct _ => true
  | _ => false

/-- The loop of the `STRING` case of `CodeGen::codegen_literal` over `raw`. -/
def unescape_loop (raw : List Char) : Nat → Nat → List Char → List Char
  | 0, _, unescaped => unescaped
  | fuel + 1, i, unescaped =>
    if i < raw.length then
      if raw.getD i lex.NUL = '\\' ∧ i + 1 < raw.length then
        let c := raw.getD (i + 1) lex.NUL
        if c = 'n' then unescape_loop raw fuel (i + 2) (unescaped ++ ['\n'])
        else if c = 't' then unescape_loop raw fuel (i + 2) (unescaped ++ ['\t'])
        else if c = '\\' then unescape_loop raw fuel (i + 2) (unescaped ++ ['\\'])
        else if c = '"' then unescape_loop raw fuel (i + 2) (unescaped ++ ['"'])
        else unescape_loop raw fuel (i + 2) (unescaped ++ [c])
      else unescape_loop raw fuel (i + 1) (unescaped ++ [raw.getD i lex.NUL])
    else unescaped

/-- The `STRING` case of `CodeGen::codegen_literal`: the characters of the string constant
that `make_global_string` is given for a literal whose text is `lit_raw`. -/
def codegen_literal_string (lit_raw : String) : List Char :=
  let raw := lit_raw.toList
  let raw :=
    if !raw.isEmpty && (raw.head? = some '"' || raw.head? = some '`') then
      (raw.drop 1).take (raw.length - 2)
    else raw
  unescape_loop raw raw.length 0 []

/-- The map `struct_types` of `CodeGen`: struct name to LLVM struct type. -/
abbrev StructTypes := List (String × LType)

/-- The statements `StructType::create(context, name); struct_types[name] = st` that end
`resolve_type_by_name` and `get_or_create_named_struct`. -/
def create_struct (name : String) (struct_types : StructTypes) : LType × StructTypes :=
  (LType.struct name, struct_types ++ [(name, LType.struct name)])

/-- The part of `CodeGen::resolve_type_by_name` after the tests for `*` and `[]`. -/
def resolve_plain_name (typeName : String) (struct_types : StructTypes) :
    Option LType × StructTypes :=
  if typeName = "i32" then (some LType.i32, struct_types)
  else if typeName = "i64" then (some LType.i64, struct_types)
  else if typeName = "double" ∨ typeName = "float" then (some LType.double, struct_types)
  else if typeName = "void" then (some LType.void, struct_types)
  else if typeName = "string" then (some (LType.ptr LType.i8), struct_types)
  else
    match struct_types.lookup typeName with
    | some st => (some st, struct_types)
    | none =>
      let r := create_struct typeName struct_types
      (some r.1, r.2)

/-- `CodeGen::resolve_type_by_name` on the characters of `typeName`; the result is the
type (`none` for `nullptr`) and the map `struct_types` after the call. -/
def resolve_type_chars : List Char → StructTypes → Option LType × StructTypes
  | [], struct_types => (none, struct_types)
  | c :: cs, struct_types =>
    let typeName := String.mk (c :: cs)
    if typeName = "string" then (some (LType.ptr LType.i8), struct_types)
    else if typeName = "bool" then (some LType.i1, struct_types)
    else if typeName = "char" then (some LType.i8, struct_types)
    else if typeName = "byte" then (some LType.i8, struct_types)
    else if typeName = "size_t" then (some LType.i64, struct_types)
    else if c = '*' then
      let r := resolve_type_chars cs struct_types
      (some (LType.ptr (r.1.getD LType.i32)), r.2)
    else
      match cs with
      | d :: inner =>
        if c = '[' ∧ d = ']' then
          let r := resolve_type_chars inner struct_types
          (some (LType.ptr (r.1.getD LType.i32)), r.2)
        else resolve_plain_name typeName struct_types
      | [] => resolve_plain_name typeName struct_types

/-- `CodeGen::resolve_type_by_name`. -/
def resolve_type_by_name (typeName : String) (struct_types : StructTypes) :
    Option LType × StructTypes :=
  resolve_type_chars typeName.toList struct_types

end codegen

namespace codegen

open ast

/-- The same LLVM type.  Pointers are opaque (LLVM 15 and later, which the calls
`isOpaquePointerTy` and `getPtrTy` of the code generator need): every pointer type is the
one type `ptr`, and the pointee of `LType.ptr` only records what `PointerType::getUnqual`
was called with. -/
def LType.same : LType → LType → Bool
  | LType.ptr _, LType.ptr _ => true
  | a, b => decide (a = b)

/-- The cast instructions that the code generator creates. -/
inductive CastOp where
  | bitcast
  | pointer_cast
  | int_cast
  | fp_ext
  | fp_to_si
  | si_to_fp
  | sext
  | zext
  | trunc
  | int_to_ptr
  | ptr_to_int
  | fp_cast
  deriving DecidableEq, Repr

/-- The predicates of the integer comparisons that the code generator creates. -/
inductive Pred where
  | ult
  | eq
  | ne
  | sgt
  | slt
  | sge
  | sle
  deriving DecidableEq, Repr

/-- The predicates of the floating-point comparisons that the code generator creates. -/
inductive FPred where
  | ueq
  | ugt
  | ult
  | uge
  | ule
  deriving DecidableEq, Repr

/-- The binary operations that the code generator creates. -/
inductive BinOp where
  | add
  | mul
  | and_
  | sub
  | sdiv
  | srem
  | shl
  | ashr
  | or_
  | fadd
  | fsub
  | fmul
  | fdiv
  | frem
  deriving DecidableEq, Repr

/-- An LLVM value: a constant, or an instruction with its operands.  `id` stands for the
identity of the C++ object and `name` is the name given to the builder (LLVM makes the
names unique when it prints them).  `param` is a value that comes from elsewhere: an
argument, a global, or the result of a part of the code generator that is a parameter
of the model.  `const_fp` is the floating-point constant of a decimal text, `func` is a
function of the module, `global_string` is the address that `CreateGlobalStringPtr`
returns, and `call` is a call instruction, whose operands are in `Instr.call`. -/
inductive Value where
  | const_int (ty : LType) (v : Int)
  | const_null (ty : LType)
  | const_fp (ty : LType) (text : String)
  | func (name : String)
  | global_string (id : Nat) (name : String) (str : String)
  | call (id : Nat) (name : String) (callee : String) (ty : LType)
  | fcmp (id : Nat) (name : String) (pred : FPred) (a b : Value)
  | param (id : Nat) (ty : LType)
  | alloca (id : Nat) (name : String) (allocated : LType)
  | alloca_n (id : Nat) (name : String) (allocated : LType) (count : Value)
  | gep1 (id : Nat) (name : String) (elem_ty : LType) (base idx : Value)
  | gep2 (id : Nat) (name : String) (src_ty : LType) (base idx0 idx1 : Value)
  | load (id : Nat) (name : String) (ty : LType) (addr : Value)
  | cast (id : Nat) (name : String) (op : CastOp) (v : Value) (ty : LType)
  | icmp (id : Nat) (name : String) (pred : Pred) (a b : Value)
  | binop (id : Nat) (name : String) (op : BinOp) (ty : LType) (a b : Value)
  | not_ (id : Nat) (name : String) (a : Value)
  | select (id : Nat) (name : String) (ty : LType) (c a b : Value)
  | call_malloc (id : Nat) (name : String) (size : Value)
  deriving DecidableEq, Repr, Inhabited

/-- `Value::getType()`. -/
def Value.type : Value → LType
  | Value.const_int ty _ => ty
  | Value.const_null ty => ty
  | Value.const_fp ty _ => ty
  | Value.func _ => LType.ptr LType.void
  | Value.global_string _ _ _ => LType.ptr LType.i8
  | Value.call _ _ _ ty => ty
  | Value.fcmp _ _ _ _ _ => LType.i1
  | Value.param _ ty => ty
  | Value.alloca _ _ allocated => LType.ptr allocated
  | Value.alloca_n _ _ allocated _ => LType.ptr allocated
  | Value.gep1 _ _ elem_ty _ _ => LType.ptr elem_ty
  | Value.gep2 _ _ src_ty _ _ _ => LType.ptr src_ty
  | Value.load _ _ ty _ => ty
  | Value.cast _ _ _ _ ty => ty
  | Value.icmp _ _ _ _ _ => LType.i1
  | Value.binop _ _ _ ty _ _ => ty
  | Value.not_ _ _ _ => LType.i1
  | Value.select _ _ ty _ _ _ => ty
  | Value.call_malloc _ _ _ => LType.ptr LType.i8

/-- An instruction in a basic block: one that has a result (the value itself), or one
that has none.  `call` is a call with its operands (`result` is the `Value.call` of
it).  `label` is no instruction: it stands for `builder.SetInsertPoint(bb)` in a list of
the instructions in the order in which they were made, where the instructions after it
are those of the block `name`. -/
inductive Instr where
  | value (v : Value)
  | store (v addr : Value)
  | memcpy (dst src len : Value)
  | memset (dst byte len : Value)
  | br (target : String)
  | cond_br (c : Value) (if_true if_false : String)
  | call (result : Value) (args : List Value)
  | unreachable
  | ret (v : Option Value)
  | label (name : String)
  deriving DecidableEq, Repr, Inhabited

/-- A function of the module: its type, its arguments as values, and whether it has a
basic block. -/
structure FunctionValue where
  arg_types : List LType
  ret : LType
  var_arg : Bool
  args : List Value
  has_body : Bool := false
  deriving DecidableEq, Repr, Inhabited

/-- The part of the state of `CodeGen` that the modelled functions read and write:
the maps (`function_protos` with the functions as values), the functions of the module
by name (`functions`), the flag `failed` with the
messages that `error` prints, and of the builder
the instructions put at the start of the entry block (`entry`, the latest first), the
instructions appended at the insertion point (`code`) and the number of values made. -/
structure CodeGen where
  struct_types : StructTypes := []
  struct_decls : List (String × StructDecl) := []
  struct_bodies : List (String × List LType) := []
  locals_stack : List (List (String × Value)) := []
  locals_stack_type : List (List (String × String)) := []
  function_protos : List (String × Value) := []
  functions : List (String × FunctionValue) := []
  failed : Bool := false
  errors : List String := []
  entry : List Instr := []
  code : List Instr := []
  next_id : Nat := 0
  deriving Inhabited

/-- `CodeGen::error`. -/
def CodeGen.error (cg : CodeGen) (msg : String) : CodeGen :=
  { cg with failed := true, errors := cg.errors ++ [msg] }

/-- An instruction with a result, appended at the insertion point. -/
def CodeGen.emit_value (cg : CodeGen) (mk : Nat → Value) : Value × CodeGen :=
  (mk cg.next_id,
    { cg with code := cg.code ++ [Instr.value (mk cg.next_id)], next_id := cg.next_id + 1 })

/-- `builder.CreateStore(v, addr)`. -/
def CodeGen.create_store (cg : CodeGen) (v addr : Value) : CodeGen :=
  { cg with code := cg.code ++ [Instr.store v addr] }

/-- `CodeGen::create_entry_alloca`, and the same two statements where they are written
out: an `alloca` put at the start of the entry block. -/
def CodeGen.create_entry_alloca (cg : CodeGen) (type : LType) (name : String) :
    Value × CodeGen :=
  (Value.alloca cg.next_id name type,
    { cg with entry := Instr.value (Value.alloca cg.next_id name type) :: cg.entry,
              next_id := cg.next_id + 1 })

/-- The assignment `m[key] = v` of a `std::map`. -/
def map_set {β : Type} (m : List (String × β)) (key : String) (v : β) : List (String × β) :=
  (key, v) :: m.filter (fun kv => kv.1 ≠ key)

/-- `CodeGen::push_scope`. -/
def CodeGen.push_scope (cg : CodeGen) : CodeGen :=
  { cg with locals_stack_type := cg.locals_stack_type ++ [[]],
            locals_stack := cg.locals_stack ++ [[]] }

/-- The assignment `stack.back()[name] = v`. -/
def set_back {β : Type} (stack : List (List (String × β))) (name : String) (v : β) :
    List (List (String × β)) :=
  stack.dropLast ++ [map_set (stack.getLastD []) name v]

/-- `CodeGen::bind_local`. -/
def CodeGen.bind_local (cg : CodeGen) (name type : String) (v : Value) : CodeGen :=
  let cg1 := if cg.locals_stack.isEmpty || cg.locals_stack_type.isEmpty then cg.push_scope
    else cg
  { cg1 with locals_stack := set_back cg1.locals_stack name v,
             locals_stack_type := set_back cg1.locals_stack_type name type }

/-- `CodeGen::lookup_struct_type`. -/
def CodeGen.lookup_struct_type (cg : CodeGen) (name : String) : Option LType :=
  if name.isEmpty then none else cg.struct_types.lookup name

/-- `CodeGen::get_or_create_named_struct`. -/
def CodeGen.get_or_create_named_struct (cg : CodeGen) (name : String) :
    Option LType × CodeGen :=
  if name.isEmpty then (none, cg)
  else
    match cg.struct_types.lookup name with
    | some st => (some st, cg)
    | none =>
      let r := create_struct name cg.struct_types
      (some r.1, { cg with struct_types := r.2 })

/-- `StructType::isSized()` for a struct type: it has a body. -/
def CodeGen.is_sized (cg : CodeGen) : LType → Bool
  | LType.struct name => (cg.struct_bodies.lookup name).isSome
  | _ => true

/-- `st->getElementType(i)`. -/
def CodeGen.element_type (cg : CodeGen) (st : LType) (i : Nat) : LType :=
  match st with
  | LType.struct name => ((cg.struct_bodies.lookup name).getD []).getD i LType.void
  | _ => LType.void

/-- The loop of `CodeGen::resolve_type_name` down the type, with the counters
`array_depth` and `pointer_depth`. -/
def resolve_type_name_loop : Ty → Nat → Nat → String
  | Ty.NamedType name, array_depth, pointer_depth =>
    name ++ String.join (List.replicate array_depth "[]") ++
      String.join (List.replicate pointer_depth "*")
  | Ty.ArrayType elem _ _, array_depth, pointer_depth =>
    resolve_type_name_loop elem (array_depth + 1) pointer_depth
  | Ty.PointerType base, array_depth, pointer_depth =>
    resolve_type_name_loop base array_depth (pointer_depth + 1)
  | Ty.FuncType _ _, _, _ => ""

/-- `CodeGen::resolve_type_name`; `none` is the null pointer. -/
def resolve_type_name : Option Ty → String
  | none => ""
  | some tp => resolve_type_name_loop tp 0 0

/-- `ParsedType` of `array/parse.h`. -/
structure ParsedType where
  base : String
  array_depth : Nat
  pointer_depth : Nat
  deriving DecidableEq, Repr

/-- The loop of `parse_type_chain`, on the reversed characters of `pt.base`. -/
def parse_type_chain_loop : List Char → Nat → Nat → List Char × Nat × Nat
  | [], a, p => ([], a, p)
  | [c], a, p => if c = '*' then ([], a, p + 1) else ([c], a, p)
  | c :: d :: rest, a, p =>
    if c = ']' ∧ d = '[' then parse_type_chain_loop rest (a + 1) p
    else if c = '*' then parse_type_chain_loop (d :: rest) a (p + 1)
    else (c :: d :: rest, a, p)

/-- `parse_type_chain`. -/
def parse_type_chain (name : String) : ParsedType :=
  let r := parse_type_chain_loop name.toList.reverse 0 0
  { base := String.mk r.1.reverse, array_depth := r.2.1, pointer_depth := r.2.2 }

/-- `CodeGen::getLLVMType`: the type of the base name; an unknown name throws
`std::runtime_error`. -/
def CodeGen.getLLVMType (cg : CodeGen) (typeName : String) : Except String LType :=
  let pt := parse_type_chain typeName
  if pt.base = "i32" then Except.ok LType.i32
  else if pt.base = "i64" then Except.ok LType.i64
  else if pt.base = "f32" then Except.ok LType.float
  else if pt.base = "f64" then Except.ok LType.double
  else if pt.base = "string" then Except.ok (LType.ptr LType.i8)
  else if pt.base = "byte" then Except.ok LType.i8
  else
    match cg.lookup_struct_type pt.base with
    | some ty => Except.ok ty
    | none => Except.error ("Unknown type: " ++ pt.base)

end codegen

namespace codegen

open ast

/-- A function of the code generator that lowers an expression: the value (`none` for
`nullptr`) and the new state, or an exception. -/
abbrev Lowering := Expr → CodeGen → Except String (Option Value × CodeGen)

/-- `StructFieldInit` of `ast.h`: the optional field name and the value. -/
abbrev FieldInit := Option String × Expr

/-- The loop of `CodeGen::get_field_index` from index `i` on; `none` stands for -1. -/
def get_field_index_from : List StructField → String → Nat → Option Nat
  | [], _, _ => none
  | StructField.mk name _ _ _ :: rest, fieldName, i =>
    if name = fieldName then some i else get_field_index_from rest fieldName (i + 1)

/-- `CodeGen::get_field_index`. -/
def get_field_index (sd : StructDecl) (fieldName : String) : Option Nat :=
  get_field_index_from sd.fields fieldName 0

/-- The inner loop of `codegen_struct_literal` that looks for the first free slot of
`positional`, from index `i` on. -/
def first_free : List (Option FieldInit) → Nat → Option Nat
  | [], _ => none
  | none :: _, i => some i
  | some _ :: rest, i => first_free rest (i + 1)

/-- The loop of `codegen_struct_literal` over the initializers, which fills
`positional`; an error is the message given to `error` before `nullptr` is returned. -/
def place_inits (sd : StructDecl) (typeName : String) :
    List FieldInit → List (Option FieldInit) → Except String (List (Option FieldInit))
  | [], positional => Except.ok positional
  | init :: rest, positional =>
    match init.1 with
    | some name =>
      match get_field_index sd name with
      | none =>
        Except.error ("unknown field '" ++ name ++ "' in struct literal for " ++ typeName)
      | some idx => place_inits sd typeName rest (positional.set idx (some init))
    | none =>
      match first_free positional 0 with
      | none => Except.error ("too many positional initializers for struct " ++ typeName)
      | some i => place_inits sd typeName rest (positional.set i (some init))

/-- The body of the second loop of `codegen_struct_literal` after the initializer has
been lowered to `v`: the casts and the store into `fieldAddr`; `false` when the types do
not fit. -/
def store_field (typeName : String) (i : Nat) (fieldTy : LType) (fieldAddr v : Value)
    (cg : CodeGen) : Bool × CodeGen :=
  if fieldTy.isStructTy && v.type.isPointerTy then
    let c := if !(v.type.same fieldTy) then
        cg.emit_value (fun id => Value.cast id
          (typeName ++ ".field" ++ toString i ++ ".cast_ptr") CastOp.bitcast v
          (LType.ptr fieldTy))
      else (v, cg)
    let l := c.2.emit_value (fun id => Value.load id
      (typeName ++ ".field" ++ toString i ++ ".load") fieldTy c.1)
    (true, l.2.create_store l.1 fieldAddr)
  else if !(v.type.same fieldTy) then
    if v.type.isIntegerTy && fieldTy.isIntegerTy then
      let c := cg.emit_value (fun id => Value.cast id "cast_int_field" CastOp.int_cast v fieldTy)
      (true, c.2.create_store c.1 fieldAddr)
    else if v.type.isFloatingPointTy && fieldTy.isFloatingPointTy then
      let c := if !(v.type.same fieldTy) then
          cg.emit_value (fun id => Value.cast id "cast_fp_field" CastOp.fp_ext v fieldTy)
        else (v, cg)
      (true, c.2.create_store c.1 fieldAddr)
    else if fieldTy.isPointerTy && v.type.isPointerTy then
      let c := if !(v.type.same fieldTy) then
          cg.emit_value (fun id => Value.cast id "bitcast_ptr_field" CastOp.bitcast v fieldTy)
        else (v, cg)
      (true, c.2.create_store c.1 fieldAddr)
    else if v.type.same fieldTy then (true, cg.create_store v fieldAddr)
    else if v.type.isPointerTy && fieldTy.isPointerTy then
      let c := cg.emit_value (fun id => Value.cast id "bitcast_ptr_field_fallback"
        CastOp.bitcast v fieldTy)
      (true, c.2.create_store c.1 fieldAddr)
    else
      (false, cg.error ("type mismatch storing into struct field (index " ++ toString i ++ ")"))
  else (true, cg.create_store v fieldAddr)

/-- The second loop of `codegen_struct_literal`, from index `i` on: for every slot of
`positional` that is filled, the address of field `i`, the initializer and the store.
`false` when `nullptr` is returned from inside the loop. -/
def store_fields (codegen_expr : Lowering) (typeName : String) (st : LType) (all : Value) :
    List (Option FieldInit) → Nat → CodeGen → Except String (Bool × CodeGen)
  | [], _, cg => Except.ok (true, cg)
  | none :: rest, i, cg => store_fields codegen_expr typeName st all rest (i + 1) cg
  | some init :: rest, i, cg =>
    let a := cg.emit_value (fun id => Value.gep2 id
      (typeName ++ ".field" ++ toString i ++ ".addr") st all
      (Value.const_int LType.i32 0) (Value.const_int LType.i32 i))
    match codegen_expr init.2 a.2 with
    | Except.error e => Except.error e
    | Except.ok (none, cg1) =>
      Except.ok (false, cg1.error "failed generating initializer for struct field")
    | Except.ok (some v, cg1) =>
      let r := store_field typeName i (cg1.element_type st i) a.1 v cg1
      if r.1 then store_fields codegen_expr typeName st all rest (i + 1) r.2
      else Except.ok (false, r.2)

/-- `CodeGen::codegen_struct_literal` for a literal with the type `type` and the
initializers `inits`; `codegen_expr` is the lowering of expressions. -/
def codegen_struct_literal (codegen_expr : Lowering) (type : Ty) (inits : List FieldInit)
    (cg : CodeGen) : Except String (Option Value × CodeGen) :=
  match type with
  | Ty.NamedType typeName =>
    match cg.struct_decls.lookup typeName with
    | none => Except.ok (none, cg.error ("unknown struct type: " ++ typeName))
    | some sd =>
      match cg.get_or_create_named_struct typeName with
      | (none, cg1) =>
        Except.ok (none, cg1.error ("failed to get struct type for: " ++ typeName))
      | (some st, cg1) =>
        if !cg1.is_sized st then
          Except.ok (none, cg1.error ("struct type '" ++ typeName ++
            "' is not yet defined (opaque) -- ensure prepare_struct_types ran or the struct name matches"))
        else
          let all := cg1.create_entry_alloca st (typeName ++ ".tmp")
          match place_inits sd typeName inits (List.replicate sd.fields.length none) with
          | Except.error msg => Except.ok (none, all.2.error msg)
          | Except.ok positional =>
            match store_fields codegen_expr typeName st all.1 positional 0 all.2 with
            | Except.error e => Except.error e
            | Except.ok (true, cg2) => Except.ok (some all.1, cg2)
            | Except.ok (false, cg2) => Except.ok (none, cg2)
  | _ => Except.ok (none, cg.error "struct literal type must be a named type")

/-- `CodeGen::codegen_vardecl` for the declaration of `name` with the type `type` and
the initializer `init` (each `none` when absent); `codegen_expr` is the lowering of
expressions.  The lines written to `std::cout` are left out. -/
def codegen_vardecl (codegen_expr : Lowering) (name : String) (type : Option Ty)
    (init : Option Expr) (cg : CodeGen) : Except String (Option Value × CodeGen) :=
  let t := resolve_type_name type
  match cg.getLLVMType t with
  | Except.error e => Except.error e
  | Except.ok ty =>
    match init with
    | some (Expr.StructLiteral sl_type sl_inits) =>
      match codegen_struct_literal codegen_expr sl_type sl_inits cg with
      | Except.error e => Except.error e
      | Except.ok (none, cg1) => Except.ok (none, cg1)
      | Except.ok (some addr, cg1) => Except.ok (some addr, cg1.bind_local name t addr)
    | some e =>
      match codegen_expr e cg with
      | Except.error x => Except.error x
      | Except.ok (none, cg1) => Except.ok (none, cg1)
      | Except.ok (some initV, cg1) =>
        let it := initV.type
        let ty1 := if it.isFloatingPointTy then LType.double
          else if it.isPointerTy then it
          else if it.isIntegerTy then LType.i32
          else ty
        let t1 := if it.isFloatingPointTy then "i32"
          else if it.isPointerTy then t
          else if it.isIntegerTy then "i32"
          else t
        let a := cg1.create_entry_alloca ty1 name
        let cg2 := a.2.bind_local name t1 a.1
        let s :=
          if !(initV.type.same ty1) then
            if initV.type.isFloatingPointTy && ty1.isIntegerTy then
              cg2.emit_value (fun id => Value.cast id "" CastOp.fp_to_si initV ty1)
            else if initV.type.isIntegerTy && ty1.isFloatingPointTy then
              cg2.emit_value (fun id => Value.cast id "" CastOp.si_to_fp initV ty1)
            else if initV.type.isPointerTy && ty1.isPointerTy && !(initV.type.same ty1) then
              cg2.emit_value (fun id => Value.cast id "" CastOp.bitcast initV ty1)
            else (initV, cg2)
          else (initV, cg2)
        Except.ok (some a.1, s.2.create_store s.1 a.1)
    | none =>
      let a := cg.create_entry_alloca ty name
      let cg1 := a.2.create_store (Value.const_null ty) a.1
      Except.ok (some a.1, cg1.bind_local name t a.1)

end codegen

namespace codegen

open ast

/-- The address of field `i` of the struct at `all`: a `getelementptr` on `all` with the
indices 0 and `i`. -/
def is_field_addr (all : Value) (i : Nat) : Value → Bool
  | Value.gep2 _ _ _ base idx0 idx1 =>
    decide (base = all) && decide (idx0 = Value.const_int LType.i32 0) &&
      decide (idx1 = Value.const_int LType.i32 i)
  | _ => false

/-- The value of a store into field `i` of the struct at `all`, if the instruction is
one. -/
def field_store (all : Value) (i : Nat) : Instr → Option Value
  | Instr.store v addr => if is_field_addr all i addr then some v else none
  | _ => none

/-- The values that the instructions `code` store into field `i` of the struct at
`all`, in order. -/
def field_stores (all : Value) (code : List Instr) (i : Nat) : List Value :=
  code.filterMap (field_store all i)

/-- The value `w` is `v` as `codegen_struct_literal` stores it: `v` itself, a cast of
`v`, or what is loaded through `v` or through a cast of `v`. -/
def Stored (v w : Value) : Prop :=
  w = v ∨ (∃ id name op ty, w = Value.cast id name op v ty) ∨
  (∃ id name ty, w = Value.load id name ty v) ∨
  (∃ id name ty id2 name2 op ty2, w = Value.load id name ty (Value.cast id2 name2 op v ty2))

/-- The lowering `f` of expressions only appends instructions at the insertion point,
none of which stores into a field of the struct at `all`. -/
def Quiet (all : Value) (f : Lowering) : Prop :=
  ∀ e cg r cg1, f e cg = Except.ok (r, cg1) →
    ∃ ins, cg1.code = cg.code ++ ins ∧ ∀ i, field_stores all ins i = []

/-- The initializer `init` is lowered by `f` and its value is what `ins` stores into
field `i` of the struct at `all`, once. -/
def StoresInit (f : Lowering) (all : Value) (ins : List Instr) (i : Nat) (init : FieldInit) :
    Prop :=
  ∃ cg0 cg1 v w, f init.2 cg0 = Except.ok (some v, cg1) ∧ Stored v w ∧
    field_stores all ins i = [w]

end codegen

namespace codegen

/-- The name of a struct field. -/
def field_name : ast.StructField → String
  | ast.StructField.mk name _ _ _ => name

end codegen

namespace codegen

open ast

/-- A lowering for examples: a literal becomes the `i32` constant of its decimal text and
no instruction is made (the `INT` case of `codegen_literal`); other expressions give
`nullptr`. -/
def literal_lowering : Lowering := fun e cg =>
  match e with
  | Expr.Literal raw _ =>
    Except.ok (some (Value.const_int LType.i32
      (raw.toList.foldl (fun n c => 10 * n + (c.toNat - '0'.toNat)) 0)), cg)
  | _ => Except.ok (none, cg)

/-- The declaration `struct P { x i32  y i32 }`. -/
def example_struct : StructDecl :=
  StructDecl.mk "P"
    [StructField.mk "x" (some (Ty.NamedType "i32")) none false,
     StructField.mk "y" (some (Ty.NamedType "i32")) none false] false

/-- The state of the generator after `prepare_struct_types` for `example_struct`. -/
def example_state : CodeGen :=
  { struct_types := [("P", LType.struct "P")],
    struct_decls := [("P", example_struct)],
    struct_bodies := [("P", [LType.i32, LType.i32])] }

/-- The address that `codegen_struct_literal` returns in `example_state`. -/
def example_alloca : Value := Value.alloca 0 "P.tmp" (LType.struct "P")

/-- The address of field `i` of `example_alloca`, made as the value number `id`. -/
def example_field_addr (id i : Nat) : Value :=
  Value.gep2 id ("P.field" ++ toString i ++ ".addr") (LType.struct "P") example_alloca
    (Value.const_int LType.i32 0) (Value.const_int LType.i32 i)

end codegen

/-!
The code that `codegen_append_call` emits, and a machine that runs it.

The builder is modelled with the names of the blocks it creates and the instructions it
appends, each with the block at the insertion point.  The machine has a byte memory and
an environment that gives every value made so far its run-time value; integers are
taken modulo two to the power of their width, and an address computation (`inbounds`)
is not.  `malloc` and `alloca` take fresh memory from the address `brk` on and do not
fail; alignment is left out.
-/

namespace codegen

/-- A basic block: its name and its instructions. -/
structure Block where
  name : String
  instrs : List Instr
  deriving DecidableEq, Repr, Inhabited

/-- The builder: the names of the blocks of the current function in the order of their
creation, the instructions in the order in which they were appended, each with the name
of its block, the name of the block at the insertion point, and the number of values
made. -/
structure Builder where
  blocks : List String
  code : List (String × Instr)
  insert : String
  next_id : Nat
  deriving DecidableEq, Repr, Inhabited

/-- `BasicBlock::Create(context, name, curFn)`. -/
def Builder.create_block (b : Builder) (name : String) : Builder :=
  { b with blocks := b.blocks ++ [name] }

/-- `builder.SetInsertPoint(bb)`. -/
def Builder.set_insert_point (b : Builder) (name : String) : Builder :=
  { b with insert := name }

/-- An instruction appended at the insertion point. -/
def Builder.emit (b : Builder) (i : Instr) : Builder :=
  { b with code := b.code ++ [(b.insert, i)] }

/-- An instruction with a result, appended at the insertion point. -/
def Builder.value (b : Builder) (mk : Nat → Value) : Value × Builder :=
  (mk b.next_id, { b.emit (Instr.value (mk b.next_id)) with next_id := b.next_id + 1 })

/-- The instructions of the block `name`. -/
def block_code (code : List (String × Instr)) (name : String) : List Instr :=
  (code.filter (fun p => p.1 = name)).map Prod.snd

/-- The blocks of the function. -/
def Builder.result (b : Builder) : List Block :=
  b.blocks.map (fun name => { name := name, instrs := block_code b.code name })

/-- `builder.CreatePointerCast(v, ty, name)` and `builder.CreateBitCast(v, ty, name)`:
the value itself when it has the type already. -/
def Builder.pointer_cast (b : Builder) (v : Value) (ty : LType) (name : String) :
    Value × Builder :=
  if v.type.same ty then (v, b)
  else b.value (fun id => Value.cast id name CastOp.pointer_cast v ty)

/-- The part of the data layout of the module that `codegen_append_call` asks for. -/
structure DataLayout where
  pointer_bytes : Nat
  struct_bytes : String → Nat

/-- `dl.getTypeAllocSize(ty)`. -/
def DataLayout.alloc_size (dl : DataLayout) : LType → Nat
  | LType.void => 0
  | LType.i1 => 1
  | LType.i8 => 1
  | LType.i32 => 4
  | LType.i64 => 8
  | LType.float => 4
  | LType.double => 8
  | LType.ptr _ => dl.pointer_bytes
  | LType.struct name => dl.struct_bytes name

/-- `detail::getOrCreateArrayStruct`: the descriptor `{ i8*, i64, i64, i64 }` of a slice:
data, len, cap, elem_size. -/
def arrayStruct : LType := LType.struct "Array_internal"

/-- `ConstantInt::get(i32Ty, n)`. -/
def const32 (n : Nat) : Value := Value.const_int LType.i32 n

/-- `ConstantInt::get(i64Ty, n)`. -/
def const64 (n : Nat) : Value := Value.const_int LType.i64 n

/-- The lambda `make_elem_tmp_and_get_i8ptr` of `codegen_append_call`. -/
def make_elem_tmp (dl : DataLayout) (elemSizeValFinal val : Value) (b : Builder) :
    Value × Builder :=
  let i8ptrTy := LType.ptr LType.i8
  let (tmpAlloca, b) := b.value (fun id => Value.alloca_n id "elem_tmp" LType.i8 elemSizeValFinal)
  let (tmpI8Ptr, b) := b.pointer_cast tmpAlloca i8ptrTy "elem_tmp_i8ptr"
  let b := b.emit (Instr.memset tmpI8Ptr (Value.const_int LType.i8 0) elemSizeValFinal)
  let r : Value × Value × Builder :=
    if val.type.isPointerTy then
      let valSizeConst := const64 dl.pointer_bytes
      let (srcI8Ptr, b) := b.pointer_cast val i8ptrTy "elem_src_i8ptr_from_ptr"
      (valSizeConst, srcI8Ptr, b)
    else
      let valSizeConst := const64 (dl.alloc_size val.type)
      let (srcAlloca, b) := b.value (fun id => Value.alloca id "elem_src_tmp" val.type)
      let b := b.emit (Instr.store val srcAlloca)
      let (srcI8Ptr, b) := b.pointer_cast srcAlloca i8ptrTy "elem_src_i8ptr"
      (valSizeConst, srcI8Ptr, b)
  let valSizeConst := r.1
  let srcI8Ptr := r.2.1
  let b := r.2.2
  let (cmpElemLess, b) := b.value (fun id =>
    Value.icmp id "cmp_elem_less_val" Pred.ult elemSizeValFinal valSizeConst)
  let (copySize, b) := b.value (fun id =>
    Value.select id "copy_size" LType.i64 cmpElemLess elemSizeValFinal valSizeConst)
  let b := b.emit (Instr.memcpy tmpI8Ptr srcI8Ptr copySize)
  (tmpI8Ptr, b)

/-- The three blocks that write the element into the slot at `dest` and store the new
length: the pointer mode, the copy mode and the block after them, with the names of the
blocks and values as arguments.  As in the source, the block of the pointer mode is made
for every element, with the element as the source of its `llvm.memcpy`: for an element
that is no pointer that call does not match its callee, and the verifier refuses the
function (`Instr.call_matches`, `verifyFunction`). -/
def append_store_elem (dl : DataLayout) (elem dest lenVal lenPtr elemSizeValFinal : Value)
    (isPtrArray : Value) (bbPtrMode bbCopyMode bbAfterMode : String)
    (slot_ptrptr malloc_tok malloc_tok_i8 slot_ptr len_plus1 : String) (second_cast : Bool)
    (b : Builder) : Builder :=
  let i8ptrTy := LType.ptr LType.i8
  let b :=
    if !elem.type.isPointerTy then b.emit (Instr.br bbCopyMode)
    else b.emit (Instr.cond_br isPtrArray bbPtrMode bbCopyMode)
  let b := b.set_insert_point bbPtrMode
  let (slotPtrPtr, b) := b.pointer_cast dest (LType.ptr i8ptrTy) slot_ptrptr
  let srcSizeConst := const64 (dl.alloc_size elem.type * 2)
  let (mallocCall, b) := b.value (fun id => Value.call_malloc id malloc_tok srcSizeConst)
  let (mallocI8, b) := b.pointer_cast mallocCall i8ptrTy malloc_tok_i8
  let b := b.emit (Instr.memcpy mallocCall elem (const64 16))
  let r := if second_cast then b.pointer_cast dest (LType.ptr i8ptrTy) slot_ptr
    else (slotPtrPtr, b)
  let b := r.2.emit (Instr.store mallocI8 r.1)
  let b := b.emit (Instr.br bbAfterMode)
  let b := b.set_insert_point bbCopyMode
  let (tmpI8, b) := make_elem_tmp dl elemSizeValFinal elem b
  let b := b.emit (Instr.memcpy dest tmpI8 elemSizeValFinal)
  let b := b.emit (Instr.br bbAfterMode)
  let b := b.set_insert_point bbAfterMode
  let (newLen, b) := b.value (fun id =>
    Value.binop id len_plus1 BinOp.add LType.i64 lenVal (const64 1))
  let b := b.emit (Instr.store newLen lenPtr)
  b.emit (Instr.br "append_cont")

/-- The part of `codegen_append_call` from the descriptor pointer `arrValue` and the
element `elem` on: the blocks `append_has_space`, `append_grow` and `append_cont` with
the blocks of the two modes on either path.  The result is the value of the call. -/
def append_tail (dl : DataLayout) (arrValue elem : Value)
    (original_should_return_struct : Bool) (b : Builder) : Value × Builder :=
  let i64Ty := LType.i64
  let i8Ty := LType.i8
  let i8ptrTy := LType.ptr LType.i8
  let (dataPtrPtr, b) := b.value (fun id =>
    Value.gep2 id "data_ptr_ptr" arrayStruct arrValue (const32 0) (const32 0))
  let (lenPtr, b) := b.value (fun id =>
    Value.gep2 id "len_ptr" arrayStruct arrValue (const32 0) (const32 1))
  let (capPtr, b) := b.value (fun id =>
    Value.gep2 id "cap_ptr" arrayStruct arrValue (const32 0) (const32 2))
  let (elemSizePtr, b) := b.value (fun id =>
    Value.gep2 id "elem_size_ptr" arrayStruct arrValue (const32 0) (const32 3))
  let (lenVal, b) := b.value (fun id => Value.load id "len" i64Ty lenPtr)
  let (capVal, b) := b.value (fun id => Value.load id "cap" i64Ty capPtr)
  let (elemSizeValFinal, b) := b.value (fun id => Value.load id "elem_size" i64Ty elemSizePtr)
  let (rawDataPtr, b) := b.value (fun id => Value.load id "raw_data_ptr" i8ptrTy dataPtrPtr)
  let (rawDataPtr, b) := b.pointer_cast rawDataPtr i8ptrTy "raw_data_as_i8ptr"
  let (cmpHasSpace, b) := b.value (fun id => Value.icmp id "has_space" Pred.ult lenVal capVal)
  let b := b.create_block "append_has_space"
  let b := b.create_block "append_grow"
  let b := b.create_block "append_cont"
  let b := b.emit (Instr.cond_br cmpHasSpace "append_has_space" "append_grow")
  -- the path with space
  let b := b.set_insert_point "append_has_space"
  let (offsetBytes, b) := b.value (fun id =>
    Value.binop id "offset_bytes" BinOp.mul i64Ty lenVal elemSizeValFinal)
  let (destI8Ptr, b) := b.value (fun id =>
    Value.gep1 id "slot_i8ptr" i8Ty rawDataPtr offsetBytes)
  let cPtrSize := const64 dl.pointer_bytes
  let (isPtrArray, b) := b.value (fun id =>
    Value.icmp id "is_ptr_array" Pred.eq elemSizeValFinal cPtrSize)
  let b := b.create_block "append_ptr_mode"
  let b := b.create_block "append_copy_mode"
  let b := b.create_block "append_after_mode"
  let b := append_store_elem dl elem destI8Ptr lenVal lenPtr elemSizeValFinal isPtrArray
    "append_ptr_mode" "append_copy_mode" "append_after_mode"
    "slot_ptrptr" "malloc_tok" "malloc_tok_i8" "slot_ptr" "len_plus1" true b
  -- the path that grows
  let b := b.set_insert_point "append_grow"
  let zero64 := const64 0
  let one64 := const64 1
  let (capIsZero, b) := b.value (fun id => Value.icmp id "cap_is_zero" Pred.eq capVal zero64)
  let (capDbl, b) := b.value (fun id =>
    Value.binop id "cap_dbl" BinOp.mul i64Ty capVal (const64 2))
  let (newCap, b) := b.value (fun id => Value.select id "new_cap" i64Ty capIsZero one64 capDbl)
  let (newBytes, b) := b.value (fun id =>
    Value.binop id "new_bytes" BinOp.mul i64Ty newCap elemSizeValFinal)
  let (newRawOpaque, b) := b.value (fun id => Value.call_malloc id "new_data_raw_opaque" newBytes)
  let (newRawData, b) := b.pointer_cast newRawOpaque i8ptrTy "new_data_raw_i8"
  let (oldBytesToCopy, b) := b.value (fun id =>
    Value.binop id "bytes_to_copy" BinOp.mul i64Ty lenVal elemSizeValFinal)
  let (rawDataIsNull, b) := b.value (fun id =>
    Value.icmp id "raw_data_is_null" Pred.eq rawDataPtr (Value.const_null rawDataPtr.type))
  let (lenNotZero, b) := b.value (fun id => Value.icmp id "len_not_zero" Pred.ne lenVal zero64)
  let (notNull, b) := b.value (fun id => Value.not_ id "" rawDataIsNull)
  let (needCopy, b) := b.value (fun id =>
    Value.binop id "need_copy" BinOp.and_ LType.i1 lenNotZero notNull)
  let b := b.create_block "append_do_copy"
  let b := b.create_block "append_no_copy"
  let b := b.emit (Instr.cond_br needCopy "append_do_copy" "append_no_copy")
  let b := b.set_insert_point "append_do_copy"
  let b := b.emit (Instr.memcpy newRawData rawDataPtr oldBytesToCopy)
  let b := b.emit (Instr.br "append_no_copy")
  let b := b.set_insert_point "append_no_copy"
  let b := b.emit (Instr.store newRawData dataPtrPtr)
  let b := b.emit (Instr.store newCap capPtr)
  let (offsetBytes2, b) := b.value (fun id =>
    Value.binop id "offset_bytes_new" BinOp.mul i64Ty lenVal elemSizeValFinal)
  let (destI8PtrNew, b) := b.value (fun id =>
    Value.gep1 id "slot_new_i8ptr" i8Ty newRawData offsetBytes2)
  let b := b.create_block "append_ptr_mode_g"
  let b := b.create_block "append_copy_mode_g"
  let b := b.create_block "append_after_mode_g"
  let cPtrSize2 := const64 dl.pointer_bytes
  let (isPtrArrayGrow, b) := b.value (fun id =>
    Value.icmp id "is_ptr_array_grow" Pred.eq elemSizeValFinal cPtrSize2)
  let b := append_store_elem dl elem destI8PtrNew lenVal lenPtr elemSizeValFinal isPtrArrayGrow
    "append_ptr_mode_g" "append_copy_mode_g" "append_after_mode_g"
    "slot_ptrptr_new" "malloc_tok_g" "malloc_tok_i8_g" "" "len_plus1_after_grow" false b
  let b := b.set_insert_point "append_cont"
  if original_should_return_struct then
    b.value (fun id => Value.load id "append_return_struct" arrayStruct arrValue)
  else (arrValue, b)

/-- The blocks that `append_tail` makes in a function whose current block is `entry`,
when `next_id` values have been made before. -/
def append_blocks (dl : DataLayout) (arrValue elem : Value)
    (original_should_return_struct : Bool) (next_id : Nat) : List Block :=
  (append_tail dl arrValue elem original_should_return_struct
    { blocks := ["entry"], code := [], insert := "entry", next_id := next_id }).2.result

/-! The machine. -/

/-- The width in bits of the values of an integer type (64 for a pointer). -/
def LType.bits : LType → Nat
  | LType.i1 => 1
  | LType.i8 => 8
  | LType.i32 => 32
  | LType.i64 => 64
  | _ => 64

/-- The state of the machine: the run-time value of every value made so far (by `id`),
the bytes of the memory, the first address that was never handed out, and the sizes
and results of the calls of `malloc`, the latest first. -/
structure Machine where
  env : Nat → Nat
  mem : Nat → Nat
  brk : Nat
  mallocs : List (Nat × Nat)

/-- The environment with the value of `id` set. -/
def set_env (env : Nat → Nat) (id x : Nat) : Nat → Nat :=
  fun j => if j = id then x else env j

/-- The number whose `n` little-endian bytes are at `a`. -/
def read_le (mem : Nat → Nat) (a : Nat) : Nat → Nat
  | 0 => 0
  | n + 1 => mem a % 256 + 256 * read_le mem (a + 1) n

/-- The memory after the `n` little-endian bytes of `v` are written at `a`. -/
def write_le (mem : Nat → Nat) (a n v : Nat) : Nat → Nat :=
  fun x => if a ≤ x ∧ x < a + n then v / 256 ^ (x - a) % 256 else mem x

/-- The memory after `llvm.memcpy(dst, src, len)`. -/
def mem_copy (mem : Nat → Nat) (dst src len : Nat) : Nat → Nat :=
  fun x => if dst ≤ x ∧ x < dst + len then mem (src + (x - dst)) else mem x

/-- The memory after `llvm.memset(dst, byte, len)`. -/
def mem_set (mem : Nat → Nat) (dst byte len : Nat) : Nat → Nat :=
  fun x => if dst ≤ x ∧ x < dst + len then byte % 256 else mem x

/-- The `id` of the instruction or parameter that a value is; none for a constant. -/
def Value.result_id : Value → Option Nat
  | Value.const_int _ _ => none
  | Value.const_null _ => none
  | Value.const_fp _ _ => none
  | Value.func _ => none
  | Value.global_string id _ _ => some id
  | Value.call id _ _ _ => some id
  | Value.fcmp id _ _ _ _ => some id
  | Value.param id _ => some id
  | Value.alloca id _ _ => some id
  | Value.alloca_n id _ _ _ => some id
  | Value.gep1 id _ _ _ _ => some id
  | Value.gep2 id _ _ _ _ _ => some id
  | Value.load id _ _ _ => some id
  | Value.cast id _ _ _ _ => some id
  | Value.icmp id _ _ _ _ => some id
  | Value.binop id _ _ _ _ _ => some id
  | Value.not_ id _ _ => some id
  | Value.select id _ _ _ _ _ => some id
  | Value.call_malloc id _ _ => some id

/-- The run-time value of an operand: a constant is its value in the width of its type,
and every other value is what the environment has for it. -/
def eval (env : Nat → Nat) (v : Value) : Nat :=
  match v with
  | Value.const_int ty n => (n % (2 ^ ty.bits : Nat)).toNat
  | Value.const_null _ => 0
  | _ => match v.result_id with
    | some id => env id
    | none => 0

/-- The value of `x`, read as an integer of `from_bits` bits in two's complement, as one
of `to_bits` bits (`sext`). -/
def sign_extend (from_bits to_bits x : Nat) : Nat :=
  if x < 2 ^ (from_bits - 1) then x else x + 2 ^ to_bits - 2 ^ from_bits

/-- The run-time result of an instruction that has one, with the memory and the break
after it; none for the instructions that the machine does not model (the floating-point
instructions and casts, the calls other than that of `malloc`, the signed operations
and comparisons, and a structure field other than one of the descriptor, whose fields
lie 8 bytes apart). -/
def exec_value (dl : DataLayout) (m : Machine) : Value → Option (Nat × Machine)
  | Value.alloca _ _ allocated =>
    some (m.brk, { m with brk := m.brk + dl.alloc_size allocated })
  | Value.alloca_n _ _ allocated count =>
    some (m.brk, { m with brk := m.brk + dl.alloc_size allocated * eval m.env count })
  | Value.gep1 _ _ elem_ty base idx =>
    some (eval m.env base + dl.alloc_size elem_ty * eval m.env idx, m)
  | Value.gep2 _ _ src_ty base idx0 idx1 =>
    if src_ty = arrayStruct then
      some (eval m.env base + dl.alloc_size src_ty * eval m.env idx0 + 8 * eval m.env idx1, m)
    else none
  | Value.load _ _ ty addr => some (read_le m.mem (eval m.env addr) (dl.alloc_size ty), m)
  | Value.cast _ _ op v ty =>
    if op = CastOp.bitcast ∨ op = CastOp.pointer_cast ∨ op = CastOp.zext then
      some (eval m.env v, m)
    else if op = CastOp.sext then some (sign_extend v.type.bits ty.bits (eval m.env v), m)
    else if op = CastOp.trunc ∨ op = CastOp.int_to_ptr ∨ op = CastOp.ptr_to_int then
      some (eval m.env v % 2 ^ ty.bits, m)
    else none
  | Value.icmp _ _ pred a b =>
    let x := eval m.env a
    let y := eval m.env b
    match pred with
    | Pred.ult => some (if x < y then 1 else 0, m)
    | Pred.eq => some (if x = y then 1 else 0, m)
    | Pred.ne => some (if x = y then 0 else 1, m)
    | _ => none
  | Value.binop _ _ op ty a b =>
    let x := eval m.env a
    let y := eval m.env b
    match op with
    | BinOp.add => some ((x + y) % 2 ^ ty.bits, m)
    | BinOp.mul => some ((x * y) % 2 ^ ty.bits, m)
    | BinOp.and_ => some (Nat.land x y, m)
    | _ => none
  | Value.not_ _ _ a => some (2 ^ a.type.bits - 1 - eval m.env a, m)
  | Value.select _ _ _ c a b => some (if eval m.env c = 0 then eval m.env b else eval m.env a, m)
  | Value.call_malloc _ _ size =>
    some (m.brk, { m with brk := m.brk + eval m.env size,
                          mallocs := (eval m.env size, m.brk) :: m.mallocs })
  | _ => none

/-- One instruction that is not a terminator.  The machine runs a call whatever the
types of its operands are; whether a function with the call is left in the module is the
matter of the verifier (`verifyFunction`). -/
def exec_instr (dl : DataLayout) (m : Machine) : Instr → Option Machine
  | Instr.value v =>
    match exec_value dl m v, v.result_id with
    | some (x, m1), some id => some { m1 with env := set_env m1.env id x }
    | _, _ => none
  | Instr.store v addr =>
    some { m with mem := write_le m.mem (eval m.env addr) (dl.alloc_size v.type) (eval m.env v) }
  | Instr.memcpy dst src len =>
    some { m with mem := mem_copy m.mem (eval m.env dst) (eval m.env src) (eval m.env len) }
  | Instr.memset dst byte len =>
    some { m with mem := mem_set m.mem (eval m.env dst) (eval m.env byte) (eval m.env len) }
  | _ => none

/-- The instructions of a block, up to its terminator: the state after them and the
name of the next block, or none as the next block when the block has no terminator
(the block where the code generator goes on). -/
def exec_instrs (dl : DataLayout) : List Instr → Machine → Option (Machine × Option String)
  | [], m => some (m, none)
  | Instr.br target :: _, m => some (m, some target)
  | Instr.cond_br c if_true if_false :: _, m =>
    some (m, some (if eval m.env c = 0 then if_false else if_true))
  | i :: rest, m =>
    match exec_instr dl m i with
    | some m1 => exec_instrs dl rest m1
    | none => none

/-- The block of a name. -/
def find_block (blocks : List Block) (name : String) : Option Block :=
  blocks.find? (fun blk => blk.name = name)

/-- The run of the blocks from the block `name` on, for at most `fuel` blocks. -/
def run (dl : DataLayout) (blocks : List Block) : Nat → String → Machine → Option Machine
  | 0, _, _ => none
  | fuel + 1, name, m =>
    match find_block blocks name with
    | none => none
    | some blk =>
      match exec_instrs dl blk.instrs m with
      | none => none
      | some (m1, none) => some m1
      | some (m1, some next) => run dl blocks fuel next m1

/-- The data layout is one of a 64-bit target: a pointer takes 8 bytes, the descriptor
takes 32 bytes, and the size of every structure fits 64 bits. -/
def DataLayout.is64 (dl : DataLayout) : Prop :=
  dl.pointer_bytes = 8 ∧ dl.struct_bytes "Array_internal" = 32 ∧
    ∀ name, dl.struct_bytes name < 2 ^ 64

/-- An example of a data layout of a 64-bit target, with the descriptor as its only
structure. -/
def layout64 : DataLayout :=
  { pointer_bytes := 8, struct_bytes := fun name => if name = "Array_internal" then 32 else 0 }

/-- The fields of the descriptor at the address `a`. -/
def desc_data (m : Machine) (a : Nat) : Nat := read_le m.mem a 8
/-- The field `len` of the descriptor at the address `a`. -/
def desc_len (m : Machine) (a : Nat) : Nat := read_le m.mem (a + 8) 8
/-- The field `cap` of the descriptor at the address `a`. -/
def desc_cap (m : Machine) (a : Nat) : Nat := read_le m.mem (a + 16) 8
/-- The field `elem_size` of the descriptor at the address `a`. -/
def desc_elem_size (m : Machine) (a : Nat) : Nat := read_le m.mem (a + 24) 8

end codegen


/-!
The emitted code once more, block by block with the values under the names that they
have in `codegen_append_call`; `n` is the number of values made before.
-/

namespace codegen.append

/-- `dataPtrPtr`, the address of the field `data`. -/
@[simp]
def dataPtrPtr (arr : Value) (n : Nat) : Value :=
  Value.gep2 n "data_ptr_ptr" arrayStruct arr (const32 0) (const32 0)

/-- `lenPtr`, the address of the field `len`. -/
@[simp]
def lenPtr (arr : Value) (n : Nat) : Value :=
  Value.gep2 (n + 1) "len_ptr" arrayStruct arr (const32 0) (const32 1)

/-- `capPtr`, the address of the field `cap`. -/
@[simp]
def capPtr (arr : Value) (n : Nat) : Value :=
  Value.gep2 (n + 2) "cap_ptr" arrayStruct arr (const32 0) (const32 2)

/-- `elemSizePtr`, the address of the field `elem_size`. -/
@[simp]
def elemSizePtr (arr : Value) (n : Nat) : Value :=
  Value.gep2 (n + 3) "elem_size_ptr" arrayStruct arr (const32 0) (const32 3)

/-- `lenVal`. -/
@[simp]
def lenVal (arr : Value) (n : Nat) : Value :=
  Value.load (n + 4) "len" LType.i64 (lenPtr arr n)

/-- `capVal`. -/
@[simp]
def capVal (arr : Value) (n : Nat) : Value :=
  Value.load (n + 5) "cap" LType.i64 (capPtr arr n)

/-- `elemSizeValFinal`. -/
@[simp]
def elemSizeValFinal (arr : Value) (n : Nat) : Value :=
  Value.load (n + 6) "elem_size" LType.i64 (elemSizePtr arr n)

/-- `rawDataPtr`. -/
@[simp]
def rawDataPtr (arr : Value) (n : Nat) : Value :=
  Value.load (n + 7) "raw_data_ptr" (LType.ptr LType.i8) (dataPtrPtr arr n)

/-- `cmpHasSpace`. -/
@[simp]
def cmpHasSpace (arr : Value) (n : Nat) : Value :=
  Value.icmp (n + 8) "has_space" Pred.ult (lenVal arr n) (capVal arr n)

/-- The instructions put at the end of the current block. -/
@[simp]
def entry_code (arr : Value) (n : Nat) : List Instr :=
  [Instr.value (dataPtrPtr arr n), Instr.value (lenPtr arr n), Instr.value (capPtr arr n),
   Instr.value (elemSizePtr arr n), Instr.value (lenVal arr n), Instr.value (capVal arr n),
   Instr.value (elemSizeValFinal arr n), Instr.value (rawDataPtr arr n),
   Instr.value (cmpHasSpace arr n),
   Instr.cond_br (cmpHasSpace arr n) "append_has_space" "append_grow"]

/-- The branch to the modes: `bbCopyMode` for an element that is no pointer. -/
@[simp]
def mode_br (elem isPtrArray : Value) (bbPtrMode bbCopyMode : String) : Instr :=
  if elem.type.isPointerTy then Instr.cond_br isPtrArray bbPtrMode bbCopyMode
  else Instr.br bbCopyMode

/-- `offsetBytes`. -/
@[simp]
def offsetBytes (arr : Value) (n : Nat) : Value :=
  Value.binop (n + 9) "offset_bytes" BinOp.mul LType.i64 (lenVal arr n) (elemSizeValFinal arr n)

/-- `destI8Ptr`, the address of the slot `len` of the old buffer. -/
@[simp]
def destI8Ptr (arr : Value) (n : Nat) : Value :=
  Value.gep1 (n + 10) "slot_i8ptr" LType.i8 (rawDataPtr arr n) (offsetBytes arr n)

/-- `isPtrArray`. -/
@[simp]
def isPtrArray (dl : DataLayout) (arr : Value) (n : Nat) : Value :=
  Value.icmp (n + 11) "is_ptr_array" Pred.eq (elemSizeValFinal arr n) (const64 dl.pointer_bytes)

/-- The block `append_has_space`. -/
@[simp]
def has_space_code (dl : DataLayout) (arr elem : Value) (n : Nat) : List Instr :=
  [Instr.value (offsetBytes arr n), Instr.value (destI8Ptr arr n),
   Instr.value (isPtrArray dl arr n),
   mode_br elem (isPtrArray dl arr n) "append_ptr_mode" "append_copy_mode"]

/-- `mallocCall`, the block of memory for the copy of what a pointer element points to. -/
@[simp]
def mallocCall (dl : DataLayout) (elem : Value) (id : Nat) (name : String) : Value :=
  Value.call_malloc id name (const64 (dl.alloc_size elem.type * 2))

/-- The block of the pointer mode, for the slot at `dest`. -/
@[simp]
def ptr_mode_code (dl : DataLayout) (elem dest : Value) (id : Nat) (name after : String) :
    List Instr :=
  [Instr.value (mallocCall dl elem id name),
   Instr.memcpy (mallocCall dl elem id name) elem (const64 16),
   Instr.store (mallocCall dl elem id name) dest,
   Instr.br after]

/-- `tmpAlloca` of `make_elem_tmp_and_get_i8ptr`. -/
@[simp]
def tmpAlloca (arr : Value) (n id : Nat) : Value :=
  Value.alloca_n id "elem_tmp" LType.i8 (elemSizeValFinal arr n)

/-- `srcAlloca` of `make_elem_tmp_and_get_i8ptr`. -/
@[simp]
def srcAlloca (elem : Value) (id : Nat) : Value :=
  Value.alloca id "elem_src_tmp" elem.type

/-- `cmpElemLess` of `make_elem_tmp_and_get_i8ptr`. -/
@[simp]
def cmpElemLess (arr : Value) (n id srcSizeStatic : Nat) : Value :=
  Value.icmp id "cmp_elem_less_val" Pred.ult (elemSizeValFinal arr n) (const64 srcSizeStatic)

/-- `copySize` of `make_elem_tmp_and_get_i8ptr`. -/
@[simp]
def copySize (arr : Value) (n id srcSizeStatic : Nat) : Value :=
  Value.select (id + 1) "copy_size" LType.i64 (cmpElemLess arr n id srcSizeStatic)
    (elemSizeValFinal arr n) (const64 srcSizeStatic)

/-- The block of the copy mode, for the slot at `dest`: the code of
`make_elem_tmp_and_get_i8ptr` and the copy into the slot. -/
@[simp]
def copy_mode_code (dl : DataLayout) (arr elem dest : Value) (n id : Nat) (after : String) :
    List Instr :=
  if elem.type.isPointerTy then
    [Instr.value (tmpAlloca arr n id),
     Instr.memset (tmpAlloca arr n id) (Value.const_int LType.i8 0) (elemSizeValFinal arr n),
     Instr.value (cmpElemLess arr n (id + 1) dl.pointer_bytes),
     Instr.value (copySize arr n (id + 1) dl.pointer_bytes),
     Instr.memcpy (tmpAlloca arr n id) elem (copySize arr n (id + 1) dl.pointer_bytes),
     Instr.memcpy dest (tmpAlloca arr n id) (elemSizeValFinal arr n),
     Instr.br after]
  else
    [Instr.value (tmpAlloca arr n id),
     Instr.memset (tmpAlloca arr n id) (Value.const_int LType.i8 0) (elemSizeValFinal arr n),
     Instr.value (srcAlloca elem (id + 1)),
     Instr.store elem (srcAlloca elem (id + 1)),
     Instr.value (cmpElemLess arr n (id + 2) (dl.alloc_size elem.type)),
     Instr.value (copySize arr n (id + 2) (dl.alloc_size elem.type)),
     Instr.memcpy (tmpAlloca arr n id) (srcAlloca elem (id + 1))
       (copySize arr n (id + 2) (dl.alloc_size elem.type)),
     Instr.memcpy dest (tmpAlloca arr n id) (elemSizeValFinal arr n),
     Instr.br after]

/-- The number of values that the copy mode makes. -/
@[simp]
def copy_mode_values (elem : Value) : Nat :=
  if elem.type.isPointerTy then 3 else 4

/-- `newLen`. -/
@[simp]
def newLen (arr : Value) (n id : Nat) (name : String) : Value :=
  Value.binop id name BinOp.add LType.i64 (lenVal arr n) (const64 1)

/-- The block after the modes: the new length. -/
@[simp]
def after_mode_code (arr : Value) (n id : Nat) (name : String) : List Instr :=
  [Instr.value (newLen arr n id name), Instr.store (newLen arr n id name) (lenPtr arr n),
   Instr.br "append_cont"]

/-- `capIsZero`. -/
@[simp]
def capIsZero (arr : Value) (n g : Nat) : Value :=
  Value.icmp g "cap_is_zero" Pred.eq (capVal arr n) (const64 0)

/-- `capDbl`. -/
@[simp]
def capDbl (arr : Value) (n g : Nat) : Value :=
  Value.binop (g + 1) "cap_dbl" BinOp.mul LType.i64 (capVal arr n) (const64 2)

/-- `newCap`. -/
@[simp]
def newCap (arr : Value) (n g : Nat) : Value :=
  Value.select (g + 2) "new_cap" LType.i64 (capIsZero arr n g) (const64 1) (capDbl arr n g)

/-- `newBytes`. -/
@[simp]
def newBytes (arr : Value) (n g : Nat) : Value :=
  Value.binop (g + 3) "new_bytes" BinOp.mul LType.i64 (newCap arr n g) (elemSizeValFinal arr n)

/-- `newRawOpaque`, which is `newRawData` too. -/
@[simp]
def newRawData (arr : Value) (n g : Nat) : Value :=
  Value.call_malloc (g + 4) "new_data_raw_opaque" (newBytes arr n g)

/-- `oldBytesToCopy`. -/
@[simp]
def oldBytesToCopy (arr : Value) (n g : Nat) : Value :=
  Value.binop (g + 5) "bytes_to_copy" BinOp.mul LType.i64 (lenVal arr n) (elemSizeValFinal arr n)

/-- `rawDataIsNull`. -/
@[simp]
def rawDataIsNull (arr : Value) (n g : Nat) : Value :=
  Value.icmp (g + 6) "raw_data_is_null" Pred.eq (rawDataPtr arr n)
    (Value.const_null (LType.ptr LType.i8))

/-- `lenNotZero`. -/
@[simp]
def lenNotZero (arr : Value) (n g : Nat) : Value :=
  Value.icmp (g + 7) "len_not_zero" Pred.ne (lenVal arr n) (const64 0)

/-- The operand `builder.CreateNot(rawDataIsNull)`. -/
@[simp]
def notNull (arr : Value) (n g : Nat) : Value :=
  Value.not_ (g + 8) "" (rawDataIsNull arr n g)

/-- `needCopy`. -/
@[simp]
def needCopy (arr : Value) (n g : Nat) : Value :=
  Value.binop (g + 9) "need_copy" BinOp.and_ LType.i1 (lenNotZero arr n g) (notNull arr n g)

/-- The block `append_grow`; `g` is the number of values made before it. -/
@[simp]
def grow_code (arr : Value) (n g : Nat) : List Instr :=
  [Instr.value (capIsZero arr n g), Instr.value (capDbl arr n g), Instr.value (newCap arr n g),
   Instr.value (newBytes arr n g), Instr.value (newRawData arr n g),
   Instr.value (oldBytesToCopy arr n g), Instr.value (rawDataIsNull arr n g),
   Instr.value (lenNotZero arr n g), Instr.value (notNull arr n g),
   Instr.value (needCopy arr n g),
   Instr.cond_br (needCopy arr n g) "append_do_copy" "append_no_copy"]

/-- The block `append_do_copy`. -/
@[simp]
def do_copy_code (arr : Value) (n g : Nat) : List Instr :=
  [Instr.memcpy (newRawData arr n g) (rawDataPtr arr n) (oldBytesToCopy arr n g),
   Instr.br "append_no_copy"]

/-- `offsetBytes2`. -/
@[simp]
def offsetBytes2 (arr : Value) (n g : Nat) : Value :=
  Value.binop (g + 10) "offset_bytes_new" BinOp.mul LType.i64 (lenVal arr n)
    (elemSizeValFinal arr n)

/-- `destI8PtrNew`, the address of the slot `len` of the new buffer. -/
@[simp]
def destI8PtrNew (arr : Value) (n g : Nat) : Value :=
  Value.gep1 (g + 11) "slot_new_i8ptr" LType.i8 (newRawData arr n g) (offsetBytes2 arr n g)

/-- `isPtrArrayGrow`. -/
@[simp]
def isPtrArrayGrow (dl : DataLayout) (arr : Value) (n g : Nat) : Value :=
  Value.icmp (g + 12) "is_ptr_array_grow" Pred.eq (elemSizeValFinal arr n)
    (const64 dl.pointer_bytes)

/-- The block `append_no_copy`. -/
@[simp]
def no_copy_code (dl : DataLayout) (arr elem : Value) (n g : Nat) : List Instr :=
  [Instr.store (newRawData arr n g) (dataPtrPtr arr n),
   Instr.store (newCap arr n g) (capPtr arr n),
   Instr.value (offsetBytes2 arr n g), Instr.value (destI8PtrNew arr n g),
   Instr.value (isPtrArrayGrow dl arr n g),
   mode_br elem (isPtrArrayGrow dl arr n g) "append_ptr_mode_g" "append_copy_mode_g"]

/-- The block `append_cont`, as far as `codegen_append_call` fills it. -/
def cont_code (arr : Value) (original_should_return_struct : Bool) (id : Nat) : List Instr :=
  if original_should_return_struct then
    [Instr.value (Value.load id "append_return_struct" arrayStruct arr)]
  else []

/-- The number of values made before the block `append_grow`. -/
@[simp]
def grow_base (elem : Value) (n : Nat) : Nat := n + 14 + copy_mode_values elem

/-- The instructions `is` as instructions of the block `name`. -/
def tag (name : String) (is : List Instr) : List (String × Instr) :=
  is.map (fun i => (name, i))

/-- The blocks, in the order of their creation. -/
@[simp]
def code (dl : DataLayout) (arr elem : Value) (original_should_return_struct : Bool)
    (n : Nat) : List Block :=
  let g := grow_base elem n
  [{ name := "entry", instrs := entry_code arr n },
   { name := "append_has_space", instrs := has_space_code dl arr elem n },
   { name := "append_grow", instrs := grow_code arr n g },
   { name := "append_cont",
     instrs := cont_code arr original_should_return_struct (g + 15 + copy_mode_values elem) },
   { name := "append_ptr_mode",
     instrs := ptr_mode_code dl elem (destI8Ptr arr n) (n + 12) "malloc_tok" "append_after_mode" },
   { name := "append_copy_mode",
     instrs := copy_mode_code dl arr elem (destI8Ptr arr n) n (n + 13) "append_after_mode" },
   { name := "append_after_mode",
     instrs := after_mode_code arr n (n + 13 + copy_mode_values elem) "len_plus1" },
   { name := "append_do_copy", instrs := do_copy_code arr n g },
   { name := "append_no_copy", instrs := no_copy_code dl arr elem n g },
   { name := "append_ptr_mode_g",
     instrs := ptr_mode_code dl elem (destI8PtrNew arr n g) (g + 13) "malloc_tok_g"
       "append_after_mode_g" },
   { name := "append_copy_mode_g",
     instrs := copy_mode_code dl arr elem (destI8PtrNew arr n g) n (g + 14)
       "append_after_mode_g" },
   { name := "append_after_mode_g",
     instrs := after_mode_code arr n (g + 14 + copy_mode_values elem) "len_plus1_after_grow" }]

end codegen.append

namespace codegen

/-- The value `v` was made before the value number `n`: it is a constant, or its `id`
is less than `n`. -/
def Value.before (v : Value) (n : Nat) : Prop :=
  ∀ id, v.result_id = some id → id < n

/-- An example: a pointer to a descriptor, given as the value number 0. -/
def append_example_arr : Value := Value.param 0 (LType.ptr arrayStruct)

/-- An example: an element of the type `i32`, given as the value number 1. -/
def append_example_int : Value := Value.param 1 LType.i32

/-- An example: an element of a pointer type, given as the value number 1. -/
def append_example_ptr : Value := Value.param 1 (LType.ptr LType.i8)

/-- An example: a machine with a descriptor at the address 1000 with the given fields,
the values 1000 for the descriptor pointer and `e` for the element, and the break at
5000. -/
def append_example_machine (data len cap elem_size e : Nat) : Machine :=
  { env := set_env (set_env (fun _ => 0) 0 1000) 1 e,
    mem := write_le (write_le (write_le (write_le (fun _ => 0) 1000 8 data) 1008 8 len)
      1016 8 cap) 1024 8 elem_size,
    brk := 5000,
    mallocs := [] }

end codegen


namespace lex

/-- The cursor is at no blank, at no line feed and at no opening of a comment: the loop
of `skip_whitespace_and_comments` stops here without a step. -/
def Settled (L : Lexer) : Prop :=
  ¬ (peek_char L 0 = ' ' ∨ peek_char L 0 = '\t' ∨ peek_char L 0 = '\r') ∧
  peek_char L 0 ≠ '\n' ∧
  ¬ (peek_char L 0 = '/' ∧ (peek_char L 1 = '/' ∨ peek_char L 1 = '*'))

/-- The first line break of a run, in the words of the specification: the cursor moved
over blanks, over line comments up to the line feed that ends them, and over block
comments with the line feeds inside them, until it is at a line feed or at a character
that is neither blank nor the opening of a comment. -/
def skip_to_break : Nat → Lexer → Lexer
  | 0, L => L
  | fuel + 1, L =>
    let c := peek_char L 0
    if c = ' ' ∨ c = '\t' ∨ c = '\r' then skip_to_break fuel (advance L).2
    else if c = '/' then
      if peek_char L 1 = '/' then
        let L2 := (advance (advance L).2).2
        skip_to_break fuel (advance_until '\n' (remaining L2) L2 []).1
      else if peek_char L 1 = '*' then
        let L2 := (advance (advance L).2).2
        skip_to_break fuel (block_comment_loop (remaining L2) L2 1).1
      else L
    else L

/-- No two neighbours of a token list are both `NEWLINE`. -/
def NoNewlinePair (ts : List Token) : Prop :=
  ts.Chain' (fun a b => ¬ (a.type = TokenType.NEWLINE ∧ b.type = TokenType.NEWLINE))

end lex

namespace codegen

open ast

/-- The name at the core of a type, under its array and pointer layers; a function type
has none. -/
def core_name : Ty → Option String
  | Ty.NamedType name => some name
  | Ty.ArrayType elem _ _ => core_name elem
  | Ty.PointerType base => core_name base
  | Ty.FuncType _ _ => none

/-- The number of `ArrayType` layers around the core of a type. -/
def array_layers : Ty → Nat
  | Ty.NamedType _ => 0
  | Ty.ArrayType elem _ _ => array_layers elem + 1
  | Ty.PointerType base => array_layers base
  | Ty.FuncType _ _ => 0

/-- The number of `PointerType` layers around the core of a type. -/
def pointer_layers : Ty → Nat
  | Ty.NamedType _ => 0
  | Ty.ArrayType elem _ _ => pointer_layers elem
  | Ty.PointerType base => pointer_layers base + 1
  | Ty.FuncType _ _ => 0

end codegen

namespace codegen

/-- The code that `codegen_append_call` emits for one `append`, run `k` times in a row
(the `append` of a loop body); none when a run does not end. -/
def run_appends (dl : DataLayout) (arr elem : Value) (original_should_return_struct : Bool)
    (n : Nat) : Nat → Machine → Option Machine
  | 0, m => some m
  | k + 1, m =>
    match run_appends dl arr elem original_should_return_struct n k m with
    | none => none
    | some mk =>
      run dl (append_blocks dl arr elem original_should_return_struct n) 8 "entry" mk

end codegen

namespace codegen

/-- The value that the instruction makes, if it makes one, has an `id` from `n` on. -/
def Instr.from_ (n : Nat) (i : Instr) : Prop :=
  ∀ v, i = Instr.value v → ∀ id, v.result_id = some id → n ≤ id

end codegen


/-!
More functions of the code generator.  Where LLVM would stop at an assertion (a
`cast<>` to a type that the value does not have, which is undefined behaviour in a
build without assertions) and where a null pointer is dereferenced, the model returns
`Except.error`.  The constant folding of the builder is left out: every `Create...`
call makes an instruction.
-/

namespace codegen

open ast

/-- `builder.SetInsertPoint(bb)` for the block `name`. -/
def CodeGen.set_insert_point (cg : CodeGen) (name : String) : CodeGen :=
  { cg with code := cg.code ++ [Instr.label name] }

/-- An instruction without a result, appended at the insertion point. -/
def CodeGen.emit (cg : CodeGen) (i : Instr) : CodeGen :=
  { cg with code := cg.code ++ [i] }

/-- `builder.CreateCall(callee, args, name)` for a callee with the return type `ty`. -/
def CodeGen.create_call (cg : CodeGen) (callee : String) (ty : LType) (args : List Value)
    (name : String) : Value × CodeGen :=
  (Value.call cg.next_id name callee ty,
    { cg with code := cg.code ++ [Instr.call (Value.call cg.next_id name callee ty) args],
              next_id := cg.next_id + 1 })

/-- `builder.CreateBitCast(v, ty, name)`: the value itself when it has the type. -/
def CodeGen.create_bitcast (cg : CodeGen) (v : Value) (ty : LType) (name : String) :
    Value × CodeGen :=
  if v.type.same ty then (v, cg)
  else cg.emit_value (fun id => Value.cast id name CastOp.bitcast v ty)

/-- `builder.CreateIntCast(v, ty, isSigned, name)`: the value itself when it has the
type. -/
def CodeGen.create_int_cast (cg : CodeGen) (v : Value) (ty : LType) (name : String) :
    Value × CodeGen :=
  if v.type.same ty then (v, cg)
  else cg.emit_value (fun id => Value.cast id name CastOp.int_cast v ty)

/-- `CodeGen::make_global_string`: the address of a new global with the characters
`str`; no instruction is made. -/
def CodeGen.make_global_string (cg : CodeGen) (str name : String) : Value × CodeGen :=
  (Value.global_string cg.next_id (if name.isEmpty then ".str" else name) str,
    { cg with next_id := cg.next_id + 1 })

/-- `CodeGen::lookup_local_type`: the scopes from the innermost on. -/
def CodeGen.lookup_local_type (cg : CodeGen) (name : String) : Option String :=
  cg.locals_stack_type.reverse.findSome? (fun m => m.lookup name)

/-- `CodeGen::lookup_local`: the scopes from the innermost on, then `function_protos`. -/
def CodeGen.lookup_local (cg : CodeGen) (name : String) : Option Value :=
  match cg.locals_stack.reverse.findSome? (fun m => m.lookup name) with
  | some v => some v
  | none => cg.function_protos.lookup name

/-- `CodeGen::pop_scope`. -/
def CodeGen.pop_scope (cg : CodeGen) : CodeGen :=
  { cg with locals_stack := cg.locals_stack.dropLast,
            locals_stack_type := cg.locals_stack_type.dropLast }

/-- `Type::getIntegerBitWidth()`; none for a type that is no integer type. -/
def LType.int_bits : LType → Option Nat
  | LType.i1 => some 1
  | LType.i8 => some 8
  | LType.i32 => some 32
  | LType.i64 => some 64
  | _ => none

/-- `CodeGen::castToSameIntType`. -/
def CodeGen.castToSameIntType (cg : CodeGen) (v : Value) (targetType : LType) :
    Value × CodeGen :=
  if v.type.same targetType then (v, cg)
  else cg.emit_value (fun id => Value.cast id "" CastOp.int_cast v targetType)

/-- The choice of `targetType` in `codegen_binary`: the type of the wider operand. -/
def int_target (L R : Value) : Except String LType :=
  match L.type.int_bits, R.type.int_bits with
  | some l, some r => Except.ok (if l ≥ r then L.type else R.type)
  | _, _ => Except.error "getIntegerBitWidth: the type is no integer type"

/-- The blocks of the test for a zero divisor in `codegen_binary`: the branch, the block
`div_by_zero` with the call of `abort`, and the insertion point in `div_ok`. -/
def div_zero_check (isZero : Value) (cg : CodeGen) : CodeGen :=
  let cg1 := cg.emit (Instr.cond_br isZero "div_by_zero" "div_ok")
  let cg2 := cg1.set_insert_point "div_by_zero"
  let cg3 := (cg2.create_call "abort" LType.void [] "").2
  let cg4 := cg3.emit Instr.unreachable
  cg4.set_insert_point "div_ok"

/-- What the arithmetic part of `codegen_binary` leaves: the value that the function
returns there (`ret`), or the operands with which it goes on. -/
structure ArithResult where
  ret : Option Value
  L : Value
  R : Value

/-- A binary instruction on operands of the type `ty`, returned by `codegen_binary`. -/
def arith_return (cg : CodeGen) (op : BinOp) (ty : LType) (L R : Value) (name : String) :
    Except String (ArithResult × CodeGen) :=
  let r := cg.emit_value (fun id => Value.binop id name op ty L R)
  Except.ok ({ ret := some r.1, L := L, R := R }, r.2)

/-- The arithmetic part of `codegen_binary` (lines 49 to 112 and 148 to 215), by the
type of `L`; `gep_ty` is the element type of the `getelementptr` of pointer
arithmetic. -/
def binary_arith (gep_ty : LType) (op : String) (L R : Value) (cg : CodeGen) :
    Except String (ArithResult × CodeGen) :=
  let type := L.type
  if type.isFloatingPointTy then
    if op = "+" then arith_return cg BinOp.fadd type L R "addtmp"
    else if op = "-" then arith_return cg BinOp.fsub type L R "subtmp"
    else if op = "*" then arith_return cg BinOp.fmul type L R "multmp"
    else if op = "/" then arith_return cg BinOp.fdiv type L R "divtmp"
    else if op = "%" then arith_return cg BinOp.frem type L R "remtmp"
    else Except.ok ({ ret := none, L := L, R := R }, cg)
  else if type.isIntegerTy then
    match int_target L R with
    | Except.error e => Except.error e
    | Except.ok targetType =>
      let l := cg.castToSameIntType L targetType
      let r := l.2.castToSameIntType R targetType
      if op = "+" then arith_return r.2 BinOp.add targetType l.1 r.1 "addtmp"
      else if op = "-" then arith_return r.2 BinOp.sub targetType l.1 r.1 "subtmp"
      else if op = "*" then arith_return r.2 BinOp.mul targetType l.1 r.1 "multmp"
      else if op = "/" then arith_return r.2 BinOp.sdiv targetType l.1 r.1 "divtmp"
      else if op = "%" then arith_return r.2 BinOp.srem targetType l.1 r.1 "remtmp"
      else if op = "<<" then arith_return r.2 BinOp.shl targetType l.1 r.1 "shltmp"
      else if op = ">>" then arith_return r.2 BinOp.ashr targetType l.1 r.1 "shrtmp"
      else Except.ok ({ ret := none, L := l.1, R := r.1 }, r.2)
  else if type.isPointerTy then
    if op = "+" then
      if R.type.isIntegerTy then
        let g := cg.emit_value (fun id => Value.gep1 id "ptraddtmp" gep_ty L R)
        Except.ok ({ ret := some g.1, L := L, R := R }, g.2)
      else Except.ok ({ ret := none, L := L, R := R }, cg.error "pointer addition requires integer")
    else if op = "-" then
      if R.type.isIntegerTy then
        let n := cg.emit_value (fun id => Value.binop id "" BinOp.sub R.type
          (Value.const_int R.type 0) R)
        let g := n.2.emit_value (fun id => Value.gep1 id "ptrsubtmp" gep_ty L n.1)
        Except.ok ({ ret := some g.1, L := L, R := R }, g.2)
      else
        Except.ok ({ ret := none, L := L, R := R },
          cg.error "pointer subtraction requires integer")
    else Except.ok ({ ret := none, L := L, R := R }, cg)
  else
    Except.ok ({ ret := none, L := L, R := R },
      cg.error "unsupported operand type for binary operator")

/-- `builder.CreateZExt(c, get_int_type())` of a comparison, returned. -/
def zext_return (c : Value × CodeGen) : Except String (Option Value × CodeGen) :=
  let z := c.2.emit_value (fun id => Value.cast id "" CastOp.zext c.1 LType.i32)
  Except.ok (some z.1, z.2)

/-- The end of `codegen_binary` (lines 257 to 274): `&&` and `||`, and the error for
every other operator. -/
def binary_logic (op : String) (L R : Value) (cg : CodeGen) :
    Except String (Option Value × CodeGen) :=
  if op = "&&" ∨ op = "||" then
    let lb := cg.emit_value (fun id => Value.icmp id "lhsbool" Pred.ne L
      (Value.const_int LType.i32 0))
    let rb := lb.2.emit_value (fun id => Value.icmp id "rhsbool" Pred.ne R
      (Value.const_int LType.i32 0))
    if op = "&&" then
      zext_return (rb.2.emit_value (fun id => Value.binop id "andtmp" BinOp.and_ LType.i1
        lb.1 rb.1))
    else
      zext_return (rb.2.emit_value (fun id => Value.binop id "ortmp" BinOp.or_ LType.i1
        lb.1 rb.1))
  else Except.ok (none, cg.error ("unsupported binary op: " ++ op))

/-- The branch of `codegen_binary` for an operand of a floating-point type (lines 21 to
122). -/
def binary_fp (op : String) (L R : Value) (cg : CodeGen) :
    Except String (Option Value × CodeGen) :=
  let l := if !L.type.isFloatingPointTy then
      cg.emit_value (fun id => Value.cast id "sitofp_l" CastOp.si_to_fp L LType.double)
    else (L, cg)
  let r := if !R.type.isFloatingPointTy then
      l.2.emit_value (fun id => Value.cast id "sitofp_r" CastOp.si_to_fp R LType.double)
    else (R, l.2)
  let cg1 := if op = "/" ∨ op = "%" then
      let z := r.2.emit_value (fun id => Value.fcmp id "div_zero_cmp" FPred.ueq r.1
        (Value.const_fp LType.double "0.0"))
      div_zero_check z.1 z.2
    else r.2
  match binary_arith l.1.type op l.1 r.1 cg1 with
  | Except.error e => Except.error e
  | Except.ok (a, cg2) =>
    match a.ret with
    | some v => Except.ok (some v, cg2)
    | none =>
      if op = ">" then
        zext_return (cg2.emit_value (fun id => Value.fcmp id "cmptmp" FPred.ugt a.L a.R))
      else if op = "<" then
        zext_return (cg2.emit_value (fun id => Value.fcmp id "cmptmp" FPred.ult a.L a.R))
      else if op = ">=" then
        zext_return (cg2.emit_value (fun id => Value.fcmp id "cmptmp" FPred.uge a.L a.R))
      else if op = "<=" then
        zext_return (cg2.emit_value (fun id => Value.fcmp id "cmptmp" FPred.ule a.L a.R))
      else binary_logic op a.L a.R cg2

/-- The branch of `codegen_binary` for operands of which none has a floating-point type
(lines 123 to 255). -/
def binary_int (op : String) (L R : Value) (cg : CodeGen) :
    Except String (Option Value × CodeGen) :=
  let cg1 := if op = "/" ∨ op = "%" then
      let z := cg.emit_value (fun id => Value.icmp id "div_zero_cmp_int" Pred.eq R
        (Value.const_int LType.i32 0))
      div_zero_check z.1 z.2
    else cg
  match binary_arith LType.i8 op L R cg1 with
  | Except.error e => Except.error e
  | Except.ok (a, cg2) =>
    match a.ret with
    | some v => Except.ok (some v, cg2)
    | none =>
      if a.L.type.isPointerTy || a.R.type.isPointerTy then
        if !a.L.type.isPointerTy then
          Except.error "cast<PointerType>: the type is no pointer type"
        else
          let nullPtr := Value.const_null a.L.type
          if op = "==" then
            zext_return (cg2.emit_value (fun id => Value.icmp id "cmptmp" Pred.eq a.L
              nullPtr))
          else if op = "!=" then
            zext_return (cg2.emit_value (fun id => Value.icmp id "cmptmp" Pred.ne a.L
              nullPtr))
          else binary_logic op a.L a.R (cg2.error ("unsupported pointer comparison for " ++ op))
      else
        match int_target a.L a.R with
        | Except.error e => Except.error e
        | Except.ok targetType =>
          let l := cg2.castToSameIntType a.L targetType
          let r := l.2.castToSameIntType a.R targetType
          let cmp := fun (p : Pred) =>
            zext_return (r.2.emit_value (fun id => Value.icmp id "cmptmp" p l.1 r.1))
          if op = ">" then cmp Pred.sgt
          else if op = "<" then cmp Pred.slt
          else if op = ">=" then cmp Pred.sge
          else if op = "<=" then cmp Pred.sle
          else if op = "==" then cmp Pred.eq
          else if op = "!=" then cmp Pred.ne
          else binary_logic op l.1 r.1 r.2

/-- `CodeGen::codegen_binary` for the expression `left op right`; `codegen_expr` is the
lowering of expressions. -/
def codegen_binary (codegen_expr : Lowering) (op : String) (left right : Expr)
    (cg : CodeGen) : Except String (Option Value × CodeGen) :=
  match codegen_expr left cg with
  | Except.error e => Except.error e
  | Except.ok (l, cg1) =>
    match codegen_expr right cg1 with
    | Except.error e => Except.error e
    | Except.ok (r, cg2) =>
      match l, r with
      | some L, some R =>
        if L.type.isFloatingPointTy || R.type.isFloatingPointTy then binary_fp op L R cg2
        else binary_int op L R cg2
      | _, _ => Except.ok (none, cg2)

end codegen

namespace codegen

open ast

/-- `CodeGen::codegen_ident`: what is bound by an `alloca` is loaded, every other value
is returned itself (the model has no `GlobalVariable`). -/
def codegen_ident (name : String) (cg : CodeGen) : Except String (Option Value × CodeGen) :=
  match cg.lookup_local name with
  | none => Except.ok (none, cg.error ("unknown identifier: " ++ name))
  | some v =>
    match v with
    | Value.alloca _ _ allocated =>
      let l := cg.emit_value (fun id => Value.load id (name ++ ".val") allocated v)
      Except.ok (some l.1, l.2)
    | Value.alloca_n _ _ allocated _ =>
      let l := cg.emit_value (fun id => Value.load id (name ++ ".val") allocated v)
      Except.ok (some l.1, l.2)
    | _ => Except.ok (some v, cg)

/-- A lowering for examples: identifiers as `codegen_ident` lowers them, decimal integer
literals as `literal_lowering` does, and `nullptr` for every other expression. -/
def ident_lowering : Lowering := fun e cg =>
  match e with
  | Expr.Ident name => codegen_ident name cg
  | _ => literal_lowering e cg

/-- The bindings in the body of `fn f(p *i32, q *i32)`: the two pointer arguments,
bound as they are. -/
def example_ptr_state : CodeGen :=
  { locals_stack := [[("q", Value.param 1 (LType.ptr LType.i32)),
      ("p", Value.param 0 (LType.ptr LType.i32))], []],
    locals_stack_type := [[("q", "i32_params"), ("p", "i32_params")], []],
    next_id := 2 }

end codegen

namespace codegen

open ast

/-- The integer type `IntegerType::get(context, bits)`, for the widths of `LType` (a
pointer has 32 or 64 bits on the targets of the compiler). -/
def int_type_of_bits (bits : Nat) : LType :=
  if bits = 1 then LType.i1
  else if bits = 8 then LType.i8
  else if bits = 32 then LType.i32
  else LType.i64

/-- The flag `isStr` of `codegen_len_call`; the null pointer that `lookup_local_type`
returns for a name without a binding is dereferenced. -/
def len_is_str (arg : Expr) (cg : CodeGen) : Except String Bool :=
  match arg with
  | Expr.Ident name =>
    match cg.lookup_local_type name with
    | none => Except.error "null pointer dereference"
    | some t => Except.ok (decide (t = "string"))
  | Expr.IndexExpr (Expr.Ident name) _ =>
    match cg.lookup_local_type name with
    | none => Except.error "null pointer dereference"
    | some t => Except.ok (decide ((parse_type_chain t).base = "string"))
  | _ => Except.ok false

/-- The descriptor pointer that `codegen_len_call` makes of the value `arr` (lines 91
to 123); `nullptr` after an error. -/
def len_arr_ptr (dl : DataLayout) (arr : Value) (cg : CodeGen) : Option Value × CodeGen :=
  let arrTy := arr.type
  if arrTy.isPointerTy then
    let c := cg.create_bitcast arr (LType.ptr arrayStruct) "arr_cast"
    (some c.1, c.2)
  else if arrTy.isIntegerTy then
    if arrTy.int_bits = some (dl.pointer_bytes * 8) then
      let c := cg.emit_value (fun id => Value.cast id "arr_inttoptr" CastOp.int_to_ptr arr
        (LType.ptr arrayStruct))
      (some c.1, c.2)
    else (none, cg.error "len: integer argument has wrong width (not pointer-sized)")
  else if arrTy.isStructTy then
    let allocaInst := cg.emit_value (fun id => Value.alloca id "arr_tmp_byval" arrayStruct)
    (some allocaInst.1, allocaInst.2.create_store arr allocaInst.1)
  else (none, cg.error "len: unsupported argument type")

/-- The part of `CodeGen::codegen_len_call` after the argument is lowered to `arr`
(lines 47 to 130). -/
def len_of_value (dl : DataLayout) (arr : Value) (isStr : Bool) (cg : CodeGen) :
    Except String (Option Value × CodeGen) :=
  let zero32 := Value.const_int LType.i32 0
  let idxLen := Value.const_int LType.i32 1
  if arr.type.isPointerTy && isStr then
    let strPtr := cg.create_bitcast arr (LType.ptr LType.i8) "str_cast"
    let ptrBits := dl.pointer_bytes * 8
    let lenSizeT := strPtr.2.create_call "strlen" (int_type_of_bits ptrBits) [strPtr.1]
      "strlen_call"
    if ptrBits > 32 then
      let t := lenSizeT.2.emit_value (fun id => Value.cast id "strlen_trunc" CastOp.trunc
        lenSizeT.1 LType.i32)
      Except.ok (some t.1, t.2)
    else if ptrBits < 32 then
      let z := lenSizeT.2.emit_value (fun id => Value.cast id "strlen_zext" CastOp.zext
        lenSizeT.1 LType.i32)
      Except.ok (some z.1, z.2)
    else Except.ok (some lenSizeT.1, lenSizeT.2)
  else
    match len_arr_ptr dl arr cg with
    | (none, cg1) => Except.ok (none, cg1)
    | (some arr1, cg1) =>
      let lenPtr := cg1.emit_value (fun id => Value.gep2 id "len_ptr" arrayStruct arr1 zero32
        idxLen)
      let lenVal := lenPtr.2.emit_value (fun id => Value.load id "len" LType.i32 lenPtr.1)
      Except.ok (some lenVal.1, lenVal.2)

/-- `CodeGen::codegen_len_call` for the call `len(args)`; `codegen_expr` is the lowering
of expressions and `dl` the data layout of the module. -/
def codegen_len_call (codegen_expr : Lowering) (dl : DataLayout) (args : List Expr)
    (cg : CodeGen) : Except String (Option Value × CodeGen) :=
  match args with
  | [arg] =>
    match codegen_expr arg cg with
    | Except.error e => Except.error e
    | Except.ok (none, cg1) => Except.ok (none, cg1)
    | Except.ok (some arr, cg1) =>
      match len_is_str arg cg1 with
      | Except.error e => Except.error e
      | Except.ok isStr => len_of_value dl arr isStr cg1
  | _ => Except.ok (none, cg.error "len expects 1 argument")

/-- The bindings in the body of `fn f(s string)`: the pointer argument, bound as it is
with the encoded type `string_params`. -/
def example_string_param_state : CodeGen :=
  { locals_stack := [[("s", Value.param 0 (LType.ptr LType.i8))], []],
    locals_stack_type := [[("s", "string_params")], []],
    next_id := 1 }

/-- The bindings after `s string = ...` in a function body: the `alloca` of the local
with the encoded type `string`. -/
def example_string_local_state : CodeGen :=
  { locals_stack := [[("s", Value.alloca 0 "s" (LType.ptr LType.i8))]],
    locals_stack_type := [[("s", "string")]],
    next_id := 1 }

end codegen

namespace codegen

open ast

/-- The body of the loop of `codegen_println_call` for the argument value `arg`: the
conversion specification, and the operand of `printf`. -/
def println_arg (arg : Value) (cg : CodeGen) : String × Value × CodeGen :=
  if arg.type.isPointerTy then
    let c := if !(arg.type.same (LType.ptr LType.i8)) then
        cg.emit_value (fun id => Value.cast id "cast_to_i8ptr" CastOp.bitcast arg
          (LType.ptr LType.i8))
      else (arg, cg)
    ("%s", c.1, c.2)
  else if arg.type.isFloatingPointTy then
    let c := if arg.type = LType.float then
        cg.emit_value (fun id => Value.cast id "cast_double" CastOp.fp_ext arg LType.double)
      else if arg.type ≠ LType.double then
        cg.emit_value (fun id => Value.cast id "cast_double" CastOp.fp_cast arg LType.double)
      else (arg, cg)
    ("%f", c.1, c.2)
  else if arg.type.isIntegerTy then
    let c := if arg.type ≠ LType.i64 then cg.create_int_cast arg LType.i32 "cast_i64"
      else (arg, cg)
    ("%lld", c.1, c.2)
  else
    let c := if !arg.type.isPointerTy then
        cg.emit_value (fun id => Value.cast id "cast_ptr" CastOp.bitcast arg
          (LType.ptr LType.i8))
      else (arg, cg)
    ("%p", c.1, c.2)

/-- The loop of `codegen_println_call` over the arguments, with `fmtStr` and
`printfArgs`; `none` when the function returns `nullptr` from inside the loop. -/
def println_args (codegen_expr : Lowering) :
    List Expr → String → List Value → CodeGen →
      Except String (Option (String × List Value) × CodeGen)
  | [], fmtStr, printfArgs, cg => Except.ok (some (fmtStr, printfArgs), cg)
  | e :: rest, fmtStr, printfArgs, cg =>
    match codegen_expr e cg with
    | Except.error x => Except.error x
    | Except.ok (none, cg1) => Except.ok (none, cg1)
    | Except.ok (some arg, cg1) =>
      let isLast := rest.isEmpty
      let r := println_arg arg cg1
      println_args codegen_expr rest (fmtStr ++ r.1 ++ (if !isLast then " " else ""))
        (printfArgs ++ [r.2.1]) r.2.2

/-- `CodeGen::codegen_println_call` for the call `println(args)`; `printf` returns an
`i32`. -/
def codegen_println_call (codegen_expr : Lowering) (args : List Expr) (cg : CodeGen) :
    Except String (Option Value × CodeGen) :=
  if args.isEmpty then
    let fmt := cg.make_global_string "\n" ".fmtln"
    let c := fmt.2.create_call "printf" LType.i32 [fmt.1] "call_printf"
    Except.ok (some c.1, c.2)
  else
    match println_args codegen_expr args "" [] cg with
    | Except.error x => Except.error x
    | Except.ok (none, cg1) => Except.ok (none, cg1)
    | Except.ok (some (fmtStr, printfArgs), cg1) =>
      let fmt := cg1.make_global_string (fmtStr ++ "\n") ".fmt"
      let c := fmt.2.create_call "printf" LType.i32 (fmt.1 :: printfArgs) "call_printf"
      Except.ok (some c.1, c.2)

/-- The operands of the calls of `callee` among the instructions. -/
def call_operands (callee : String) (code : List Instr) : List (List Value) :=
  code.filterMap (fun i =>
    match i with
    | Instr.call (Value.call _ _ c _) args => if c = callee then some args else none
    | _ => none)

end codegen

namespace codegen

open ast

/-- The functions of the code generator and of LLVM that the model takes as parameters:
the lowering of expressions, `codegen_index_addr`, the branch of `codegen_assign` for a
member target (lines 82 to 197) and its part after the target is resolved (lines 230 to
377), the lowering of the `if`, `for`, `break` and `continue` statements,
`prepare_struct_types`, and the verifiers (true when the function or module is
broken). -/
structure External where
  codegen_expr : Lowering
  codegen_index_addr : Expr → Expr → CodeGen → Except String (Option Value × CodeGen)
  assign_member : Expr → String → Expr → CodeGen → Except String (Option Value × CodeGen)
  assign_store : Expr → Value → Expr → CodeGen → Except String (Option Value × CodeGen)
  codegen_other_stmt : Stmt → CodeGen → Except String (Option Value × CodeGen)
  prepare_struct_types : Program → CodeGen → CodeGen
  verifyFunction : String → CodeGen → Bool
  verifyModule : CodeGen → Bool

/-- What the first part of `codegen_assign` leaves: the function has returned `r`, or
the target is resolved to `ptr`. -/
inductive AssignTarget where
  | returned (r : Option Value)
  | resolved (ptr : Value)

/-- The first part of `CodeGen::codegen_assign` (lines 13 to 228): the target. -/
def assign_target (ext : External) (target value : Expr) (cg : CodeGen) :
    Except String (AssignTarget × CodeGen) :=
  match target with
  | Expr.UnaryExpr op rhs =>
    if op = "&" then
      match rhs with
      | Expr.Ident name =>
        match cg.lookup_local name with
        | none =>
          Except.ok (AssignTarget.returned none,
            cg.error ("unknown identifier in & LHS: " ++ name))
        | some ptr => Except.ok (AssignTarget.resolved ptr, cg)
      | Expr.IndexExpr collection index =>
        match ext.codegen_index_addr collection index cg with
        | Except.error e => Except.error e
        | Except.ok (none, cg1) => Except.ok (AssignTarget.returned none, cg1)
        | Except.ok (some ptr, cg1) => Except.ok (AssignTarget.resolved ptr, cg1)
      | _ =>
        Except.ok (AssignTarget.returned none,
          cg.error "& LHS requires an identifier or index expression")
    else if op = "*" then
      match ext.codegen_expr rhs cg with
      | Except.error e => Except.error e
      | Except.ok (none, cg1) => Except.ok (AssignTarget.returned none, cg1)
      | Except.ok (some pval, cg1) =>
        if !pval.type.isPointerTy then
          Except.ok (AssignTarget.returned none, cg1.error "* LHS requires pointer value")
        else
          match pval with
          | Value.alloca _ _ allocated =>
            let l := cg1.emit_value (fun id => Value.load id "deref_load_ptr" allocated pval)
            Except.ok (AssignTarget.resolved l.1, l.2)
          | Value.alloca_n _ _ allocated _ =>
            let l := cg1.emit_value (fun id => Value.load id "deref_load_ptr" allocated pval)
            Except.ok (AssignTarget.resolved l.1, l.2)
          | _ => Except.ok (AssignTarget.resolved pval, cg1)
    else
      Except.ok (AssignTarget.returned none, cg.error ("unsupported unary on LHS: " ++ op))
  | Expr.MemberExpr object member =>
    match ext.assign_member object member value cg with
    | Except.error e => Except.error e
    | Except.ok (r, cg1) => Except.ok (AssignTarget.returned r, cg1)
  | Expr.Ident name =>
    match cg.lookup_local name with
    | none => Except.ok (AssignTarget.returned none, cg)
    | some ptr => Except.ok (AssignTarget.resolved ptr, cg)
  | Expr.IndexExpr collection index =>
    match ext.codegen_index_addr collection index cg with
    | Except.error e => Except.error e
    | Except.ok (none, cg1) => Except.ok (AssignTarget.returned none, cg1)
    | Except.ok (some ptr, cg1) => Except.ok (AssignTarget.resolved ptr, cg1)
  | Expr.StructLiteral type inits =>
    match codegen_struct_literal ext.codegen_expr type inits cg with
    | Except.error e => Except.error e
    | Except.ok (none, cg1) => Except.ok (AssignTarget.returned none, cg1)
    | Except.ok (some ptr, cg1) => Except.ok (AssignTarget.resolved ptr, cg1)
  | _ =>
    Except.ok (AssignTarget.returned none,
      cg.error "unsupported assignment target (could not resolve pointer)")

/-- `CodeGen::codegen_assign` for the statement `target = value`. -/
def codegen_assign (ext : External) (target value : Expr) (cg : CodeGen) :
    Except String (Option Value × CodeGen) :=
  match assign_target ext target value cg with
  | Except.error e => Except.error e
  | Except.ok (AssignTarget.returned r, cg1) => Except.ok (r, cg1)
  | Except.ok (AssignTarget.resolved ptr, cg1) => ext.assign_store target ptr value cg1

/-- `CodeGen::codegen_stmt`. -/
def codegen_stmt (ext : External) (s : Stmt) (cg : CodeGen) :
    Except String (Option Value × CodeGen) :=
  match s with
  | Stmt.ExprStmt expr => ext.codegen_expr expr cg
  | Stmt.ReturnStmt expr =>
    let rv : Except String (Option Value × CodeGen) :=
      match expr with
      | some e => ext.codegen_expr e cg
      | none => Except.ok (none, cg)
    match rv with
    | Except.error e => Except.error e
    | Except.ok (none, cg1) => Except.ok (none, cg1.emit (Instr.ret none))
    | Except.ok (some v, cg1) => Except.ok (none, cg1.emit (Instr.ret (some v)))
  | Stmt.VarDecl name type init => codegen_vardecl ext.codegen_expr name type init cg
  | Stmt.AssignStmt target value => codegen_assign ext target value cg
  | Stmt.BlockStmt _ => Except.ok (none, cg.error "unhandled stmt type in codegen")
  | other => ext.codegen_other_stmt other cg

/-- `CodeGen::codegen_block`: the statements in order. -/
def codegen_block (ext : External) : List Stmt → CodeGen → Except String CodeGen
  | [], cg => Except.ok cg
  | s :: rest, cg =>
    match codegen_stmt ext s cg with
    | Except.error e => Except.error e
    | Except.ok (_, cg1) => codegen_block ext rest cg1

end codegen

namespace codegen

open ast

mutual
/-- `CodeGen::resolve_type_from_ast_local`, with the map `struct_types` after it.  The
pointer to a function type has the pointee `void` here (`LType` has no function
types, and pointers are opaque). -/
def resolve_type_from_ast_local : Ty → StructTypes → Option LType × StructTypes
  | Ty.NamedType name, struct_types => resolve_type_by_name name struct_types
  | Ty.PointerType base, struct_types =>
    let r := resolve_type_from_ast_local base struct_types
    (some (LType.ptr (r.1.getD LType.i32)), r.2)
  | Ty.ArrayType elem _ _, struct_types =>
    let r := resolve_type_from_ast_local elem struct_types
    (some (LType.ptr (r.1.getD LType.i32)), r.2)
  | Ty.FuncType params ret, struct_types =>
    let st1 := resolve_param_types params struct_types
    let st2 := resolve_ret_type ret st1
    (some (LType.ptr LType.void), st2)
/-- The loop of `resolve_type_from_ast_local` over the parameters of a function type. -/
def resolve_param_types : List Ty → StructTypes → StructTypes
  | [], struct_types => struct_types
  | p :: ps, struct_types =>
    resolve_param_types ps (resolve_type_from_ast_local p struct_types).2
/-- The return type of a function type in `resolve_type_from_ast_local`. -/
def resolve_ret_type : Option Ty → StructTypes → StructTypes
  | none, struct_types => struct_types
  | some r, struct_types => (resolve_type_from_ast_local r struct_types).2
end

/-- The type of a parameter or of a return value: `resolve_type_from_ast_local`, and
`i32` when it gives `nullptr`. -/
def CodeGen.resolve_or_int (cg : CodeGen) (type : Ty) : LType × CodeGen :=
  let r := resolve_type_from_ast_local type cg.struct_types
  (r.1.getD LType.i32, { cg with struct_types := r.2 })

/-- The test of `predeclare_functions` and `codegen_function_decl` for a variadic
parameter that is not the last one. -/
def variadic_not_last (params : List Param) : Bool :=
  params.dropLast.any (fun p => p.variadic)

/-- The loop that fills `argTypes`: the types of the parameters that are not variadic. -/
def arg_types : List Param → CodeGen → List LType × CodeGen
  | [], cg => ([], cg)
  | p :: ps, cg =>
    if p.variadic then arg_types ps cg
    else
      let t := cg.resolve_or_int p.type
      let r := arg_types ps t.2
      (t.1 :: r.1, r.2)

/-- `returnType`: `void` without a return type. -/
def return_type (ret_type : Option Ty) (cg : CodeGen) : LType × CodeGen :=
  match ret_type with
  | none => (LType.void, cg)
  | some t => cg.resolve_or_int t

/-- The arguments of a new function with the parameter types `tys`: values that are
no instructions, numbered from `id` on. -/
def make_args : List LType → Nat → List Value
  | [], _ => []
  | t :: ts, id => Value.param id t :: make_args ts (id + 1)

/-- `Function::Create(functionType, ExternalLinkage, name, module)`. -/
def CodeGen.create_function (cg : CodeGen) (name : String) (argTypes : List LType)
    (ret : LType) (isVarArg : Bool) : CodeGen :=
  { cg with
    functions := map_set cg.functions name
      { arg_types := argTypes, ret := ret, var_arg := isVarArg,
        args := make_args argTypes cg.next_id, has_body := false },
    next_id := cg.next_id + argTypes.length }

/-- The same function type (the types are unique in the context). -/
def same_function_type (f : FunctionValue) (argTypes : List LType) (ret : LType)
    (isVarArg : Bool) : Bool :=
  decide (f.arg_types.length = argTypes.length) &&
    (f.arg_types.zip argTypes).all (fun p => p.1.same p.2) && f.ret.same ret &&
    decide (f.var_arg = isVarArg)

/-- The calls `addFunc(name, ret, args, vararg)` of `register_builtin_ffi`, and the
declaration of `syscall`, in order. -/
def builtin_ffi : List (String × LType × List LType × Bool) :=
  let iTy := LType.i32
  let dblTy := LType.double
  let voidTy := LType.void
  let i8ptr := LType.ptr LType.i8
  [("malloc", i8ptr, [iTy], false), ("calloc", i8ptr, [iTy, iTy], false),
   ("realloc", i8ptr, [i8ptr, iTy], false), ("free", voidTy, [i8ptr], false),
   ("puts", iTy, [i8ptr], false), ("putchar", iTy, [iTy], false),
   ("open", iTy, [i8ptr, iTy, iTy], false), ("close", iTy, [iTy], false),
   ("read", iTy, [iTy, i8ptr, iTy], false), ("write", iTy, [iTy, i8ptr, iTy], false),
   ("lseek", iTy, [iTy, iTy, iTy], false), ("fsync", iTy, [iTy], false),
   ("ftruncate", iTy, [iTy, iTy], false),
   ("socket", iTy, [iTy, iTy, iTy], false), ("bind", iTy, [iTy, i8ptr, iTy], false),
   ("listen", iTy, [iTy, iTy], false), ("accept", iTy, [iTy, i8ptr, i8ptr], false),
   ("connect", iTy, [iTy, i8ptr, iTy], false), ("send", iTy, [iTy, i8ptr, iTy, iTy], false),
   ("recv", iTy, [iTy, i8ptr, iTy, iTy], false),
   ("sendto", iTy, [iTy, i8ptr, iTy, iTy, i8ptr, iTy], false),
   ("recvfrom", iTy, [iTy, i8ptr, iTy, iTy, i8ptr, i8ptr], false),
   ("shutdown", iTy, [iTy, iTy], false),
   ("setsockopt", iTy, [iTy, iTy, iTy, i8ptr, iTy], false),
   ("getsockopt", iTy, [iTy, iTy, iTy, i8ptr, i8ptr], false),
   ("inet_pton", iTy, [iTy, i8ptr, i8ptr], false),
   ("inet_ntop", i8ptr, [iTy, i8ptr, i8ptr, iTy], false),
   ("htons", iTy, [iTy], false), ("ntohs", iTy, [iTy], false), ("htonl", iTy, [iTy], false),
   ("ntohl", iTy, [iTy], false),
   ("getaddrinfo", iTy, [i8ptr, i8ptr, i8ptr, i8ptr], false),
   ("freeaddrinfo", voidTy, [i8ptr], false),
   ("fork", iTy, [], false), ("execve", iTy, [i8ptr, i8ptr, i8ptr], false),
   ("waitpid", iTy, [iTy, i8ptr, iTy], false), ("exit", voidTy, [iTy], false),
   ("getpid", iTy, [], false), ("kill", iTy, [iTy, iTy], false),
   ("getenv", i8ptr, [i8ptr], false), ("setenv", iTy, [i8ptr, i8ptr, iTy], false),
   ("unsetenv", iTy, [i8ptr], false),
   ("time", iTy, [i8ptr], false), ("gettimeofday", iTy, [i8ptr, i8ptr], false),
   ("nanosleep", iTy, [i8ptr, i8ptr], false),
   ("mmap", i8ptr, [i8ptr, iTy, iTy, iTy, iTy, iTy], false),
   ("munmap", iTy, [i8ptr, iTy], false), ("mprotect", iTy, [i8ptr, iTy, iTy], false),
   ("pthread_create", iTy, [i8ptr, i8ptr, i8ptr, i8ptr], false),
   ("pthread_join", iTy, [i8ptr, i8ptr], false),
   ("pthread_mutex_init", iTy, [i8ptr, i8ptr], false),
   ("pthread_mutex_lock", iTy, [i8ptr], false),
   ("pthread_mutex_unlock", iTy, [i8ptr], false),
   ("pthread_cond_wait", iTy, [i8ptr, i8ptr], false),
   ("pthread_cond_signal", iTy, [i8ptr], false),
   ("sin", dblTy, [dblTy], false), ("cos", dblTy, [dblTy], false),
   ("tan", dblTy, [dblTy], false),
   ("pow", dblTy, [dblTy, dblTy], false), ("exp", dblTy, [dblTy], false),
   ("log", dblTy, [dblTy], false), ("fabs", dblTy, [dblTy], false),
   ("system", iTy, [i8ptr], false), ("uname", iTy, [i8ptr], false),
   ("syscall", iTy, [iTy], true),
   ("strlen", iTy, [i8ptr], false), ("strcpy", i8ptr, [i8ptr, i8ptr], false),
   ("strcmp", iTy, [i8ptr, i8ptr], false), ("memcpy", i8ptr, [i8ptr, i8ptr, iTy], false),
   ("memcmp", iTy, [i8ptr, i8ptr, iTy], false),
   ("memmove", i8ptr, [i8ptr, i8ptr, iTy], false),
   ("memset", i8ptr, [i8ptr, iTy, iTy], false),
   ("strstr", i8ptr, [i8ptr, i8ptr], false), ("strcat", i8ptr, [i8ptr, i8ptr], false),
   ("strncpy", i8ptr, [i8ptr, i8ptr, iTy], false), ("fchmod", iTy, [iTy, iTy], false)]

/-- `CodeGen::register_builtin_ffi` (the renaming of LLVM for a name that the module
has already is left out). -/
def register_builtin_ffi (cg : CodeGen) : CodeGen :=
  builtin_ffi.foldl (fun c f =>
    let c1 := c.create_function f.1 f.2.2.1 f.2.1 f.2.2.2
    { c1 with function_protos := map_set c1.function_protos f.1 (Value.func f.1) }) cg

/-- The body of the loop of `predeclare_functions` for one declaration. -/
def predeclare_function (name : String) (params : List Param) (ret_type : Option Ty)
    (cg : CodeGen) : CodeGen :=
  if (cg.function_protos.lookup name).isSome then cg
  else
    let isVarArg := match params.getLast? with
      | some p => p.variadic
      | none => false
    let cg1 := if variadic_not_last params then
        cg.error ("variadic parameter must be the last parameter in function: " ++ name)
      else cg
    let a := arg_types params cg1
    let r := return_type ret_type a.2
    match r.2.functions.lookup name with
    | some _ => { r.2 with function_protos := map_set r.2.function_protos name (Value.func name) }
    | none =>
      let c := r.2.create_function name a.1 r.1 isVarArg
      { c with function_protos := map_set c.function_protos name (Value.func name) }

/-- The function declarations of a program: name, parameters, return type, body. -/
def func_decls (prog : Program) : List (String × List Param × Option Ty × List Stmt) :=
  prog.decls.filterMap (fun d =>
    match d with
    | Decl.FuncDecl name _ params ret_type _ body => some (name, params, ret_type, body)
    | _ => none)

/-- `CodeGen::predeclare_functions`. -/
def predeclare_functions (decls : List (String × List Param × Option Ty × List Stmt))
    (cg : CodeGen) : CodeGen :=
  decls.foldl (fun c d => predeclare_function d.1 d.2.1 d.2.2.1 c) (register_builtin_ffi cg)

/-- The body of the loop of `codegen_function_decl` over the arguments: the binding of
the argument number `argIndex`, for the parameter `p` that it belongs to. -/
def bind_arg (arg : Value) (p : Option Param) (cg : CodeGen) : CodeGen :=
  let argName := match p with
    | some q => q.name
    | none => ""
  let pt := parse_type_chain (resolve_type_name (p.map (fun q => q.type)))
  if arg.type.isPointerTy then cg.bind_local argName (pt.base ++ "_params") arg
  else
    let localAlloca := cg.emit_value (fun id => Value.alloca id argName arg.type)
    let cg1 := localAlloca.2.create_store arg localAlloca.1
    cg1.bind_local argName (pt.base ++ "_params") localAlloca.1

/-- The loop of `codegen_function_decl` over the arguments of the function. -/
def bind_args (params : List Param) : List Value → Nat → CodeGen → CodeGen
  | [], _, cg => cg
  | arg :: rest, argIndex, cg =>
    bind_args params rest (argIndex + 1)
      (bind_arg arg ((params.filter (fun p => !p.variadic)).get? argIndex) cg)

/-- The last instruction at the insertion point is a terminator. -/
def has_terminator (code : List Instr) : Bool :=
  match code.getLast? with
  | some (Instr.br _) => true
  | some (Instr.cond_br _ _ _) => true
  | some (Instr.ret _) => true
  | some Instr.unreachable => true
  | _ => false

/-- The function `name` of the module with a basic block. -/
def CodeGen.add_entry_block (cg : CodeGen) (name : String) : CodeGen :=
  match cg.functions.lookup name with
  | some f => { cg with functions := map_set cg.functions name { f with has_body := true } }
  | none => cg

/-- The first part of `CodeGen::codegen_function_decl` (lines 164 to 296): the function
of the module, its entry block, the bindings of the parameters and the new scope.  The
result is `returnType` with the state, or as an error the state in which the function
returns `nullptr`.  The message for a type mismatch is given without the two printed
types at its end. -/
def function_entry (name : String) (params : List Param) (ret_type : Option Ty)
    (cg : CodeGen) : Except CodeGen (LType × CodeGen) :=
  let isVarArg := match params.getLast? with
    | some p => p.variadic
    | none => false
  let cg1 := if variadic_not_last params then
      cg.error ("variadic parameter must be the last parameter in function: " ++ name)
    else cg
  let a := arg_types params cg1
  let r := return_type ret_type a.2
  let found : Except CodeGen CodeGen :=
    match r.2.functions.lookup name with
    | none =>
      let c := r.2.create_function name a.1 r.1 isVarArg
      Except.ok { c with function_protos := map_set c.function_protos name (Value.func name) }
    | some f =>
      if !same_function_type f a.1 r.1 isVarArg then
        Except.error (r.2.error ("function declaration/definition type mismatch for: " ++ name))
      else if f.has_body then Except.error (r.2.error ("redefinition of function: " ++ name))
      else Except.ok r.2
  match found with
  | Except.error cgE => Except.error cgE
  | Except.ok cg2 =>
    let args := match cg2.functions.lookup name with
      | some f => f.args
      | none => []
    let cg3 := (cg2.add_entry_block name).set_insert_point "entry"
    let cg4 := bind_args params args 0 cg3
    let cg5 :=
      match params.getLast? with
      | some vparam =>
        if vparam.variadic then
          let e := cg4.resolve_or_int vparam.type
          let holderType := LType.ptr e.1
          let varAlloca := e.2.emit_value (fun id => Value.alloca id vparam.name holderType)
          let c := varAlloca.2.create_store (Value.const_null holderType) varAlloca.1
          c.bind_local vparam.name "ptr" varAlloca.1
        else cg4
      | none => cg4
    Except.ok (r.1, cg5.push_scope)

/-- The second part of `CodeGen::codegen_function_decl` (lines 298 to 321): the body,
the missing terminator, the verification and `pop_scope`; the result is false for
`nullptr`. -/
def function_body (ext : External) (name : String) (returnType : LType) (body : List Stmt)
    (cg : CodeGen) : Except String (Bool × CodeGen) :=
  match codegen_block ext body cg with
  | Except.error e => Except.error e
  | Except.ok cg7 =>
    let cg8 := if !has_terminator cg7.code then
        if returnType = LType.void then cg7.emit (Instr.ret none)
        else cg7.emit (Instr.ret (some (Value.const_null returnType)))
      else cg7
    if ext.verifyFunction name cg8 then
      let cg9 := cg8.error ("function verification failed: " ++ name)
      let cg10 := { cg9 with functions := cg9.functions.filter (fun kv => kv.1 ≠ name) }
      Except.ok (false, cg10.pop_scope)
    else Except.ok (true, cg8.pop_scope)

/-- `CodeGen::codegen_function_decl`; the result is false for `nullptr`. -/
def codegen_function_decl (ext : External) (name : String) (params : List Param)
    (ret_type : Option Ty) (body : List Stmt) (cg : CodeGen) : Except String (Bool × CodeGen) :=
  match function_entry name params ret_type cg with
  | Except.error cgE => Except.ok (false, cgE)
  | Except.ok (returnType, cg6) => function_body ext name returnType body cg6

/-- The loop of `generate` over the function declarations. -/
def generate_functions (ext : External) :
    List (String × List Param × Option Ty × List Stmt) → CodeGen → Except String CodeGen
  | [], cg => Except.ok cg
  | d :: rest, cg =>
    match codegen_function_decl ext d.1 d.2.1 d.2.2.1 d.2.2.2 cg with
    | Except.error e => Except.error e
    | Except.ok (_, cg1) => generate_functions ext rest cg1

/-- `CodeGen::generate`: the result and the state after it. -/
def generate (ext : External) (prog : Program) (cg : CodeGen) :
    Except String (Bool × CodeGen) :=
  let cg0 := { cg with failed := false }
  let cg1 := ext.prepare_struct_types prog cg0
  let funcPtrs := func_decls prog
  let cg2 := if !funcPtrs.isEmpty then predeclare_functions funcPtrs cg1 else cg1
  match generate_functions ext funcPtrs cg2 with
  | Except.error e => Except.error e
  | Except.ok cg3 =>
    let cg4 := prog.decls.foldl (fun c d =>
      match d with
      | Decl.StmtDecl _ =>
        c.error "top-level statements are not supported in codegen (please define fn main)"
      | _ => c) cg3
    if ext.verifyModule cg4 then Except.ok (false, cg4.error "module verification failed")
    else Except.ok (!cg4.failed, cg4)

end codegen

namespace codegen

open ast

/-- The state that the constructor `CodeGen::CodeGen` leaves: the module with the
declaration of `printf`. -/
def CodeGen.create : CodeGen :=
  ({} : CodeGen).create_function "printf" [LType.ptr LType.i8] LType.i32 true

/-- Parameters for examples without struct declarations, member targets, index
expressions and control flow: identifiers and integer literals are lowered as by
`ident_lowering`, `prepare_struct_types` clears its two maps (all that it does for a
program without struct declarations), the verifiers accept, and every other part stops
when it is called. -/
def example_external : External :=
  { codegen_expr := ident_lowering,
    codegen_index_addr := fun _ _ _ => Except.error "not in the example",
    assign_member := fun _ _ _ _ => Except.error "not in the example",
    assign_store := fun _ _ _ _ => Except.error "not in the example",
    codegen_other_stmt := fun _ _ => Except.error "not in the example",
    prepare_struct_types := fun _ cg => { cg with struct_types := [], struct_decls := [] },
    verifyFunction := fun _ _ => false,
    verifyModule := fun _ => false }

/-- The program `fn main()` with the body `x = 1`, as the parser returns it. -/
def example_assign_program : Program :=
  { decls := [Decl.FuncDecl "main" none [] none false
      [Stmt.AssignStmt (Expr.Ident "x") (Expr.Literal "1" lex.TokenType.INT)]] }

/-- The program `fn f(a i32)` with an empty body, as the parser returns it. -/
def example_param_program : Program :=
  { decls := [Decl.FuncDecl "f" none [{ name := "a", type := Ty.NamedType "i32" }] none false
      []] }

end codegen

/-!
The bounds check of an index expression (`array/index.h`, `array/addr.h`), emitted with
the builder of the append model and run on its machine.
-/

namespace codegen

/-- `builder.CreateSExtOrTrunc(v, ty, name)`. -/
def Builder.sext_or_trunc (b : Builder) (v : Value) (ty : LType) (name : String) :
    Value × Builder :=
  if v.type.bits < ty.bits then b.value (fun id => Value.cast id name CastOp.sext v ty)
  else if v.type.bits > ty.bits then b.value (fun id => Value.cast id name CastOp.trunc v ty)
  else (v, b)

/-- `builder.CreateCall(callee, args, name)` for a callee with the return type `ty`. -/
def Builder.call (b : Builder) (callee : String) (ty : LType) (args : List Value)
    (name : String) : Value × Builder :=
  (Value.call b.next_id name callee ty,
    { b.emit (Instr.call (Value.call b.next_id name callee ty) args) with
      next_id := b.next_id + 1 })

/-- The descriptor pointer `arrPtr` that `codegen_index` makes of the collection value
(lines 75 to 114 of `index.h`); none when the function returns `nullptr`.  The `alloca`
for a structure value is put at the start of the entry block. -/
def index_arr_ptr (dl : DataLayout) (colVal : Value) (b : Builder) : Option (Value × Builder) :=
  let arrayPtrTy := LType.ptr arrayStruct
  if colVal.type.isPointerTy then some (b.pointer_cast colVal arrayPtrTy "arr_cast")
  else if colVal.type.isStructTy then
    let tmp := Value.alloca b.next_id "arr_tmp_as_arrayStruct" arrayStruct
    let b1 := { b with code := ("entry", Instr.value tmp) :: b.code, next_id := b.next_id + 1 }
    if colVal.type = arrayStruct then some (tmp, b1.emit (Instr.store colVal tmp))
    else
      let c := b1.pointer_cast tmp (LType.ptr colVal.type) "arr_tmp_cast_for_store"
      some (tmp, c.2.emit (Instr.store colVal c.1))
  else if colVal.type.isIntegerTy then
    let c := if colVal.type.int_bits ≠ some (dl.pointer_bytes * 8) then
        b.sext_or_trunc colVal (int_type_of_bits (dl.pointer_bytes * 8)) "col_to_ptrint"
      else (colVal, b)
    some (c.2.value (fun id => Value.cast id "arr_from_intptr" CastOp.int_to_ptr c.1 arrayPtrTy))
  else none

/-- The descriptor pointer `arrPtr` that `codegen_index_addr` makes of the collection
value (lines 75 to 98 of `addr.h`). -/
def index_addr_arr_ptr (dl : DataLayout) (colVal : Value) (b : Builder) :
    Option (Value × Builder) :=
  let arrayPtrTy := LType.ptr arrayStruct
  if colVal.type.isPointerTy then some (b.pointer_cast colVal arrayPtrTy "arr_cast")
  else if colVal.type.isStructTy then
    let tmp := b.value (fun id => Value.alloca id "arr_tmp" colVal.type)
    let b1 := tmp.2.emit (Instr.store colVal tmp.1)
    some (b1.pointer_cast tmp.1 arrayPtrTy "arr_tmp_cast")
  else if colVal.type.isIntegerTy then
    let c := if colVal.type.int_bits ≠ some (dl.pointer_bytes * 8) then
        b.sext_or_trunc colVal (int_type_of_bits (dl.pointer_bytes * 8)) "col_to_ptrint"
      else (colVal, b)
    some (c.2.value (fun id => Value.cast id "arr_from_intptr" CastOp.int_to_ptr c.1 arrayPtrTy))
  else none

/-- The bounds check and the address of the element, the same statements in
`codegen_index` (lines 116 to 160 of `index.h`) and in `codegen_index_addr` (lines 100
to 145 of `addr.h`): the result is `elemPtrI8`; none when the index is no integer. -/
def index_check (arrPtr idxVal : Value) (b : Builder) : Option (Value × Builder) :=
  let i64Ty := LType.i64
  let i8Ty := LType.i8
  let i8PtrTy := LType.ptr LType.i8
  let idx : Option (Value × Builder) :=
    if idxVal.type ≠ i64Ty then
      if idxVal.type.isIntegerTy then some (b.sext_or_trunc idxVal i64Ty "idx_i64") else none
    else some (idxVal, b)
  match idx with
  | none => none
  | some (idxVal, b) =>
    let (lenFieldPtr, b) := b.value (fun id =>
      Value.gep2 id "len_ptr" arrayStruct arrPtr (const32 0) (const32 1))
    let (lenVal, b) := b.value (fun id => Value.load id "len" i64Ty lenFieldPtr)
    let (inRange, b) := b.value (fun id => Value.icmp id "idx_in_range" Pred.ult idxVal lenVal)
    let b := b.create_block "idx_ok"
    let b := b.create_block "idx_oob"
    let b := b.emit (Instr.cond_br inRange "idx_ok" "idx_oob")
    let b := b.set_insert_point "idx_oob"
    let b := (b.call "abort" LType.void [] "").2
    let b := b.emit Instr.unreachable
    let b := b.set_insert_point "idx_ok"
    let (dataFieldPtr, b) := b.value (fun id =>
      Value.gep2 id "data_field_ptr" arrayStruct arrPtr (const32 0) (const32 0))
    let (dataPtr, b) := b.value (fun id => Value.load id "data_ptr" i8PtrTy dataFieldPtr)
    let (elemSizePtr, b) := b.value (fun id =>
      Value.gep2 id "elem_size_ptr" arrayStruct arrPtr (const32 0) (const32 3))
    let (elemSizeVal, b) := b.value (fun id => Value.load id "elem_size" i64Ty elemSizePtr)
    let (offsetBytes, b) := b.value (fun id =>
      Value.binop id "offset_bytes" BinOp.mul i64Ty idxVal elemSizeVal)
    let (elemPtrI8, b) := b.value (fun id => Value.gep1 id "elem_ptr_i8" i8Ty dataPtr offsetBytes)
    some (elemPtrI8, b)

/-- The blocks that `codegen_index` makes for the collection value `colVal` and the index
value `idxVal` up to the address of the element (line 160), in a function whose current
block is `entry`, when `next_id` values have been made before. -/
def index_blocks (dl : DataLayout) (colVal idxVal : Value) (next_id : Nat) :
    Option (Value × List Block) :=
  match index_arr_ptr dl colVal
      { blocks := ["entry"], code := [], insert := "entry", next_id := next_id } with
  | none => none
  | some (arrPtr, b) =>
    match index_check arrPtr idxVal b with
    | none => none
    | some (elemPtrI8, b1) => some (elemPtrI8, b1.result)

/-- The blocks that `codegen_index_addr` makes, up to the address of the element (line
145). -/
def index_addr_blocks (dl : DataLayout) (colVal idxVal : Value) (next_id : Nat) :
    Option (Value × List Block) :=
  match index_addr_arr_ptr dl colVal
      { blocks := ["entry"], code := [], insert := "entry", next_id := next_id } with
  | none => none
  | some (arrPtr, b) =>
    match index_check arrPtr idxVal b with
    | none => none
    | some (elemPtrI8, b1) => some (elemPtrI8, b1.result)

/-- The integer that the `bits` bits of `x` stand for in two's complement. -/
def to_signed (bits x : Nat) : Int :=
  if x < 2 ^ (bits - 1) then (x : Int) else (x : Int) - 2 ^ bits

/-- An example: an index of the type `i32`, given as the value number 1. -/
def index_example_idx : Value := Value.param 1 LType.i32

end codegen

/-!
The code of the bounds check once more, block by block with the values under the names
that they have in `codegen_index`; `n` is the number of values made before.
-/

namespace codegen.index

/-- `idxVal` after line 120: the index as an `i64`, sign-extended when it is narrower. -/
def idx64 (idxVal : Value) (n : Nat) : Value :=
  if idxVal.type = LType.i64 then idxVal
  else Value.cast n "idx_i64" CastOp.sext idxVal LType.i64

/-- The number of values made before `lenFieldPtr`. -/
def base (idxVal : Value) (n : Nat) : Nat :=
  if idxVal.type = LType.i64 then n else n + 1

/-- `lenFieldPtr`, the address of the field `len`. -/
def lenFieldPtr (arrPtr : Value) (k : Nat) : Value :=
  Value.gep2 k "len_ptr" arrayStruct arrPtr (const32 0) (const32 1)

/-- `lenVal`. -/
def lenVal (arrPtr : Value) (k : Nat) : Value :=
  Value.load (k + 1) "len" LType.i64 (lenFieldPtr arrPtr k)

/-- `inRange`. -/
def inRange (arrPtr idx : Value) (k : Nat) : Value :=
  Value.icmp (k + 2) "idx_in_range" Pred.ult idx (lenVal arrPtr k)

/-- The instructions that the bounds check appends to the current block. -/
def entry_code (arrPtr idxVal : Value) (n : Nat) : List Instr :=
  (if idxVal.type = LType.i64 then [] else [Instr.value (idx64 idxVal n)]) ++
  [Instr.value (lenFieldPtr arrPtr (base idxVal n)),
   Instr.value (lenVal arrPtr (base idxVal n)),
   Instr.value (inRange arrPtr (idx64 idxVal n) (base idxVal n)),
   Instr.cond_br (inRange arrPtr (idx64 idxVal n) (base idxVal n)) "idx_ok" "idx_oob"]

/-- The block `idx_oob`. -/
def oob_code (k : Nat) : List Instr :=
  [Instr.call (Value.call (k + 3) "" "abort" LType.void) [], Instr.unreachable]

/-- `dataPtr`. -/
def dataPtr (arrPtr : Value) (k : Nat) : Value :=
  Value.load (k + 5) "data_ptr" (LType.ptr LType.i8)
    (Value.gep2 (k + 4) "data_field_ptr" arrayStruct arrPtr (const32 0) (const32 0))

/-- `elemSizeVal`. -/
def elemSizeVal (arrPtr : Value) (k : Nat) : Value :=
  Value.load (k + 7) "elem_size" LType.i64
    (Value.gep2 (k + 6) "elem_size_ptr" arrayStruct arrPtr (const32 0) (const32 3))

/-- `offsetBytes`. -/
def offsetBytes (arrPtr idx : Value) (k : Nat) : Value :=
  Value.binop (k + 8) "offset_bytes" BinOp.mul LType.i64 idx (elemSizeVal arrPtr k)

/-- `elemPtrI8`, the address of the element. -/
def elemPtrI8 (arrPtr idx : Value) (k : Nat) : Value :=
  Value.gep1 (k + 9) "elem_ptr_i8" LType.i8 (dataPtr arrPtr k) (offsetBytes arrPtr idx k)

/-- The block `idx_ok`, up to the address of the element. -/
def ok_code (arrPtr idx : Value) (k : Nat) : List Instr :=
  [Instr.value (Value.gep2 (k + 4) "data_field_ptr" arrayStruct arrPtr (const32 0) (const32 0)),
   Instr.value (dataPtr arrPtr k),
   Instr.value (Value.gep2 (k + 6) "elem_size_ptr" arrayStruct arrPtr (const32 0) (const32 3)),
   Instr.value (elemSizeVal arrPtr k),
   Instr.value (offsetBytes arrPtr idx k),
   Instr.value (elemPtrI8 arrPtr idx k)]

/-- The blocks, in the order of their creation. -/
def code (arrPtr idxVal : Value) (n : Nat) : List Block :=
  [{ name := "entry", instrs := entry_code arrPtr idxVal n },
   { name := "idx_ok", instrs := ok_code arrPtr (idx64 idxVal n) (base idxVal n) },
   { name := "idx_oob", instrs := oob_code (base idxVal n) }]

end codegen.index

namespace codegen

open ast

/-- `builder.CreateSExtOrTrunc(v, ty, name)` at the insertion point of the generator. -/
def CodeGen.sext_or_trunc (cg : CodeGen) (v : Value) (ty : LType) (name : String) :
    Value × CodeGen :=
  if v.type.bits < ty.bits then cg.emit_value (fun id => Value.cast id name CastOp.sext v ty)
  else if v.type.bits > ty.bits then
    cg.emit_value (fun id => Value.cast id name CastOp.trunc v ty)
  else (v, cg)

/-- What `codegen_index` and `codegen_index_addr` have made when the address of the
element is there: the function has returned `v` before (a C string, or `nullptr`), or
the blocks of the bounds check, from the current block on, with that address. -/
inductive IndexCode where
  | returned (v : Option Value) (cg : CodeGen)
  | checked (elemPtrI8 : Value) (blocks : List Block) (cg : CodeGen)

/-- The test of `codegen_index` and `codegen_index_addr` for a C string: the encoded type
has the base `base` and no array layer. -/
def is_c_string (t : String) (base : String) : Bool :=
  decide ((parse_type_chain t).base = base) && decide ((parse_type_chain t).array_depth = 0)

/-- The C-string cases of `codegen_index` (lines 38 to 73 of `index.h`) for a collection
that is an identifier: the value that the function returns there, or none when
it goes on to the bounds check.  The null pointer that `lookup_local_type` or
`lookup_local` returns for a name without a binding is dereferenced. -/
def index_c_string (collection : Expr) (idxVal : Value) (cg : CodeGen) :
    Except String (Option (Value × CodeGen)) :=
  match collection with
  | Expr.Ident name =>
    match cg.lookup_local_type name with
    | none => Except.error "null pointer dereference"
    | some t =>
      if is_c_string t "string" then
        match cg.lookup_local name with
        | none => Except.error "null pointer dereference"
        | some v =>
          let strPtr := cg.emit_value (fun id => Value.load id "" (LType.ptr LType.void) v)
          let charPtr := strPtr.2.emit_value (fun id =>
            Value.gep1 id "" LType.i8 strPtr.1 idxVal)
          let ch := charPtr.2.emit_value (fun id => Value.load id "" LType.i8 charPtr.1)
          Except.ok (some (ch.2.emit_value (fun id =>
            Value.cast id "" CastOp.zext ch.1 LType.i32)))
      else if is_c_string t "string_params" then
        match cg.lookup_local name with
        | none => Except.error "null pointer dereference"
        | some v =>
          let charPtr := cg.emit_value (fun id => Value.gep1 id "" LType.i8 v idxVal)
          let ch := charPtr.2.emit_value (fun id => Value.load id "" LType.i8 charPtr.1)
          Except.ok (some (ch.2.emit_value (fun id =>
            Value.cast id "" CastOp.zext ch.1 LType.i32)))
      else Except.ok none
  | _ => Except.ok none

/-- The C-string cases of `codegen_index_addr` (lines 37 to 73 of `addr.h`) for a
collection that is an identifier: what the function returns there (`nullptr`
for an index that is no integer), or none when it goes on to the bounds check. -/
def index_addr_c_string (collection : Expr) (colVal idxVal : Value) (cg : CodeGen) :
    Except String (Option (Option Value × CodeGen)) :=
  match collection with
  | Expr.Ident name =>
    match cg.lookup_local_type name with
    | none => Except.ok none
    | some t =>
      if is_c_string t "string" then
        let charPtr := cg.emit_value (fun id => Value.gep1 id "char_ptr" LType.i8 colVal idxVal)
        Except.ok (some (some charPtr.1, charPtr.2))
      else if is_c_string t "string_params" then
        match cg.lookup_local name with
        | none => Except.error "null pointer dereference"
        | some v =>
          if idxVal.type ≠ LType.i64 then
            if idxVal.type.isIntegerTy then
              let i := cg.sext_or_trunc idxVal LType.i64 "idx_i64"
              let charPtr := i.2.emit_value (fun id =>
                Value.gep1 id "charptr_params" LType.i8 v i.1)
              Except.ok (some (some charPtr.1, charPtr.2))
            else Except.ok (some (none, cg))
          else
            let charPtr := cg.emit_value (fun id =>
              Value.gep1 id "charptr_params" LType.i8 v idxVal)
            Except.ok (some (some charPtr.1, charPtr.2))
      else Except.ok none
  | _ => Except.ok none

/-- `CodeGen::codegen_index` for `collection[index]`, up to the address of the element
(line 160); the blocks of the bounds check are those of `index_blocks`, in a function
whose current block is `entry`. -/
def codegen_index (codegen_expr : Lowering) (dl : DataLayout) (collection index : Expr)
    (cg : CodeGen) : Except String IndexCode :=
  match codegen_expr collection cg with
  | Except.error e => Except.error e
  | Except.ok (none, cg1) => Except.ok (IndexCode.returned none cg1)
  | Except.ok (some colVal, cg1) =>
    match codegen_expr index cg1 with
    | Except.error e => Except.error e
    | Except.ok (none, cg2) => Except.ok (IndexCode.returned none cg2)
    | Except.ok (some idxVal, cg2) =>
      match index_c_string collection idxVal cg2 with
      | Except.error e => Except.error e
      | Except.ok (some (v, cg3)) => Except.ok (IndexCode.returned (some v) cg3)
      | Except.ok none =>
        match index_blocks dl colVal idxVal cg2.next_id with
        | none => Except.ok (IndexCode.returned none cg2)
        | some (elemPtrI8, blocks) => Except.ok (IndexCode.checked elemPtrI8 blocks cg2)

/-- `CodeGen::codegen_index_addr` for `collection[index]`, up to the address of the
element (line 145). -/
def codegen_index_addr (codegen_expr : Lowering) (dl : DataLayout) (collection index : Expr)
    (cg : CodeGen) : Except String IndexCode :=
  match codegen_expr collection cg with
  | Except.error e => Except.error e
  | Except.ok (none, cg1) => Except.ok (IndexCode.returned none cg1)
  | Except.ok (some colVal, cg1) =>
    match codegen_expr index cg1 with
    | Except.error e => Except.error e
    | Except.ok (none, cg2) => Except.ok (IndexCode.returned none cg2)
    | Except.ok (some idxVal, cg2) =>
      match index_addr_c_string collection colVal idxVal cg2 with
      | Except.error e => Except.error e
      | Except.ok (some (v, cg3)) => Except.ok (IndexCode.returned v cg3)
      | Except.ok none =>
        match index_addr_blocks dl colVal idxVal cg2.next_id with
        | none => Except.ok (IndexCode.returned none cg2)
        | some (elemPtrI8, blocks) => Except.ok (IndexCode.checked elemPtrI8 blocks cg2)

/-- The test of `codegen_index` and `codegen_index_addr` for a C string fails on the
collection: it is no identifier, or an identifier whose encoded type is neither `string`
nor `string_params` without an array layer.  This is the test of the code on the encoded
type, not a property of the declared type: a slice parameter declared `[]string` is
bound with the encoded type `string_params` and meets the test for a C string. -/
def not_c_string_case (collection : Expr) (cg : CodeGen) : Prop :=
  match collection with
  | Expr.Ident name =>
    ∃ t, cg.lookup_local_type name = some t ∧ is_c_string t "string" = false ∧
      is_c_string t "string_params" = false
  | _ => True

/-- The bindings in the body of `fn f(a []i32, i i32)`: the slice parameter `a`, a
pointer bound as it is, and the `alloca` of `i`. -/
def example_slice_state : CodeGen :=
  { locals_stack := [[("i", Value.alloca 2 "i" LType.i32),
      ("a", Value.param 0 (LType.ptr LType.i32))], []],
    locals_stack_type := [[("i", "i32_params"), ("a", "i32_params")], []],
    next_id := 3 }

end codegen

namespace codegen

/-- A machine in the body of `fn f(a []i32, i i32)` at `a[i]`: the descriptor of `a` at
the address 1000 with `len = 2` and `elem_size = 4`, and the value loaded from `i`, the
number -1 as an `i32`. -/
def example_slice_machine : Machine :=
  { env := set_env (set_env (fun _ => 0) 0 1000) 3 4294967295,
    mem := write_le (write_le (write_le (write_le (fun _ => 0) 1000 8 3000) 1008 8 2)
      1016 8 4) 1024 8 4,
    brk := 5000,
    mallocs := [] }

end codegen


/-!
The check of the calls by the LLVM verifier, which `codegen_function_decl` runs on
every function that it has lowered (`functions.h`, lines 312 to 317), and the function
of the example for the index of a slice parameter.
-/

namespace codegen

open ast

/-- The check of the LLVM verifier on the operands of a call (`Call parameter type does
not match function signature!`), for the callees of the machine: `malloc`, which
`detail::getMalloc` declares with one parameter of the type `i64`, and the intrinsics
`llvm.memcpy` and `llvm.memset`, whose destination (and, for `llvm.memcpy`, source) is a
pointer, whose byte is an `i8` and whose length is an integer.  Every other instruction
passes. -/
def Instr.call_matches : Instr → Bool
  | Instr.value (Value.call_malloc _ _ size) => decide (size.type = LType.i64)
  | Instr.memcpy dst src len =>
    dst.type.isPointerTy && src.type.isPointerTy && len.type.isIntegerTy
  | Instr.memset dst byte len =>
    dst.type.isPointerTy && decide (byte.type = LType.i8) && len.type.isIntegerTy
  | _ => true

/-- `llvm::verifyFunction` on the blocks of a function, as far as the calls go; as in
LLVM the result is true when the function is broken.  `codegen_function_decl` reports
`function verification failed` for such a function and erases it from the module. -/
def verifyFunction (blocks : List Block) : Bool :=
  blocks.any (fun blk => blk.instrs.any (fun i => !i.call_matches))

/-- The parameters of `fn f(a []string, i i32) i32`, as the parser returns them. -/
def example_string_slice_params : List Param :=
  [{ name := "a", type := Ty.ArrayType (Ty.NamedType "string") true 0 },
   { name := "i", type := Ty.NamedType "i32" }]

/-- The program `fn f(a []string, i i32) i32` with the body `return a[i]`, as the parser
returns it. -/
def example_string_slice_program : Program :=
  { decls := [Decl.FuncDecl "f" none example_string_slice_params (some (Ty.NamedType "i32"))
      false [Stmt.ReturnStmt (some (Expr.IndexExpr (Expr.Ident "a") (Expr.Ident "i")))]] }

/-- The state in which the body of `fn f(a []string, i i32) i32` is lowered: what the
first part of `codegen_function_decl` makes of the state that the constructor leaves. -/
def example_string_slice_state : CodeGen :=
  match function_entry "f" example_string_slice_params (some (Ty.NamedType "i32"))
      CodeGen.create with
  | Except.ok r => r.2
  | Except.error c => c

end codegen


namespace lex

theorem Lexer.Le.refl (L : Lexer) : Lexer.Le L L := ⟨rfl, Nat.le_refl _⟩

theorem Lexer.Le.trans {A B C : Lexer} (h1 : Lexer.Le A B) (h2 : Lexer.Le B C) :
    Lexer.Le A C := ⟨h2.1.trans h1.1, Nat.le_trans h1.2 h2.2⟩

theorem advance_le (L : Lexer) : Lexer.Le L (advance L).2 := by
  simp only [advance]
  split_ifs <;> simp [Lexer.Le]

theorem advance_src (L : Lexer) : (advance L).2.src = L.src := (advance_le L).1

theorem advance_current (L : Lexer) (h : is_at_end L = false) :
    (advance L).2.current = L.current + 1 := by
  simp only [advance, h, Bool.false_eq_true, if_false]
  split_ifs <;> rfl

theorem advance_fst (L : Lexer) (h : is_at_end L = false) :
    (advance L).1 = peek_char L 0 := by
  simp only [advance, peek_char, h, Bool.false_eq_true, if_false, Nat.add_zero]
  split_ifs <;> rfl

theorem peek_char_at_end (L : Lexer) (h : is_at_end L = true) (k : Nat) :
    peek_char L k = NUL := by
  simp only [is_at_end, decide_eq_true_eq] at h
  simp only [peek_char, List.getD_eq_getElem?_getD]
  rw [List.getElem?_eq_none (by omega)]
  rfl

theorem advance_while_le (p : Char → Bool) (n : Nat) :
    ∀ L : Lexer, Lexer.Le L (advance_while p n L) := by
  induction n with
  | zero => intro L; exact Lexer.Le.refl L
  | succ n ih =>
    intro L
    rw [advance_while]
    split_ifs
    · exact (advance_le L).trans (ih _)
    · exact Lexer.Le.refl L

theorem advance_until_le (stop : Char) (n : Nat) :
    ∀ (L : Lexer) (acc : List Char), Lexer.Le L (advance_until stop n L acc).1 := by
  induction n with
  | zero => intro L acc; exact Lexer.Le.refl L
  | succ n ih =>
    intro L acc
    rw [advance_until]
    split_ifs
    · exact (advance_le L).trans (ih _ _)
    · exact Lexer.Le.refl L

theorem block_comment_loop_le (n : Nat) :
    ∀ (L : Lexer) (d : Nat), Lexer.Le L (block_comment_loop n L d).1 := by
  induction n with
  | zero => intro L d; exact Lexer.Le.refl L
  | succ n ih =>
    intro L d
    rw [block_comment_loop]
    dsimp only
    split_ifs <;>
      first
      | exact Lexer.Le.refl L
      | exact (advance_le L).trans (ih _ _)
      | exact ((advance_le L).trans (advance_le _)).trans (ih _ _)

theorem octal_loop_le (n : Nat) : ∀ L : Lexer, Lexer.Le L (octal_loop n L).1 := by
  induction n with
  | zero => intro L; exact Lexer.Le.refl L
  | succ n ih =>
    intro L
    rw [octal_loop]
    dsimp only
    split_ifs <;>
      first
      | exact Lexer.Le.refl L
      | exact (advance_le L).trans (ih _)
      | exact advance_while_le _ _ _

theorem string_loop_le (n : Nat) :
    ∀ (L : Lexer) (sb : List Char), Lexer.Le L (string_loop n L sb).2.1 := by
  induction n with
  | zero => intro L sb; exact Lexer.Le.refl L
  | succ n ih =>
    intro L sb
    rw [string_loop]
    dsimp only
    split_ifs <;>
      first
      | exact Lexer.Le.refl L
      | exact advance_le L
      | exact (advance_le L).trans (ih _ _)
      | exact ((advance_le L).trans (advance_le _)).trans (ih _ _)

theorem not_at_end_of_peek (L : Lexer) (h : peek_char L 0 ≠ NUL) : is_at_end L = false := by
  by_contra hc
  exact h (peek_char_at_end L (by simpa using hc) 0)

/-- The skip loop only moves forward, and it has consumed a line feed whenever it
hands back a token. -/
theorem skip_loop_le (e : Bool) (n : Nat) :
    ∀ (L : Lexer) (out : List Token),
      Lexer.Le L (skip_loop e n L out).2.1 ∧
      ((skip_loop e n L out).1 ≠ out → L.current < (skip_loop e n L out).2.1.current ∧
        is_at_end L = false) := by
  induction n with
  | zero => intro L out; exact ⟨Lexer.Le.refl L, fun h => absurd rfl h⟩
  | succ n ih =>
    intro L out
    rw [skip_loop]
    dsimp only
    by_cases h1 : (peek_char L 0 = ' ' ∨ peek_char L 0 = '\t' ∨ peek_char L 0 = '\r')
    · rw [if_pos h1]
      have hne : is_at_end L = false := by
        apply not_at_end_of_peek
        rcases h1 with h | h | h <;> rw [h] <;> decide
      have hc := advance_current L hne
      refine ⟨(advance_le L).trans (ih _ _).1, fun h => ⟨?_, hne⟩⟩
      have := (ih (advance L).2 out).1.2
      omega
    · rw [if_neg h1]
      by_cases h2 : peek_char L 0 = '\n'
      · rw [if_pos h2]
        have hne : is_at_end L = false := by
          apply not_at_end_of_peek; rw [h2]; decide
        have hc := advance_current L hne
        refine ⟨(advance_le L).trans (ih _ _).1, fun _ => ⟨?_, hne⟩⟩
        have := (ih (advance L).2 (if e = true
          then out ++ [make_token TokenType.NEWLINE "\n" (here L) (here (advance L).2)]
          else out)).1.2
        omega
      · rw [if_neg h2]
        by_cases h3 : peek_char L 0 = '/'
        · rw [if_pos h3]
          have hne : is_at_end L = false := by
            apply not_at_end_of_peek; rw [h3]; decide
          have hc := advance_current L hne
          have l1 := (advance_le L).trans (advance_le (advance L).2)
          by_cases h4 : peek_char L 1 = '/'
          · rw [if_pos h4]
            have l2 := advance_until_le '\n' (remaining (advance (advance L).2).2)
              (advance (advance L).2).2 []
            refine ⟨(l1.trans l2).trans (ih _ _).1, fun h => ⟨?_, hne⟩⟩
            have := (ih (advance_until '\n' (remaining (advance (advance L).2).2)
              (advance (advance L).2).2 []).1 out).1.2
            have := (advance_le (advance L).2).2
            have := l2.2
            omega
          · rw [if_neg h4]
            by_cases h5 : peek_char L 1 = '*'
            · rw [if_pos h5]
              dsimp only
              have l2 := block_comment_loop_le (remaining (advance (advance L).2).2)
                (advance (advance L).2).2 1
              refine ⟨(l1.trans l2).trans (ih _ _).1, fun h => ⟨?_, hne⟩⟩
              have := (ih (block_comment_loop (remaining (advance (advance L).2).2)
                (advance (advance L).2).2 1).1 out).1.2
              have := (advance_le (advance L).2).2
              have := l2.2
              omega
            · rw [if_neg h5]
              exact ⟨Lexer.Le.refl L, fun h => absurd rfl h⟩
        · rw [if_neg h3]
          exact ⟨Lexer.Le.refl L, fun h => absurd rfl h⟩

end lex
namespace lex

theorem lookup_mem_snd {α β : Type} [BEq α] (a : α) (b : β) :
    ∀ l : List (α × β), l.lookup a = some b → b ∈ l.map Prod.snd := by
  intro l
  induction l with
  | nil => intro h; simp at h
  | cons p l ih =>
    intro h
    obtain ⟨k, v⟩ := p
    rw [List.lookup_cons] at h
    split at h
    · simp at h; simp [h]
    · simp [ih h]

theorem keywords_kind (s : String) (k : TokenType) (h : keywords.lookup s = some k) :
    k ∈ [TokenType.KW_IMPORT, TokenType.KW_PUB, TokenType.KW_FN, TokenType.KW_STRUCT,
      TokenType.KW_ENUM, TokenType.KW_CONST, TokenType.KW_IF, TokenType.KW_ELSE,
      TokenType.KW_MATCH, TokenType.KW_FOR, TokenType.KW_IN, TokenType.KW_RETURN,
      TokenType.KW_BREAK, TokenType.KW_CONTINUE, TokenType.KW_TRUE, TokenType.KW_FALSE,
      TokenType.KW_BYTE, TokenType.KW_PACKAGE, TokenType.ELLIPSIS] := by
  have := lookup_mem_snd s k keywords h
  simp [keywords] at this
  simp
  tauto

end lex

namespace lex

/-- Strict progress over the same source. -/
theorem adv1 (L : Lexer) (h : is_at_end L = false) :
    (advance L).2.src = L.src ∧ L.current < (advance L).2.current :=
  ⟨advance_src L, by rw [advance_current L h]; omega⟩

theorem lt_of_adv_le {L M : Lexer} (h : is_at_end L = false) (hM : Lexer.Le (advance L).2 M) :
    M.src = L.src ∧ L.current < M.current := by
  have := adv1 L h
  exact ⟨hM.1.trans this.1, by have := hM.2; omega⟩

theorem unread_advance (L : Lexer) (h : is_at_end L = false) :
    (unread (advance L).2).src = L.src ∧ (unread (advance L).2).current = L.current := by
  simp only [advance, h, Bool.false_eq_true, if_false, unread]
  split_ifs <;> simp

theorem peek_char_congr (L M : Lexer) (h1 : M.src = L.src) (h2 : M.current = L.current)
    (k : Nat) : peek_char M k = peek_char L k := by
  simp [peek_char, h1, h2]

theorem is_at_end_congr (L M : Lexer) (h1 : M.src = L.src) (h2 : M.current = L.current) :
    is_at_end M = is_at_end L := by
  simp [is_at_end, h1, h2]

theorem identifier_or_keyword_lexer (L : Lexer) (s : Position) :
    (identifier_or_keyword L s).2.1 =
      advance_while is_ident_part (remaining (advance L).2) (advance L).2 := by
  simp only [identifier_or_keyword]
  split <;> rfl

theorem identifier_or_keyword_diags (L : Lexer) (s : Position) :
    (identifier_or_keyword L s).2.2 = [] := by
  simp only [identifier_or_keyword]
  split <;> rfl

theorem identifier_or_keyword_type (L : Lexer) (s : Position) :
    (identifier_or_keyword L s).1.type ≠ TokenType.EOF_TOKEN ∧
    (identifier_or_keyword L s).1.type ≠ TokenType.NEWLINE := by
  simp only [identifier_or_keyword]
  split
  · rename_i kw hk
    have := keywords_kind _ _ hk
    simp only [make_token]
    constructor <;> (intro h; rw [h] at this; simp at this)
  · simp [make_token]

theorem advance_while_lt (p : Char → Bool) (L : Lexer) (h : p (peek_char L 0) = true)
    (hne : is_at_end L = false) :
    Lexer.Le (advance L).2 (advance_while p (remaining L) L) := by
  have : remaining L = (remaining L - 1) + 1 := by
    simp only [is_at_end, ge_iff_le, decide_eq_false_iff_not, not_le] at hne
    simp only [remaining]; omega
  rw [this, advance_while, if_pos h]
  exact advance_while_le _ _ _

theorem number_literal_adv (L : Lexer) (s : Position) (h : isdigit (peek_char L 0) = true) :
    Lexer.Le (advance L).2 (number_literal L s).2.1 := by
  have hne : is_at_end L = false := by
    apply not_at_end_of_peek
    intro hc; rw [hc] at h; revert h; decide
  simp only [number_literal]
  split_ifs <;> dsimp only <;>
    repeat' first
      | with_reducible exact Lexer.Le.refl _
      | with_reducible exact advance_while_lt _ L h hne
      | with_reducible refine Lexer.Le.trans ?_ (advance_while_le _ _ _)
      | with_reducible refine Lexer.Le.trans ?_ (advance_le _)
      | with_reducible refine Lexer.Le.trans ?_ (octal_loop_le _ _)

theorem number_literal_type (L : Lexer) (s : Position) :
    (number_literal L s).1.type = TokenType.INT ∨ (number_literal L s).1.type = TokenType.FLOAT := by
  simp only [number_literal]
  split_ifs <;> simp [make_token]

theorem string_literal_le (L : Lexer) (s : Position) (q : Char) :
    Lexer.Le L (string_literal L s q).2.1 := by
  simp only [string_literal]
  split_ifs <;>
    first
    | exact advance_until_le _ _ _ _
    | exact (advance_until_le _ _ _ _).trans (advance_le _)
    | exact string_loop_le _ _ _

theorem string_literal_type (L : Lexer) (s : Position) (q : Char) :
    (string_literal L s q).1.type = TokenType.STRING ∨
      (string_literal L s q).1.type = TokenType.ILLEGAL := by
  simp only [string_literal]
  split_ifs <;> simp [make_token]

theorem char_literal_le (L : Lexer) (s : Position) :
    Lexer.Le L (char_literal L s).2.1 := by
  simp only [char_literal]
  split_ifs <;> dsimp only <;>
    repeat' first
      | with_reducible exact Lexer.Le.refl _
      | with_reducible refine Lexer.Le.trans ?_ (advance_until_le _ _ _ _)
      | with_reducible refine Lexer.Le.trans ?_ (advance_le _)

theorem char_literal_type (L : Lexer) (s : Position) :
    (char_literal L s).1.type = TokenType.CHAR ∨
      (char_literal L s).1.type = TokenType.ILLEGAL := by
  simp only [char_literal]
  split_ifs <;> simp [make_token]

end lex

namespace lex

theorem number_literal_unread (L : Lexer) (s : Position) (h : is_at_end L = false)
    (hd : isdigit (advance L).1 = true) :
    (number_literal (unread (advance L).2) s).2.1.src = L.src ∧
      L.current < (number_literal (unread (advance L).2) s).2.1.current := by
  obtain ⟨u1, u2⟩ := unread_advance L h
  have hp : peek_char (unread (advance L).2) 0 = (advance L).1 := by
    rw [peek_char_congr L _ u1 u2, advance_fst L h]
  have hu : is_at_end (unread (advance L).2) = false := by
    rw [is_at_end_congr L _ u1 u2]; exact h
  have := number_literal_adv (unread (advance L).2) s (by rw [hp]; exact hd)
  have hc := advance_current _ hu
  have hs := advance_src (unread (advance L).2)
  exact ⟨this.1.trans (hs.trans u1), by have := this.2; omega⟩

theorem identifier_unread (L : Lexer) (s : Position) (h : is_at_end L = false) :
    (identifier_or_keyword (unread (advance L).2) s).2.1.src = L.src ∧
      L.current < (identifier_or_keyword (unread (advance L).2) s).2.1.current := by
  obtain ⟨u1, u2⟩ := unread_advance L h
  have hu : is_at_end (unread (advance L).2) = false := by
    rw [is_at_end_congr L _ u1 u2]; exact h
  rw [identifier_or_keyword_lexer]
  have := advance_while_le is_ident_part (remaining (advance (unread (advance L).2)).2)
    (advance (unread (advance L).2)).2
  have hc := advance_current _ hu
  have hs := advance_src (unread (advance L).2)
  exact ⟨this.1.trans (hs.trans u1), by have := this.2; omega⟩

theorem ite_cases {α : Type} (P : α → Prop) (c : Prop) [Decidable c] (a b : α)
    (ha : c → P a) (hb : ¬c → P b) : P (if c then a else b) := by
  split_ifs with h
  · exact ha h
  · exact hb h

/-- `scan_token` called before the end of the source consumes at least one character. -/
theorem scan_token_adv (L : Lexer) (h : is_at_end L = false) : Progress L (scan_token L) := by
  unfold scan_token
  dsimp only
  repeat' first
    | with_reducible refine ite_cases (Progress L) _ _ _ (fun _ => ?_) (fun _ => ?_)
    | with_reducible exact adv1 L h
    | with_reducible exact lt_of_adv_le h (advance_le _)
    | with_reducible exact lt_of_adv_le h (char_literal_le _ _)
    | with_reducible exact lt_of_adv_le h (string_literal_le _ _ _)
    | with_reducible exact identifier_unread L _ h
    | (with_reducible apply number_literal_unread L _ h; assumption)

theorem proper_of_type (t : Token) (L : Lexer) (d : List Diag)
    (h : t.type ≠ TokenType.EOF_TOKEN ∧ t.type ≠ TokenType.NEWLINE) : Proper (t, L, d) := h

/-- `scan_token` never makes an `EOF` or a `NEWLINE` token. -/
theorem scan_token_type (L : Lexer) : Proper (scan_token L) := by
  unfold scan_token
  dsimp only
  repeat' first
    | with_reducible refine ite_cases Proper _ _ _ (fun _ => ?_) (fun _ => ?_)
    | with_reducible exact identifier_or_keyword_type _ _
    | (rcases number_literal_type (unread (advance L).2) (here L) with h | h <;>
        simp [Proper, h])
    | (rcases string_literal_type (advance L).2 (here L) (advance L).1 with h | h <;>
        simp [Proper, h])
    | (rcases char_literal_type (advance L).2 (here L) with h | h <;> simp [Proper, h])
    | simp [Proper, make_token_single, make_token]

end lex


namespace lex

/-- Every token the skip loop appends is a `NEWLINE`. -/
theorem skip_loop_newlines (e : Bool) (n : Nat) :
    ∀ (L : Lexer) (out : List Token), (∀ t ∈ out, t.type = TokenType.NEWLINE) →
      ∀ t ∈ (skip_loop e n L out).1, t.type = TokenType.NEWLINE := by
  induction n with
  | zero => intro L out h; exact h
  | succ n ih =>
    intro L out h
    rw [skip_loop]
    dsimp only
    repeat' first
      | with_reducible refine ite_cases (fun r : List Token × Lexer × List Diag =>
          ∀ t ∈ r.1, t.type = TokenType.NEWLINE) _ _ _ (fun _ => ?_) (fun _ => ?_)
      | exact h
      | exact ih _ _ h
      | fail "leaf"
    apply ih
    intro t ht
    split_ifs at ht
    · rcases List.mem_append.1 ht with h1 | h1
      · exact h t h1
      · simp only [List.mem_singleton] at h1
        rw [h1]; rfl
    · exact h t ht

theorem skip_at_end (L : Lexer) (h : is_at_end L = true) :
    skip_whitespace_and_comments L [] true = ([], L, []) := by
  have hp := peek_char_at_end L h 0
  simp only [skip_whitespace_and_comments]
  rw [skip_loop]
  simp only [hp]
  simp [NUL]

/-- At the end of the source `next_token` returns `EOF` and leaves the lexer as it is. -/
theorem next_token_at_end (L : Lexer) (h : is_at_end L = true) :
    next_token L = (make_token TokenType.EOF_TOKEN "" (here L) (here L), L, []) := by
  simp [next_token, skip_at_end L h, h]

theorem next_token_src (L : Lexer) :
    Lexer.Le L (next_token L).2.1 := by
  have hs := (skip_loop_le true (remaining L + 1) L []).1
  simp only [next_token, skip_whitespace_and_comments]
  split
  · exact hs
  · split_ifs with h
    · exact hs
    · exact hs.trans ⟨(scan_token_adv _ (by simpa using h)).1,
        Nat.le_of_lt (scan_token_adv _ (by simpa using h)).2⟩

/-- A token other than `EOF` has consumed at least one character. -/
theorem next_token_progress (L : Lexer) (h : (next_token L).1.type ≠ TokenType.EOF_TOKEN) :
    L.current < (next_token L).2.1.current ∧ L.current < L.src.length := by
  have hs := skip_loop_le true (remaining L + 1) L []
  have key : L.current < (next_token L).2.1.current := by
    simp only [next_token, skip_whitespace_and_comments] at h ⊢
    split
    · rename_i t ts heq
      exact (hs.2 (by rw [heq]; simp)).1
    · rename_i heq
      rw [heq] at h
      split_ifs at h ⊢ with he
      · simp [make_token] at h
      · have := (scan_token_adv _ (by simpa using he)).2
        have := hs.1.2
        dsimp only
        omega
  refine ⟨key, ?_⟩
  by_contra hc
  have he : is_at_end L = true := by simp [is_at_end]; omega
  rw [next_token_at_end L he] at key
  simp at key

/-- After an `EOF` token the lexer is at the end of the source. -/
theorem next_token_eof (L : Lexer) (h : (next_token L).1.type = TokenType.EOF_TOKEN) :
    is_at_end (next_token L).2.1 = true := by
  have hn := skip_loop_newlines true (remaining L + 1) L [] (by simp)
  simp only [next_token, skip_whitespace_and_comments] at h ⊢
  split
  · rename_i t ts heq
    rw [heq] at h
    have := hn t (by rw [heq]; simp)
    simp only at h
    rw [this] at h
    exact absurd h (by decide)
  · rename_i heq
    rw [heq] at h
    split_ifs at h ⊢ with he
    · exact he
    · exact absurd h (scan_token_type _).1

theorem lexer_after_succ (k : Nat) (L : Lexer) :
    lexer_after (k + 1) L = lexer_after k (next_token L).2.1 := by
  simp [lexer_after, Function.iterate_succ_apply]

theorem lexer_after_succ' (k : Nat) (L : Lexer) :
    lexer_after (k + 1) L = (next_token (lexer_after k L)).2.1 := by
  simp [lexer_after, Function.iterate_succ_apply']

theorem remaining_next (L : Lexer) (h : (next_token L).1.type ≠ TokenType.EOF_TOKEN) :
    remaining (next_token L).2.1 < remaining L := by
  have := next_token_progress L h
  have hs := (next_token_src L).1
  simp only [remaining, hs]
  omega

/-- Some call of `next_token`, at most the `remaining L`-th after the first, returns
`EOF`. -/
theorem eof_reached (n : Nat) :
    ∀ L : Lexer, remaining L ≤ n →
      ∃ k, k ≤ remaining L ∧ (next_token (lexer_after k L)).1.type = TokenType.EOF_TOKEN := by
  induction n with
  | zero =>
    intro L h
    refine ⟨0, Nat.zero_le _, ?_⟩
    by_contra hc
    have := remaining_next L hc
    omega
  | succ n ih =>
    intro L h
    by_cases hc : (next_token L).1.type = TokenType.EOF_TOKEN
    · exact ⟨0, Nat.zero_le _, hc⟩
    · have hr := remaining_next L hc
      obtain ⟨k, hk, he⟩ := ih (next_token L).2.1 (by omega)
      exact ⟨k + 1, by omega, by rw [lexer_after_succ]; exact he⟩

/-- Once `next_token` has returned `EOF`, it returns `EOF` at every later call. -/
theorem eof_stable (L : Lexer) (k : Nat)
    (h : (next_token (lexer_after k L)).1.type = TokenType.EOF_TOKEN) :
    ∀ j, k ≤ j → (next_token (lexer_after j L)).1.type = TokenType.EOF_TOKEN := by
  intro j hj
  induction j, hj using Nat.le_induction with
  | base => exact h
  | succ j _ ih =>
    rw [lexer_after_succ', next_token_at_end _ (next_token_eof _ ih)]
    rfl

/-- The loop of `tokenize_all` ends when it is given more iterations than there are
characters left. -/
theorem tokenize_loop_total (fuel : Nat) :
    ∀ (L : Lexer) (out : List Token), remaining L < fuel →
      ∃ ts eof L1 ds, tokenize_loop fuel L out = some (out ++ ts ++ [eof], L1, ds) ∧
        eof.type = TokenType.EOF_TOKEN ∧ (∀ t ∈ ts, t.type ≠ TokenType.EOF_TOKEN) ∧
        is_at_end L1 = true := by
  induction fuel with
  | zero => intro L out h; omega
  | succ fuel ih =>
    intro L out h
    rw [tokenize_loop]
    by_cases hc : (next_token L).1.type = TokenType.EOF_TOKEN
    · rw [if_pos hc]
      exact ⟨[], (next_token L).1, (next_token L).2.1, (next_token L).2.2, by simp, hc,
        by simp, next_token_eof L hc⟩
    · rw [if_neg hc]
      have hr := remaining_next L hc
      obtain ⟨ts, eof, L1, ds, h1, h2, h3, h4⟩ :=
        ih (next_token L).2.1 (out ++ [(next_token L).1]) (by omega)
      rw [h1]
      refine ⟨(next_token L).1 :: ts, eof, L1, (next_token L).2.2 ++ ds, by simp, h2, ?_, h4⟩
      intro t ht
      rcases List.mem_cons.1 ht with h5 | h5
      · rw [h5]; exact hc
      · exact h3 t h5

/-- C5: from every lexer state, `next_token` returns `EOF` after at most as many
calls as there are characters left, and at every call after that; `tokenize_all`, given
more iterations than characters left, returns a list that ends in its only `EOF` token,
with the lexer left at the end of the source, where `next_token` returns `EOF` again and
no longer moves. -/
theorem C5_eof_reached_and_stable (L : Lexer) :
    (∃ k, k ≤ remaining L ∧
      ∀ j, k ≤ j → (next_token (lexer_after j L)).1.type = TokenType.EOF_TOKEN) ∧
    (∀ fuel, remaining L < fuel →
      ∃ ts eof L1 ds, tokenize_all fuel L = some (ts ++ [eof], L1, ds) ∧
        eof.type = TokenType.EOF_TOKEN ∧ (∀ t ∈ ts, t.type ≠ TokenType.EOF_TOKEN) ∧
        (next_token L1).1.type = TokenType.EOF_TOKEN ∧ (next_token L1).2.1 = L1) := by
  constructor
  · obtain ⟨k, hk, he⟩ := eof_reached (remaining L) L (Nat.le_refl _)
    exact ⟨k, hk, eof_stable L k he⟩
  · intro fuel hf
    obtain ⟨ts, eof, L1, ds, h1, h2, h3, h4⟩ := tokenize_loop_total fuel L [] hf
    refine ⟨ts, eof, L1, ds, by simpa [tokenize_all] using h1, h2, h3, ?_, ?_⟩
    · rw [next_token_at_end L1 h4]; rfl
    · rw [next_token_at_end L1 h4]

/-- C5 at a concrete source: the tokens of `a\n\nb`. -/
theorem tokenize_all_example :
    tokenize_all 5 (Lexer.new "a\n\nb") =
      some ([⟨TokenType.IDENT, "a", ⟨1, 1⟩, ⟨1, 2⟩⟩, ⟨TokenType.NEWLINE, "\n", ⟨1, 2⟩, ⟨2, 1⟩⟩,
        ⟨TokenType.IDENT, "b", ⟨3, 1⟩, ⟨3, 2⟩⟩, ⟨TokenType.EOF_TOKEN, "", ⟨3, 2⟩, ⟨3, 2⟩⟩],
        ⟨"a\n\nb".toList, 4, 3, 2⟩, []) := by
  decide

/-- The loop of `peek` returns the last of its `i + 1` tokens. -/
theorem peek_loop_last (i : Nat) :
    ∀ (L : Lexer) (t : Token),
      (peek_loop (i + 1) L t).1 = (next_token (lexer_after i L)).1 := by
  induction i with
  | zero => intro L t; rfl
  | succ i ih =>
    intro L t
    rw [peek_loop, lexer_after_succ]
    exact ih (next_token L).2.1 (next_token L).1

/-- C6: for `k ≥ 1`, `peek(k)` returns the token of the `k`-th successive
`next_token()` call and leaves the lexer (source, cursor, line, column) as it was, so
that `next_token()` after a `peek(k)` returns what it returns without it. -/
theorem C6_peek (L : Lexer) (k : Int) (hk : 1 ≤ k) :
    (peek L k).1 = (next_token (lexer_after (k.toNat - 1) L)).1 ∧
    (peek L k).2.1 = L ∧
    next_token (peek L k).2.1 = next_token L := by
  obtain ⟨i, hi⟩ : ∃ i : Nat, k.toNat = i + 1 := ⟨k.toNat - 1, by omega⟩
  refine ⟨?_, rfl, rfl⟩
  simp only [peek, hi, Nat.add_sub_cancel]
  exact peek_loop_last i L _

/-- C6 at a concrete state: two tokens ahead in `x := 1`. -/
theorem C6_witness :
    (peek (Lexer.new "x := 1") 2).1 = ⟨TokenType.ASSIGN, ":=", ⟨1, 3⟩, ⟨1, 5⟩⟩ ∧
    (peek (Lexer.new "x := 1") 2).2.1 = Lexer.new "x := 1" :=
  ⟨(C6_peek (Lexer.new "x := 1") 2 (by decide)).1.trans (by decide),
    (C6_peek (Lexer.new "x := 1") 2 (by decide)).2.1⟩

end lex


namespace lex

theorem peek_nonspace_loop_eq (src : List Char) (fuel : Nat) :
    ∀ idx, src.length - idx ≤ fuel →
      peek_nonspace_loop src 0 fuel idx 0 =
        ((src.drop idx).dropWhile
          (fun c => decide (c = ' ' ∨ c = '\t' ∨ c = '\r' ∨ c = '\n'))).headD NUL := by
  induction fuel with
  | zero =>
    intro idx h
    rw [List.drop_eq_nil_of_le (by omega)]
    rfl
  | succ fuel ih =>
    intro idx h
    rw [peek_nonspace_loop]
    by_cases hi : idx < src.length
    · rw [if_pos hi]
      have hd : src.drop idx = src[idx] :: src.drop (idx + 1) := (List.drop_eq_getElem_cons hi)
      have hg : src.getD idx NUL = src[idx] := by
        simp [List.getD_eq_getElem?_getD, List.getElem?_eq_getElem hi]
      rw [hd]
      dsimp only
      rw [hg]
      by_cases hs : (src[idx] = ' ' ∨ src[idx] = '\t' ∨ src[idx] = '\r' ∨ src[idx] = '\n')
      · rw [if_pos hs, List.dropWhile_cons_of_pos (by simpa using hs)]
        exact ih _ (by omega)
      · rw [if_neg hs, List.dropWhile_cons_of_neg (by simpa using hs)]
        simp [List.getElem?_eq_getElem hi]
    · rw [if_neg hi, List.drop_eq_nil_of_le (by omega)]
      rfl

theorem peek_nonspace_char_eq (L : Lexer) :
    peek_nonspace_char L 0 =
      ((L.src.drop L.current).dropWhile
        (fun c => decide (c = ' ' ∨ c = '\t' ∨ c = '\r' ∨ c = '\n'))).headD NUL :=
  peek_nonspace_loop_eq L.src _ L.current (Nat.le_refl _)

/-- The test that `scan_token` makes on the looked-ahead character is `starts_operand`
of the first non-space character. -/
theorem operand_test (l : List Char) :
    (is_ident_start (l.headD NUL) = true ∨ l.headD NUL = '*' ∨ l.headD NUL = '&' ∨
      l.headD NUL = '(' ∨ l.headD NUL = '[') ↔ starts_operand l.head? = true := by
  cases l with
  | nil => simp [starts_operand, is_ident_start, NUL]; decide
  | cons c cs => simp [starts_operand, is_ident_start, or_assoc]

theorem getD_of_get? (l : List Char) (i : Nat) (c : Char) (h : l.get? i = some c) :
    l.getD i NUL = c := by
  simp only [List.get?_eq_getElem?] at h
  simp [List.getD_eq_getElem?_getD, h]

theorem not_at_end_of_get? (L : Lexer) (c : Char) (h : L.src.get? L.current = some c) :
    is_at_end L = false := by
  simp only [List.get?_eq_getElem?] at h
  have := (List.getElem?_eq_some_iff.1 h).1
  simp [is_at_end]; omega

theorem first_nonspace_eq (L : Lexer) (h : is_at_end L = false) :
    starts_operand (first_nonspace (L.src.drop (L.current + 1))) =
      decide (is_ident_start (peek_nonspace_char (advance L).2 0) = true ∨
        peek_nonspace_char (advance L).2 0 = '*' ∨ peek_nonspace_char (advance L).2 0 = '&' ∨
        peek_nonspace_char (advance L).2 0 = '(' ∨ peek_nonspace_char (advance L).2 0 = '[') := by
  rw [peek_nonspace_char_eq, advance_src, advance_current L h]
  rw [Bool.eq_iff_iff]
  simp only [decide_eq_true_eq]
  exact (operand_test _).symm

/-- C4: `scan_token` called with the cursor on a `*` that is not followed by `=` makes a
`DEREF` token when the first character after the `*` that is not a space, tab, carriage
return or line feed is a letter, `_`, `*`, `&`, `(` or `[`, and a `STAR` token
otherwise (also at the end of the source); called on a `&` that is not followed by `&`
it makes `ADDRESS_OF` under the same condition and `BIT_AND` otherwise. -/
theorem C4_star_amp_disambiguation (L : Lexer) :
    (L.src.get? L.current = some '*' → L.src.get? (L.current + 1) ≠ some '=' →
      (scan_token L).1.type =
        if starts_operand (first_nonspace (L.src.drop (L.current + 1))) = true
        then TokenType.DEREF else TokenType.STAR) ∧
    (L.src.get? L.current = some '&' → L.src.get? (L.current + 1) ≠ some '&' →
      (scan_token L).1.type =
        if starts_operand (first_nonspace (L.src.drop (L.current + 1))) = true
        then TokenType.ADDRESS_OF else TokenType.BIT_AND) := by
  constructor
  · intro h1 h2
    have hne := not_at_end_of_get? L _ h1
    have hc : (advance L).1 = '*' := by
      rw [advance_fst L hne]; simpa [peek_char] using getD_of_get? _ _ _ h1
    have hp : peek_char (advance L).2 0 ≠ '=' := by
      intro hp
      apply h2
      simp only [peek_char, advance_src, advance_current L hne, Nat.add_zero] at hp
      simp only [List.get?_eq_getElem?]
      cases hg : L.src[L.current + 1]? with
      | none =>
        simp [List.getD_eq_getElem?_getD, hg, NUL] at hp
      | some c => simp [List.getD_eq_getElem?_getD, hg] at hp; rw [hp]
    rw [first_nonspace_eq L hne]
    unfold scan_token
    simp only [hc, hp]
    simp [make_token_single, make_token]
    split_ifs <;> simp_all
  · intro h1 h2
    have hne := not_at_end_of_get? L _ h1
    have hc : (advance L).1 = '&' := by
      rw [advance_fst L hne]; simpa [peek_char] using getD_of_get? _ _ _ h1
    have hp : peek_char (advance L).2 0 ≠ '&' := by
      intro hp
      apply h2
      simp only [peek_char, advance_src, advance_current L hne, Nat.add_zero] at hp
      simp only [List.get?_eq_getElem?]
      cases hg : L.src[L.current + 1]? with
      | none =>
        simp [List.getD_eq_getElem?_getD, hg, NUL] at hp
      | some c => simp [List.getD_eq_getElem?_getD, hg] at hp; rw [hp]
    rw [first_nonspace_eq L hne]
    unfold scan_token
    simp only [hc, hp]
    simp [make_token_single, make_token]
    split_ifs <;> simp_all

/-- C4 at concrete sources: `a * b` and `a *\n (b)` give `DEREF`, `a * 2`
gives `STAR`; `a & b` gives `ADDRESS_OF`, `a & 1` gives `BIT_AND`. -/
theorem C4_examples :
    (scan_token ⟨"a * b".toList, 2, 1, 3⟩).1.type = TokenType.DEREF ∧
    (scan_token ⟨"a *\n (b)".toList, 2, 1, 3⟩).1.type = TokenType.DEREF ∧
    (scan_token ⟨"a * 2".toList, 2, 1, 3⟩).1.type = TokenType.STAR ∧
    (scan_token ⟨"a & b".toList, 2, 1, 3⟩).1.type = TokenType.ADDRESS_OF ∧
    (scan_token ⟨"a & 1".toList, 2, 1, 3⟩).1.type = TokenType.BIT_AND := by
  decide

end lex


namespace lex

theorem lookup_mem {α β : Type} [BEq α] [LawfulBEq α] (a : α) (b : β) :
    ∀ l : List (α × β), l.lookup a = some b → (a, b) ∈ l := by
  intro l
  induction l with
  | nil => intro h; simp at h
  | cons p l ih =>
    intro h
    obtain ⟨k, v⟩ := p
    rw [List.lookup_cons] at h
    split at h
    · rename_i heq
      simp at h
      have := eq_of_beq heq
      simp [h, this]
    · simp [ih h]

theorem lookup_none {α β : Type} [BEq α] [LawfulBEq α] (a : α) :
    ∀ l : List (α × β), a ∉ l.map Prod.fst → l.lookup a = none := by
  intro l
  induction l with
  | nil => intro _; rfl
  | cons p l ih =>
    intro h
    obtain ⟨k, v⟩ := p
    simp only [List.map_cons, List.mem_cons, not_or] at h
    rw [List.lookup_cons]
    have : (a == k) = false := by
      rw [beq_eq_false_iff_ne]; exact h.1
    simp [this, ih h.2]

/-- The kind that the table gives a word: a keyword kind exactly for the 18
identifier-shaped keys, nothing for other words but `...`. -/
theorem keywords_lookup (s : String) (hs : s ≠ "...") :
    (s ∈ table_keywords → ∃ k, keywords.lookup s = some k ∧ is_keyword_kind k = true) ∧
    (s ∉ table_keywords → keywords.lookup s = none) := by
  constructor
  · intro h
    simp only [table_keywords, List.mem_cons, List.mem_singleton, List.not_mem_nil,
      or_false] at h
    rcases h with h | h | h | h | h | h | h | h | h | h | h | h | h | h | h | h | h | h <;>
      subst h <;> exact ⟨_, rfl, by decide⟩
  · intro h
    apply lookup_none
    simp only [table_keywords, List.mem_cons, List.mem_singleton, List.not_mem_nil,
      or_false, not_or] at h
    simp only [keywords, List.map_cons, List.map_nil, List.mem_cons, List.mem_singleton,
      List.not_mem_nil, or_false, not_or]
    tauto

theorem drop_cons_of_lt (L : Lexer) (h : is_at_end L = false) :
    L.src.drop L.current = peek_char L 0 :: L.src.drop (L.current + 1) := by
  have hl : L.current < L.src.length := by simpa [is_at_end] using h
  rw [List.drop_eq_getElem_cons hl]
  simp [peek_char, List.getD_eq_getElem?_getD, List.getElem?_eq_getElem hl]

/-- The loop `while (p(peek_char())) advance();` stops after the longest run of
characters that satisfy `p`. -/
theorem advance_while_current (p : Char → Bool) (hp : p NUL = false) (n : Nat) :
    ∀ L : Lexer, remaining L ≤ n →
      (advance_while p n L).current =
        L.current + ((L.src.drop L.current).takeWhile p).length := by
  induction n with
  | zero =>
    intro L h
    simp only [remaining] at h
    rw [List.drop_eq_nil_of_le (by omega)]
    rfl
  | succ n ih =>
    intro L h
    rw [advance_while]
    by_cases he : is_at_end L = true
    · rw [peek_char_at_end L he, hp]
      simp only [is_at_end, decide_eq_true_eq] at he
      rw [List.drop_eq_nil_of_le (by omega)]
      simp
    · have he : is_at_end L = false := by simpa using he
      rw [drop_cons_of_lt L he]
      by_cases hc : p (peek_char L 0) = true
      · rw [if_pos hc, List.takeWhile_cons_of_pos hc]
        have hl : L.current < L.src.length := by simpa [is_at_end] using he
        rw [ih _ (by simp only [remaining, advance_src, advance_current L he] at h ⊢; omega),
          advance_src, advance_current L he]
        simp only [List.length_cons]
        omega
      · rw [if_neg hc, List.takeWhile_cons_of_neg hc]
        rfl

theorem take_takeWhile (p : Char → Bool) :
    ∀ l : List Char, l.take (l.takeWhile p).length = l.takeWhile p := by
  intro l
  induction l with
  | nil => rfl
  | cons a l ih =>
    by_cases h : p a = true
    · simp [List.takeWhile_cons_of_pos h, ih]
    · simp [List.takeWhile_cons_of_neg h]

theorem takeWhile_run (p : Char → Bool) (rest : List Char)
    (hr : ∀ d, rest.head? = some d → p d = false) :
    ∀ cs : List Char, cs.all p = true → (cs ++ rest).takeWhile p = cs := by
  intro cs
  induction cs with
  | nil =>
    intro _
    cases rest with
    | nil => rfl
    | cons d ds => simp [List.takeWhile_cons_of_neg, hr d rfl]
  | cons a cs ih =>
    intro h
    simp only [List.all_cons, Bool.and_eq_true] at h
    simp [List.takeWhile_cons_of_pos h.1, ih h.2]

/-- An identifier start is none of the characters that `skip_loop` and the `switch` of
`scan_token` test for, and no digit. -/
theorem ident_start_ne (c d : Char) (h : is_ident_start c = true)
    (hd : is_ident_start d = false) : c ≠ d := by
  intro e; rw [e, hd] at h; exact absurd h (by decide)

theorem char_le_iff (a b : Char) : a ≤ b ↔ a.toNat ≤ b.toNat := Iff.rfl

theorem ident_start_not_digit (c : Char) (h : is_ident_start c = true) : isdigit c = false := by
  simp only [is_ident_start, isalpha, isdigit, Bool.or_eq_true, Bool.and_eq_true,
    decide_eq_true_eq, char_le_iff] at h
  by_contra hc
  simp only [isdigit, Bool.not_eq_false, Bool.and_eq_true, decide_eq_true_eq, char_le_iff] at hc
  have e1 : ('a' : Char).toNat = 97 := rfl
  have e2 : ('9' : Char).toNat = 57 := rfl
  have e3 : ('A' : Char).toNat = 65 := rfl
  have e4 : ('_' : Char).toNat = 95 := rfl
  rcases h with (h | h) | h
  · omega
  · omega
  · rw [h] at hc; omega

/-- With the cursor on an identifier start, `next_token` is `identifier_or_keyword`. -/
theorem next_token_ident (L : Lexer) (hcol : 1 ≤ L.column)
    (h : is_ident_start (peek_char L 0) = true) :
    next_token L = identifier_or_keyword L (here L) := by
  have hne : is_at_end L = false := by
    apply not_at_end_of_peek
    intro hc; rw [hc] at h; exact absurd h (by decide)
  have hx : ∀ d : Char, is_ident_start d = false → peek_char L 0 ≠ d :=
    fun d hd => ident_start_ne _ d h hd
  have hskip : skip_whitespace_and_comments L [] true = ([], L, []) := by
    simp only [skip_whitespace_and_comments]
    rw [skip_loop]
    simp [hx ' ' (by decide), hx '\t' (by decide), hx '\r' (by decide), hx '\n' (by decide),
      hx '/' (by decide)]
  have hu : unread (advance L).2 = L := by
    simp only [advance, hne, Bool.false_eq_true, if_false, unread]
    have := hx '\n' (by decide)
    simp only [peek_char, Nat.add_zero] at this
    simp only [this, if_false]
    cases L
    simp only [Lexer.mk.injEq, Nat.add_sub_cancel, true_and]
    simp only at hcol
    split_ifs <;> omega
  have hscan : scan_token L = identifier_or_keyword L (here L) := by
    unfold scan_token
    simp only [advance_fst L hne, hu]
    simp [hx '(' (by decide), hx ')' (by decide), hx '{' (by decide), hx '}' (by decide),
      hx '[' (by decide), hx ']' (by decide), hx ',' (by decide), hx '.' (by decide),
      hx ':' (by decide), hx ';' (by decide), hx '?' (by decide), hx '+' (by decide),
      hx '-' (by decide), hx '*' (by decide), hx '/' (by decide), hx '%' (by decide),
      hx '^' (by decide), hx '&' (by decide), hx '|' (by decide), hx '!' (by decide),
      hx '~' (by decide), hx '=' (by decide), hx '<' (by decide), hx '>' (by decide),
      hx '\'' (by decide), hx '"' (by decide), hx '`' (by decide),
      ident_start_not_digit _ h, h]
  simp only [next_token, hskip, hne, Bool.false_eq_true, if_false, hscan]
  have hd := identifier_or_keyword_diags L (here L)
  ext <;> simp [hd]

/-- The lexeme of an identifier token is the longest run of identifier characters at
the cursor, and its kind is what the table gives that lexeme, `IDENT` when the table
has no entry. -/
theorem identifier_token (L : Lexer) (s : Position) (hne : is_at_end L = false) :
    (identifier_or_keyword L s).1.lexeme =
        String.mk (peek_char L 0 :: (L.src.drop (L.current + 1)).takeWhile is_ident_part) ∧
    (identifier_or_keyword L s).1.type =
        (keywords.lookup (identifier_or_keyword L s).1.lexeme).getD TokenType.IDENT := by
  have hl : (substr (advance_while is_ident_part (remaining (advance L).2) (advance L).2)
      L.current) =
      String.mk (peek_char L 0 :: (L.src.drop (L.current + 1)).takeWhile is_ident_part) := by
    have hc := advance_while_current is_ident_part (by decide) _ (advance L).2 (Nat.le_refl _)
    rw [advance_src, advance_current L hne] at hc
    simp only [substr, hc, (advance_while_le _ _ _).1, advance_src]
    rw [drop_cons_of_lt L hne]
    congr 1
    have : L.current + 1 +
        (List.takeWhile is_ident_part (List.drop (L.current + 1) L.src)).length - L.current =
        (List.takeWhile is_ident_part (List.drop (L.current + 1) L.src)).length + 1 := by omega
    rw [this, List.take_succ_cons, take_takeWhile]
  simp only [identifier_or_keyword]
  split
  · rename_i kw hk
    rw [hl] at hk ⊢
    simp [make_token, hk]
  · rename_i hk
    rw [hl] at hk ⊢
    simp [make_token, hk]

/-- C8 (amended): for every identifier-shaped word other than `as`, standing in the
source before the end or before a character that cannot continue an identifier, the
token that `next_token` makes at its first character has the word as its lexeme; its kind
is a keyword kind if and only if the word is one of import, pub, fn, struct, enum, const,
if, else, match, for, in, return, break, continue, true, false, byte, package, and it
is `IDENT` for every other such word. -/
theorem C8_keyword_iff_table (L : Lexer) (w rest : List Char)
    (hsrc : L.src.drop L.current = w ++ rest) (hcol : 1 ≤ L.column)
    (hw : ident_shaped w = true)
    (hr : ∀ d, rest.head? = some d → is_ident_part d = false)
    (_has : String.mk w ≠ "as") :
    (next_token L).1.lexeme = String.mk w ∧
    (is_keyword_kind (next_token L).1.type = true ↔ String.mk w ∈ table_keywords) ∧
    (String.mk w ∉ table_keywords → (next_token L).1.type = TokenType.IDENT) := by
  cases w with
  | nil => simp [ident_shaped] at hw
  | cons c cs =>
    simp only [ident_shaped, Bool.and_eq_true] at hw
    have hne : is_at_end L = false := by
      by_contra hc
      have hc : is_at_end L = true := by simpa using hc
      simp only [is_at_end, decide_eq_true_eq] at hc
      rw [List.drop_eq_nil_of_le (by omega)] at hsrc
      simp at hsrc
    have hd := drop_cons_of_lt L hne
    rw [hsrc] at hd
    simp only [List.cons_append, List.cons.injEq] at hd
    have hstart : is_ident_start (peek_char L 0) = true := by rw [← hd.1]; exact hw.1
    have htok := identifier_token L (here L) hne
    rw [← hd.2, takeWhile_run is_ident_part rest hr cs hw.2, ← hd.1] at htok
    rw [next_token_ident L hcol hstart]
    have hdots : String.mk (c :: cs) ≠ "..." := by
      intro e
      have e2 : c :: cs = "...".data := congrArg String.data e
      have : c = '.' := by
        have := congrArg List.head? e2
        simpa using this
      rw [this] at hw
      exact absurd hw.1 (by decide)
    obtain ⟨k1, k2⟩ := keywords_lookup (String.mk (c :: cs)) hdots
    refine ⟨htok.1, ?_, ?_⟩
    · constructor
      · intro hk
        by_contra hn
        rw [htok.2, htok.1, k2 hn] at hk
        exact absurd hk (by decide)
      · intro hm
        obtain ⟨k, e1, e2⟩ := k1 hm
        rw [htok.2, htok.1, e1]
        exact e2
    · intro hn
      rw [htok.2, htok.1, k2 hn]
      rfl

/-- C8 as stated fails at `enum`: the word is not among the keywords of the claim, and
its token is `KW_ENUM`, not `IDENT`. -/
theorem C8_counterexample :
    ident_shaped "enum".toList = true ∧ "enum" ∉ spec_keywords ∧
    (next_token (Lexer.new "enum")).1.type = TokenType.KW_ENUM ∧
    (next_token (Lexer.new "enum")).1.type ≠ TokenType.IDENT := by
  decide

/-- C8 (amended) at the word `match` followed by ` x`, and at the word `matches`. -/
theorem C8_witness :
    ((next_token (Lexer.new "match x")).1.lexeme = "match" ∧
      (is_keyword_kind (next_token (Lexer.new "match x")).1.type = true ↔
        "match" ∈ table_keywords) ∧
      ("match" ∉ table_keywords →
        (next_token (Lexer.new "match x")).1.type = TokenType.IDENT)) ∧
    (next_token (Lexer.new "matches")).1.type = TokenType.IDENT :=
  ⟨C8_keyword_iff_table (Lexer.new "match x") "match".toList " x".toList (by decide)
      (by decide) (by decide) (by decide) (by decide),
    (C8_keyword_iff_table (Lexer.new "matches") "matches".toList [] (by decide)
      (by decide) (by decide) (by decide) (by decide)).2.2 (by decide)⟩

end lex


namespace lex

/-- C7 (the code at the failing input): in `a+b` the identifier `a` starts at (1,1) and
its end is (1,2), the position after its last character, so the source text from its
start through its end is `a+`, not its lexeme; the token `+`, made by
`make_token_single`, ends at (1,2), on its last character, and the text from its start
through its end is its lexeme. -/
theorem C7_end_is_past_the_lexeme :
    (tokenize_all 10 (Lexer.new "a+b")).map (fun r => r.1.map (fun t =>
        (t.type, t.lexeme, t.start, t.end_, text_between "a+b" t.start t.end_))) =
      some [(TokenType.IDENT, "a", ⟨1, 1⟩, ⟨1, 2⟩, "a+"),
        (TokenType.PLUS, "+", ⟨1, 2⟩, ⟨1, 2⟩, "+"),
        (TokenType.IDENT, "b", ⟨1, 3⟩, ⟨1, 4⟩, "b"),
        (TokenType.EOF_TOKEN, "", ⟨1, 4⟩, ⟨1, 4⟩, "")] := by
  decide

end lex


open lex ast

namespace path

@[simp] theorem emit_error_cur (P : Parser) (t : Token) (m : String) :
    (emit_error P t m).cur = P.cur := rfl

@[simp] theorem emit_error_lexer (P : Parser) (t : Token) (m : String) :
    (emit_error P t m).lexer = P.lexer := rfl

@[simp] theorem check_emit_error (P : Parser) (t : Token) (m : String) (ty : TokenType) :
    check (emit_error P t m) ty = check P ty := rfl

@[simp] theorem is_at_end_emit_error (P : Parser) (t : Token) (m : String) :
    is_at_end (emit_error P t m) = is_at_end P := rfl

theorem check_eq (P : Parser) (t u : TokenType) (h : P.cur.type = t) :
    check P u = decide (t = u) := by simp [check, h]

theorem expect_ok (P : Parser) (t : TokenType) (m : String) (h : P.cur.type = t) :
    expect P t m = (P.cur, advance P) := by simp [expect, check, h]

theorem expect_fail (P : Parser) (t : TokenType) (m : String) (h : P.cur.type ≠ t) :
    expect P t m =
      ({ type := t, lexeme := "", start := P.cur.start, end_ := P.cur.end_ },
        emit_error P P.cur m) := by simp [expect, check, h]

theorem match_ok (P : Parser) (t : TokenType) (h : P.cur.type = t) :
    match_ P t = advance P := by simp [match_, check, h]

theorem match_fail (P : Parser) (t : TokenType) (h : P.cur.type ≠ t) :
    match_ P t = P := by simp [match_, check, h]

theorem skip_newlines_none (n : Nat) (P : Parser) (h : P.cur.type ≠ TokenType.NEWLINE) :
    skip_newlines (n + 1) P = some P := by simp [skip_newlines, check, h]

theorem ptr_prefix_loop_none (n : Nat) (P : Parser) (pre : List Char)
    (h1 : P.cur.type ≠ TokenType.DEREF) (h2 : P.cur.type ≠ TokenType.ADDRESS_OF) :
    ptr_prefix_loop (n + 1) P pre = some (pre, P) := by
  simp [ptr_prefix_loop, check, h1, h2]

@[simp] theorem advance_diags (P : Parser) : (advance P).diags = P.diags := rfl

theorem ahead_zero (P : Parser) : ahead 0 P = P.cur := rfl

theorem ahead_one (P : Parser) : ahead 1 P = (advance P).cur := rfl

theorem ahead_two (P : Parser) : ahead 2 P = (advance (advance P)).cur := rfl

theorem ahead_three (P : Parser) : ahead 3 P = (advance (advance (advance P))).cur := rfl

theorem ahead_four (P : Parser) :
    ahead 4 P = (advance (advance (advance (advance P)))).cur := rfl

theorem ahead_five (P : Parser) :
    ahead 5 P = (advance (advance (advance (advance (advance P))))).cur := rfl

theorem iterate_five (P : Parser) :
    advance^[5] P = advance (advance (advance (advance (advance P)))) := rfl


theorem parse_level_succ (k n : Nat) (hk : k ≤ 7) (P : Parser) :
    parse_level k (n + 1) P =
      (parse_level (k + 1) n P).bind (fun r => level_loop k n r.1 r.2) := by
  interval_cases k <;> rfl

theorem level_loop_succ (k n : Nat) (hk : k ≤ 7) (left : Expr) (P : Parser) :
    level_loop k (n + 1) left P =
      if binop_level P.cur.type = some k then
        (parse_level (k + 1) n (advance P)).bind
          (fun r => level_loop k n (Expr.BinaryExpr (binop_text P.cur) left r.1) r.2)
      else some (left, P) := by
  interval_cases k <;>
    · simp only [level_loop, parse_level]
      first
        | rw [parse_logical_or_loop]
        | rw [parse_logical_and_loop]
        | rw [parse_bitwise_and_loop]
        | rw [parse_equality_loop]
        | rw [parse_comparison_loop]
        | rw [parse_shift_loop]
        | rw [parse_additive_loop]
        | rw [parse_multiplicative_loop]
      cases h : P.cur.type <;> simp [check, h, binop_level, binop_text]

theorem Parses.mono {α : Type} {f : Nat → Parser → Option (α × Parser)} {N M : Nat}
    {P : Parser} {r : α × Parser} (h : Parses f N P r) (hNM : N ≤ M) : Parses f M P r :=
  fun n hn => h n (Nat.le_trans hNM hn)

theorem level_loop_stop (k n : Nat) (hk : k ≤ 7) (left : Expr) (P : Parser)
    (h : binop_level P.cur.type ≠ some k) (hn : 1 ≤ n) :
    level_loop k n left P = some (left, P) := by
  obtain ⟨m, rfl⟩ : ∃ m, n = m + 1 := ⟨n - 1, by omega⟩
  rw [level_loop_succ k m hk, if_neg h]

/-- A result of level `k + 1` that is not followed by an operator of level `k` is the
result of level `k`. -/
theorem lift_one (k N : Nat) (hk : k ≤ 7) (P : Parser) (r : Expr × Parser)
    (h : Parses (parse_level (k + 1)) N P r) (hN : 1 ≤ N)
    (hs : binop_level r.2.cur.type ≠ some k) : Parses (parse_level k) (N + 1) P r := by
  intro n hn
  obtain ⟨m, rfl⟩ : ∃ m, n = m + 1 := ⟨n - 1, by omega⟩
  rw [parse_level_succ k m hk, h m (by omega)]
  simp only [Option.some_bind]
  exact level_loop_stop k m hk _ _ hs (by omega)

/-- A result of level `m` that is followed by no operator of the levels `k` to `m - 1`
is the result of level `k`. -/
theorem lift (d : Nat) : ∀ (k m N : Nat) (P : Parser) (r : Expr × Parser),
    m = k + d → m ≤ 8 → Parses (parse_level m) N P r → 1 ≤ N →
    (∀ j, k ≤ j → j < m → binop_level r.2.cur.type ≠ some j) →
    Parses (parse_level k) (N + d) P r := by
  induction d with
  | zero =>
    intro k m N P r hm _ h _ _
    subst hm
    exact h
  | succ d ih =>
    intro k m N P r hm hm8 h hN hs
    have h1 := ih (k + 1) m N P r (by omega) hm8 h hN (fun j hj1 hj2 => hs j (by omega) hj2)
    have h2 := lift_one k (N + d) (by omega) P r h1 (by omega) (hs k (Nat.le_refl _) (by omega))
    exact h2

theorem continues_primary_false (t : TokenType) (h : continues_primary t = false) :
    t ≠ TokenType.LPAREN ∧ t ≠ TokenType.LBRACE ∧ t ≠ TokenType.LBRACK ∧
    t ≠ TokenType.PLUSPLUS ∧ t ≠ TokenType.MINUSMINUS ∧ t ≠ TokenType.DOT := by
  cases t <;> simp [continues_primary] at h <;> simp

/-- Nothing continues the primary expression `left`: `parse_postfix` returns it. -/
theorem parse_postfix_stop (n : Nat) (left : Expr) (P : Parser)
    (h : continues_primary P.cur.type = false) :
    parse_postfix (n + 1) left P = some (left, P) := by
  obtain ⟨_, _, h3, h4, h5, h6⟩ := continues_primary_false _ h
  rw [ parse_postfix]
  simp [check, h3, h4, h5, h6]

/-- An identifier that nothing continues is parsed by `parse_unary` as `Ident`. -/
theorem atom (P : Parser) (h0 : P.cur.type = TokenType.IDENT)
    (h1 : continues_primary (advance P).cur.type = false) :
    Parses (parse_level 8) 3 P (Expr.Ident P.cur.lexeme, advance P) := by
  intro n hn
  obtain ⟨m, rfl⟩ : ∃ m, n = m + 3 := ⟨n - 3, by omega⟩
  obtain ⟨h2, h3, _, _, _, _⟩ := continues_primary_false _ h1
  simp only [parse_level]
  rw [parse_unary]
  simp only [check, h0]
  simp only [reduceCtorEq, decide_False, Bool.or_self, Bool.false_eq_true, if_false]
  rw [parse_primary]
  simp only [check, h0, h2, h3]
  simp only [reduceCtorEq, decide_False, decide_True, Bool.or_self, Bool.false_eq_true,
    if_false, if_true]
  exact parse_postfix_stop m _ _ h1

/-- Two operands of level `k + 1` joined by an operator of level `k`. -/
theorem bin1 (k N : Nat) (hk : k ≤ 7) (P P1 P2 : Parser) (l r : Expr)
    (hl : Parses (parse_level (k + 1)) N P (l, P1))
    (hop : binop_level P1.cur.type = some k)
    (hr : Parses (parse_level (k + 1)) N (advance P1) (r, P2))
    (hs : binop_level P2.cur.type ≠ some k) (hN : 1 ≤ N) :
    Parses (parse_level k) (N + 2) P (Expr.BinaryExpr (binop_text P1.cur) l r, P2) := by
  intro n hn
  obtain ⟨m, rfl⟩ : ∃ m, n = m + 2 := ⟨n - 2, by omega⟩
  rw [parse_level_succ k (m + 1) hk, hl (m + 1) (by omega)]
  simp only [Option.some_bind]
  rw [level_loop_succ k m hk, if_pos hop, hr m (by omega)]
  simp only [Option.some_bind]
  exact level_loop_stop k m hk _ _ hs (by omega)

/-- Three operands of level `k + 1` joined by two operators of level `k`: the loop of
level `k` associates to the left. -/
theorem bin2 (k N : Nat) (hk : k ≤ 7) (P P1 P2 P3 : Parser) (a b c : Expr)
    (ha : Parses (parse_level (k + 1)) N P (a, P1))
    (hop1 : binop_level P1.cur.type = some k)
    (hb : Parses (parse_level (k + 1)) N (advance P1) (b, P2))
    (hop2 : binop_level P2.cur.type = some k)
    (hc : Parses (parse_level (k + 1)) N (advance P2) (c, P3))
    (hs : binop_level P3.cur.type ≠ some k) (hN : 1 ≤ N) :
    Parses (parse_level k) (N + 3) P
      (Expr.BinaryExpr (binop_text P2.cur) (Expr.BinaryExpr (binop_text P1.cur) a b) c, P3) := by
  intro n hn
  obtain ⟨m, rfl⟩ : ∃ m, n = m + 3 := ⟨n - 3, by omega⟩
  rw [parse_level_succ k (m + 2) hk, ha (m + 2) (by omega)]
  simp only [Option.some_bind]
  rw [level_loop_succ k (m + 1) hk, if_pos hop1, hb (m + 1) (by omega)]
  simp only [Option.some_bind]
  rw [level_loop_succ k m hk, if_pos hop2, hc m (by omega)]
  simp only [Option.some_bind]
  exact level_loop_stop k m hk _ _ hs (by omega)

theorem parse_expression_of_level (N : Nat) (P : Parser) (r : Expr × Parser)
    (h : Parses (parse_level 0) N P r) : Parses parse_expression (N + 1) P r := by
  intro n hn
  obtain ⟨m, rfl⟩ : ∃ m, n = m + 1 := ⟨n - 1, by omega⟩
  rw [parse_expression]
  exact h m (by omega)

end path

open lex ast

namespace path

/-- A stuck field loop: with the cursor on a `;` an iteration of the field loop of
`parse_struct_decl` consumes nothing, so no amount of fuel ends the loop. -/
theorem struct_fields_loop_semicolon (n : Nat) :
    ∀ (P : Parser) (fields : List StructField), P.cur.type = TokenType.SEMICOLON →
      struct_fields_loop n P fields = none := by
  induction n with
  | zero => intro P fields _; rfl
  | succ n ih =>
    intro P fields h
    have e1 := expect_fail P TokenType.IDENT "expected field name in struct" (by simp [h])
    rw [struct_fields_loop]
    simp only [check_eq _ _ _ h, is_at_end, h, e1, check_emit_error]
    cases n with
    | zero =>
      simp [parse_type_local_struct, parse_type_with, ptr_prefix_loop]
    | succ m =>
      have e2 := ptr_prefix_loop_none m (emit_error P P.cur "expected field name in struct") []
        (by simp [h]) (by simp [h])
      have e3 := expect_fail (emit_error P P.cur "expected field name in struct")
        TokenType.IDENT "expected type name" (by simp [h])
      simp only [parse_type_local_struct, parse_type_with, e2, parse_base_type, e3,
        check_eq _ _ _ h, check_emit_error, wrap_pointers]
      simp only [decide_False, decide_True, Bool.false_and, List.foldl_nil, Bool.not_false,
        Bool.and_self, if_true, reduceCtorEq, Bool.false_eq_true, if_false, Option.bind_eq_bind,
        Option.some_bind, Option.pure_def, Option.bind_some]
      rw [match_fail _ _ (by simp [h]), skip_newlines_none _ _ (by simp [h])]
      simp only [Option.some_bind]
      exact ih _ _ (by simpa using h)

/-- The struct loop started on `x T ;`: after the first field the cursor is on `;`. -/
theorem struct_fields_loop_stuck (n : Nat) (P : Parser) (fields : List StructField)
    (h0 : P.cur.type = TokenType.IDENT)
    (h1 : (advance P).cur.type = TokenType.IDENT)
    (h2 : (advance (advance P)).cur.type = TokenType.SEMICOLON) :
    struct_fields_loop n P fields = none := by
  cases n with
  | zero => rfl
  | succ n =>
    rw [struct_fields_loop]
    simp only [check_eq _ _ _ h0, check_eq _ _ _ h1, is_at_end, h0, expect_ok _ _ _ h0]
    cases n with
    | zero => simp [parse_type_local_struct, parse_type_with, ptr_prefix_loop]
    | succ m =>
      simp only [parse_type_local_struct, parse_type_with,
        ptr_prefix_loop_none m (advance P) [] (by simp [h1]) (by simp [h1]), parse_base_type,
        expect_ok _ _ _ h1, check_eq _ _ _ h1, wrap_pointers]
      simp only [decide_False, decide_True, Bool.false_and, List.foldl_nil, Bool.not_false,
        Bool.and_self, if_true, reduceCtorEq, Bool.false_eq_true, if_false, Option.bind_eq_bind,
        Option.some_bind, Option.pure_def, Option.bind_some]
      rw [match_fail _ _ (by simp [h2]), skip_newlines_none _ _ (by simp [h2])]
      simp only [Option.some_bind]
      exact struct_fields_loop_semicolon _ _ _ h2

/-- `parse_program` on `struct N { x T ; ...`: the loop of `parse_program` never gets
its first declaration back. -/
theorem parse_program_loop_stuck (n : Nat) (P : Parser) (decls : List Decl)
    (h0 : P.cur.type = TokenType.KW_STRUCT)
    (h1 : (advance P).cur.type = TokenType.IDENT)
    (h2 : (advance (advance P)).cur.type = TokenType.LBRACE)
    (h3 : (advance (advance (advance P))).cur.type = TokenType.IDENT)
    (h4 : (advance (advance (advance (advance P)))).cur.type = TokenType.IDENT)
    (h5 : (advance (advance (advance (advance (advance P))))).cur.type =
      TokenType.SEMICOLON) :
    parse_program_loop n P decls = none := by
  cases n with
  | zero => rfl
  | succ n =>
    rw [parse_program_loop]
    cases n with
    | zero =>
      simp [is_at_end, check, expect, h0, h1, h2, parse_decl, parse_struct_decl, skip_newlines]
    | succ m =>
      simp [is_at_end, check, expect, h0, h1, h2, h3, parse_decl, parse_struct_decl,
        skip_newlines, struct_fields_loop_stuck _ _ _ h3 h4 h5]

/-- C1 (the code at the failing input): on `struct P { x i32; y i32 }` the model of
`Parser::parse_program` returns nothing whatever fuel it is given: the field loop of
`parse_struct_decl` stays on the `;` for ever. -/
theorem C1_parse_program_diverges (fuel : Nat) :
    parse_source fuel "struct P \x7b x i32; y i32 \x7d" = none := by
  have h := parse_program_loop_stuck fuel (Parser.new (Lexer.new "struct P \x7b x i32; y i32 \x7d")) []
    (by decide) (by decide) (by decide) (by decide) (by decide) (by decide)
  simp [parse_source, parse_program, h]

end path


open lex ast

namespace path

theorem ends_expression_split (t : TokenType) (h : ends_expression t = true) :
    binop_level t = none ∧ continues_primary t = false := by
  simpa [ends_expression] using h

/-- An identifier in front of a token that ends the expression is the whole
expression. -/
theorem ident_expression (P : Parser) (h0 : P.cur.type = TokenType.IDENT)
    (h1 : ends_expression (advance P).cur.type = true) :
    Parses parse_expression 12 P (Expr.Ident P.cur.lexeme, advance P) := by
  obtain ⟨e1, e2⟩ := ends_expression_split _ h1
  exact parse_expression_of_level 11 _ _
    (lift 8 0 8 3 P _ (by omega) (Nat.le_refl _) (atom P h0 e2) (by omega)
      (fun j _ _ => by rw [e1]; simp))

/-- The statement forms `x := e` and `x = e`. -/
theorem stmt_assign (P P3 : Parser) (n : Nat) (hn : 12 ≤ n) (e : Expr)
    (hx : P.cur.type = TokenType.IDENT)
    (h1 : (advance P).cur.type = TokenType.ASSIGN)
    (he : parse_expression n (advance (advance P)) = some (e, P3)) :
    parse_stmt (n + 1) P =
      some (if (advance P).cur.lexeme = ":="
        then some (Stmt.VarDecl P.cur.lexeme none (some e))
        else some (Stmt.AssignStmt (Expr.Ident P.cur.lexeme) e), match_ P3 TokenType.NEWLINE) := by
  obtain ⟨m, rfl⟩ : ∃ m, n = m + 1 := ⟨n - 1, by omega⟩
  have hl := ident_expression P hx (by rw [h1]; rfl) (m + 1) hn
  rw [parse_stmt, skip_newlines_none m P (by rw [hx]; simp)]
  simp only [Option.bind_eq_bind, Option.some_bind, check, hx, hl, h1, he, as_ident]
  simp only [reduceCtorEq, decide_False, decide_True, Bool.false_eq_true, if_false, if_true,
    Option.isSome_some, Bool.and_false, Bool.and_true]
  split_ifs <;> rfl

/-- The statement form `x : T = e` or `x : T := e`, for the type `T` that the type
parser reads after the colon. -/
theorem stmt_annotated (P P2 P3 : Parser) (n : Nat) (hn : 12 ≤ n) (T : Ty) (e : Expr)
    (hx : P.cur.type = TokenType.IDENT)
    (h1 : (advance P).cur.type = TokenType.COLON)
    (hT : parse_type_local_stmt n (advance (advance P)) = some (T, P2))
    (h2 : P2.cur.type = TokenType.ASSIGN)
    (h3 : P2.cur.lexeme = "=" ∨ P2.cur.lexeme = ":=")
    (he : parse_expression n (advance P2) = some (e, P3)) :
    parse_stmt (n + 1) P =
      some (some (Stmt.VarDecl P.cur.lexeme (some T) (some e)), match_ P3 TokenType.NEWLINE) := by
  obtain ⟨m, rfl⟩ : ∃ m, n = m + 1 := ⟨n - 1, by omega⟩
  have hl := ident_expression P hx (by rw [h1]; rfl) (m + 1) hn
  rw [parse_stmt, skip_newlines_none m P (by rw [hx]; simp)]
  simp only [Option.bind_eq_bind, Option.some_bind, check, hx, hl, h1, hT, h2, he, as_ident]
  simp only [reduceCtorEq, decide_False, decide_True, Bool.false_eq_true, if_false, if_true,
    Option.isSome_some, Bool.and_false, Bool.and_true, Bool.true_and, Bool.and_self]
  rcases h3 with h3 | h3 <;> simp [h3]

/-- The type annotations `T`, `*T`, `&T` and `[]T` as `parse_type_local` reads them. -/
theorem type_annotation (P : Parser) (n : Nat) (hn : 2 ≤ n) :
    (P.cur.type = TokenType.IDENT →
      parse_type_local_stmt n P = some (Ty.NamedType P.cur.lexeme, advance P)) ∧
    ((P.cur.type = TokenType.DEREF ∨ P.cur.type = TokenType.ADDRESS_OF) →
      (advance P).cur.type = TokenType.IDENT →
      parse_type_local_stmt n P =
        some (Ty.PointerType (Ty.NamedType (advance P).cur.lexeme), advance (advance P))) ∧
    (P.cur.type = TokenType.LBRACK → (advance P).cur.type = TokenType.RBRACK →
      (advance (advance P)).cur.type = TokenType.IDENT →
      parse_type_local_stmt n P =
        some (Ty.ArrayType (Ty.NamedType (advance (advance P)).cur.lexeme) true 0,
          advance (advance (advance P)))) := by
  obtain ⟨m, rfl⟩ : ∃ m, n = m + 2 := ⟨n - 2, by omega⟩
  refine ⟨?_, ?_, ?_⟩
  · intro h
    simp only [parse_type_local_stmt, parse_type_with]
    rw [ptr_prefix_loop_none _ _ _ (by rw [h]; simp) (by rw [h]; simp)]
    by_cases hb : P.cur.lexeme = "byte"
    · simp [check, h, parse_base_type, hb, wrap_pointers]
    · simp [check, h, parse_base_type, hb, wrap_pointers, expect]
  · intro h h1
    simp only [parse_type_local_stmt, parse_type_with]
    rw [ptr_prefix_loop]
    have hp : ptr_prefix_loop (m + 1) (advance P) ['*'] = some (['*'], advance P) :=
      ptr_prefix_loop_none _ _ _ (by rw [h1]; simp) (by rw [h1]; simp)
    have hq : ptr_prefix_loop (m + 1) (advance P) ['&'] = some (['&'], advance P) :=
      ptr_prefix_loop_none _ _ _ (by rw [h1]; simp) (by rw [h1]; simp)
    by_cases hb : (advance P).cur.lexeme = "byte"
    · rcases h with h | h <;>
        simp [check, h, h1, hp, hq, parse_base_type, hb, wrap_pointers]
    · rcases h with h | h <;>
        simp [check, h, h1, hp, hq, parse_base_type, hb, wrap_pointers, expect]
  · intro h h1 h2
    simp only [parse_type_local_stmt, parse_type_with]
    rw [ptr_prefix_loop_none _ _ _ (by rw [h]; simp) (by rw [h]; simp)]
    by_cases hb : (advance (advance P)).cur.lexeme = "byte"
    · simp [check, h, h1, h2, parse_base_type, hb, wrap_pointers, expect]
    · simp [check, h, h1, h2, parse_base_type, hb, wrap_pointers, expect]

/-- C2: with the cursor on an identifier `x`, `parse_stmt` turns `x := e` into
`VarDecl(x, no type, e)`, `x = e` into `AssignStmt(Ident x, e)`, and `x : T = e` and
`x : T := e` into `VarDecl(x, T, e)`, where `e` is what `parse_expression` returns on the
tokens after the assignment token and `T` what `parse_type_local` returns on the tokens
after the colon: `NamedType` for an identifier, `PointerType(NamedType)` for `*T` and
`&T`, slice `ArrayType(NamedType)` for `[]T`.  The parser state returned is the one
after `e` (and a `NEWLINE`, if one follows): the statement itself reports nothing. -/
theorem C2_statement_forms (P P2 P3 : Parser) (n : Nat) (T : Ty) (e : Expr) (hn : 12 ≤ n)
    (hx : P.cur.type = TokenType.IDENT) :
    ((ahead 1 P).type = TokenType.ASSIGN → (ahead 1 P).lexeme = ":=" →
      parse_expression n (advance (advance P)) = some (e, P3) →
      parse_stmt (n + 1) P =
        some (some (Stmt.VarDecl P.cur.lexeme none (some e)), match_ P3 TokenType.NEWLINE)) ∧
    ((ahead 1 P).type = TokenType.ASSIGN → (ahead 1 P).lexeme = "=" →
      parse_expression n (advance (advance P)) = some (e, P3) →
      parse_stmt (n + 1) P =
        some (some (Stmt.AssignStmt (Expr.Ident P.cur.lexeme) e),
          match_ P3 TokenType.NEWLINE)) ∧
    ((ahead 1 P).type = TokenType.COLON →
      parse_type_local_stmt n (advance (advance P)) = some (T, P2) →
      P2.cur.type = TokenType.ASSIGN → (P2.cur.lexeme = "=" ∨ P2.cur.lexeme = ":=") →
      parse_expression n (advance P2) = some (e, P3) →
      parse_stmt (n + 1) P =
        some (some (Stmt.VarDecl P.cur.lexeme (some T) (some e)),
          match_ P3 TokenType.NEWLINE)) ∧
    ((ahead 2 P).type = TokenType.IDENT →
      parse_type_local_stmt n (advance (advance P)) =
        some (Ty.NamedType (ahead 2 P).lexeme, advance (advance (advance P)))) ∧
    (((ahead 2 P).type = TokenType.DEREF ∨ (ahead 2 P).type = TokenType.ADDRESS_OF) →
      (ahead 3 P).type = TokenType.IDENT →
      parse_type_local_stmt n (advance (advance P)) =
        some (Ty.PointerType (Ty.NamedType (ahead 3 P).lexeme),
          advance (advance (advance (advance P))))) ∧
    ((ahead 2 P).type = TokenType.LBRACK → (ahead 3 P).type = TokenType.RBRACK →
      (ahead 4 P).type = TokenType.IDENT →
      parse_type_local_stmt n (advance (advance P)) =
        some (Ty.ArrayType (Ty.NamedType (ahead 4 P).lexeme) true 0,
          advance (advance (advance (advance (advance P)))))) ∧
    (match_ P3 TokenType.NEWLINE).diags = P3.diags := by
  rw [ahead_one, ahead_two, ahead_three, ahead_four]
  obtain ⟨t1, t2, t3⟩ := type_annotation (advance (advance P)) n (by omega)
  refine ⟨?_, ?_, ?_, t1, t2, t3, ?_⟩
  · intro h1 h2 he
    rw [stmt_assign P P3 n hn e hx h1 he, if_pos h2]
  · intro h1 h2 he
    rw [stmt_assign P P3 n hn e hx h1 he, if_neg (by rw [h2]; decide)]
  · intro h1 hT h2 h3 he
    exact stmt_annotated P P2 P3 n hn T e hx h1 hT h2 h3 he
  · simp only [match_]
    split_ifs <;> simp

/-- C2 at the sources `x := y`, `x = y`, `x : i32 = y`, `x : *T := y` and
`x : []T = y`. -/
theorem C2_witness :
    (parse_stmt 13 (Parser.new (Lexer.new "x := y"))).map Prod.fst =
      some (some (Stmt.VarDecl "x" none (some (Expr.Ident "y")))) ∧
    (parse_stmt 13 (Parser.new (Lexer.new "x = y"))).map Prod.fst =
      some (some (Stmt.AssignStmt (Expr.Ident "x") (Expr.Ident "y"))) ∧
    (parse_stmt 13 (Parser.new (Lexer.new "x : i32 = y"))).map Prod.fst =
      some (some (Stmt.VarDecl "x" (some (Ty.NamedType "i32")) (some (Expr.Ident "y")))) ∧
    (parse_stmt 13 (Parser.new (Lexer.new "x : *T := y"))).map Prod.fst =
      some (some (Stmt.VarDecl "x" (some (Ty.PointerType (Ty.NamedType "T")))
        (some (Expr.Ident "y")))) ∧
    (parse_stmt 13 (Parser.new (Lexer.new "x : []T = y"))).map Prod.fst =
      some (some (Stmt.VarDecl "x" (some (Ty.ArrayType (Ty.NamedType "T") true 0))
        (some (Expr.Ident "y")))) := by
  refine ⟨?_, ?_, ?_, ?_, ?_⟩
  · rw [(C2_statement_forms (Parser.new (Lexer.new "x := y")) default
      (advance (advance (advance (Parser.new (Lexer.new "x := y"))))) 12 default
      (Expr.Ident "y") (by decide) (by decide)).1 (by decide) (by decide) (by decide)]
    decide
  · rw [(C2_statement_forms (Parser.new (Lexer.new "x = y")) default
      (advance (advance (advance (Parser.new (Lexer.new "x = y"))))) 12 default
      (Expr.Ident "y") (by decide) (by decide)).2.1 (by decide) (by decide) (by decide)]
    decide
  · rw [(C2_statement_forms (Parser.new (Lexer.new "x : i32 = y"))
      (advance (advance (advance (Parser.new (Lexer.new "x : i32 = y")))))
      (advance (advance (advance (advance (advance (Parser.new (Lexer.new "x : i32 = y")))))))
      12 (Ty.NamedType "i32") (Expr.Ident "y") (by decide) (by decide)).2.2.1
      (by decide) (by decide) (by decide) (by decide) (by decide)]
    decide
  · rw [(C2_statement_forms (Parser.new (Lexer.new "x : *T := y"))
      (advance (advance (advance (advance (Parser.new (Lexer.new "x : *T := y"))))))
      (advance (advance (advance (advance (advance (advance
        (Parser.new (Lexer.new "x : *T := y"))))))))
      12 (Ty.PointerType (Ty.NamedType "T")) (Expr.Ident "y") (by decide) (by decide)).2.2.1
      (by decide) (by decide) (by decide) (by decide) (by decide)]
    decide
  · rw [(C2_statement_forms (Parser.new (Lexer.new "x : []T = y"))
      (advance (advance (advance (advance (advance (Parser.new (Lexer.new "x : []T = y")))))))
      (advance (advance (advance (advance (advance (advance (advance
        (Parser.new (Lexer.new "x : []T = y")))))))))
      12 (Ty.ArrayType (Ty.NamedType "T") true 0) (Expr.Ident "y") (by decide)
      (by decide)).2.2.1
      (by decide) (by decide) (by decide) (by decide) (by decide)]
    decide

end path


open lex ast

namespace path

theorem ends_expression_iff (t : TokenType) (h : ends_expression t = true) :
    binop_level t = none ∧ continues_primary t = false := by
  simpa [ends_expression] using h

theorem continues_of_binop (t : TokenType) (k : Nat) (h : binop_level t = some k) :
    continues_primary t = false := by
  cases t <;> simp [binop_level] at h <;> rfl

theorem binop_level_lt (t : TokenType) (k : Nat) (h : binop_level t = some k) : k ≤ 7 := by
  cases t <;> simp [binop_level] at h <;> omega

/-- An identifier followed by a token of level below `k` (or of no level) is the
result of level `k`. -/
theorem atom_at (k : Nat) (hk : k ≤ 8) (P : Parser) (h0 : P.cur.type = TokenType.IDENT)
    (h1 : continues_primary (advance P).cur.type = false)
    (h2 : ∀ j, k ≤ j → binop_level (advance P).cur.type ≠ some j) :
    Parses (parse_level k) 11 P (Expr.Ident P.cur.lexeme, advance P) :=
  (lift (8 - k) k 8 3 P _ (by omega) (Nat.le_refl _) (atom P h0 h1) (by omega)
    (fun j hj _ => h2 j hj)).mono (by omega)

/-- The binary half of C3, on the five tokens `a op1 b op2 c` and the token after. -/
theorem binary_chain (P : Parser) (i j : Nat)
    (ha : P.cur.type = TokenType.IDENT)
    (h1 : binop_level (advance P).cur.type = some i)
    (hb : (advance (advance P)).cur.type = TokenType.IDENT)
    (h3 : binop_level (advance (advance (advance P))).cur.type = some j)
    (hc : (advance (advance (advance (advance P)))).cur.type = TokenType.IDENT)
    (he : ends_expression (advance (advance (advance (advance (advance P))))).cur.type = true) :
    Parses parse_expression 40 P
      (if i < j then
        Expr.BinaryExpr (binop_text (advance P).cur) (Expr.Ident P.cur.lexeme)
          (Expr.BinaryExpr (binop_text (advance (advance (advance P))).cur)
            (Expr.Ident (advance (advance P)).cur.lexeme)
            (Expr.Ident (advance (advance (advance (advance P)))).cur.lexeme))
       else
        Expr.BinaryExpr (binop_text (advance (advance (advance P))).cur)
          (Expr.BinaryExpr (binop_text (advance P).cur) (Expr.Ident P.cur.lexeme)
            (Expr.Ident (advance (advance P)).cur.lexeme))
          (Expr.Ident (advance (advance (advance (advance P)))).cur.lexeme),
       advance (advance (advance (advance (advance P))))) := by
  obtain ⟨he1, he2⟩ := ends_expression_iff _ he
  have hi := binop_level_lt _ _ h1
  have hj := binop_level_lt _ _ h3
  have c1 := continues_of_binop _ _ h1
  have c3 := continues_of_binop _ _ h3
  apply parse_expression_of_level 39
  by_cases hij : i < j
  · rw [if_pos hij]
    have A := atom_at (i + 1) (by omega) P ha c1 (fun k hk => by rw [h1]; simp; omega)
    have B := atom_at (j + 1) (by omega) (advance (advance P)) hb c3
      (fun k hk => by rw [h3]; simp; omega)
    have C := atom_at (j + 1) (by omega) (advance (advance (advance (advance P)))) hc he2
      (fun k hk => by rw [he1]; simp)
    have D := bin1 j 11 hj _ _ _ _ _ B h3 C (by rw [he1]; simp) (by omega)
    have E := (lift (j - (i + 1)) (i + 1) j 13 _ _ (by omega) (by omega) D (by omega)
      (fun k _ _ => by rw [he1]; simp)).mono (show 13 + (j - (i + 1)) ≤ 21 by omega)
    have F := bin1 i 21 hi _ _ _ _ _ (A.mono (by omega)) h1 E (by rw [he1]; simp) (by omega)
    exact (lift i 0 i 23 _ _ (by omega) (by omega) F (by omega)
      (fun k _ _ => by rw [he1]; simp)).mono (by omega)
  · rw [if_neg hij]
    by_cases hji : i = j
    · subst hji
      have A := atom_at (i + 1) (by omega) P ha c1 (fun k hk => by rw [h1]; simp; omega)
      have B := atom_at (i + 1) (by omega) (advance (advance P)) hb c3
        (fun k hk => by rw [h3]; simp; omega)
      have C := atom_at (i + 1) (by omega) (advance (advance (advance (advance P)))) hc he2
        (fun k hk => by rw [he1]; simp)
      have F := bin2 i 11 hi _ _ _ _ _ _ _ A h1 B h3 C (by rw [he1]; simp) (by omega)
      exact (lift i 0 i 14 _ _ (by omega) (by omega) F (by omega)
        (fun k _ _ => by rw [he1]; simp)).mono (by omega)
    · have hlt : j < i := by omega
      have A := atom_at (i + 1) (by omega) P ha c1 (fun k hk => by rw [h1]; simp; omega)
      have B := atom_at (i + 1) (by omega) (advance (advance P)) hb c3
        (fun k hk => by rw [h3]; simp; omega)
      have D := bin1 i 11 hi _ _ _ _ _ A h1 B (by rw [h3]; simp; omega) (by omega)
      have E := (lift (i - (j + 1)) (j + 1) i 13 _ _ (by omega) (by omega) D (by omega)
        (fun k _ _ => by rw [h3]; simp; omega)).mono (show 13 + (i - (j + 1)) ≤ 21 by omega)
      have C := atom_at (j + 1) (by omega) (advance (advance (advance (advance P)))) hc he2
        (fun k hk => by rw [he1]; simp)
      have F := bin1 j 21 hj _ _ _ _ _ E h3 (C.mono (by omega)) (by rw [he1]; simp) (by omega)
      exact (lift j 0 j 23 _ _ (by omega) (by omega) F (by omega)
        (fun k _ _ => by rw [he1]; simp)).mono (by omega)

theorem is_prefix_op_cases (t : TokenType) (h : is_prefix_op t = true) :
    t = TokenType.BANG ∨ t = TokenType.MINUS ∨ t = TokenType.PLUS ∨ t = TokenType.PLUSPLUS ∨
    t = TokenType.MINUSMINUS ∨ t = TokenType.DEREF ∨ t = TokenType.ADDRESS_OF := by
  cases t <;> simp [is_prefix_op] at h <;> simp

/-- A prefix operator in front of a `parse_unary` result. -/
theorem unary_prefix (N : Nat) (P P1 : Parser) (rhs : Expr)
    (hp : is_prefix_op P.cur.type = true)
    (hr : Parses (parse_level 8) N (advance P) (rhs, P1)) :
    Parses (parse_level 8) (N + 1) P (Expr.UnaryExpr (unop_text P.cur) rhs, P1) := by
  intro n hn
  obtain ⟨m, rfl⟩ : ∃ m, n = m + 1 := ⟨n - 1, by omega⟩
  have h := hr m (by omega)
  simp only [parse_level] at h ⊢
  rw [parse_unary]
  rcases is_prefix_op_cases _ hp with ht | ht | ht | ht | ht | ht | ht <;>
    simp [check, ht, h, unop_text]

/-- A literal that nothing continues. -/
theorem literal_atom (P : Parser) (h0 : P.cur.type = TokenType.INT)
    (h1 : continues_primary (advance P).cur.type = false) :
    Parses (parse_level 8) 3 P (Expr.Literal P.cur.lexeme TokenType.INT, advance P) := by
  intro n hn
  obtain ⟨m, rfl⟩ : ∃ m, n = m + 3 := ⟨n - 3, by omega⟩
  simp only [parse_level]
  rw [parse_unary]
  simp only [check, h0]
  simp only [reduceCtorEq, decide_False, Bool.or_self, Bool.false_eq_true, if_false]
  rw [parse_primary]
  simp only [check, h0]
  simp only [reduceCtorEq, decide_False, decide_True, Bool.or_self, Bool.false_eq_true,
    if_false, if_true, Bool.true_or, Bool.or_true]
  exact parse_postfix_stop m _ _ h1

/-- An identifier with one index, `a[idx]`, that nothing continues. -/
theorem ident_index (N : Nat) (P P3 : Parser) (idx : Expr)
    (h0 : P.cur.type = TokenType.IDENT)
    (h1 : (advance P).cur.type = TokenType.LBRACK)
    (hi : Parses parse_expression N (advance (advance P)) (idx, P3))
    (h3 : P3.cur.type = TokenType.RBRACK)
    (h4 : continues_primary (advance P3).cur.type = false) (hN : 1 ≤ N) :
    Parses (parse_level 8) (N + 3) P
      (Expr.IndexExpr (Expr.Ident P.cur.lexeme) idx, advance P3) := by
  intro n hn
  obtain ⟨m, rfl⟩ : ∃ m, n = m + 3 := ⟨n - 3, by omega⟩
  obtain ⟨k, rfl⟩ : ∃ k, m = k + (N - 1) := ⟨m - (N - 1), by omega⟩
  simp only [parse_level]
  rw [parse_unary]
  simp only [check, h0]
  simp only [reduceCtorEq, decide_False, Bool.or_self, Bool.false_eq_true, if_false]
  rw [parse_primary]
  simp only [check, h0, h1]
  simp only [reduceCtorEq, decide_False, decide_True, Bool.or_self, Bool.false_eq_true,
    if_false, if_true]
  rw [ parse_postfix]
  simp only [check, h1, decide_True, if_true]
  rw [hi (k + (N - 1)) (by omega)]
  simp only [Option.bind_eq_bind, Option.some_bind, expect_ok _ _ _ h3]
  obtain ⟨q, hq⟩ : ∃ q, k + (N - 1) = q + 1 := ⟨k + (N - 1) - 1, by omega⟩
  rw [hq]
  exact parse_postfix_stop q _ _ h4

/-- The prefix half of C3, on the five tokens `op a [ 0 ]` and the token after. -/
theorem prefix_chain (P : Parser)
    (hp : is_prefix_op P.cur.type = true)
    (h1 : (advance P).cur.type = TokenType.IDENT)
    (h2 : (advance (advance P)).cur.type = TokenType.LBRACK)
    (h3 : (advance (advance (advance P))).cur.type = TokenType.INT)
    (h4 : (advance (advance (advance (advance P)))).cur.type = TokenType.RBRACK)
    (he : ends_expression (advance (advance (advance (advance (advance P))))).cur.type = true) :
    Parses parse_expression 40 P
      (Expr.UnaryExpr (unop_text P.cur)
        (Expr.IndexExpr (Expr.Ident (advance P).cur.lexeme)
          (Expr.Literal (advance (advance (advance P))).cur.lexeme TokenType.INT)),
       advance (advance (advance (advance (advance P))))) := by
  obtain ⟨he1, he2⟩ := ends_expression_iff _ he
  have L := literal_atom (advance (advance (advance P))) h3 (by rw [h4]; rfl)
  have L0 := parse_expression_of_level 11 _ _
    (lift 8 0 8 3 _ _ (by omega) (by omega) L (by omega) (fun k _ _ => by rw [h4]; simp [binop_level]))
  have I := ident_index 12 (advance P) _ _ h1 h2 L0 h4 he2 (by omega)
  have U := unary_prefix 15 P _ _ hp I
  exact (parse_expression_of_level 24 _ _
    (lift 8 0 8 16 _ _ (by omega) (by omega) U (by omega)
      (fun k _ _ => by rw [he1]; simp))).mono (by omega)

/-- C3: on the tokens `a op1 b op2 c`, with identifiers `a`, `b`, `c` and operators
of the binary levels `||` (0), `&&`, `&`, `==` `!=`, `<` `>` `<=` `>=`, `<<` `>>`,
`+` `-`, `*` `/` `%` (7), followed by a token that ends the expression,
`parse_expression` returns `Binary(op1, a, Binary(op2, b, c))` when `op1` is on a lower
level than `op2`, and `Binary(op2, Binary(op1, a, b), c)` when `op1` is on a higher
level or on the same one (left associative); on the tokens of a prefix operator and an
indexed identifier, as in `-a[0]`, it returns `Unary(op, Index(a, 0))`.  In each case
the parser has advanced over exactly these five tokens and has reported nothing. -/
theorem C3_precedence (P : Parser) (n : Nat) (hn : 40 ≤ n) :
    (∀ i j, (ahead 0 P).type = TokenType.IDENT → binop_level (ahead 1 P).type = some i →
      (ahead 2 P).type = TokenType.IDENT → binop_level (ahead 3 P).type = some j →
      (ahead 4 P).type = TokenType.IDENT → ends_expression (ahead 5 P).type = true →
      parse_expression n P = some
        (if i < j then
          Expr.BinaryExpr (binop_text (ahead 1 P)) (Expr.Ident (ahead 0 P).lexeme)
            (Expr.BinaryExpr (binop_text (ahead 3 P)) (Expr.Ident (ahead 2 P).lexeme)
              (Expr.Ident (ahead 4 P).lexeme))
         else
          Expr.BinaryExpr (binop_text (ahead 3 P))
            (Expr.BinaryExpr (binop_text (ahead 1 P)) (Expr.Ident (ahead 0 P).lexeme)
              (Expr.Ident (ahead 2 P).lexeme))
            (Expr.Ident (ahead 4 P).lexeme),
         advance (advance (advance (advance (advance P)))))) ∧
    (is_prefix_op (ahead 0 P).type = true → (ahead 1 P).type = TokenType.IDENT →
      (ahead 2 P).type = TokenType.LBRACK → (ahead 3 P).type = TokenType.INT →
      (ahead 4 P).type = TokenType.RBRACK → ends_expression (ahead 5 P).type = true →
      parse_expression n P = some
        (Expr.UnaryExpr (unop_text (ahead 0 P))
          (Expr.IndexExpr (Expr.Ident (ahead 1 P).lexeme)
            (Expr.Literal (ahead 3 P).lexeme TokenType.INT)),
         advance (advance (advance (advance (advance P)))))) ∧
    (advance (advance (advance (advance (advance P))))).diags = P.diags := by
  rw [ahead_zero, ahead_one, ahead_two, ahead_three, ahead_four, ahead_five]
  exact ⟨fun i j ha h1 hb h3 hc he => binary_chain P i j ha h1 hb h3 hc he n hn,
    fun hp h1 h2 h3 h4 he => prefix_chain P hp h1 h2 h3 h4 he n hn, by simp only [advance_diags]⟩

/-- C3 at concrete sources. -/
theorem C3_witness :
    (parse_expression 40 (Parser.new (Lexer.new "a + b * c"))).map Prod.fst =
      some (Expr.BinaryExpr "+" (Expr.Ident "a")
        (Expr.BinaryExpr "*" (Expr.Ident "b") (Expr.Ident "c"))) ∧
    (parse_expression 40 (Parser.new (Lexer.new "a * b + c"))).map Prod.fst =
      some (Expr.BinaryExpr "+" (Expr.BinaryExpr "*" (Expr.Ident "a") (Expr.Ident "b"))
        (Expr.Ident "c")) ∧
    (parse_expression 40 (Parser.new (Lexer.new "a - b + c"))).map Prod.fst =
      some (Expr.BinaryExpr "+" (Expr.BinaryExpr "-" (Expr.Ident "a") (Expr.Ident "b"))
        (Expr.Ident "c")) ∧
    (parse_expression 40 (Parser.new (Lexer.new "a || b & c"))).map Prod.fst =
      some (Expr.BinaryExpr "||" (Expr.Ident "a")
        (Expr.BinaryExpr "&" (Expr.Ident "b") (Expr.Ident "c"))) ∧
    (parse_expression 40 (Parser.new (Lexer.new "-a[0]"))).map Prod.fst =
      some (Expr.UnaryExpr "-" (Expr.IndexExpr (Expr.Ident "a")
        (Expr.Literal "0" TokenType.INT))) := by
  refine ⟨?_, ?_, ?_, ?_, ?_⟩
  · rw [(C3_precedence (Parser.new (Lexer.new "a + b * c")) 40 (by decide)).1 6 7
      (by decide) (by decide) (by decide) (by decide) (by decide) (by decide)]
    decide
  · rw [(C3_precedence (Parser.new (Lexer.new "a * b + c")) 40 (by decide)).1 7 6
      (by decide) (by decide) (by decide) (by decide) (by decide) (by decide)]
    decide
  · rw [(C3_precedence (Parser.new (Lexer.new "a - b + c")) 40 (by decide)).1 6 6
      (by decide) (by decide) (by decide) (by decide) (by decide) (by decide)]
    decide
  · rw [(C3_precedence (Parser.new (Lexer.new "a || b & c")) 40 (by decide)).1 0 2
      (by decide) (by decide) (by decide) (by decide) (by decide) (by decide)]
    decide
  · rw [(C3_precedence (Parser.new (Lexer.new "-a[0]")) 40 (by decide)).2.1
      (by decide) (by decide) (by decide) (by decide) (by decide) (by decide)]
    decide

end path


open lex ast

namespace path

theorem advance_emit_error (P : Parser) (t : Token) (m : String) :
    advance (emit_error P t m) = emit_error (advance P) t m := rfl

/-- An identifier followed by `{ }` is an empty struct literal, whatever the context. -/
theorem empty_struct_literal (P : Parser)
    (h0 : P.cur.type = TokenType.IDENT)
    (h1 : (advance P).cur.type = TokenType.LBRACE)
    (h2 : (advance (advance P)).cur.type = TokenType.RBRACE)
    (h3 : continues_primary (advance (advance (advance P))).cur.type = false) :
    Parses (parse_level 8) 4 P
      (Expr.StructLiteral (Ty.NamedType P.cur.lexeme) [], advance (advance (advance P))) := by
  intro n hn
  obtain ⟨m, rfl⟩ : ∃ m, n = m + 4 := ⟨n - 4, by omega⟩
  simp only [parse_level]
  rw [parse_unary]
  simp only [check, h0]
  simp only [reduceCtorEq, decide_False, Bool.or_self, Bool.false_eq_true, if_false]
  rw [parse_primary]
  simp only [check, h0, h1, h2, skip_newlines_none (m + 1) _ (show (advance (advance P)).cur.type ≠
    TokenType.NEWLINE by rw [h2]; simp), expect_ok _ _ _ h2,
    reduceCtorEq, decide_False, decide_True, Bool.or_self, Bool.false_eq_true,
    if_false, if_true, Option.bind_eq_bind, Option.some_bind, Bool.not_true]
  exact parse_postfix_stop (m + 1) _ _ h3

/-- At the end of input `parse_block` finds neither brace and returns an empty block. -/
theorem parse_block_at_eof (Q : Parser) (k : Nat) (h : Q.cur.type = TokenType.EOF_TOKEN) :
    parse_block (k + 2) Q =
      some ([], emit_error (emit_error Q Q.cur "expected '\x7b' to start block") Q.cur
        "expected '\x7d' to end block") := by
  rw [parse_block, expect_fail _ _ _ (show Q.cur.type ≠ TokenType.LBRACE by rw [h]; simp)]
  simp only [Option.bind_eq_bind]
  rw [skip_newlines_none k _ (by simp [h])]
  simp only [Option.some_bind]
  rw [parse_block_loop]
  simp only [check, is_at_end, emit_error_cur, h]
  simp only [reduceCtorEq, decide_False, decide_True, Bool.not_true, Bool.and_false,
    Bool.false_eq_true, if_false, Option.some_bind, Bool.not_false, Bool.and_self]
  rw [expect_fail _ _ _ (by simp [h])]
  simp

/-- On the tokens `if c { }` followed by the end of input, `parse_stmt` takes `c { }`
for the condition and finds no block. -/
theorem if_ident_braces (P : Parser) (n : Nat) (hn : 14 ≤ n)
    (h0 : P.cur.type = TokenType.KW_IF)
    (h1 : (advance P).cur.type = TokenType.IDENT)
    (h2 : (advance (advance P)).cur.type = TokenType.LBRACE)
    (h3 : (advance (advance (advance P))).cur.type = TokenType.RBRACE)
    (h4 : (advance (advance (advance (advance P)))).cur.type = TokenType.EOF_TOKEN) :
    parse_stmt n P =
      some (some (Stmt.IfStmt (Expr.StructLiteral (Ty.NamedType (advance P).cur.lexeme) [])
          [] none),
        emit_error
          (emit_error (advance (advance (advance (advance P))))
            (advance (advance (advance (advance P)))).cur "expected '\x7b' to start block")
          (advance (advance (advance (advance P)))).cur "expected '\x7d' to end block") := by
  obtain ⟨m, rfl⟩ : ∃ m, n = m + 3 := ⟨n - 3, by omega⟩
  have hc := parse_expression_of_level 12 _ _
    (lift 8 0 8 4 (advance P) _ (by omega) (Nat.le_refl _)
      (empty_struct_literal (advance P) h1 h2 h3 (by rw [h4]; rfl)) (by omega)
      (fun j _ _ => by rw [h4]; simp [binop_level])) (m + 2) (by omega)
  generalize advance (advance (advance (advance P))) = X at h4 hc ⊢
  rw [parse_stmt, skip_newlines_none (m + 1) P (by rw [h0]; simp)]
  simp only [Option.bind_eq_bind, Option.some_bind, check, h0, hc,
    reduceCtorEq, decide_False, decide_True, Bool.false_eq_true, if_false, if_true]
  rw [parse_block_at_eof X m h4]
  simp only [Option.some_bind, emit_error_cur, h4,
    reduceCtorEq, decide_False, decide_True, Bool.false_eq_true, if_false, if_true]

/-- C9 (the code at the failing input): on `if c { }` the parser takes `c { }` for a
struct literal, makes it the condition, and then reports that the block is missing. -/
theorem C9_if_ident_is_struct_literal :
    (parse_source 40 "if c \x7b \x7d").map (fun r => (r.1, r.2.diags)) =
      some ({ decls := [Decl.StmtDecl
          (Stmt.IfStmt (Expr.StructLiteral (Ty.NamedType "c") []) [] none)] },
        [⟨1, 9, "expected '\x7b' to start block"⟩, ⟨1, 9, "expected '\x7d' to end block"⟩]) := by
  decide

/-- A `return` in front of a `NEWLINE` or a `}`: `parse_stmt` asks `parse_expression`
for an expression, which reports the token, consumes it and returns an `ILLEGAL`
literal. -/
theorem return_without_expression (P : Parser) (n : Nat) (hn : 14 ≤ n)
    (h0 : P.cur.type = TokenType.KW_RETURN)
    (h1 : (advance P).cur.type = TokenType.NEWLINE ∨ (advance P).cur.type = TokenType.RBRACE)
    (h2 : ends_expression (advance (advance P)).cur.type = true) :
    parse_stmt n P =
      some (some (Stmt.ReturnStmt (some (Expr.Literal "" TokenType.ILLEGAL))),
        match_ (emit_error (advance (advance P)) (advance P).cur
          "unexpected token in expression") TokenType.NEWLINE) := by
  obtain ⟨m, rfl⟩ : ∃ m, n = m + 13 := ⟨n - 13, by omega⟩
  have hb : binop_level (advance (advance P)).cur.type = none ∧
      continues_primary (advance (advance P)).cur.type = false := by
    simpa [ends_expression] using h2
  have hu : Parses (parse_level 8) 3 (advance P)
      (Expr.Literal "" TokenType.ILLEGAL,
        emit_error (advance (advance P)) (advance P).cur "unexpected token in expression") := by
    intro k hk
    obtain ⟨q, rfl⟩ : ∃ q, k = q + 3 := ⟨k - 3, by omega⟩
    simp only [parse_level]
    rw [parse_unary]
    rcases h1 with h1 | h1 <;>
    · simp only [check, h1]
      simp only [reduceCtorEq, decide_False, Bool.or_self, Bool.false_eq_true, if_false]
      rw [parse_primary]
      simp only [check, h1]
      simp only [reduceCtorEq, decide_False, Bool.or_self, Bool.false_eq_true, if_false,
        Bool.and_self, Bool.false_and]
      rw [advance_emit_error]
      exact parse_postfix_stop q _ _ (by simpa using hb.2)
  have he := parse_expression_of_level 11 _ _
    (lift 8 0 8 3 (advance P) _ (by omega) (Nat.le_refl _) hu (by omega)
      (fun j _ _ => by simp [hb.1])) (m + 12) (by omega)
  rw [parse_stmt, skip_newlines_none (m + 11) P (by rw [h0]; simp)]
  simp only [Option.bind_eq_bind, Option.some_bind, check, h0, he]
  simp only [reduceCtorEq, decide_False, decide_True, Bool.false_eq_true, if_false, if_true]

/-- C10 (the code at the failing inputs): a `return` in front of a line feed gives a
`ReturnStmt` that holds an `ILLEGAL` literal, with a diagnostic; in front of `}` it
gives the same, and the `}` is consumed, so that the block of the function finds no
closing brace. -/
theorem C10_bare_return :
    (parse_source 40 "fn f() \x7b\n return\n\x7d").map (fun r => (r.1, r.2.diags)) =
      some ({ decls := [Decl.FuncDecl "f" none [] none false
          [Stmt.ReturnStmt (some (Expr.Literal "" TokenType.ILLEGAL))]] },
        [⟨2, 8, "unexpected token in expression"⟩]) ∧
    (parse_source 40 "fn f() \x7b return \x7d").map (fun r => (r.1, r.2.diags)) =
      some ({ decls := [Decl.FuncDecl "f" none [] none false
          [Stmt.ReturnStmt (some (Expr.Literal "" TokenType.ILLEGAL))]] },
        [⟨1, 17, "unexpected token in expression"⟩, ⟨1, 18, "expected '\x7d' to end block"⟩]) := by
  constructor <;> decide

end path


open lex ast

namespace path

/-- C11 (the code at the failing input): in `x := a & 1` the lexer makes the `&` a
`BIT_AND` token (a digit follows), and `parse_bitwise_and`, which only tests for
`ADDRESS_OF`, leaves it: the declaration ends after `a`, the `&` is reported as an
unexpected token and `1` becomes a statement of its own.  With an identifier on the
right, `x := a & b`, the `&` is an `ADDRESS_OF` token and the `BinaryExpr` is built. -/
theorem C11_bit_and_is_not_consumed :
    ((tokenize_all 10 (Lexer.new "x := a & 1")).map
        (fun r => r.1.map (fun t => t.type))) =
      some [TokenType.IDENT, TokenType.ASSIGN, TokenType.IDENT, TokenType.BIT_AND,
        TokenType.INT, TokenType.EOF_TOKEN] ∧
    (parse_source 40 "x := a & 1").map (fun r => (r.1, r.2.diags)) =
      some ({ decls := [Decl.StmtDecl (Stmt.VarDecl "x" none (some (Expr.Ident "a"))),
          Decl.StmtDecl (Stmt.ExprStmt (Expr.Literal "" TokenType.ILLEGAL)),
          Decl.StmtDecl (Stmt.ExprStmt (Expr.Literal "1" TokenType.INT))] },
        [⟨1, 8, "unexpected token in expression"⟩]) ∧
    (parse_source 40 "x := a & b").map (fun r => (r.1, r.2.diags)) =
      some ({ decls := [Decl.StmtDecl (Stmt.VarDecl "x" none
          (some (Expr.BinaryExpr "&" (Expr.Ident "a") (Expr.Ident "b"))))] }, []) := by
  refine ⟨?_, ?_, ?_⟩ <;> decide

/-- C13: `fn f(a int, b ...int) { }` gives the function `f` with the parameters `a`
(not variadic) and `b` (variadic) and no diagnostic; `fn f(a ...int, b int) { }` gives
the diagnostic that the variadic parameter must be the last one, reported at the token
after the comma, and still a function `f`, whose only parameter is the variadic `a`. -/
theorem C13_variadic_examples :
    (parse_source 40 "fn f(a int, b ...int) \x7b \x7d").map
        (fun r => (r.1, r.2.diags, r.2.lex_diags)) =
      some ({ decls := [Decl.FuncDecl "f" none
          [{ name := "a", type := Ty.NamedType "int", variadic := false },
           { name := "b", type := Ty.NamedType "int", variadic := true }] none false []] },
        [], []) ∧
    (parse_source 40 "fn f(a ...int, b int) \x7b \x7d").map (fun r => (r.1, r.2.diags)) =
      some ({ decls := [Decl.FuncDecl "f" none
          [{ name := "a", type := Ty.NamedType "int", variadic := true }] none false []] },
        [⟨1, 16, "variadic parameter must be the last parameter"⟩]) := by
  constructor <;> decide

end path


open lex ast

namespace path

/-- A list whose elements before the last are not variadic. -/
theorem variadic_last_of_front (l : List Param) (p : Param)
    (h : ∀ q ∈ l, q.variadic = false) : variadic_last (l ++ [p]) := by
  have hf : l.filter (fun p => p.variadic) = [] := by
    rw [List.filter_eq_nil_iff]
    intro q hq
    simp [h q hq]
  constructor
  · rw [List.filter_append, hf]
    simp only [List.nil_append]
    exact (List.length_filter_le _ _).trans (by simp)
  · intro i hi hv
    simp only [List.length_append, List.length_singleton] at hi ⊢
    by_contra hne
    have hlt : i < l.length := by omega
    have := h (l.get ⟨i, hlt⟩) (List.get_mem _ _ _)
    simp only [List.get_eq_getElem] at hv this
    rw [List.getElem_append_left hlt] at hv
    rw [this] at hv
    exact absurd hv (by decide)

theorem variadic_last_nil : variadic_last [] := by
  constructor
  · simp
  · intro i hi; simp at hi

/-- The parameter loop returns the parameters it was given followed by new ones, of
which only the last can be variadic: after a variadic parameter the loop ends. -/
theorem params_loop_front (n : Nat) :
    ∀ (P : Parser) (acc ps : List Param) (P' : Parser),
      params_loop n P acc = some (ps, P') → (∀ q ∈ acc, q.variadic = false) →
      ∃ l p, ps = l ++ [p] ∧ ∀ q ∈ l, q.variadic = false := by
  induction n with
  | zero => intro P acc ps P' h; simp [params_loop] at h
  | succ n ih =>
    intro P acc ps P' h hacc
    rw [params_loop] at h
    simp only [Option.bind_eq_bind, Option.bind_eq_some] at h
    obtain ⟨⟨pre, P1⟩, -, ⟨ty, P3⟩, -, h⟩ := h
    dsimp only at h
    generalize (consume_ellipsis (expect P1 TokenType.IDENT "expected parameter name").2).1 = v
      at h
    generalize (expect P1 TokenType.IDENT "expected parameter name").1.lexeme = nm at h
    cases v
    · simp only [Bool.false_eq_true, if_false] at h
      split at h
      · refine ih _ _ _ _ h ?_
        intro q hq
        rcases List.mem_append.1 hq with hq | hq
        · exact hacc q hq
        · rw [List.mem_singleton.1 hq]
      · simp only [Option.some.injEq, Prod.mk.injEq] at h
        exact ⟨acc, _, h.1.symm, hacc⟩
    · simp only [if_true] at h
      split at h
      · simp only [Option.bind_eq_some] at h
        obtain ⟨P5, -, h⟩ := h
        simp only [Option.some.injEq, Prod.mk.injEq] at h
        exact ⟨acc, _, h.1.symm, hacc⟩
      · simp only [Option.some.injEq, Prod.mk.injEq] at h
        exact ⟨acc, _, h.1.symm, hacc⟩

/-- The declaration that `parse_function_decl` returns. -/
theorem parse_function_decl_ok (n : Nat) (P P' : Parser) (is_pub : Bool) (d : Option Decl)
    (h : parse_function_decl n P is_pub = some (d, P')) : ∀ x ∈ d, params_ok x := by
  unfold parse_function_decl at h
  simp only [Option.bind_eq_bind, Option.bind_eq_some] at h
  obtain ⟨⟨ps, P4⟩, hp, ⟨rt, P6⟩, -, ⟨body, P7⟩, -, h⟩ := h
  generalize (expect _ TokenType.LPAREN "expected '(' after fn name").2 = P3 at hp
  injection h with h
  injection h with h1 h2
  subst h1
  intro x hx
  cases hx
  show variadic_last ps
  split at hp
  · obtain ⟨l, p, e, hl⟩ := params_loop_front n P3 [] ps P4 hp (by simp)
    rw [e]
    exact variadic_last_of_front l p hl
  · injection hp with hp
    injection hp with hp1 hp2
    rw [← hp1]
    exact variadic_last_nil

/-- The declaration that `parse_struct_decl` returns. -/
theorem parse_struct_decl_ok (n : Nat) (P P' : Parser) (is_pub : Bool) (d : Option Decl)
    (h : parse_struct_decl n P is_pub = some (d, P')) : ∀ x ∈ d, params_ok x := by
  unfold parse_struct_decl at h
  simp only [Option.bind_eq_bind, Option.bind_eq_some] at h
  obtain ⟨P3, -, ⟨fields, P4⟩, -, h⟩ := h
  injection h with h
  injection h with h1 h2
  subst h1
  intro x hx
  cases hx
  trivial

/-- The declaration that `parse_decl` returns. -/
theorem parse_decl_ok (n : Nat) (P P' : Parser) (d : Option Decl)
    (h : parse_decl n P = some (d, P')) : ∀ x ∈ d, params_ok x := by
  unfold parse_decl at h
  dsimp only at h
  generalize (if check P TokenType.KW_PUB = true then advance P else P) = P1 at h
  by_cases h1 : check P1 TokenType.KW_STRUCT = true
  · rw [if_pos h1] at h
    exact parse_struct_decl_ok n _ _ _ _ h
  · rw [if_neg h1] at h
    by_cases h2 : check P1 TokenType.KW_FN = true
    · rw [if_pos h2] at h
      exact parse_function_decl_ok n _ _ _ _ h
    · rw [if_neg h2] at h
      cases hs : parse_stmt n P1 with
      | none => rw [hs] at h; exact absurd h (by simp)
      | some r =>
        obtain ⟨stmt, P2⟩ := r
        rw [hs] at h
        injection h with h
        injection h with h3 h4
        subst h3
        intro x hx
        cases stmt with
        | none => cases hx
        | some s => cases hx; trivial

/-- The declaration that `parse_module_decl` returns. -/
theorem parse_module_decl_ok (n : Nat) (P P' : Parser) (d : Option Decl)
    (h : parse_module_decl n P = some (d, P')) : ∀ x ∈ d, params_ok x := by
  unfold parse_module_decl at h
  split at h
  · dsimp only at h
    split at h
    · exact absurd h (by simp)
    · injection h with h
      injection h with h3 h4
      subst h3
      intro x hx
      cases hx
      trivial
  · injection h with h
    injection h with h3 h4
    subst h3
    intro x hx
    cases hx

/-- The declaration that `parse_import_decl` returns. -/
theorem parse_import_decl_ok (n : Nat) (P P' : Parser) (d : Option Decl)
    (h : parse_import_decl n P = some (d, P')) : ∀ x ∈ d, params_ok x := by
  unfold parse_import_decl at h
  dsimp only at h
  split at h
  · exact absurd h (by simp)
  · split at h <;>
    · injection h with h
      injection h with h3 h4
      subst h3
      intro x hx
      cases hx
      trivial

/-- The loop of `parse_program` keeps `params_ok` for the declarations it collects. -/
theorem parse_program_loop_ok (n : Nat) :
    ∀ (P P' : Parser) (decls out : List Decl),
      parse_program_loop n P decls = some (out, P') → (∀ x ∈ decls, params_ok x) →
      ∀ x ∈ out, params_ok x := by
  induction n with
  | zero => intro P P' decls out h; simp [parse_program_loop] at h
  | succ n ih =>
    intro P P' decls out h hd
    rw [parse_program_loop] at h
    split at h
    · simp only [Option.bind_eq_bind, Option.bind_eq_some] at h
      obtain ⟨⟨d, P1⟩, h1, P2, -, h⟩ := h
      refine ih _ _ _ _ h ?_
      have hd1 : ∀ x ∈ d, params_ok x := by
        split at h1
        · exact parse_module_decl_ok n _ _ _ h1
        · split at h1
          · exact parse_import_decl_ok n _ _ _ h1
          · exact parse_decl_ok n _ _ _ h1
      intro x hx
      rcases List.mem_append.1 hx with hx | hx
      · exact hd x hx
      · exact hd1 x (by simpa using hx)
    · injection h with h
      injection h with h3 h4
      rw [← h3]
      exact hd

/-- C12: in the program that `parse_program` returns for a source string, the parameter
list of every function declaration holds at most one variadic parameter, and a variadic
parameter is its last element. -/
theorem C12_variadic_is_last (fuel : Nat) (source : String) (prog : Program) (P : Parser)
    (h : parse_source fuel source = some (prog, P)) :
    ∀ name receiver_name params ret_type is_pub body,
      Decl.FuncDecl name receiver_name params ret_type is_pub body ∈ prog.decls →
      (params.filter (fun p => p.variadic)).length ≤ 1 ∧
      ∀ i (hi : i < params.length), (params.get ⟨i, hi⟩).variadic = true →
        i + 1 = params.length := by
  intro name receiver_name params ret_type is_pub body hm
  unfold parse_source parse_program at h
  split at h
  · exact absurd h (by simp)
  · rename_i decls P1 hl
    injection h with h
    injection h with h3 h4
    rw [← h3] at hm
    exact parse_program_loop_ok fuel _ _ _ _ hl (by simp) _ hm

theorem variadic_source_parses :
    (parse_source 40 "fn f(a int, b ...int) \x7b \x7d").isSome = true := by
  decide

/-- C12 at the source `fn f(a int, b ...int) { }`: the program has the function `f`,
whose second and last parameter is the variadic one. -/
theorem C12_witness :
    (parse_source 40 "fn f(a int, b ...int) \x7b \x7d").map (fun r => r.1.decls) =
      some [Decl.FuncDecl "f" none
        [{ name := "a", type := Ty.NamedType "int", variadic := false },
         { name := "b", type := Ty.NamedType "int", variadic := true }] none false []] ∧
    (([{ name := "a", type := Ty.NamedType "int", variadic := false },
       { name := "b", type := Ty.NamedType "int", variadic := true }] : List Param).filter
        (fun p => p.variadic)).length ≤ 1 :=
  ⟨by decide,
    (C12_variadic_is_last 40 "fn f(a int, b ...int) \x7b \x7d"
      ((parse_source 40 "fn f(a int, b ...int) \x7b \x7d").get variadic_source_parses).1
      ((parse_source 40 "fn f(a int, b ...int) \x7b \x7d").get variadic_source_parses).2
      (Option.some_get variadic_source_parses).symm "f" none
      [{ name := "a", type := Ty.NamedType "int", variadic := false },
       { name := "b", type := Ty.NamedType "int", variadic := true }] none false []
      (by decide)).1⟩

end path


namespace lex

theorem closes_string_cons (c : Char) (cs : List Char) :
    closes_string (c :: cs) =
      if c = '\\' then
        match cs with
        | [] => false
        | _ :: rest => closes_string rest
      else if c = '"' then true
      else closes_string cs := by
  conv_lhs => unfold closes_string
  try rfl

/-- Without a closing quote in the rest of the source the loop of `string_literal` ends
without having found one. -/
theorem string_loop_unterminated (n : Nat) :
    ∀ (L : Lexer) (sb : List Char), closes_string (L.src.drop L.current) = false →
      (string_loop n L sb).1 = false := by
  induction n with
  | zero => intro L sb _; rfl
  | succ n ih =>
    intro L sb h
    rw [string_loop]
    by_cases he : is_at_end L = true
    · rw [if_pos he]
    · have he : is_at_end L = false := by simpa using he
      rw [if_neg (by simp [he])]
      rw [drop_cons_of_lt L he, closes_string_cons] at h
      dsimp only
      rw [advance_fst L he]
      by_cases h1 : peek_char L 0 = '\\'
      · rw [if_pos h1]
        rw [if_pos h1] at h
        by_cases he1 : is_at_end (advance L).2 = true
        · rw [if_pos he1]
        · have he1 : is_at_end (advance L).2 = false := by simpa using he1
          rw [if_neg (by simp [he1])]
          apply ih
          have hd := drop_cons_of_lt (advance L).2 he1
          rw [advance_src, advance_current L he] at hd
          rw [hd] at h
          rw [advance_src, advance_src, advance_current _ he1, advance_current L he]
          exact h
      · rw [if_neg h1]
        rw [if_neg h1] at h
        by_cases h2 : peek_char L 0 = '"'
        · rw [if_pos h2] at h
          exact absurd h (by decide)
        · rw [if_neg h2]
          rw [if_neg h2] at h
          apply ih
          rw [advance_src, advance_current L he]
          exact h

/-- Without a backtick in the rest of the source the loop of a raw string runs to the
end of the source. -/
theorem advance_until_end (n : Nat) :
    ∀ (L : Lexer) (acc : List Char), remaining L ≤ n → '`' ∉ L.src.drop L.current →
      is_at_end (advance_until '`' n L acc).1 = true := by
  induction n with
  | zero =>
    intro L acc hr _
    simp only [advance_until, is_at_end, decide_eq_true_eq]
    simp only [remaining] at hr
    omega
  | succ n ih =>
    intro L acc hr h
    rw [advance_until]
    by_cases he : is_at_end L = true
    · simp [he]
    · have he : is_at_end L = false := by simpa using he
      have hd := drop_cons_of_lt L he
      have hp : peek_char L 0 ≠ '`' := by
        intro hc
        apply h
        rw [hd, hc]
        exact List.mem_cons_self _ _
      rw [if_pos (by simp [he, hp])]
      apply ih
      · have := advance_current L he
        have hs := advance_src L
        simp only [remaining, hs, this] at hr ⊢
        simp only [is_at_end, decide_eq_false_iff_not, not_le] at he
        omega
      · rw [advance_src, advance_current L he]
        intro hc
        apply h
        rw [hd]
        exact List.mem_cons_of_mem _ hc

/-- With the cursor on a quote character `next_token` is `string_literal`, called after
the quote. -/
theorem next_token_quote (L : Lexer) (q : Char) (hq : q = '"' ∨ q = '`')
    (h : L.src.get? L.current = some q) :
    next_token L = string_literal (advance L).2 (here L) q := by
  have hne := not_at_end_of_get? L q h
  have hp : peek_char L 0 = q := by
    simpa [peek_char] using getD_of_get? _ _ _ h
  have hc : (advance L).1 = q := by rw [advance_fst L hne, hp]
  have hskip : skip_whitespace_and_comments L [] true = ([], L, []) := by
    simp only [skip_whitespace_and_comments]
    rw [skip_loop]
    rcases hq with hq | hq <;> subst hq <;> simp [hp]
  have hscan : scan_token L = string_literal (advance L).2 (here L) q := by
    unfold scan_token
    simp only [hc]
    rcases hq with hq | hq <;> subst hq <;>
      simp [show is_ident_start '"' = false by decide, show isdigit '"' = false by decide,
        show is_ident_start '`' = false by decide, show isdigit '`' = false by decide]
  simp only [next_token, hskip, hne, Bool.false_eq_true, if_false, hscan, List.nil_append]

/-- An unterminated double-quoted literal: the token is `ILLEGAL`, with a diagnostic. -/
theorem string_literal_unterminated (L : Lexer) (start : Position)
    (h : closes_string (L.src.drop L.current) = false) :
    (string_literal L start '"').1.type = TokenType.ILLEGAL ∧
    (string_literal L start '"').2.2 ≠ [] := by
  have hl := string_loop_unterminated (remaining L) L ['"'] h
  simp only [string_literal, show ('"' = '`') = False by simp, if_false, hl,
    Bool.false_eq_true]
  exact ⟨rfl, by simp⟩

/-- An unterminated raw literal: the token is `ILLEGAL`, with a diagnostic. -/
theorem raw_literal_unterminated (L : Lexer) (start : Position)
    (h : '`' ∉ L.src.drop L.current) :
    (string_literal L start '`').1.type = TokenType.ILLEGAL ∧
    (string_literal L start '`').2.2 ≠ [] := by
  have hl := advance_until_end (remaining L) L ['`'] (Nat.le_refl _) h
  simp only [string_literal, if_true, hl]
  exact ⟨rfl, by simp⟩

/-- C14: when the cursor is on a `"` and the rest of the source has no closing quote
(no `"` other than one taken by a backslash), or on a backtick and the rest of the
source has no backtick, the token that `next_token` returns is `ILLEGAL`, not `STRING`,
and the call reports at least one diagnostic. -/
theorem C14_unterminated_string (L : Lexer) :
    (L.src.get? L.current = some '"' →
      closes_string (L.src.drop (L.current + 1)) = false →
      (next_token L).1.type = TokenType.ILLEGAL ∧
      (next_token L).1.type ≠ TokenType.STRING ∧ (next_token L).2.2 ≠ []) ∧
    (L.src.get? L.current = some '`' → '`' ∉ L.src.drop (L.current + 1) →
      (next_token L).1.type = TokenType.ILLEGAL ∧
      (next_token L).1.type ≠ TokenType.STRING ∧ (next_token L).2.2 ≠ []) := by
  constructor
  · intro h1 h2
    have hne := not_at_end_of_get? L _ h1
    rw [next_token_quote L '"' (Or.inl rfl) h1]
    have := string_literal_unterminated (advance L).2 (here L)
      (by rw [advance_src, advance_current L hne]; exact h2)
    exact ⟨this.1, by rw [this.1]; decide, this.2⟩
  · intro h1 h2
    have hne := not_at_end_of_get? L _ h1
    rw [next_token_quote L '`' (Or.inr rfl) h1]
    have := raw_literal_unterminated (advance L).2 (here L)
      (by rw [advance_src, advance_current L hne]; exact h2)
    exact ⟨this.1, by rw [this.1]; decide, this.2⟩

/-- C14 at concrete sources: an unterminated literal, one whose last quote is escaped, an
unterminated raw literal, and for comparison a closed one. -/
theorem C14_examples :
    (tokenize_all 5 (Lexer.new "x \"ab")).map
        (fun r => (r.1.map (fun t => (t.type, t.lexeme)), r.2.2)) =
      some ([(TokenType.IDENT, "x"), (TokenType.ILLEGAL, "\"ab"), (TokenType.EOF_TOKEN, "")],
        [⟨1, 6, "unterminated string literal"⟩]) ∧
    (tokenize_all 5 (Lexer.new "\"a\\\"")).map
        (fun r => (r.1.map (fun t => (t.type, t.lexeme)), r.2.2)) =
      some ([(TokenType.ILLEGAL, "\"a\\\""), (TokenType.EOF_TOKEN, "")],
        [⟨1, 5, "unterminated string literal"⟩]) ∧
    (tokenize_all 5 (Lexer.new "`ab")).map
        (fun r => (r.1.map (fun t => (t.type, t.lexeme)), r.2.2)) =
      some ([(TokenType.ILLEGAL, "`ab"), (TokenType.EOF_TOKEN, "")],
        [⟨1, 4, "unterminated raw string literal"⟩]) ∧
    (tokenize_all 5 (Lexer.new "\"ab\"")).map
        (fun r => (r.1.map (fun t => (t.type, t.lexeme)), r.2.2)) =
      some ([(TokenType.STRING, "\"ab\""), (TokenType.EOF_TOKEN, "")], []) := by
  refine ⟨?_, ?_, ?_, ?_⟩ <;> decide

end lex


open lex ast

theorem toNat_ofNat_byte (n : Nat) (h : n < 256) : (Char.ofNat n).toNat = n := by
  have hv : n.isValidChar := Or.inl (by omega)
  simp only [Char.ofNat, hv, dite_true]
  rfl

theorem getD_after (pre suf : List Char) (k : Nat) :
    (pre ++ suf).getD (pre.length + k) NUL = suf.getD k NUL := by
  rw [List.getD_append_right _ _ _ _ (by omega)]
  simp

theorem hex_digit_le (c : Char) : hex_digit_value c ≤ 15 := by
  have codes : '0'.toNat = 48 ∧ '9'.toNat = 57 ∧ 'a'.toNat = 97 ∧ 'f'.toNat = 102 ∧
      'A'.toNat = 65 ∧ 'F'.toNat = 70 := by decide
  unfold hex_digit_value
  simp only [lex.char_le_iff, codes.1, codes.2.1, codes.2.2.1, codes.2.2.2.1,
    codes.2.2.2.2.1, codes.2.2.2.2.2]
  split_ifs <;> omega

/-- One step of the digit loop of a hexadecimal escape adds the value of the digit. -/
theorem hex_step (c : Char) (v : Nat) :
    (if '0' ≤ c ∧ c ≤ '9' then v + (c.toNat - '0'.toNat)
      else if 'a' ≤ c ∧ c ≤ 'f' then v + (10 + (c.toNat - 'a'.toNat))
      else if 'A' ≤ c ∧ c ≤ 'F' then v + (10 + (c.toNat - 'A'.toNat))
      else v) = v + hex_digit_value c := by
  unfold hex_digit_value
  split_ifs <;> rfl

theorem text_getD (l pre txt rest : List Char) (hl : l = pre ++ (txt ++ rest)) (k : Nat) :
    l.getD (pre.length + k) NUL = (txt ++ rest).getD k NUL := by
  rw [hl, getD_after]

/-- The decoding loop, started at the first character of a sequence of items that is
followed by the closing quote, appends the bytes of the items. -/
theorem decode_loop_items : ∀ (items : List StrItem) (l pre : List Char) (fuel : Nat)
    (out : List Char), l = pre ++ (items_text items ++ ['"']) →
    (∀ it ∈ items, it.ok = true) → items.length ≤ fuel →
    decode_loop l (l.length - 1) fuel pre.length out =
      out ++ items.map (fun it => Char.ofNat it.byte) := by
  intro items
  induction items with
  | nil =>
    intro l pre fuel out hl _ _
    have hlen : l.length - 1 = pre.length := by rw [hl]; simp [items_text]
    cases fuel with
    | zero => simp [decode_loop]
    | succ f => rw [decode_loop, hlen]; simp
  | cons it rest ih =>
    intro l pre fuel out hl hok hf
    obtain ⟨f, rfl⟩ : ∃ f, fuel = f + 1 := ⟨fuel - 1, by simp at hf; omega⟩
    have hrest : ∀ x ∈ rest, x.ok = true := fun x hx => hok x (List.mem_cons_of_mem _ hx)
    have hit := hok it (List.mem_cons_self _ _)
    have hf' : rest.length ≤ f := by simp at hf; omega
    have hl' : l = pre ++ (it.text ++ (items_text rest ++ ['"'])) := by
      rw [hl]; simp [items_text]
    have hl2 : l = (pre ++ it.text) ++ (items_text rest ++ ['"']) := by
      rw [hl']; simp
    have hlen : l.length = pre.length + it.text.length + (items_text rest).length + 1 := by
      rw [hl']; simp; omega
    have h0 := text_getD l pre it.text _ hl' 0
    have h1 := text_getD l pre it.text _ hl' 1
    have h2 := text_getD l pre it.text _ hl' 2
    have h3 := text_getD l pre it.text _ hl' 3
    have hih := fun o => ih l (pre ++ it.text) f o hl2 hrest hf'
    simp only [List.length_append] at hih
    rw [decode_loop]
    cases it with
    | plain c =>
      simp only [StrItem.ok, Bool.and_eq_true, decide_eq_true_eq] at hit
      simp only [StrItem.text, List.length_singleton] at hlen hih
      simp only [StrItem.text, Nat.add_zero, List.singleton_append, List.getD_cons_zero] at h0
      rw [if_pos (by omega)]
      simp only [h0, hit.1.1, false_and, if_false]
      rw [hih]
      simp [StrItem.byte]
    | newline =>
      simp only [StrItem.text, List.length_cons, List.length_nil, Nat.zero_add, Nat.reduceAdd]
        at hlen hih
      simp only [StrItem.text, Nat.add_zero, List.cons_append, List.getD_cons_zero,
        List.getD_cons_succ] at h0 h1
      rw [if_pos (by omega)]
      simp only [h0, h1, eq_self_iff_true, true_and]
      rw [if_pos (by omega)]
      simp only [if_true]
      rw [hih]
      simp [StrItem.byte]
    | tab =>
      simp only [StrItem.text, List.length_cons, List.length_nil, Nat.zero_add, Nat.reduceAdd]
        at hlen hih
      simp only [StrItem.text, Nat.add_zero, List.cons_append, List.getD_cons_zero,
        List.getD_cons_succ] at h0 h1
      rw [if_pos (by omega)]
      simp only [h0, h1, eq_self_iff_true, true_and]
      rw [if_pos (by omega)]
      simp only [Char.reduceEq, if_false, if_true]
      rw [hih]
      simp [StrItem.byte]
    | backslash =>
      simp only [StrItem.text, List.length_cons, List.length_nil, Nat.zero_add, Nat.reduceAdd]
        at hlen hih
      simp only [StrItem.text, Nat.add_zero, List.cons_append, List.getD_cons_zero,
        List.getD_cons_succ] at h0 h1
      rw [if_pos (by omega)]
      simp only [h0, h1, eq_self_iff_true, true_and]
      rw [if_pos (by omega)]
      simp only [Char.reduceEq, if_false, if_true]
      rw [hih]
      simp [StrItem.byte]
    | quote =>
      simp only [StrItem.text, List.length_cons, List.length_nil, Nat.zero_add, Nat.reduceAdd]
        at hlen hih
      simp only [StrItem.text, Nat.add_zero, List.cons_append, List.getD_cons_zero,
        List.getD_cons_succ] at h0 h1
      rw [if_pos (by omega)]
      simp only [h0, h1, eq_self_iff_true, true_and]
      rw [if_pos (by omega)]
      simp only [Char.reduceEq, if_false, if_true]
      rw [hih]
      simp [StrItem.byte]
    | hex d1 d2 =>
      simp only [StrItem.ok, Bool.and_eq_true] at hit
      simp only [StrItem.text, List.length_cons, List.length_nil, Nat.zero_add, Nat.reduceAdd]
        at hlen hih
      simp only [StrItem.text, Nat.add_zero, List.cons_append, List.getD_cons_zero,
        List.getD_cons_succ] at h0 h1 h2 h3
      rw [if_pos (by omega)]
      simp only [h0, h1, eq_self_iff_true, true_and]
      rw [if_pos (by omega)]
      simp only [Char.reduceEq, if_false, if_true]
      have hx : decode_hex_loop l (l.length - 1) 2 (pre.length + 2) 0 0 =
          (pre.length + 4, 16 * hex_digit_value d1 + hex_digit_value d2) := by
        rw [decode_hex_loop, if_pos ⟨by omega, by omega, by rw [h2]; exact hit.1⟩]
        simp only [h2, hex_step]
        rw [decode_hex_loop, if_pos ⟨by omega, by omega, by rw [h3]; exact hit.2⟩]
        simp only [h3, hex_step]
        rw [decode_hex_loop]
        simp only [Prod.mk.injEq, true_and]
        omega
      rw [hx]
      simp only
      rw [hih]
      have := hex_digit_le d1
      have := hex_digit_le d2
      rw [Nat.mod_eq_of_lt (by omega)]
      simp [StrItem.byte]

theorem items_text_length (items : List StrItem) : items.length ≤ (items_text items).length := by
  induction items with
  | nil => simp [items_text]
  | cons it rest ih =>
    have : 1 ≤ it.text.length := by cases it <;> simp [StrItem.text]
    simp only [items_text, List.length_cons, List.length_append]
    omega

theorem item_byte_lt (it : StrItem) (h : it.ok = true) : it.byte < 256 := by
  cases it with
  | plain c =>
    simp only [StrItem.ok, Bool.and_eq_true, decide_eq_true_eq] at h
    exact h.2
  | hex d1 d2 =>
    have := hex_digit_le d1
    have := hex_digit_le d2
    simp only [StrItem.byte]
    omega
  | _ => simp [StrItem.byte]

/-- The decoded content of a double-quoted literal is the bytes of its items. -/
theorem decode_quoted (items : List StrItem) (hok : ∀ it ∈ items, it.ok = true) :
    decode_string_literal_content (quoted items) =
      items.map (fun it => Char.ofNat it.byte) := by
  have hlen := items_text_length items
  unfold decode_string_literal_content quoted
  simp only [String.toList, List.length_cons, List.length_append, List.length_singleton,
    List.head?_cons, Option.some.injEq, Char.reduceEq, if_false]
  rw [if_neg (by omega)]
  have := decode_loop_items items ('"' :: (items_text items ++ ['"'])) ['"']
    ((items_text items).length + 1 + 1) [] rfl hok (by omega)
  simpa using this

/-- The `ByteArrayLiteral` of a double-quoted literal has one `INT` literal per item,
holding the decimal text of its byte. -/
theorem byte_array_of_quoted (items : List StrItem) (hok : ∀ it ∈ items, it.ok = true) :
    path.byte_array_of_string (quoted items) = Expr.ByteArrayLiteral (byte_literals items) := by
  unfold path.byte_array_of_string byte_literals
  rw [decode_quoted items hok, List.map_map]
  congr 1
  apply List.map_congr_left
  intro it hit
  have hb := item_byte_lt it (hok it hit)
  simp only [Function.comp_apply, toNat_ofNat_byte _ hb, Nat.mod_eq_of_lt hb]

namespace path

/-- The keyword `byte` in front of a string literal that nothing continues. -/
theorem byte_string_atom (P : Parser) (h0 : P.cur.type = TokenType.KW_BYTE)
    (h1 : (advance P).cur.type = TokenType.STRING)
    (h2 : continues_primary (advance (advance P)).cur.type = false) :
    Parses (parse_level 8) 3 P
      (byte_array_of_string (advance P).cur.lexeme, advance (advance P)) := by
  intro n hn
  obtain ⟨m, rfl⟩ : ∃ m, n = m + 3 := ⟨n - 3, by omega⟩
  simp only [parse_level]
  rw [parse_unary]
  simp only [check, h0]
  simp only [reduceCtorEq, decide_False, Bool.or_self, Bool.false_eq_true, if_false]
  rw [parse_primary]
  simp only [check, h0, h1]
  simp only [reduceCtorEq, decide_False, decide_True, Bool.or_self, Bool.false_eq_true,
    if_false, if_true, Bool.true_or, Bool.or_true, Bool.false_and, Bool.or_false]
  exact parse_postfix_stop m _ _ h2

/-- C15: the keyword `byte` followed by a double-quoted string literal whose text is a
sequence of ordinary characters and of the escapes `\n`, `\t`, `\\`, `\"`, `\xHH` parses
to a `ByteArrayLiteral` with one `INT` literal per item, in order, holding the byte of the
item (the character code, 10, 9, 92, 34, or the value of the two hexadecimal digits); no
diagnostic is reported.  For a text of ordinary characters only, the elements are the
codes of its characters, one for each. -/
theorem C15_byte_string (P : Parser) (items : List StrItem) (n : Nat) (hn : 12 ≤ n)
    (hok : ∀ it ∈ items, it.ok = true)
    (h0 : P.cur.type = TokenType.KW_BYTE)
    (h1 : (advance P).cur.type = TokenType.STRING)
    (h2 : (advance P).cur.lexeme = quoted items)
    (h3 : ends_expression (advance (advance P)).cur.type = true) :
    parse_expression n P =
      some (Expr.ByteArrayLiteral (byte_literals items), advance (advance P)) ∧
    (byte_literals items).length = items.length ∧
    (advance (advance P)).diags = P.diags ∧
    ∀ cs : List Char, items = cs.map StrItem.plain →
      byte_literals items = cs.map (fun c => Expr.Literal (toString c.toNat) TokenType.INT) := by
  have hb : binop_level (advance (advance P)).cur.type = none ∧
      continues_primary (advance (advance P)).cur.type = false := by
    simpa [ends_expression] using h3
  have ha := byte_string_atom P h0 h1 hb.2
  rw [h2, byte_array_of_quoted items hok] at ha
  have he := parse_expression_of_level 11 _ _
    (lift 8 0 8 3 P _ (by omega) (Nat.le_refl _) ha (by omega)
      (fun j _ _ => by simp [hb.1])) n hn
  refine ⟨he, by simp [byte_literals], by simp only [advance_diags], ?_⟩
  intro cs hcs
  rw [hcs]
  simp [byte_literals, StrItem.byte]

/-- C15 at the source `byte "a\n\x41\\\""`: the elements are 97, 10, 65, 92 and 34. -/
theorem C15_witness :
    (parse_expression 12 (Parser.new (Lexer.new "byte \"a\\n\\x41\\\\\\\"\""))).map Prod.fst =
      some (Expr.ByteArrayLiteral [Expr.Literal "97" TokenType.INT,
        Expr.Literal "10" TokenType.INT, Expr.Literal "65" TokenType.INT,
        Expr.Literal "92" TokenType.INT, Expr.Literal "34" TokenType.INT]) := by
  rw [(C15_byte_string (Parser.new (Lexer.new "byte \"a\\n\\x41\\\\\\\"\""))
    [StrItem.plain 'a', StrItem.newline, StrItem.hex '4' '1', StrItem.backslash,
      StrItem.quote] 12 (Nat.le_refl _) (by decide) (by decide) (by decide) (by decide)
    (by decide)).1]
  decide

end path


open lex ast

namespace codegen

/-- C16 (the code at the failing input): the source ``x := `a\nb` `` (a raw string with
the four characters `a`, backslash, `n`, `b`) is lexed as one `STRING` token and parsed to
a `Literal` with that text; the `STRING` case of `codegen_literal` unescapes it like a
double-quoted string and makes the constant `a`, line feed, `b`, three characters, not
the four characters between the backticks, which `decode_string_literal_content` of the
parser does return for the same literal. -/
theorem C16_raw_string_is_unescaped :
    (path.parse_source 40 "x := `a\\nb`").map (fun r => (r.1, r.2.diags, r.2.lex_diags)) =
      some ({ decls := [Decl.StmtDecl (Stmt.VarDecl "x" none
        (some (Expr.Literal "`a\\nb`" TokenType.STRING)))] }, [], []) ∧
    codegen_literal_string "`a\\nb`" = ['a', '\n', 'b'] ∧
    codegen_literal_string "`a\\nb`" ≠ ['a', '\\', 'n', 'b'] ∧
    decode_string_literal_content "`a\\nb`" = ['a', '\\', 'n', 'b'] := by
  refine ⟨?_, ?_, ?_, ?_⟩ <;> decide

/-- C17 as stated fails at `float`, `f32` and `f64`: `float` resolves to the 64-bit
`double` type, not to the 32-bit float type, and `f32` and `f64`, which the function does
not know, each create a struct type of that name and return it. -/
theorem C17_counterexample :
    resolve_type_by_name "float" [] = (some LType.double, []) ∧
    (resolve_type_by_name "float" []).1 ≠ some LType.float ∧
    resolve_type_by_name "f32" [] = (some (LType.struct "f32"), [("f32", LType.struct "f32")]) ∧
    resolve_type_by_name "f64" [] =
      (some (LType.struct "f64"), [("f64", LType.struct "f64")]) := by
  refine ⟨?_, ?_, ?_, ?_⟩ <;> decide

/-- C17 (amended): whatever the map `struct_types` holds, `resolve_type_by_name` maps
`i32` to i32, `i64` to i64, `float` and `double` to the 64-bit float type, `bool` to i1,
`char` and `byte` to i8, `size_t` to i64, `void` to void and `string` to pointer-to-i8,
and leaves the map as it is: none of these names creates or returns a struct type. -/
theorem C17_reserved_names (struct_types : StructTypes) :
    resolve_type_by_name "i32" struct_types = (some LType.i32, struct_types) ∧
    resolve_type_by_name "i64" struct_types = (some LType.i64, struct_types) ∧
    resolve_type_by_name "float" struct_types = (some LType.double, struct_types) ∧
    resolve_type_by_name "double" struct_types = (some LType.double, struct_types) ∧
    resolve_type_by_name "bool" struct_types = (some LType.i1, struct_types) ∧
    resolve_type_by_name "char" struct_types = (some LType.i8, struct_types) ∧
    resolve_type_by_name "byte" struct_types = (some LType.i8, struct_types) ∧
    resolve_type_by_name "size_t" struct_types = (some LType.i64, struct_types) ∧
    resolve_type_by_name "void" struct_types = (some LType.void, struct_types) ∧
    resolve_type_by_name "string" struct_types = (some (LType.ptr LType.i8), struct_types) := by
  refine ⟨?_, ?_, ?_, ?_, ?_, ?_, ?_, ?_, ?_, ?_⟩ <;>
    simp [resolve_type_by_name, resolve_type_chars, resolve_plain_name]

end codegen


open lex ast

namespace codegen

/-- The type name of an absent annotation is empty, and `getLLVMType` throws on it. -/
theorem getLLVMType_empty (cg : CodeGen) :
    cg.getLLVMType (resolve_type_name none) = Except.error "Unknown type: " := by
  have he : "".isEmpty = true := by decide
  simp [CodeGen.getLLVMType, resolve_type_name, parse_type_chain, parse_type_chain_loop,
    CodeGen.lookup_struct_type, he]

/-- C18 (the code at the failing input): for a declaration without a type annotation,
such as the `x := 1` of `fn main() { x := 1 }`, `codegen_vardecl` throws the exception
`Unknown type: ` that `getLLVMType` raises for the empty type name, whatever the
initializer, the lowering of expressions and the state of the generator are: no stack
slot is made and no name is bound. -/
theorem C18_untyped_vardecl_throws :
    (∀ (codegen_expr : Lowering) (name : String) (init : Option Expr) (cg : CodeGen),
      codegen_vardecl codegen_expr name none init cg = Except.error "Unknown type: ") ∧
    (path.parse_source 40 "fn main() \x7b x := 1 \x7d").map (fun r => (r.1, r.2.diags)) =
      some ({ decls := [Decl.FuncDecl "main" none [] none false
        [Stmt.VarDecl "x" none (some (Expr.Literal "1" TokenType.INT))]] }, []) := by
  constructor
  · intro codegen_expr name init cg
    unfold codegen_vardecl
    simp only [getLLVMType_empty]
  · decide

end codegen


open lex ast

namespace codegen

theorem field_stores_append (all : Value) (a b : List Instr) (i : Nat) :
    field_stores all (a ++ b) i = field_stores all a i ++ field_stores all b i := by
  simp [field_stores, List.filterMap_append]

theorem field_stores_values (all : Value) (pre : List Instr) (i : Nat)
    (h : ∀ x ∈ pre, ∃ u, x = Instr.value u) : field_stores all pre i = [] := by
  simp only [field_stores, List.filterMap_eq_nil_iff]
  intro x hx
  obtain ⟨u, rfl⟩ := h x hx
  rfl

theorem store_finish (v addr w : Value) (cg0 cg : CodeGen) (pre : List Instr)
    (hs : Stored v w) (hc : cg.code = cg0.code ++ pre)
    (hp : ∀ x ∈ pre, ∃ u, x = Instr.value u) :
    ∃ w1 pre1, Stored v w1 ∧ (∀ x ∈ pre1, ∃ u, x = Instr.value u) ∧
      (cg.create_store w addr).code = cg0.code ++ (pre1 ++ [Instr.store w1 addr]) :=
  ⟨w, pre, hs, hp, by simp [CodeGen.create_store, hc]⟩

theorem store_finish_two (v addr w : Value) (cg0 cg : CodeGen) (a b : Instr)
    (hs : Stored v w) (hc : cg.code = cg0.code ++ [a] ++ [b])
    (ha : ∃ u, a = Instr.value u) (hb : ∃ u, b = Instr.value u) :
    ∃ w1 pre1, Stored v w1 ∧ (∀ x ∈ pre1, ∃ u, x = Instr.value u) ∧
      (cg.create_store w addr).code = cg0.code ++ (pre1 ++ [Instr.store w1 addr]) :=
  ⟨w, [a, b], hs, by simpa using ⟨ha, hb⟩, by simp [CodeGen.create_store, hc]⟩

/-- What `store_field` appends when it succeeds: casts and loads, then one store of a
form of `v` to `fieldAddr`. -/
theorem store_field_code (typeName : String) (i : Nat) (fieldTy : LType) (fieldAddr v : Value)
    (cg : CodeGen) (h : (store_field typeName i fieldTy fieldAddr v cg).1 = true) :
    ∃ w pre, Stored v w ∧ (∀ x ∈ pre, ∃ u, x = Instr.value u) ∧
      (store_field typeName i fieldTy fieldAddr v cg).2.code =
        cg.code ++ (pre ++ [Instr.store w fieldAddr]) := by
  unfold store_field at h ⊢
  split_ifs at h ⊢ <;> dsimp only
  · refine store_finish_two v fieldAddr _ cg _ ?a0 ?b0 ?hs0 ?hc0 ?ha0 ?hb0
    case hc0 => exact rfl
    case hs0 => exact Or.inr (Or.inr (Or.inr ⟨_, _, _, _, _, _, _, rfl⟩))
    case ha0 => exact ⟨_, rfl⟩
    case hb0 => exact ⟨_, rfl⟩
  · refine store_finish v fieldAddr _ cg _ ?pre1 ?hs1 ?hc1 ?hp1
    case hc1 => exact rfl
    case hs1 => exact Or.inr (Or.inr (Or.inl ⟨_, _, _, rfl⟩))
    case hp1 => simp
  · refine store_finish v fieldAddr _ cg _ ?pre2 ?hs2 ?hc2 ?hp2
    case hc2 => exact rfl
    case hs2 => exact Or.inr (Or.inl ⟨_, _, _, _, rfl⟩)
    case hp2 => simp
  · refine store_finish v fieldAddr _ cg _ ?pre3 ?hs3 ?hc3 ?hp3
    case hc3 => exact rfl
    case hs3 => exact Or.inr (Or.inl ⟨_, _, _, _, rfl⟩)
    case hp3 => simp
  · refine store_finish v fieldAddr _ cg _ ?pre10 ?hs10 ?hc10 ?hp10
    case hc10 => exact rfl
    case hs10 => exact Or.inr (Or.inl ⟨_, _, _, _, rfl⟩)
    case hp10 => simp
  · refine store_finish v fieldAddr _ cg _ ?pre11 ?hs11 ?hc11 ?hp11
    case hc11 => exact List.append_nil _ |>.symm
    case hs11 => exact Or.inl rfl
    case hp11 => simp
  · refine store_finish v fieldAddr _ cg _ ?pre12 ?hs12 ?hc12 ?hp12
    case hc12 => exact rfl
    case hs12 => exact Or.inr (Or.inl ⟨_, _, _, _, rfl⟩)
    case hp12 => simp
  · refine store_finish v fieldAddr _ cg _ ?pre13 ?hs13 ?hc13 ?hp13
    case hc13 => exact List.append_nil _ |>.symm
    case hs13 => exact Or.inl rfl
    case hp13 => simp

theorem is_field_addr_gep (all : Value) (id : Nat) (name : String) (ty : LType) (i j : Nat) :
    is_field_addr all j (Value.gep2 id name ty all (Value.const_int LType.i32 0)
      (Value.const_int LType.i32 i)) = decide (i = j) := by
  simp [is_field_addr]

theorem field_stores_store (all w addr : Value) (j : Nat) :
    field_stores all [Instr.store w addr] j = if is_field_addr all j addr then [w] else [] := by
  simp only [field_stores, List.filterMap_cons, List.filterMap_nil, field_store]
  split_ifs <;> rfl

/-- The stores of the second loop of `codegen_struct_literal`, run from index `i` on the
slots `P`: a filled slot `k` gets one store of its initializer into field `i + k`, an
empty slot none, and no other field is stored to. -/
theorem store_fields_stores (f : Lowering) (typeName : String) (st : LType) (all : Value)
    (hq : Quiet all f) :
    ∀ (P : List (Option FieldInit)) (i : Nat) (cg cg1 : CodeGen),
      store_fields f typeName st all P i cg = Except.ok (true, cg1) →
      ∃ ins, cg1.code = cg.code ++ ins ∧
        (∀ j, j < i → field_stores all ins j = []) ∧
        (∀ j, i + P.length ≤ j → field_stores all ins j = []) ∧
        (∀ k, P[k]? = some none → field_stores all ins (i + k) = []) ∧
        (∀ k init, P[k]? = some (some init) → StoresInit f all ins (i + k) init) := by
  intro P
  induction P with
  | nil =>
    intro i cg cg1 h
    simp only [store_fields, Except.ok.injEq, Prod.mk.injEq, true_and] at h
    subst h
    exact ⟨[], by simp, fun _ _ => rfl, fun _ _ => rfl, by simp, by simp⟩
  | cons p rest ih =>
    intro i cg cg1 h
    cases p with
    | none =>
      rw [store_fields] at h
      obtain ⟨ins, hc, h1, h2, h3, h4⟩ := ih (i + 1) cg cg1 h
      refine ⟨ins, hc, fun j hj => h1 j (by omega), fun j hj => h2 j (by simp at hj; omega),
        ?_, ?_⟩
      · intro k hk
        cases k with
        | zero => exact h1 i (by omega)
        | succ k =>
          have := h3 k (by simpa using hk)
          rw [show i + (k + 1) = i + 1 + k by omega]
          exact this
      · intro k init hk
        cases k with
        | zero => simp at hk
        | succ k =>
          have := h4 k init (by simpa using hk)
          rw [show i + (k + 1) = i + 1 + k by omega]
          exact this
    | some init =>
      rw [store_fields] at h
      dsimp only at h
      generalize hcgA : (cg.emit_value fun id => Value.gep2 id
        (typeName ++ ".field" ++ toString i ++ ".addr") st all
        (Value.const_int LType.i32 0) (Value.const_int LType.i32 i)) = a at h
      have hA1 : a.1 = Value.gep2 cg.next_id (typeName ++ ".field" ++ toString i ++ ".addr")
          st all (Value.const_int LType.i32 0) (Value.const_int LType.i32 i) := by
        rw [← hcgA]; rfl
      have hA2 : a.2.code = cg.code ++ [Instr.value a.1] := by
        rw [← hcgA]; rfl
      cases hf : f init.2 a.2 with
      | error e => rw [hf] at h; simp at h
      | ok r =>
        obtain ⟨ov, cgB⟩ := r
        rw [hf] at h
        cases ov with
        | none => simp at h
        | some v =>
          dsimp only at h
          obtain ⟨insB, hB, hBq⟩ := hq _ _ _ _ hf
          by_cases hr : (store_field typeName i (cgB.element_type st i) a.1 v cgB).1 = true
          · rw [if_pos hr] at h
            obtain ⟨w, pre, hst, hpre, hC⟩ := store_field_code typeName i _ a.1 v cgB hr
            obtain ⟨ins, hc, h1, h2, h3, h4⟩ := ih (i + 1) _ cg1 h
            have hfs : ∀ j, field_stores all
                ([Instr.value a.1] ++ insB ++ (pre ++ [Instr.store w a.1]) ++ ins) j =
                (if i = j then [w] else []) ++ field_stores all ins j := by
              intro j
              rw [field_stores_append, field_stores_append, field_stores_append,
                field_stores_append, hBq j, field_stores_values all pre j hpre,
                field_stores_values all [Instr.value a.1] j (by simp),
                field_stores_store, hA1, is_field_addr_gep all]
              simp
            refine ⟨[Instr.value a.1] ++ insB ++ (pre ++ [Instr.store w a.1]) ++ ins, ?_, ?_, ?_,
              ?_, ?_⟩
            · rw [hc, hC, hB, hA2]; simp
            · intro j hj
              rw [hfs j, if_neg (by omega), h1 j (by omega)]; rfl
            · intro j hj
              simp only [List.length_cons] at hj
              rw [hfs j, if_neg (by omega), h2 j (by omega)]; rfl
            · intro k hk
              cases k with
              | zero => simp at hk
              | succ k =>
                have := h3 k (by simpa using hk)
                rw [hfs, if_neg (by omega), show i + (k + 1) = i + 1 + k by omega, this]; rfl
            · intro k init1 hk
              cases k with
              | zero =>
                simp only [List.getElem?_cons_zero, Option.some.injEq] at hk
                subst hk
                refine ⟨_, _, v, w, hf, hst, ?_⟩
                rw [hfs, Nat.add_zero, if_pos rfl, h1 i (by omega)]; rfl
              | succ k =>
                obtain ⟨c0, c1, v1, w1, e1, e2, e3⟩ := h4 k init1 (by simpa using hk)
                refine ⟨c0, c1, v1, w1, e1, e2, ?_⟩
                rw [hfs, if_neg (by omega), show i + (k + 1) = i + 1 + k by omega, e3]; rfl
          · rw [if_neg hr] at h
            simp at h

theorem first_free_skip (done : List FieldInit) (r : List (Option FieldInit)) (i : Nat) :
    first_free (done.map some ++ none :: r) i = some (i + done.length) := by
  induction done generalizing i with
  | nil => simp [first_free]
  | cons d done ih =>
    rw [List.map_cons, List.cons_append, first_free, ih, List.length_cons]
    congr 1
    omega

theorem set_after (done : List FieldInit) (r : List (Option FieldInit)) (x : FieldInit) :
    (done.map some ++ none :: r).set done.length (some x) = (done ++ [x]).map some ++ r := by
  induction done with
  | nil => simp
  | cons d done ih => simp [ih]

/-- Positional initializers fill the slots in order. -/
theorem place_positional (sd : StructDecl) (typeName : String) :
    ∀ (inits done : List FieldInit) (m : Nat), (∀ x ∈ inits, x.1 = none) → inits.length ≤ m →
      place_inits sd typeName inits (done.map some ++ List.replicate m none) =
        Except.ok ((done ++ inits).map some ++ List.replicate (m - inits.length) none) := by
  intro inits
  induction inits with
  | nil => intro done m _ _; simp [place_inits]
  | cons x rest ih =>
    intro done m hx hm
    obtain ⟨m1, rfl⟩ : ∃ m1, m = m1 + 1 := ⟨m - 1, by simp at hm; omega⟩
    have h0 : x.1 = none := hx x (List.mem_cons_self _ _)
    rw [place_inits]
    simp only [h0, List.replicate_succ, first_free_skip, Nat.zero_add, set_after]
    rw [ih (done ++ [x]) m1 (fun y hy => hx y (List.mem_cons_of_mem _ hy))
      (by simp at hm; omega)]
    simp

/-- More positional initializers than fields: the placement fails. -/
theorem place_positional_too_many (sd : StructDecl) (typeName : String) :
    ∀ (inits done : List FieldInit) (m : Nat), (∀ x ∈ inits, x.1 = none) → m < inits.length →
      ∃ msg, place_inits sd typeName inits (done.map some ++ List.replicate m none) =
        Except.error msg := by
  intro inits
  induction inits with
  | nil => intro done m _ hm; simp at hm
  | cons x rest ih =>
    intro done m hx hm
    have h0 : x.1 = none := hx x (List.mem_cons_self _ _)
    rw [place_inits]
    cases m with
    | zero =>
      have hff : ∀ (l : List FieldInit) (i : Nat), first_free (l.map some) i = none := by
        intro l
        induction l with
        | nil => intro i; rfl
        | cons d l ihl => intro i; simp [first_free, ihl]
      simp only [h0, List.replicate_zero, List.append_nil, hff]
      exact ⟨_, rfl⟩
    | succ m1 =>
      simp only [h0, List.replicate_succ, first_free_skip, Nat.zero_add, set_after]
      exact ih (done ++ [x]) m1 (fun y hy => hx y (List.mem_cons_of_mem _ hy))
        (by simp at hm; omega)

theorem get_field_index_from_spec (fieldName : String) :
    ∀ (fields : List StructField) (i k : Nat),
      get_field_index_from fields fieldName i = some k →
      i ≤ k ∧ k - i < fields.length ∧ (fields[k - i]?).map field_name = some fieldName := by
  intro fields
  induction fields with
  | nil => intro i k h; simp [get_field_index_from] at h
  | cons fd rest ih =>
    intro i k h
    obtain ⟨n, t, s, p⟩ := fd
    rw [get_field_index_from] at h
    by_cases hn : n = fieldName
    · rw [if_pos hn] at h
      simp only [Option.some.injEq] at h
      subst h
      simp [field_name, hn]
    · rw [if_neg hn] at h
      obtain ⟨h1, h2, h3⟩ := ih (i + 1) k h
      refine ⟨by omega, by simp; omega, ?_⟩
      rw [show k - i = (k - (i + 1)) + 1 by omega]
      simpa using h3

/-- The index that `get_field_index` returns is the index of a field with that name. -/
theorem get_field_index_spec (sd : StructDecl) (fieldName : String) (k : Nat)
    (h : get_field_index sd fieldName = some k) :
    k < sd.fields.length ∧ (sd.fields[k]?).map field_name = some fieldName := by
  have := get_field_index_from_spec fieldName sd.fields 0 k h
  simpa using this.2

end codegen


open lex ast

namespace codegen

/-- The field index of a named initializer. -/
theorem same_index_same_name (sd : StructDecl) (n1 n2 : String) (k : Nat)
    (h1 : get_field_index sd n1 = some k) (h2 : get_field_index sd n2 = some k) : n1 = n2 := by
  have a := (get_field_index_spec sd n1 k h1).2
  have b := (get_field_index_spec sd n2 k h2).2
  rw [a] at b
  exact Option.some.inj b

/-- Named initializers with distinct names: each fills the slot of its field, and the
other slots are left as they were. -/
theorem place_named (sd : StructDecl) (typeName : String) :
    ∀ (inits : List FieldInit) (P P1 : List (Option FieldInit)),
      (∀ x ∈ inits, x.1 ≠ none) → (inits.map Prod.fst).Nodup →
      P.length = sd.fields.length →
      place_inits sd typeName inits P = Except.ok P1 →
      P1.length = P.length ∧
      (∀ x ∈ inits, ∀ name, x.1 = some name →
        ∃ i, get_field_index sd name = some i ∧ P1[i]? = some (some x)) ∧
      (∀ i, (∀ x ∈ inits, ∀ name, x.1 = some name → get_field_index sd name ≠ some i) →
        P1[i]? = P[i]?) := by
  intro inits
  induction inits with
  | nil =>
    intro P P1 _ _ _ h
    simp only [place_inits, Except.ok.injEq] at h
    subst h
    simp
  | cons x rest ih =>
    intro P P1 hn hd hl h
    obtain ⟨name, hname⟩ : ∃ name, x.1 = some name := by
      cases hx : x.1 with
      | none => exact absurd hx (hn x (List.mem_cons_self _ _))
      | some n => exact ⟨n, rfl⟩
    rw [place_inits] at h
    simp only [hname] at h
    cases hi : get_field_index sd name with
    | none => rw [hi] at h; simp at h
    | some i =>
      rw [hi] at h
      dsimp only at h
      have hlt := (get_field_index_spec sd name i hi).1
      simp only [List.map_cons, List.nodup_cons] at hd
      obtain ⟨e1, e2, e3⟩ := ih (P.set i (some x)) P1
        (fun y hy => hn y (List.mem_cons_of_mem _ hy)) hd.2 (by simpa using hl) h
      have hfree : ∀ y ∈ rest, ∀ nm, y.1 = some nm → get_field_index sd nm ≠ some i := by
        intro y hy nm hnm hc
        have := same_index_same_name sd nm name i hc hi
        apply hd.1
        rw [hname, ← this, ← hnm]
        exact List.mem_map_of_mem _ hy
      refine ⟨by simpa using e1, ?_, ?_⟩
      · intro y hy nm hnm
        rcases List.mem_cons.1 hy with hy | hy
        · subst hy
          rw [hname] at hnm
          have hnm : name = nm := Option.some.inj hnm
          subst hnm
          refine ⟨i, hi, ?_⟩
          rw [e3 i hfree]
          simp [List.getElem?_set, hl, hlt]
        · exact e2 y hy nm hnm
      · intro k hk
        rw [e3 k (fun y hy nm hnm => hk y (List.mem_cons_of_mem _ hy) nm hnm)]
        have hki : i ≠ k := by
          intro hc
          subst hc
          exact hk x (List.mem_cons_self _ _) name hname hi
        simp [List.getElem?_set, hki]

theorem get_or_create_code (cg : CodeGen) (name : String) :
    (cg.get_or_create_named_struct name).2.code = cg.code := by
  unfold CodeGen.get_or_create_named_struct
  split_ifs
  · rfl
  · split <;> rfl

/-- What a successful run of `codegen_struct_literal` consists of. -/
theorem codegen_struct_literal_run (f : Lowering) (typeName : String) (sd : StructDecl)
    (inits : List FieldInit) (cg cg1 : CodeGen) (all : Value)
    (hsd : cg.struct_decls.lookup typeName = some sd)
    (hrun : codegen_struct_literal f (Ty.NamedType typeName) inits cg =
      Except.ok (some all, cg1)) :
    ∃ st cgA P, cgA.code = cg.code ∧
      place_inits sd typeName inits (List.replicate sd.fields.length none) = Except.ok P ∧
      store_fields f typeName st all P 0 cgA = Except.ok (true, cg1) := by
  unfold codegen_struct_literal at hrun
  simp only [hsd] at hrun
  have hcode := get_or_create_code cg typeName
  cases hg : cg.get_or_create_named_struct typeName with
  | mk ost cgA =>
    rw [hg] at hrun hcode
    cases ost with
    | none => simp at hrun
    | some st =>
      dsimp only at hrun hcode
      split_ifs at hrun
      · simp at hrun
      · cases hp : place_inits sd typeName inits (List.replicate sd.fields.length none) with
        | error e => rw [hp] at hrun; simp at hrun
        | ok P =>
          rw [hp] at hrun
          dsimp only at hrun
          cases hs : store_fields f typeName st (cgA.create_entry_alloca st (typeName ++ ".tmp")).1
              P 0 (cgA.create_entry_alloca st (typeName ++ ".tmp")).2 with
          | error e => rw [hs] at hrun; simp at hrun
          | ok r =>
            obtain ⟨b, cg2⟩ := r
            rw [hs] at hrun
            cases b with
            | false => simp at hrun
            | true =>
              simp only [Except.ok.injEq, Prod.mk.injEq, Option.some.injEq] at hrun
              obtain ⟨ha, hc⟩ := hrun
              subst hc
              rw [ha] at hs
              exact ⟨st, (cgA.create_entry_alloca st (typeName ++ ".tmp")).2, P, hcode, rfl, hs⟩

/-- C19: when `codegen_struct_literal` lowers a literal of the declared struct `sd` and
returns the address `all`, the instructions `ins` that it appends are such that: for
initializers that are all positional, there are at most as many as fields, the `i`-th is
lowered and stored, once, into field `i`, and the fields after them get no store; for
initializers that are all named, with distinct names, each is lowered and stored, once,
into the field that `get_field_index` finds for its name, which is a field of that name,
and a field that no initializer names gets no store.  The lowering of expressions is a
parameter `f` that appends instructions of its own, none of them a store into a field of
`all`. -/
theorem C19_struct_literal_stores (f : Lowering) (typeName : String) (sd : StructDecl)
    (inits : List FieldInit) (cg cg1 : CodeGen) (all : Value)
    (hq : Quiet all f)
    (hsd : cg.struct_decls.lookup typeName = some sd)
    (hrun : codegen_struct_literal f (Ty.NamedType typeName) inits cg =
      Except.ok (some all, cg1)) :
    ∃ ins, cg1.code = cg.code ++ ins ∧
      ((∀ x ∈ inits, x.1 = none) →
        inits.length ≤ sd.fields.length ∧
        (∀ i init, inits[i]? = some init → StoresInit f all ins i init) ∧
        (∀ i, inits.length ≤ i → field_stores all ins i = [])) ∧
      ((∀ x ∈ inits, x.1 ≠ none) → (inits.map Prod.fst).Nodup →
        (∀ x ∈ inits, ∀ name, x.1 = some name →
          ∃ i, get_field_index sd name = some i ∧
            (sd.fields[i]?).map field_name = some name ∧ StoresInit f all ins i x) ∧
        (∀ i, (∀ x ∈ inits, ∀ name, x.1 = some name → get_field_index sd name ≠ some i) →
          field_stores all ins i = [])) := by
  obtain ⟨st, cgA, P, hcode, hplace, hstore⟩ :=
    codegen_struct_literal_run f typeName sd inits cg cg1 all hsd hrun
  obtain ⟨ins, hc, -, h2, h3, h4⟩ := store_fields_stores f typeName st all hq P 0 cgA cg1 hstore
  simp only [Nat.zero_add] at h2 h3 h4
  refine ⟨ins, by rw [hc, hcode], ?_, ?_⟩
  · intro hpos
    have hle : inits.length ≤ sd.fields.length := by
      by_contra hgt
      obtain ⟨msg, hm⟩ := place_positional_too_many sd typeName inits [] sd.fields.length hpos
        (by omega)
      simp only [List.map_nil, List.nil_append] at hm
      rw [hm] at hplace
      exact absurd hplace (by simp)
    have hP := place_positional sd typeName inits [] sd.fields.length hpos hle
    simp only [List.map_nil, List.nil_append] at hP
    rw [hP] at hplace
    simp only [Except.ok.injEq] at hplace
    subst hplace
    refine ⟨hle, ?_, ?_⟩
    · intro i init hi
      apply h4
      have hlt : i < inits.length := (List.getElem?_eq_some_iff.1 hi).1
      rw [List.getElem?_append_left (by simpa using hlt)]
      simp [hi]
    · intro i hi
      by_cases hin : i < sd.fields.length
      · apply h3
        rw [List.getElem?_append_right (by simpa using hi)]
        simp only [List.length_map]
        rw [List.getElem?_replicate]
        rw [if_pos (by omega)]
      · apply h2
        simp
        omega
  · intro hnamed hnd
    obtain ⟨e1, e2, e3⟩ := place_named sd typeName inits _ P hnamed hnd (by simp) hplace
    simp only [List.length_replicate] at e1
    refine ⟨?_, ?_⟩
    · intro x hx name hname
      obtain ⟨i, hi, hPi⟩ := e2 x hx name hname
      exact ⟨i, hi, (get_field_index_spec sd name i hi).2, h4 i x hPi⟩
    · intro i hi
      by_cases hin : i < sd.fields.length
      · apply h3
        rw [e3 i hi, List.getElem?_replicate, if_pos hin]
      · apply h2
        omega

theorem literal_lowering_quiet (all : Value) : Quiet all literal_lowering := by
  intro e cg r cg1 h
  refine ⟨[], ?_, fun _ => rfl⟩
  unfold literal_lowering at h
  split at h <;>
    · simp only [Except.ok.injEq, Prod.mk.injEq] at h
      rw [← h.2]
      simp

/-- C19 at the literals `P{1, 2}`, `P{1}` and `P{y: 2}` of `struct P { x i32  y i32 }`:
the run for `P{1, 2}` stores 1 into field 0 and 2 into field 1; in the general theorem,
`P{1}` stores into field 0 and not into field 1, and `P{y: 2}` stores into field 1. -/
theorem C19_witness :
    codegen_struct_literal literal_lowering (Ty.NamedType "P")
        [(none, Expr.Literal "1" TokenType.INT), (none, Expr.Literal "2" TokenType.INT)]
        example_state =
      Except.ok (some example_alloca,
        { example_state with
          entry := [Instr.value example_alloca],
          code := [Instr.value (example_field_addr 1 0),
            Instr.store (Value.const_int LType.i32 1) (example_field_addr 1 0),
            Instr.value (example_field_addr 2 1),
            Instr.store (Value.const_int LType.i32 2) (example_field_addr 2 1)],
          next_id := 3 }) ∧
    (∃ ins, StoresInit literal_lowering example_alloca ins 0
        (none, Expr.Literal "1" TokenType.INT) ∧
      field_stores example_alloca ins 1 = []) ∧
    (∃ ins, StoresInit literal_lowering example_alloca ins 1
        (some "y", Expr.Literal "2" TokenType.INT) ∧
      field_stores example_alloca ins 0 = []) := by
  refine ⟨rfl, ?_, ?_⟩
  · obtain ⟨ins, -, h, -⟩ := C19_struct_literal_stores literal_lowering "P" example_struct
      [(none, Expr.Literal "1" TokenType.INT)] example_state _ example_alloca
      (literal_lowering_quiet _) rfl rfl
    obtain ⟨-, h1, h2⟩ := h (by simp)
    exact ⟨ins, h1 0 _ rfl, h2 1 (by simp)⟩
  · obtain ⟨ins, -, -, h⟩ := C19_struct_literal_stores literal_lowering "P" example_struct
      [(some "y", Expr.Literal "2" TokenType.INT)] example_state _ example_alloca
      (literal_lowering_quiet _) rfl rfl
    obtain ⟨h1, h2⟩ := h (by simp) (by simp)
    obtain ⟨i, hi, -, hs⟩ := h1 _ (List.mem_singleton.2 rfl) "y" rfl
    have hi1 : i = 1 := by
      have : get_field_index example_struct "y" = some 1 := by decide
      rw [this] at hi
      exact (Option.some.inj hi).symm
    subst hi1
    refine ⟨ins, hs, h2 0 ?_⟩
    intro x hx name hname
    rw [List.mem_singleton.1 hx] at hname
    rw [← Option.some.inj hname]
    decide

end codegen


namespace codegen

theorem same_of_pointer (t u : LType) (h : t.isPointerTy = true) :
    t.same (LType.ptr u) = true := by
  cases t <;> simp_all [LType.isPointerTy, LType.same]

theorem same_ptr (t u : LType) : (LType.ptr t).same (LType.ptr u) = true := rfl

theorem type_alloca (id : Nat) (s : String) (t : LType) :
    (Value.alloca id s t).type = LType.ptr t := rfl

theorem type_alloca_n (id : Nat) (s : String) (t : LType) (c : Value) :
    (Value.alloca_n id s t c).type = LType.ptr t := rfl

theorem type_call_malloc (id : Nat) (s : String) (c : Value) :
    (Value.call_malloc id s c).type = LType.ptr LType.i8 := rfl

theorem type_gep1 (id : Nat) (s : String) (t : LType) (a c : Value) :
    (Value.gep1 id s t a c).type = LType.ptr t := rfl

theorem type_load (id : Nat) (s : String) (t : LType) (a : Value) :
    (Value.load id s t a).type = t := rfl

theorem append_store_elem_eq (dl : DataLayout) (arr elem dest isPtrArray : Value) (n : Nat)
    (pm cm am s1 s2 s3 s4 s5 : String) (sc : Bool) (b : Builder)
    (hd : dest.type.same (LType.ptr (LType.ptr LType.i8)) = true) :
    append_store_elem dl elem dest (append.lenVal arr n) (append.lenPtr arr n)
      (append.elemSizeValFinal arr n) isPtrArray pm cm am s1 s2 s3 s4 s5 sc b =
    { blocks := b.blocks,
      code := b.code ++ ([(b.insert, append.mode_br elem isPtrArray pm cm)] ++
        (append.tag pm (append.ptr_mode_code dl elem dest b.next_id s2 am) ++
        (append.tag cm (append.copy_mode_code dl arr elem dest n (b.next_id + 1) am) ++
        append.tag am (append.after_mode_code arr n
          (b.next_id + 1 + append.copy_mode_values elem) s5)))),
      insert := am,
      next_id := b.next_id + 2 + append.copy_mode_values elem } := by
  cases h : elem.type.isPointerTy
  · cases sc <;>
    simp [append_store_elem, make_elem_tmp, Builder.value, Builder.emit, Builder.pointer_cast,
      Builder.set_insert_point, hd, h, append.mode_br, append.ptr_mode_code, append.tag,
      append.copy_mode_code, append.after_mode_code, append.copy_mode_values, 
      append.mallocCall, append.tmpAlloca, append.srcAlloca, append.cmpElemLess,
      append.copySize, append.newLen, same_ptr, type_alloca, type_alloca_n, type_call_malloc]
  · have hs := same_of_pointer elem.type LType.i8 h
    cases sc <;>
    simp [append_store_elem, make_elem_tmp, Builder.value, Builder.emit, Builder.pointer_cast,
      Builder.set_insert_point, hd, h, hs, append.mode_br, append.ptr_mode_code, append.tag,
      append.copy_mode_code, append.after_mode_code, append.copy_mode_values,
      append.mallocCall, append.tmpAlloca, append.srcAlloca, append.cmpElemLess,
      append.copySize, append.newLen, same_ptr, type_alloca, type_alloca_n, type_call_malloc]

end codegen

namespace codegen

theorem block_code_append (xs ys : List (String × Instr)) (nm : String) :
    block_code (xs ++ ys) nm = block_code xs nm ++ block_code ys nm := by
  simp [block_code]

theorem block_code_nil (nm : String) : block_code [] nm = [] := rfl

theorem block_code_tag_self (nm : String) (is : List Instr) :
    block_code (append.tag nm is) nm = is := by
  induction is with
  | nil => rfl
  | cons i is ih =>
    simp only [block_code, append.tag, List.map_cons, List.filter_cons, decide_True, if_true,
      List.cons.injEq, true_and]
    exact ih

theorem block_code_tag_other (nm nm1 : String) (is : List Instr) (h : nm ≠ nm1) :
    block_code (append.tag nm is) nm1 = [] := by
  induction is with
  | nil => rfl
  | cons i is ih =>
    simp only [block_code, append.tag, List.map_cons, List.filter_cons, h, decide_False,
      Bool.false_eq_true, if_false]
    exact ih

theorem block_code_one (nm nm1 : String) (i : Instr) :
    block_code [(nm, i)] nm1 = if nm = nm1 then [i] else [] := by
  by_cases h : nm = nm1 <;> simp [block_code, List.filter_cons, h]

set_option maxHeartbeats 1000000 in
theorem append_tail_code (dl : DataLayout) (arr elem : Value) (ret : Bool) (n : Nat) :
    (append_tail dl arr elem ret
      { blocks := ["entry"], code := [], insert := "entry", next_id := n }).2 =
    { blocks := ["entry", "append_has_space", "append_grow", "append_cont", "append_ptr_mode",
        "append_copy_mode", "append_after_mode", "append_do_copy", "append_no_copy",
        "append_ptr_mode_g", "append_copy_mode_g", "append_after_mode_g"],
      code := append.tag "entry" (append.entry_code arr n) ++
        (append.tag "append_has_space" (append.has_space_code dl arr elem n) ++
        (append.tag "append_ptr_mode" (append.ptr_mode_code dl elem (append.destI8Ptr arr n)
            (n + 12) "malloc_tok" "append_after_mode") ++
        (append.tag "append_copy_mode" (append.copy_mode_code dl arr elem
            (append.destI8Ptr arr n) n (n + 13) "append_after_mode") ++
        (append.tag "append_after_mode" (append.after_mode_code arr n
            (n + 13 + append.copy_mode_values elem) "len_plus1") ++
        (append.tag "append_grow" (append.grow_code arr n (append.grow_base elem n)) ++
        (append.tag "append_do_copy" (append.do_copy_code arr n (append.grow_base elem n)) ++
        (append.tag "append_no_copy"
            (append.no_copy_code dl arr elem n (append.grow_base elem n)) ++
        (append.tag "append_ptr_mode_g" (append.ptr_mode_code dl elem
            (append.destI8PtrNew arr n (append.grow_base elem n))
            (append.grow_base elem n + 13) "malloc_tok_g" "append_after_mode_g") ++
        (append.tag "append_copy_mode_g" (append.copy_mode_code dl arr elem
            (append.destI8PtrNew arr n (append.grow_base elem n)) n
            (append.grow_base elem n + 14) "append_after_mode_g") ++
        (append.tag "append_after_mode_g" (append.after_mode_code arr n
            (append.grow_base elem n + 14 + append.copy_mode_values elem)
            "len_plus1_after_grow") ++
        append.tag "append_cont" (append.cont_code arr ret
            (append.grow_base elem n + 15 + append.copy_mode_values elem)))))))))))),
      insert := "append_cont",
      next_id := append.grow_base elem n + 15 + append.copy_mode_values elem +
        (if ret then 1 else 0) } := by
  have e1 := append_store_elem_eq dl arr elem (append.destI8Ptr arr n) (append.isPtrArray dl arr n)
    n "append_ptr_mode" "append_copy_mode" "append_after_mode"
    "slot_ptrptr" "malloc_tok" "malloc_tok_i8" "slot_ptr" "len_plus1" true
  have e2 := append_store_elem_eq dl arr elem (append.destI8PtrNew arr n (append.grow_base elem n))
    (append.isPtrArrayGrow dl arr n (append.grow_base elem n))
    n "append_ptr_mode_g" "append_copy_mode_g" "append_after_mode_g"
    "slot_ptrptr_new" "malloc_tok_g" "malloc_tok_i8_g" "" "len_plus1_after_grow" false
  have e1 := fun b => e1 b rfl
  have e2 := fun b => e2 b rfl
  simp only [append.destI8Ptr, append.destI8PtrNew, append.lenVal, append.lenPtr,
    append.elemSizeValFinal, append.elemSizePtr, append.isPtrArray, append.isPtrArrayGrow,
    append.rawDataPtr, append.dataPtrPtr, append.offsetBytes, append.offsetBytes2,
    append.newRawData, append.newBytes, append.newCap, append.capIsZero, append.capDbl,
    append.capVal, append.capPtr, append.grow_base] at e1 e2
  unfold append_tail
  simp only [Builder.value, Builder.emit, Builder.create_block, Builder.set_insert_point,
    Builder.pointer_cast, type_load, type_call_malloc, same_ptr, if_true, e1, e2]
  cases h : elem.type.isPointerTy <;> cases ret <;>
  simp [append.copy_mode_values, h, Nat.add_assoc, append.tag, append.entry_code,
    append.has_space_code, append.ptr_mode_code, append.copy_mode_code, append.after_mode_code,
    append.grow_code, append.do_copy_code, append.no_copy_code, append.cont_code,
    append.grow_base, append.destI8Ptr, append.destI8PtrNew, append.lenVal, append.lenPtr,
    append.elemSizeValFinal, append.elemSizePtr, append.isPtrArray, append.isPtrArrayGrow,
    append.rawDataPtr, append.dataPtrPtr, append.offsetBytes, append.offsetBytes2,
    append.newRawData, append.newBytes, append.newCap, append.capIsZero, append.capDbl,
    append.capVal, append.capPtr, append.cmpHasSpace, append.oldBytesToCopy,
    append.rawDataIsNull, append.lenNotZero, append.notNull, append.needCopy, append.mallocCall,
    append.tmpAlloca, append.srcAlloca, append.cmpElemLess, append.copySize, append.newLen]

end codegen

namespace codegen

theorem append_blocks_eq (dl : DataLayout) (arr elem : Value) (ret : Bool) (n : Nat) :
    append_blocks dl arr elem ret n = append.code dl arr elem ret n := by
  unfold append_blocks
  rw [append_tail_code]
  simp only [Builder.result, List.map_cons, List.map_nil, block_code_append, block_code_tag_self,
    append.code]
  simp [block_code_tag_other]

end codegen


namespace codegen

/-! The machine: operands, memory. -/

theorem eval_set_env (env : Nat → Nat) (v : Value) (n id x : Nat) (h : v.before n)
    (hid : n ≤ id) : eval (set_env env id x) v = eval env v := by
  cases v <;> simp [eval, Value.result_id, set_env, Value.before] at h ⊢ <;> omega

theorem run_succ (dl : DataLayout) (blocks : List Block) (fuel : Nat) (name : String)
    (m : Machine) : run dl blocks (fuel + 1) name m =
    match find_block blocks name with
    | none => none
    | some blk =>
      match exec_instrs dl blk.instrs m with
      | none => none
      | some (m1, none) => some m1
      | some (m1, some next) => run dl blocks fuel next m1 := rfl

@[simp]
theorem eval_const64 (env : Nat → Nat) (k : Nat) : eval env (const64 k) = k % 2 ^ 64 := by
  simp only [eval, const64, LType.bits]
  norm_cast

@[simp]
theorem eval_const32 (env : Nat → Nat) (k : Nat) : eval env (const32 k) = k % 2 ^ 32 := by
  simp only [eval, const32, LType.bits]
  norm_cast

@[simp]
theorem eval_zero8 (env : Nat → Nat) : eval env (Value.const_int LType.i8 0) = 0 := rfl

@[simp]
theorem eval_null (env : Nat → Nat) (t : LType) : eval env (Value.const_null t) = 0 := rfl

@[simp]
theorem eval_alloca (env : Nat → Nat) (id : Nat) (s : String) (t : LType) :
    eval env (Value.alloca id s t) = env id := rfl

@[simp]
theorem eval_alloca_n (env : Nat → Nat) (id : Nat) (s : String) (t : LType) (c : Value) :
    eval env (Value.alloca_n id s t c) = env id := rfl

@[simp]
theorem eval_gep1 (env : Nat → Nat) (id : Nat) (s : String) (t : LType) (a c : Value) :
    eval env (Value.gep1 id s t a c) = env id := rfl

@[simp]
theorem eval_gep2 (env : Nat → Nat) (id : Nat) (s : String) (t : LType) (a c d : Value) :
    eval env (Value.gep2 id s t a c d) = env id := rfl

@[simp]
theorem eval_load (env : Nat → Nat) (id : Nat) (s : String) (t : LType) (a : Value) :
    eval env (Value.load id s t a) = env id := rfl

@[simp]
theorem eval_icmp (env : Nat → Nat) (id : Nat) (s : String) (p : Pred) (a c : Value) :
    eval env (Value.icmp id s p a c) = env id := rfl

@[simp]
theorem eval_binop (env : Nat → Nat) (id : Nat) (s : String) (p : BinOp) (t : LType)
    (a c : Value) : eval env (Value.binop id s p t a c) = env id := rfl

@[simp]
theorem eval_not (env : Nat → Nat) (id : Nat) (s : String) (a : Value) :
    eval env (Value.not_ id s a) = env id := rfl

@[simp]
theorem eval_select (env : Nat → Nat) (id : Nat) (s : String) (t : LType) (a c d : Value) :
    eval env (Value.select id s t a c d) = env id := rfl

@[simp]
theorem eval_call_malloc (env : Nat → Nat) (id : Nat) (s : String) (a : Value) :
    eval env (Value.call_malloc id s a) = env id := rfl

@[simp]
theorem set_env_apply (env : Nat → Nat) (id x j : Nat) :
    set_env env id x j = if j = id then x else env j := rfl

@[simp]
theorem type_binop (id : Nat) (s : String) (p : BinOp) (t : LType) (a c : Value) :
    (Value.binop id s p t a c).type = t := rfl

@[simp]
theorem type_select (id : Nat) (s : String) (t : LType) (a c d : Value) :
    (Value.select id s t a c d).type = t := rfl

@[simp]
theorem type_icmp (id : Nat) (s : String) (p : Pred) (a c : Value) :
    (Value.icmp id s p a c).type = LType.i1 := rfl

@[simp]
theorem size_i64 (dl : DataLayout) : dl.alloc_size LType.i64 = 8 := rfl

@[simp]
theorem size_i8 (dl : DataLayout) : dl.alloc_size LType.i8 = 1 := rfl

@[simp]
theorem size_ptr (dl : DataLayout) (t : LType) :
    dl.alloc_size (LType.ptr t) = dl.pointer_bytes := rfl

@[simp]
theorem size_struct (dl : DataLayout) (name : String) :
    dl.alloc_size (LType.struct name) = dl.struct_bytes name := rfl

@[simp]
theorem bits_i64 : LType.i64.bits = 64 := rfl

@[simp]
theorem bits_i1 : LType.i1.bits = 1 := rfl

theorem layout64_is64 : layout64.is64 := by
  refine ⟨rfl, rfl, ?_⟩
  intro name
  simp only [layout64]
  split <;> decide

theorem alloc_size_lt (dl : DataLayout) (hdl : dl.is64) (t : LType) :
    dl.alloc_size t < 2 ^ 64 := by
  cases t
  case struct name => exact hdl.2.2 name
  case ptr t => rw [size_ptr, hdl.1]; decide
  all_goals simp [DataLayout.alloc_size]

theorem size_of_pointer (dl : DataLayout) (hdl : dl.is64) (t : LType)
    (h : t.isPointerTy = true) : dl.alloc_size t = 8 := by
  cases t <;> simp_all [LType.isPointerTy]
  exact hdl.1

theorem read_le_congr (mem1 mem2 : Nat → Nat) (n : Nat) : ∀ (a : Nat),
    (∀ i, i < n → mem1 (a + i) = mem2 (a + i)) → read_le mem1 a n = read_le mem2 a n := by
  induction n with
  | zero => intro a _; rfl
  | succ n ih =>
    intro a h
    have h0 := h 0 (by omega)
    have h1 := ih (a + 1) (fun i hi => by
      have := h (1 + i) (by omega)
      rw [← Nat.add_assoc] at this
      exact this)
    simp only [Nat.add_zero] at h0
    simp only [read_le, h0, h1]

theorem read_le_lt (mem : Nat → Nat) (n : Nat) : ∀ (a : Nat), read_le mem a n < 256 ^ n := by
  induction n with
  | zero => intro a; simp [read_le]
  | succ n ih =>
    intro a
    have := ih (a + 1)
    have h2 : mem a % 256 < 256 := Nat.mod_lt _ (by decide)
    simp only [read_le, Nat.pow_succ]
    omega

theorem read_le_write_le (n : Nat) : ∀ (mem : Nat → Nat) (a v : Nat),
    read_le (write_le mem a n v) a n = v % 256 ^ n := by
  induction n with
  | zero => intro mem a v; simp [read_le, Nat.mod_one]
  | succ n ih =>
    intro mem a v
    have h1 : read_le (write_le mem a (n + 1) v) (a + 1) n =
        read_le (write_le mem (a + 1) n (v / 256)) (a + 1) n := by
      apply read_le_congr
      intro i hi
      simp only [write_le]
      rw [if_pos (by omega), if_pos (by omega)]
      have e1 : a + 1 + i - a = (a + 1 + i - (a + 1)) + 1 := by omega
      rw [e1, Nat.pow_succ, Nat.mul_comm, Nat.div_div_eq_div_mul]
    have h0 : write_le mem a (n + 1) v a = v % 256 := by
      simp only [write_le]
      rw [if_pos (by omega)]
      simp
    simp only [read_le, h1, ih, h0, Nat.mod_mod]
    rw [Nat.pow_succ, Nat.mul_comm (256 ^ n) 256, Nat.mod_mul]

theorem write_le_frame (mem : Nat → Nat) (a n v x : Nat) (h : x < a ∨ a + n ≤ x) :
    write_le mem a n v x = mem x := by
  simp only [write_le]
  rw [if_neg (by omega)]

theorem mem_copy_frame (mem : Nat → Nat) (dst src len x : Nat) (h : x < dst ∨ dst + len ≤ x) :
    mem_copy mem dst src len x = mem x := by
  simp only [mem_copy]
  rw [if_neg (by omega)]

theorem mem_set_frame (mem : Nat → Nat) (dst byte len x : Nat) (h : x < dst ∨ dst + len ≤ x) :
    mem_set mem dst byte len x = mem x := by
  simp only [mem_set]
  rw [if_neg (by omega)]

theorem write_le_hit (mem : Nat → Nat) (a n v i : Nat) (h : i < n) :
    write_le mem a n v (a + i) = v / 256 ^ i % 256 := by
  simp only [write_le]
  rw [if_pos (by omega), Nat.add_sub_cancel_left]

theorem mem_copy_hit (mem : Nat → Nat) (dst src len i : Nat) (h : i < len) :
    mem_copy mem dst src len (dst + i) = mem (src + i) := by
  simp only [mem_copy]
  rw [if_pos (by omega), Nat.add_sub_cancel_left]

theorem mem_set_hit (mem : Nat → Nat) (dst byte len i : Nat) (h : i < len) :
    mem_set mem dst byte len (dst + i) = byte % 256 := by
  simp only [mem_set]
  rw [if_pos (by omega)]

end codegen


namespace codegen

theorem exec_cont (dl : DataLayout) (hdl : dl.is64) (arr : Value) (ret : Bool) (id : Nat)
    (m : Machine) :
    exec_instrs dl (append.cont_code arr ret id) m =
      some ({ m with env := (cond ret (set_env m.env id (read_le m.mem (eval m.env arr) 32))
        m.env) }, none) := by
  cases ret
  · rfl
  · simp only [append.cont_code, exec_instrs, exec_instr, exec_value, arrayStruct, size_struct,
      hdl.2.1, Value.result_id, if_true, cond_true]

theorem read_le_frame (mem1 mem2 : Nat → Nat) (a n v : Nat) (h : read_le mem2 a n = v)
    (hf : ∀ i, i < n → mem1 (a + i) = mem2 (a + i)) : read_le mem1 a n = v := by
  rw [← h]
  exact read_le_congr mem1 mem2 n a hf

set_option maxHeartbeats 1000000 in
theorem run_has_space (dl : DataLayout) (hdl : dl.is64) (arr elem : Value) (ret : Bool)
    (n : Nat) (m : Machine) (A L C S D : Nat)
    (harr : arr.before n) (helem : elem.before n)
    (hA : eval m.env arr = A)
    (hD : read_le m.mem A 8 = D)
    (hL : read_le m.mem (A + 8) 8 = L)
    (hC : read_le m.mem (A + 16) 8 = C)
    (hS : read_le m.mem (A + 24) 8 = S)
    (hlt : L < C) (hbrk : A + 32 ≤ m.brk)
    (hslot : A + 32 ≤ D + L * S % 2 ^ 64 ∨ D + L * S % 2 ^ 64 + S ≤ A) :
    ∃ m1, run dl (append.code dl arr elem ret n) 8 "entry" m = some m1 ∧
      read_le m1.mem (A + 8) 8 = (L + 1) % 2 ^ 64 ∧
      read_le m1.mem (A + 24) 8 = S ∧
      read_le m1.mem (A + 16) 8 = C ∧
      read_le m1.mem A 8 = D ∧
      m.brk ≤ m1.brk ∧
      (elem.type.isPointerTy = false → ∀ i, i < S →
        m1.mem (D + L * S % 2 ^ 64 + i) =
          if i < dl.alloc_size elem.type then eval m.env elem / 256 ^ i % 256 else 0) := by
  have ea := fun env id x hid => eval_set_env env arr n id x harr hid
  have ee := fun env id x hid => eval_set_env env elem n id x helem hid
  have hsz := alloc_size_lt dl hdl elem.type
  cases hp : elem.type.isPointerTy
  · simp [run_succ, find_block, List.find?, exec_instrs, exec_instr, exec_value, Value.result_id,
      exec_cont dl hdl, hdl.1, hdl.2.1, ea, ee, hA, hD, hL, hC, hS, hlt, hp, Nat.add_assoc,
      arrayStruct, type_alloca, type_alloca_n,
      type_call_malloc, type_gep1, type_load]
    all_goals
      have hk : dl.alloc_size elem.type % 18446744073709551616 =
          dl.alloc_size elem.type := Nat.mod_eq_of_lt (by omega)
      rw [hk]
      refine ⟨?_, ?_, ?_, ?_, ?_⟩
      · rw [read_le_write_le]; exact Nat.mod_mod _ _
      · refine read_le_frame _ _ _ _ _ hS ?_
        intro i hi
        simp (disch := omega) only [write_le_frame, mem_copy_frame, mem_set_frame]
      · refine read_le_frame _ _ _ _ _ hC ?_
        intro i hi
        simp (disch := omega) only [write_le_frame, mem_copy_frame, mem_set_frame]
      · refine read_le_frame _ _ _ _ _ hD ?_
        intro i hi
        simp (disch := omega) only [write_le_frame, mem_copy_frame, mem_set_frame]
      · intro i hi
        simp (disch := omega) only [write_le_frame]
        rw [← Nat.add_assoc, mem_copy_hit _ _ _ _ _ hi]
        by_cases h1 : dl.alloc_size elem.type ≤ S
        · rw [if_pos h1]
          by_cases h2 : i < dl.alloc_size elem.type
          · rw [mem_copy_hit _ _ _ _ _ h2, write_le_hit _ _ _ _ _ h2, if_pos h2]
          · simp (disch := omega) only [mem_copy_frame, write_le_frame]
            rw [mem_set_hit _ _ _ _ _ hi, if_neg h2]
        · have h2 : i < dl.alloc_size elem.type := by omega
          rw [if_neg h1, mem_copy_hit _ _ _ _ _ hi, write_le_hit _ _ _ _ _ h2, if_pos h2]
  · have h8 := size_of_pointer dl hdl elem.type hp
    by_cases hs8 : S = 8
    · subst hs8
      simp [run_succ, find_block, List.find?, exec_instrs, exec_instr, exec_value,
        Value.result_id, exec_cont dl hdl, hdl.1, hdl.2.1, ea, ee, hA, hD, hL, hC, hS, hlt, hp,
        Nat.add_assoc, arrayStruct,
        type_alloca, type_alloca_n, type_call_malloc, type_gep1, type_load, h8]
      all_goals
        refine ⟨?_, ?_, ?_, ?_⟩
        · rw [read_le_write_le]; exact Nat.mod_mod _ _
        · refine read_le_frame _ _ _ _ _ hS ?_
          intro i hi
          simp (disch := omega) only [write_le_frame, mem_copy_frame, mem_set_frame]
        · refine read_le_frame _ _ _ _ _ hC ?_
          intro i hi
          simp (disch := omega) only [write_le_frame, mem_copy_frame, mem_set_frame]
        · refine read_le_frame _ _ _ _ _ hD ?_
          intro i hi
          simp (disch := omega) only [write_le_frame, mem_copy_frame, mem_set_frame]
    · simp [run_succ, find_block, List.find?, exec_instrs, exec_instr, exec_value,
        Value.result_id, exec_cont dl hdl, hdl.1, hdl.2.1, ea, ee, hA, hD, hL, hC, hS, hlt, hp,
        Nat.add_assoc, arrayStruct,
        type_alloca, type_alloca_n, type_call_malloc, type_gep1, type_load, hs8, h8]
      all_goals
        refine ⟨?_, ?_, ?_, ?_⟩
        · rw [read_le_write_le]; exact Nat.mod_mod _ _
        · refine read_le_frame _ _ _ _ _ hS ?_
          intro i hi
          simp (disch := omega) only [write_le_frame, mem_copy_frame, mem_set_frame]
        · refine read_le_frame _ _ _ _ _ hC ?_
          intro i hi
          simp (disch := omega) only [write_le_frame, mem_copy_frame, mem_set_frame]
        · refine read_le_frame _ _ _ _ _ hD ?_
          intro i hi
          simp (disch := omega) only [write_le_frame, mem_copy_frame, mem_set_frame]


theorem need_copy_eq (L D : Nat) :
    ((if L = 0 then 0 else 1 : Nat).land (1 - if D = 0 then 1 else 0) = 0) ↔
      (L = 0 ∨ D = 0) := by
  by_cases h1 : L = 0 <;> by_cases h2 : D = 0 <;> simp [h1, h2] <;> decide

theorem read_le_of_bytes (mem : Nat → Nat) (a n v : Nat)
    (h : ∀ i, i < n → mem (a + i) = v / 256 ^ i % 256) (hv : v < 256 ^ n) :
    read_le mem a n = v := by
  have h1 := read_le_congr mem (write_le mem a n v) n a (fun i hi => by
    rw [h i hi, write_le_hit _ _ _ _ _ hi])
  rw [h1, read_le_write_le, Nat.mod_eq_of_lt hv]

set_option maxHeartbeats 1000000 in
theorem run_grow (dl : DataLayout) (hdl : dl.is64) (arr elem : Value) (ret : Bool)
    (n : Nat) (m : Machine) (A L C S D : Nat)
    (harr : arr.before n) (helem : elem.before n)
    (hA : eval m.env arr = A)
    (hD : read_le m.mem A 8 = D)
    (hL : read_le m.mem (A + 8) 8 = L)
    (hC : read_le m.mem (A + 16) 8 = C)
    (hS : read_le m.mem (A + 24) 8 = S)
    (hge : ¬ L < C) (hbrk : A + 32 ≤ m.brk) (hbrk64 : m.brk < 2 ^ 64) :
    ∃ m1, run dl (append.code dl arr elem ret n) 8 "entry" m = some m1 ∧
      read_le m1.mem (A + 8) 8 = (L + 1) % 2 ^ 64 ∧
      read_le m1.mem (A + 24) 8 = S ∧
      read_le m1.mem (A + 16) 8 = (if C = 0 then 1 else C * 2 % 2 ^ 64) ∧
      read_le m1.mem A 8 = m.brk ∧
      ((if C = 0 then 1 else C * 2 % 2 ^ 64) * S % 2 ^ 64, m.brk) ∈ m1.mallocs ∧
      m.brk ≤ m1.brk ∧
      (elem.type.isPointerTy = false → ∀ i, i < S →
        m1.mem (m.brk + L * S % 2 ^ 64 + i) =
          if i < dl.alloc_size elem.type then eval m.env elem / 256 ^ i % 256 else 0) := by
  have ea := fun env id x hid => eval_set_env env arr n id x harr hid
  have ee := fun env id x hid => eval_set_env env elem n id x helem hid
  have hsz := alloc_size_lt dl hdl elem.type
  cases hp : elem.type.isPointerTy
  · by_cases hnc : L = 0 ∨ D = 0
    · simp [run_succ, find_block, List.find?, exec_instrs, exec_instr, exec_value,
        Value.result_id, exec_cont dl hdl, hdl.1, hdl.2.1, ea, ee, hA, hD, hL, hC, hS, hge, hp,
        Nat.add_assoc, arrayStruct,
        type_alloca, type_alloca_n, type_call_malloc, type_gep1, type_load, need_copy_eq, hnc]
      all_goals
        have hk : dl.alloc_size elem.type % 18446744073709551616 =
            dl.alloc_size elem.type := Nat.mod_eq_of_lt (by omega)
        try rw [hk]
        refine ⟨?_, ?_, ?_, ?_, ?_⟩
        · rw [read_le_write_le]; exact Nat.mod_mod _ _
        · refine read_le_frame _ _ _ _ _ hS ?_
          intro i hi
          simp (disch := omega) only [write_le_frame, mem_copy_frame, mem_set_frame]
        · refine read_le_of_bytes _ _ _ _ ?_ ?_
          · intro i hi
            simp (disch := omega) only [write_le_frame, mem_copy_frame, mem_set_frame]
            exact write_le_hit _ _ _ _ _ hi
          · split <;> omega
        · refine read_le_of_bytes _ _ _ _ ?_ (by omega)
          intro i hi
          simp (disch := omega) only [write_le_frame, mem_copy_frame, mem_set_frame]
          exact write_le_hit _ _ _ _ _ hi
        · intro i hi
          have e : m.brk + (L * S % 18446744073709551616 + i) =
              m.brk + L * S % 18446744073709551616 + i := (Nat.add_assoc _ _ _).symm
          rw [e]
          simp (disch := omega) only [write_le_frame]
          rw [mem_copy_hit _ _ _ _ _ hi]
          by_cases h1 : dl.alloc_size elem.type ≤ S
          · rw [if_pos h1]
            by_cases h2 : i < dl.alloc_size elem.type
            · rw [mem_copy_hit _ _ _ _ _ h2, write_le_hit _ _ _ _ _ h2, if_pos h2]
            · simp (disch := omega) only [mem_copy_frame, write_le_frame]
              rw [mem_set_hit _ _ _ _ _ hi, if_neg h2]
          · have h2 : i < dl.alloc_size elem.type := by omega
            rw [if_neg h1, mem_copy_hit _ _ _ _ _ hi, write_le_hit _ _ _ _ _ h2, if_pos h2]
    · simp [run_succ, find_block, List.find?, exec_instrs, exec_instr, exec_value,
        Value.result_id, exec_cont dl hdl, hdl.1, hdl.2.1, ea, ee, hA, hD, hL, hC, hS, hge, hp,
        Nat.add_assoc, arrayStruct,
        type_alloca, type_alloca_n, type_call_malloc, type_gep1, type_load, need_copy_eq, hnc]
      all_goals
        have hk : dl.alloc_size elem.type % 18446744073709551616 =
            dl.alloc_size elem.type := Nat.mod_eq_of_lt (by omega)
        try rw [hk]
        refine ⟨?_, ?_, ?_, ?_, ?_⟩
        · rw [read_le_write_le]; exact Nat.mod_mod _ _
        · refine read_le_frame _ _ _ _ _ hS ?_
          intro i hi
          simp (disch := omega) only [write_le_frame, mem_copy_frame, mem_set_frame]
        · refine read_le_of_bytes _ _ _ _ ?_ ?_
          · intro i hi
            simp (disch := omega) only [write_le_frame, mem_copy_frame, mem_set_frame]
            exact write_le_hit _ _ _ _ _ hi
          · split <;> omega
        · refine read_le_of_bytes _ _ _ _ ?_ (by omega)
          intro i hi
          simp (disch := omega) only [write_le_frame, mem_copy_frame, mem_set_frame]
          exact write_le_hit _ _ _ _ _ hi
        · intro i hi
          have e : m.brk + (L * S % 18446744073709551616 + i) =
              m.brk + L * S % 18446744073709551616 + i := (Nat.add_assoc _ _ _).symm
          rw [e]
          simp (disch := omega) only [write_le_frame]
          rw [mem_copy_hit _ _ _ _ _ hi]
          by_cases h1 : dl.alloc_size elem.type ≤ S
          · rw [if_pos h1]
            by_cases h2 : i < dl.alloc_size elem.type
            · rw [mem_copy_hit _ _ _ _ _ h2, write_le_hit _ _ _ _ _ h2, if_pos h2]
            · simp (disch := omega) only [mem_copy_frame, write_le_frame]
              rw [mem_set_hit _ _ _ _ _ hi, if_neg h2]
          · have h2 : i < dl.alloc_size elem.type := by omega
            rw [if_neg h1, mem_copy_hit _ _ _ _ _ hi, write_le_hit _ _ _ _ _ h2, if_pos h2]
  · have h8 := size_of_pointer dl hdl elem.type hp
    by_cases hs8 : S = 8
    · subst hs8
      by_cases hnc : L = 0 ∨ D = 0
      · simp [run_succ, find_block, List.find?, exec_instrs, exec_instr, exec_value,
          Value.result_id, exec_cont dl hdl, hdl.1, hdl.2.1, ea, ee, hA, hD, hL, hC, hS, hge, hp,
          Nat.add_assoc, arrayStruct,
          type_alloca, type_alloca_n, type_call_malloc, type_gep1, type_load, need_copy_eq, hnc, h8]
        all_goals
          have hk : dl.alloc_size elem.type % 18446744073709551616 =
              dl.alloc_size elem.type := Nat.mod_eq_of_lt (by omega)
          try rw [hk]
          refine ⟨?_, ?_, ?_, ?_⟩
          · rw [read_le_write_le]; exact Nat.mod_mod _ _
          · refine read_le_frame _ _ _ _ _ hS ?_
            intro i hi
            simp (disch := omega) only [write_le_frame, mem_copy_frame, mem_set_frame]
          · refine read_le_of_bytes _ _ _ _ ?_ ?_
            · intro i hi
              simp (disch := omega) only [write_le_frame, mem_copy_frame, mem_set_frame]
              exact write_le_hit _ _ _ _ _ hi
            · split <;> omega
          · refine read_le_of_bytes _ _ _ _ ?_ (by omega)
            intro i hi
            simp (disch := omega) only [write_le_frame, mem_copy_frame, mem_set_frame]
            exact write_le_hit _ _ _ _ _ hi
      · simp [run_succ, find_block, List.find?, exec_instrs, exec_instr, exec_value,
          Value.result_id, exec_cont dl hdl, hdl.1, hdl.2.1, ea, ee, hA, hD, hL, hC, hS, hge, hp,
          Nat.add_assoc, arrayStruct,
          type_alloca, type_alloca_n, type_call_malloc, type_gep1, type_load, need_copy_eq, hnc, h8]
        all_goals
          have hk : dl.alloc_size elem.type % 18446744073709551616 =
              dl.alloc_size elem.type := Nat.mod_eq_of_lt (by omega)
          try rw [hk]
          refine ⟨?_, ?_, ?_, ?_⟩
          · rw [read_le_write_le]; exact Nat.mod_mod _ _
          · refine read_le_frame _ _ _ _ _ hS ?_
            intro i hi
            simp (disch := omega) only [write_le_frame, mem_copy_frame, mem_set_frame]
          · refine read_le_of_bytes _ _ _ _ ?_ ?_
            · intro i hi
              simp (disch := omega) only [write_le_frame, mem_copy_frame, mem_set_frame]
              exact write_le_hit _ _ _ _ _ hi
            · split <;> omega
          · refine read_le_of_bytes _ _ _ _ ?_ (by omega)
            intro i hi
            simp (disch := omega) only [write_le_frame, mem_copy_frame, mem_set_frame]
            exact write_le_hit _ _ _ _ _ hi
    · by_cases hnc : L = 0 ∨ D = 0
      · simp [run_succ, find_block, List.find?, exec_instrs, exec_instr, exec_value,
          Value.result_id, exec_cont dl hdl, hdl.1, hdl.2.1, ea, ee, hA, hD, hL, hC, hS, hge, hp,
          Nat.add_assoc, arrayStruct,
          type_alloca, type_alloca_n, type_call_malloc, type_gep1, type_load, need_copy_eq, hnc,
          h8, hs8]
        all_goals
          have hk : dl.alloc_size elem.type % 18446744073709551616 =
              dl.alloc_size elem.type := Nat.mod_eq_of_lt (by omega)
          try rw [hk]
          refine ⟨?_, ?_, ?_, ?_⟩
          · rw [read_le_write_le]; exact Nat.mod_mod _ _
          · refine read_le_frame _ _ _ _ _ hS ?_
            intro i hi
            simp (disch := omega) only [write_le_frame, mem_copy_frame, mem_set_frame]
          · refine read_le_of_bytes _ _ _ _ ?_ ?_
            · intro i hi
              simp (disch := omega) only [write_le_frame, mem_copy_frame, mem_set_frame]
              exact write_le_hit _ _ _ _ _ hi
            · split <;> omega
          · refine read_le_of_bytes _ _ _ _ ?_ (by omega)
            intro i hi
            simp (disch := omega) only [write_le_frame, mem_copy_frame, mem_set_frame]
            exact write_le_hit _ _ _ _ _ hi
      · simp [run_succ, find_block, List.find?, exec_instrs, exec_instr, exec_value,
          Value.result_id, exec_cont dl hdl, hdl.1, hdl.2.1, ea, ee, hA, hD, hL, hC, hS, hge, hp,
          Nat.add_assoc, arrayStruct,
          type_alloca, type_alloca_n, type_call_malloc, type_gep1, type_load, need_copy_eq, hnc,
          h8, hs8]
        all_goals
          have hk : dl.alloc_size elem.type % 18446744073709551616 =
              dl.alloc_size elem.type := Nat.mod_eq_of_lt (by omega)
          try rw [hk]
          refine ⟨?_, ?_, ?_, ?_⟩
          · rw [read_le_write_le]; exact Nat.mod_mod _ _
          · refine read_le_frame _ _ _ _ _ hS ?_
            intro i hi
            simp (disch := omega) only [write_le_frame, mem_copy_frame, mem_set_frame]
          · refine read_le_of_bytes _ _ _ _ ?_ ?_
            · intro i hi
              simp (disch := omega) only [write_le_frame, mem_copy_frame, mem_set_frame]
              exact write_le_hit _ _ _ _ _ hi
            · split <;> omega
          · refine read_le_of_bytes _ _ _ _ ?_ (by omega)
            intro i hi
            simp (disch := omega) only [write_le_frame, mem_copy_frame, mem_set_frame]
            exact write_le_hit _ _ _ _ _ hi


end codegen


namespace codegen

theorem type_const64 (k : Nat) : (const64 k).type = LType.i64 := rfl

theorem type_const_int (t : LType) (k : Int) : (Value.const_int t k).type = t := rfl

theorem isPointerTy_ptr (t : LType) : (LType.ptr t).isPointerTy = true := rfl

theorem isIntegerTy_i64 : LType.i64.isIntegerTy = true := rfl

/-- The code of `append` for an element that is no pointer holds, in the blocks of the
pointer mode, a call of `llvm.memcpy` with the element as its source: the verifier
refuses the function, and `codegen_function_decl` erases it. -/
theorem append_non_pointer_refused (dl : DataLayout) (arr elem : Value) (ret : Bool) (n : Nat)
    (hp : elem.type.isPointerTy = false) :
    verifyFunction (append_blocks dl arr elem ret n) = true ∧
    Instr.memcpy (append.mallocCall dl elem (n + 12) "malloc_tok") elem (const64 16) ∈
      append.ptr_mode_code dl elem (append.destI8Ptr arr n) (n + 12) "malloc_tok"
        "append_after_mode" ∧
    (Instr.memcpy (append.mallocCall dl elem (n + 12) "malloc_tok") elem
      (const64 16)).call_matches = false := by
  rw [append_blocks_eq]
  refine ⟨?_, ?_, ?_⟩
  · cases ret <;>
      simp [verifyFunction, Instr.call_matches, append.cont_code, hp, type_alloca,
        type_alloca_n, type_call_malloc, type_gep1, type_load, type_const64, type_const_int,
        isPointerTy_ptr, isIntegerTy_i64]
  · simp
  · simp [Instr.call_matches, hp]

end codegen


namespace codegen

/-- The run of the code of `append` on a descriptor at `A` that lies below the break,
with every fact about the state after it that the later results use. -/
theorem append_run (dl : DataLayout) (hdl : dl.is64) (arr elem : Value) (ret : Bool)
    (n : Nat) (m : Machine) (A : Nat)
    (harr : arr.before n) (helem : elem.before n) (hA : eval m.env arr = A)
    (hbrk : A + 32 ≤ m.brk) (hbrk64 : m.brk < 2 ^ 64)
    (hslot : desc_len m A < desc_cap m A →
      A + 32 ≤ desc_data m A + desc_len m A * desc_elem_size m A % 2 ^ 64 ∨
      desc_data m A + desc_len m A * desc_elem_size m A % 2 ^ 64 + desc_elem_size m A ≤ A) :
    ∃ m1, run dl (append_blocks dl arr elem ret n) 8 "entry" m = some m1 ∧
      desc_len m1 A = (desc_len m A + 1) % 2 ^ 64 ∧
      desc_elem_size m1 A = desc_elem_size m A ∧
      (desc_len m A < desc_cap m A →
        desc_cap m1 A = desc_cap m A ∧ desc_data m1 A = desc_data m A) ∧
      (¬ desc_len m A < desc_cap m A →
        desc_cap m1 A = (if desc_cap m A = 0 then 1 else desc_cap m A * 2 % 2 ^ 64) ∧
        desc_data m1 A = m.brk ∧
        ((if desc_cap m A = 0 then 1 else desc_cap m A * 2 % 2 ^ 64) * desc_elem_size m A
          % 2 ^ 64, m.brk) ∈ m1.mallocs) ∧
      m.brk ≤ m1.brk ∧
      (elem.type.isPointerTy = false → ∀ i, i < desc_elem_size m A →
        m1.mem (desc_data m1 A + desc_len m A * desc_elem_size m A % 2 ^ 64 + i) =
          if i < dl.alloc_size elem.type then eval m.env elem / 256 ^ i % 256 else 0) := by
  rw [append_blocks_eq]
  by_cases hlt : desc_len m A < desc_cap m A
  · obtain ⟨m1, hr, h1, h2, h3, h4, h5, h6⟩ := run_has_space dl hdl arr elem ret n m A
      (desc_len m A) (desc_cap m A) (desc_elem_size m A) (desc_data m A) harr helem hA rfl rfl
      rfl rfl hlt hbrk (hslot hlt)
    have h4a : desc_data m1 A = desc_data m A := h4
    refine ⟨m1, hr, h1, h2, fun _ => ⟨h3, h4⟩, fun h => absurd hlt h, h5, ?_⟩
    rw [h4a]
    exact h6
  · obtain ⟨m1, hr, h1, h2, h3, h4, h5, h6, h7⟩ := run_grow dl hdl arr elem ret n m A
      (desc_len m A) (desc_cap m A) (desc_elem_size m A) (desc_data m A) harr helem hA rfl rfl
      rfl rfl hlt hbrk hbrk64
    have h4a : desc_data m1 A = m.brk := h4
    refine ⟨m1, hr, h1, h2, fun h => absurd h hlt, fun _ => ⟨h3, h4, h5⟩, h6, ?_⟩
    rw [h4a]
    exact h7

theorem append_example_before (id : Nat) (t : LType) : (Value.param id t).before (id + 1) := by
  intro j h
  cases h
  exact Nat.lt_succ_self _

end codegen


namespace lex

/-- The loop of a block comment, given as many iterations as characters are left, ends
at the end of the source whenever it ends inside the comment. -/
theorem block_comment_loop_open (n : Nat) : ∀ (L : Lexer) (d : Nat), remaining L ≤ n →
    (block_comment_loop n L d).2 ≠ 0 → is_at_end (block_comment_loop n L d).1 = true := by
  induction n with
  | zero =>
    intro L d hr _
    simp only [block_comment_loop, is_at_end, decide_eq_true_eq]
    simp only [remaining] at hr
    omega
  | succ n ih =>
    intro L d hr
    rw [block_comment_loop]
    dsimp only
    by_cases he : is_at_end L = true
    · simp only [he, Bool.not_true, Bool.false_and, Bool.false_eq_true, if_false]
      exact fun _ => trivial
    · have he : is_at_end L = false := by simpa using he
      by_cases hd : d > 0
      · simp only [he, hd, Bool.not_false, decide_True, Bool.and_self, if_true]
        have h1 := adv1 L he
        have hr1 : remaining (advance L).2 ≤ n := by
          simp only [remaining, h1.1] at hr ⊢
          omega
        have hr2 : remaining (advance (advance L).2).2 ≤ n := by
          have h2 := advance_le (advance L).2
          simp only [remaining, h2.1, h1.1] at hr ⊢
          have := h2.2
          omega
        split_ifs
        · exact ih _ _ hr2
        · exact ih _ _ hr2
        · exact ih _ _ hr1
      · simp only [he, hd, Bool.not_false, decide_False, Bool.and_false, Bool.false_eq_true,
          if_false]
        intro h
        exact absurd (Nat.pos_of_ne_zero h) hd

/-- C27 (the code at the failing input): a block comment that is open at the end of the
input is reported with the line and column at which the input ends, not with those of
its opening: the loop of the comment stops at the end of the source, and `emit_error`
takes the position of the cursor.  In `x /* a`, line feed, `b` the comment opens at
(1,3) and the diagnostic has the position (2,2). -/
theorem C27_unclosed_comment_position :
    (∀ (L : Lexer) (d : Nat), (block_comment_loop (remaining L) L d).2 ≠ 0 →
      is_at_end (block_comment_loop (remaining L) L d).1 = true) ∧
    (tokenize_all 10 (Lexer.new "x /* a\nb")).map (fun r =>
        (r.1.map (fun t => (t.type, t.lexeme, t.start)), r.2.2)) =
      some ([(TokenType.IDENT, "x", ⟨1, 1⟩), (TokenType.EOF_TOKEN, "", ⟨2, 2⟩)],
        [⟨2, 2, "unclosed block comment"⟩]) := by
  refine ⟨fun L d => block_comment_loop_open _ L d (Nat.le_refl _), ?_⟩
  decide

end lex


namespace lex

theorem remaining_lt {L M : Lexer} (h : is_at_end L = false) (hM : Lexer.Le (advance L).2 M) :
    remaining M < remaining L := by
  have h1 := lt_of_adv_le h hM
  simp only [is_at_end, decide_eq_false_iff_not] at h
  simp only [remaining, h1.1]
  omega

/-- The skip loop with enough iterations: it stops at a settled cursor, and the tokens
that it adds begin with the `NEWLINE` of the first line feed outside a block comment, if
there is one. -/
theorem skip_loop_spec (n : Nat) :
    ∀ (L : Lexer) (out : List Token), remaining L < n →
      Settled (skip_loop true n L out).2.1 ∧
      ∃ l, (skip_loop true n L out).1 = out ++ l ∧
        (∀ t ∈ l, t.type = TokenType.NEWLINE) ∧
        if peek_char (skip_to_break n L) 0 = '\n' then
          l.head? = some (make_token TokenType.NEWLINE "\n" (here (skip_to_break n L))
            (here (advance (skip_to_break n L)).2))
        else l = [] := by
  induction n with
  | zero => intro L out h; omega
  | succ n ih =>
    intro L out hr
    rw [skip_loop, skip_to_break]
    dsimp only
    by_cases h1 : (peek_char L 0 = ' ' ∨ peek_char L 0 = '\t' ∨ peek_char L 0 = '\r')
    · rw [if_pos h1, if_pos h1]
      have hne : is_at_end L = false := by
        apply not_at_end_of_peek
        rcases h1 with h | h | h <;> rw [h] <;> decide
      have := remaining_lt hne (Lexer.Le.refl _)
      exact ih _ _ (by omega)
    · rw [if_neg h1, if_neg h1]
      by_cases h2 : peek_char L 0 = '\n'
      · have h3 : peek_char L 0 ≠ '/' := by rw [h2]; decide
        rw [if_pos h2, if_neg h3]
        simp only [if_pos h2, if_true]
        have hne : is_at_end L = false := by
          apply not_at_end_of_peek; rw [h2]; decide
        have := remaining_lt hne (Lexer.Le.refl _)
        obtain ⟨hs, l, hl, hn, _⟩ := ih (advance L).2
          (out ++ [make_token TokenType.NEWLINE "\n" (here L) (here (advance L).2)]) (by omega)
        refine ⟨by simpa using hs, make_token TokenType.NEWLINE "\n" (here L) (here (advance L).2) :: l,
          by simpa using hl, ?_, rfl⟩
        intro t ht
        rcases List.mem_cons.1 ht with h | h
        · rw [h]; rfl
        · exact hn t h
      · rw [if_neg h2]
        by_cases h3 : peek_char L 0 = '/'
        · rw [if_pos h3, if_pos h3]
          have hne : is_at_end L = false := by
            apply not_at_end_of_peek; rw [h3]; decide
          by_cases h4 : peek_char L 1 = '/'
          · rw [if_pos h4, if_pos h4]
            have := remaining_lt hne ((advance_le (advance L).2).trans
              (advance_until_le '\n' (remaining (advance (advance L).2).2)
                (advance (advance L).2).2 []))
            exact ih _ _ (by omega)
          · rw [if_neg h4, if_neg h4]
            by_cases h5 : peek_char L 1 = '*'
            · rw [if_pos h5, if_pos h5]
              dsimp only
              have := remaining_lt hne ((advance_le (advance L).2).trans
                (block_comment_loop_le (remaining (advance (advance L).2).2)
                  (advance (advance L).2).2 1))
              exact ih _ _ (by omega)
            · rw [if_neg h5, if_neg h5]
              simp only [if_neg h2]
              exact ⟨⟨h1, h2, fun h => h.2.elim h4 h5⟩, [], by simp, by simp, rfl⟩
        · rw [if_neg h3, if_neg h3]
          simp only [if_neg h2]
          exact ⟨⟨h1, h2, fun h => h3 h.1⟩, [], by simp, by simp, rfl⟩

/-- At a settled cursor the skip loop makes no step. -/
theorem skip_loop_settled (L : Lexer) (h : Settled L) (n : Nat) (out : List Token) :
    skip_loop true n L out = (out, L, []) := by
  cases n with
  | zero => rfl
  | succ n =>
    rw [skip_loop]
    dsimp only
    rw [if_neg h.1, if_neg h.2.1]
    by_cases h3 : peek_char L 0 = '/'
    · rw [if_pos h3, if_neg (fun h4 => h.2.2 ⟨h3, Or.inl h4⟩),
        if_neg (fun h5 => h.2.2 ⟨h3, Or.inr h5⟩)]
    · rw [if_neg h3]

/-- After a `NEWLINE` token the cursor is settled. -/
theorem next_token_newline_settled (L : Lexer)
    (h : (next_token L).1.type = TokenType.NEWLINE) : Settled (next_token L).2.1 := by
  have hs := (skip_loop_spec (remaining L + 1) L [] (Nat.lt_succ_self _)).1
  simp only [next_token, skip_whitespace_and_comments] at h ⊢
  split
  · exact hs
  · rename_i heq
    rw [heq] at h
    simp only at h
    split_ifs at h with he
    · exact absurd h (by simp [make_token])
    · exact absurd h (scan_token_type _).2

/-- At a settled cursor `next_token` makes no `NEWLINE`. -/
theorem next_token_of_settled (L : Lexer) (h : Settled L) :
    (next_token L).1.type ≠ TokenType.NEWLINE := by
  simp only [next_token, skip_whitespace_and_comments, skip_loop_settled L h]
  split_ifs
  · simp [make_token]
  · exact (scan_token_type _).2

/-- The token of `next_token`, from the first line break of the run at the cursor. -/
theorem next_token_newline (L : Lexer) :
    if peek_char (skip_to_break (remaining L + 1) L) 0 = '\n' then
      (next_token L).1 = make_token TokenType.NEWLINE "\n"
        (here (skip_to_break (remaining L + 1) L))
        (here (advance (skip_to_break (remaining L + 1) L)).2)
    else (next_token L).1.type ≠ TokenType.NEWLINE := by
  obtain ⟨_, l, hl, _, hh⟩ := skip_loop_spec (remaining L + 1) L [] (Nat.lt_succ_self _)
  simp only [List.nil_append] at hl
  split_ifs at hh ⊢ with hp
  · simp only [next_token, skip_whitespace_and_comments, hl]
    cases l with
    | nil => simp at hh
    | cons t ts =>
      simp only [List.head?_cons, Option.some.injEq] at hh
      rw [hh]
  · simp only [next_token, skip_whitespace_and_comments, hl, hh]
    split_ifs
    · simp [make_token]
    · exact (scan_token_type _).2

theorem tokenize_loop_chain (fuel : Nat) :
    ∀ (L : Lexer) (out : List Token) (r : List Token × Lexer × List Diag),
      tokenize_loop fuel L out = some r → NoNewlinePair out →
      (∀ t ∈ out.getLast?, t.type = TokenType.NEWLINE → Settled L) → NoNewlinePair r.1 := by
  induction fuel with
  | zero => intro L out r h; simp [tokenize_loop] at h
  | succ fuel ih =>
    intro L out r h hc hl
    have hout : NoNewlinePair (out ++ [(next_token L).1]) := by
      refine List.Chain'.append hc (List.chain'_singleton _) ?_
      intro x hx y hy
      simp only [List.head?_cons, Option.mem_def, Option.some.injEq] at hy
      subst hy
      exact fun hxy => next_token_of_settled L (hl x hx hxy.1) hxy.2
    rw [tokenize_loop] at h
    split_ifs at h with he
    · simp only [Option.some.injEq] at h
      subst h
      exact hout
    · cases hrec : tokenize_loop fuel (next_token L).2.1 (out ++ [(next_token L).1]) with
      | none => rw [hrec] at h; simp at h
      | some r2 =>
        rw [hrec] at h
        simp only [Option.some.injEq] at h
        subst h
        refine ih _ _ r2 hrec hout ?_
        intro t ht hn
        simp only [List.getLast?_append, List.getLast?_singleton, Option.or,
          Option.mem_def, Option.some.injEq] at ht
        subst ht
        exact next_token_newline_settled L hn

/-- C30: the token after a `NEWLINE` is never a `NEWLINE`, so that the list of
`tokenize_all` (which exists for more iterations than characters) has no two
neighbours that are both `NEWLINE`; and a call of `next_token` returns a `NEWLINE`
exactly when the run of blanks and comments at the cursor leads to a line feed outside
a block comment, the token then starting at the position of the first such line feed
and ending after it. -/
theorem C30_no_adjacent_newlines (L : Lexer) :
    ((next_token L).1.type = TokenType.NEWLINE →
      (next_token (next_token L).2.1).1.type ≠ TokenType.NEWLINE) ∧
    (∀ fuel, remaining L < fuel →
      ∃ r, tokenize_all fuel L = some r ∧ NoNewlinePair r.1) ∧
    (if peek_char (skip_to_break (remaining L + 1) L) 0 = '\n' then
      (next_token L).1 = make_token TokenType.NEWLINE "\n"
        (here (skip_to_break (remaining L + 1) L))
        (here (advance (skip_to_break (remaining L + 1) L)).2)
    else (next_token L).1.type ≠ TokenType.NEWLINE) := by
  refine ⟨fun h => next_token_of_settled _ (next_token_newline_settled L h), ?_,
    next_token_newline L⟩
  intro fuel hf
  obtain ⟨ts, eof, L1, ds, h1, _⟩ := tokenize_loop_total fuel L [] hf
  refine ⟨_, h1, ?_⟩
  exact tokenize_loop_chain fuel L [] _ h1 List.chain'_nil (by simp)

/-- C30 at the source of two line feeds, a line comment, a line feed and `y`: the first
token is a `NEWLINE`, the second is not, and the list has no two `NEWLINE` neighbours. -/
theorem C30_witness :
    (next_token (Lexer.new "\n\n// c\ny")).1.type = TokenType.NEWLINE ∧
    (next_token (next_token (Lexer.new "\n\n// c\ny")).2.1).1.type ≠ TokenType.NEWLINE ∧
    remaining (Lexer.new "\n\n// c\ny") < 9 ∧
    ∃ r, tokenize_all 9 (Lexer.new "\n\n// c\ny") = some r ∧ NoNewlinePair r.1 :=
  ⟨by decide, (C30_no_adjacent_newlines (Lexer.new "\n\n// c\ny")).1 (by decide), by decide,
    (C30_no_adjacent_newlines (Lexer.new "\n\n// c\ny")).2.1 9 (by decide)⟩

end lex


namespace codegen

open ast

theorem join_replicate_reverse (s : String) (k : Nat) :
    ∀ acc : String, (List.foldl (fun r t => r ++ t) acc (List.replicate k s)).data.reverse =
      (fun l => s.data.reverse ++ l)^[k] acc.data.reverse := by
  induction k with
  | zero => intro acc; rfl
  | succ k ih =>
    intro acc
    rw [List.replicate_succ, List.foldl_cons, ih, Function.iterate_succ_apply,
      String.data_append, List.reverse_append]

theorem iterate_cons_append (u : List Char) (k : Nat) (l r : List Char) :
    (fun l => u ++ l)^[k] l ++ r = (fun l => u ++ l)^[k] (l ++ r) := by
  induction k generalizing l with
  | zero => rfl
  | succ k ih => rw [Function.iterate_succ_apply, Function.iterate_succ_apply, ih,
      List.append_assoc]

/-- The characters of the name that `resolve_type_name` makes, read from the end: the
asterisks, the bracket pairs, the name. -/
theorem resolve_chars (name : String) (a p : Nat) :
    (name ++ String.join (List.replicate a "[]") ++
      String.join (List.replicate p "*")).toList.reverse =
      (fun l => ['*'] ++ l)^[p] ((fun l => [']', '['] ++ l)^[a] name.toList.reverse) := by
  simp only [String.toList, String.data_append, List.reverse_append, String.join]
  rw [join_replicate_reverse, join_replicate_reverse, iterate_cons_append, iterate_cons_append]
  rfl

theorem resolve_loop_eq : ∀ (t : Ty) (a p : Nat) (n : String), core_name t = some n →
    resolve_type_name_loop t a p =
      n ++ String.join (List.replicate (a + array_layers t) "[]") ++
        String.join (List.replicate (p + pointer_layers t) "*")
  | Ty.NamedType name, a, p, n, h => by
    simp only [core_name, Option.some.injEq] at h
    subst h
    simp [resolve_type_name_loop, array_layers, pointer_layers]
  | Ty.ArrayType elem _ _, a, p, n, h => by
    simp only [core_name] at h
    rw [resolve_type_name_loop, resolve_loop_eq elem (a + 1) p n h]
    simp only [array_layers, pointer_layers]
    rw [Nat.add_assoc a 1, Nat.add_comm 1]
  | Ty.PointerType base, a, p, n, h => by
    simp only [core_name] at h
    rw [resolve_type_name_loop, resolve_loop_eq base a (p + 1) n h]
    simp only [array_layers, pointer_layers]
    rw [Nat.add_assoc p 1, Nat.add_comm 1]
  | Ty.FuncType _ _, _, _, _, h => by simp [core_name] at h

theorem loop_star (rest : List Char) (a p : Nat) :
    parse_type_chain_loop ('*' :: rest) a p = parse_type_chain_loop rest a (p + 1) := by
  cases rest with
  | nil => simp [parse_type_chain_loop]
  | cons d rest =>
    rw [parse_type_chain_loop]
    rw [if_neg (by intro h; exact absurd h.1 (by decide)), if_pos rfl]

theorem loop_stars (k : Nat) (rest : List Char) (a p : Nat) :
    parse_type_chain_loop ((fun l => ['*'] ++ l)^[k] rest) a p =
      parse_type_chain_loop rest a (p + k) := by
  induction k generalizing p with
  | zero => rfl
  | succ k ih =>
    rw [Function.iterate_succ_apply']
    change parse_type_chain_loop ('*' :: ((fun l => ['*'] ++ l)^[k] rest)) a p = _
    rw [loop_star, ih, Nat.add_assoc, Nat.add_comm 1]

theorem loop_pairs (k : Nat) (rest : List Char) (a p : Nat) :
    parse_type_chain_loop ((fun l => [']', '['] ++ l)^[k] rest) a p =
      parse_type_chain_loop rest (a + k) p := by
  induction k generalizing a with
  | zero => rfl
  | succ k ih =>
    rw [Function.iterate_succ_apply']
    change parse_type_chain_loop (']' :: '[' :: ((fun l => [']', '['] ++ l)^[k] rest)) a p = _
    rw [parse_type_chain_loop, if_pos ⟨rfl, rfl⟩, ih, Nat.add_assoc, Nat.add_comm 1]

/-- The loop stops at once at characters that begin neither with an asterisk nor with
a reversed bracket pair. -/
theorem loop_stop (l : List Char) (a p : Nat) (h1 : ¬ [']', '['] <+: l) (h2 : ¬ ['*'] <+: l) :
    parse_type_chain_loop l a p = (l, a, p) := by
  match l with
  | [] => rfl
  | [c] =>
    have hc : c ≠ '*' := by
      rintro rfl
      exact h2 (List.prefix_refl _)
    simp [parse_type_chain_loop, hc]
  | c :: d :: rest =>
    have hc : c ≠ '*' := by
      rintro rfl
      exact h2 ⟨d :: rest, rfl⟩
    have hp : ¬ (c = ']' ∧ d = '[') := by
      rintro ⟨rfl, rfl⟩
      exact h1 ⟨rest, rfl⟩
    rw [parse_type_chain_loop, if_neg hp, if_neg hc]

/-- C26: for a type with the name `n` at its core, where `n` ends neither in `[]` nor in
`*`, under array layers and pointer layers in any order, `parse_type_chain` of the name
that `resolve_type_name` makes has the base `n`, the number of the array layers as
`array_depth` and the number of the pointer layers as `pointer_depth`. -/
theorem C26_parse_of_resolve (t : Ty) (n : String) (hn : core_name t = some n)
    (h1 : ¬ ['[', ']'] <:+ n.toList) (h2 : ¬ ['*'] <:+ n.toList) :
    parse_type_chain (resolve_type_name (some t)) =
      { base := n, array_depth := array_layers t, pointer_depth := pointer_layers t } := by
  have e1 : ¬ [']', '['] <+: n.toList.reverse := by
    intro h
    have hr : (['[', ']'] : List Char).reverse <+: n.toList.reverse := h
    exact h1 (List.reverse_prefix.1 hr)
  have e2 : ¬ ['*'] <+: n.toList.reverse := by
    intro h
    have hr : (['*'] : List Char).reverse <+: n.toList.reverse := h
    exact h2 (List.reverse_prefix.1 hr)
  simp only [parse_type_chain, resolve_type_name]
  rw [resolve_loop_eq t 0 0 n hn, resolve_chars, loop_stars, loop_pairs, loop_stop _ _ _ e1 e2]
  simp

/-- C26 at `[]*[]int`: the name is `int[][]*`, parsed back to `int`, 2 and 1. -/
theorem C26_witness :
    resolve_type_name (some (Ty.ArrayType (Ty.PointerType
      (Ty.ArrayType (Ty.NamedType "int") true 0)) true 0)) = "int[][]*" ∧
    parse_type_chain (resolve_type_name (some (Ty.ArrayType (Ty.PointerType
      (Ty.ArrayType (Ty.NamedType "int") true 0)) true 0))) =
      { base := "int", array_depth := 2, pointer_depth := 1 } :=
  ⟨by decide, C26_parse_of_resolve _ "int" rfl (by decide) (by decide)⟩

end codegen


namespace codegen

/-- An instruction with a result leaves the environment as it is (its result is
entered by `exec_instr`). -/
theorem exec_value_env (dl : DataLayout) (m : Machine) (v : Value) (x : Nat) (m1 : Machine)
    (h : exec_value dl m v = some (x, m1)) : m1.env = m.env := by
  cases v <;> simp only [exec_value] at h
  all_goals (repeat' (split at h))
  all_goals first
    | (simp only [Option.some.injEq, Prod.mk.injEq] at h; rw [← h.2])
    | (simp at h)

theorem exec_instr_env (dl : DataLayout) (n : Nat) (m m1 : Machine) (i : Instr)
    (hi : i.from_ n) (h : exec_instr dl m i = some m1) :
    ∀ j, j < n → m1.env j = m.env j := by
  intro j hj
  cases i with
  | value v =>
    simp only [exec_instr] at h
    split at h
    · rename_i x m2 id hv hid
      simp only [Option.some.injEq] at h
      rw [← h]
      have := hi v rfl id hid
      simp only [set_env, exec_value_env dl m v x m2 hv]
      rw [if_neg (by omega)]
    · simp at h
  | store v addr => simp only [exec_instr, Option.some.injEq] at h; rw [← h]
  | memcpy d s l => simp only [exec_instr, Option.some.injEq] at h; rw [← h]
  | memset d b l => simp only [exec_instr, Option.some.injEq] at h; rw [← h]
  | br t => simp [exec_instr] at h
  | cond_br c a b => simp [exec_instr] at h
  | call r a => simp [exec_instr] at h
  | unreachable => simp [exec_instr] at h
  | ret v => simp [exec_instr] at h
  | label l => simp [exec_instr] at h

theorem exec_instrs_env (dl : DataLayout) (n : Nat) :
    ∀ (is : List Instr) (m m1 : Machine) (next : Option String),
      (∀ i ∈ is, i.from_ n) → exec_instrs dl is m = some (m1, next) →
      ∀ j, j < n → m1.env j = m.env j := by
  intro is
  induction is with
  | nil =>
    intro m m1 next _ h j _
    simp only [exec_instrs, Option.some.injEq, Prod.mk.injEq] at h
    rw [← h.1]
  | cons i rest ih =>
    intro m m1 next hi h j hj
    have step : ∀ m2, exec_instr dl m i = some m2 → exec_instrs dl rest m2 = some (m1, next) →
        m1.env j = m.env j := by
      intro m2 h1 h2
      rw [ih m2 m1 next (fun i hi2 => hi i (List.mem_cons_of_mem _ hi2)) h2 j hj]
      exact exec_instr_env dl n m m2 i (hi i (List.mem_cons_self _ _)) h1 j hj
    cases i with
    | br t =>
      simp only [exec_instrs, Option.some.injEq, Prod.mk.injEq] at h
      rw [← h.1]
    | cond_br c a b =>
      simp only [exec_instrs, Option.some.injEq, Prod.mk.injEq] at h
      rw [← h.1]
    | value v =>
      simp only [exec_instrs] at h
      split at h
      · exact step _ (by assumption) h
      · simp at h
    | store v addr =>
      simp only [exec_instrs] at h
      split at h
      · exact step _ (by assumption) h
      · simp at h
    | memcpy d s l =>
      simp only [exec_instrs] at h
      split at h
      · exact step _ (by assumption) h
      · simp at h
    | memset d b l =>
      simp only [exec_instrs] at h
      split at h
      · exact step _ (by assumption) h
      · simp at h
    | call r a => simp [exec_instrs, exec_instr] at h
    | unreachable => simp [exec_instrs, exec_instr] at h
    | ret v => simp [exec_instrs, exec_instr] at h
    | label l => simp [exec_instrs, exec_instr] at h

/-- A run of blocks whose values have an `id` from `n` on leaves the values of the
values made before as they are. -/
theorem run_env (dl : DataLayout) (blocks : List Block) (n : Nat)
    (hb : ∀ blk ∈ blocks, ∀ i ∈ blk.instrs, i.from_ n) (fuel : Nat) :
    ∀ (name : String) (m m1 : Machine), run dl blocks fuel name m = some m1 →
      ∀ j, j < n → m1.env j = m.env j := by
  induction fuel with
  | zero => intro name m m1 h; simp [run] at h
  | succ fuel ih =>
    intro name m m1 h j hj
    rw [run] at h
    cases hf : find_block blocks name with
    | none => rw [hf] at h; simp at h
    | some blk =>
      rw [hf] at h
      simp only at h
      have hmem : blk ∈ blocks := List.mem_of_find?_eq_some hf
      cases he : exec_instrs dl blk.instrs m with
      | none => rw [he] at h; simp at h
      | some r =>
        obtain ⟨m2, next⟩ := r
        rw [he] at h
        have e2 := exec_instrs_env dl n blk.instrs m m2 next (hb blk hmem) he j hj
        cases next with
        | none =>
          simp only [Option.some.injEq] at h
          rw [← h, e2]
        | some nx =>
          simp only at h
          rw [ih nx m2 m1 h j hj, e2]

theorem from_value (n : Nat) (v : Value) (id : Nat) (h : v.result_id = some id) (hle : n ≤ id) :
    (Instr.value v).from_ n := by
  intro w hw j hj
  cases hw
  rw [h] at hj
  cases hj
  exact hle

theorem from_other (n : Nat) (i : Instr) (h : ∀ v, i ≠ Instr.value v) : i.from_ n :=
  fun v hv => absurd hv (h v)

/-- Every value that the code of `append` makes has an `id` from `n` on. -/
theorem append_code_fresh (dl : DataLayout) (arr elem : Value) (ret : Bool) (n : Nat) :
    ∀ blk ∈ append.code dl arr elem ret n, ∀ i ∈ blk.instrs, i.from_ n := by
  cases hp : elem.type.isPointerTy <;> cases ret <;>
    simp only [append.code, append.entry_code, append.has_space_code, append.grow_code,
      append.cont_code, append.ptr_mode_code, append.copy_mode_code, append.after_mode_code,
      append.do_copy_code, append.no_copy_code, append.mode_br, hp, List.forall_mem_cons,
      List.not_mem_nil, false_implies, implies_true, and_true, Bool.false_eq_true, if_false,
      if_true] <;>
    (repeat' apply And.intro) <;>
    first
    | trivial
    | (refine from_value n _ _ rfl ?_; (try simp only [append.grow_base]); omega)
    | (apply from_other; intro v h; cases h)

theorem eval_of_env_eq (e1 e2 : Nat → Nat) (v : Value)
    (h : ∀ id, v.result_id = some id → e1 id = e2 id) : eval e1 v = eval e2 v := by
  cases v <;> simp_all [eval, Value.result_id]

/-- One run of the code of `append` on a descriptor at `A` whose buffer lies after it:
the run ends, the descriptor pointer keeps its value, and the fields are as
`append_run` says. -/
theorem append_step (dl : DataLayout) (hdl : dl.is64) (arr elem : Value) (ret : Bool)
    (n : Nat) (m : Machine) (A : Nat)
    (harr : arr.before n) (helem : elem.before n) (hA : eval m.env arr = A)
    (hbrk : A + 32 ≤ m.brk) (hbrk64 : m.brk < 2 ^ 64)
    (hdata : desc_len m A < desc_cap m A → A + 32 ≤ desc_data m A) :
    ∃ m1, run dl (append_blocks dl arr elem ret n) 8 "entry" m = some m1 ∧
      eval m1.env arr = A ∧ A + 32 ≤ m1.brk ∧
      desc_len m1 A = (desc_len m A + 1) % 2 ^ 64 ∧
      (desc_len m A < desc_cap m A →
        desc_cap m1 A = desc_cap m A ∧ desc_data m1 A = desc_data m A) ∧
      (¬ desc_len m A < desc_cap m A →
        desc_cap m1 A = (if desc_cap m A = 0 then 1 else desc_cap m A * 2 % 2 ^ 64) ∧
        desc_data m1 A = m.brk) := by
  obtain ⟨m1, hr, h1, _, h3, h4, h5, _⟩ := append_run dl hdl arr elem ret n m A harr helem hA
    hbrk hbrk64 (fun hlt => Or.inl (Nat.le_trans (hdata hlt) (Nat.le_add_right _ _)))
  refine ⟨m1, hr, ?_, by omega, h1, h3, fun hge => ⟨(h4 hge).1, (h4 hge).2.1⟩⟩
  rw [← hA]
  apply eval_of_env_eq
  intro id hid
  have hr2 := hr
  rw [append_blocks_eq] at hr2
  exact run_env dl _ n (append_code_fresh dl arr elem ret n) 8 "entry" m m1 hr2 id (harr id hid)

/-- The state after `k` appends to a descriptor that was empty, absent overflow. -/
theorem appends_from_empty (dl : DataLayout) (hdl : dl.is64) (arr elem : Value) (ret : Bool)
    (n : Nat) (m : Machine) (A : Nat)
    (harr : arr.before n) (helem : elem.before n) (hA : eval m.env arr = A)
    (hbrk : A + 32 ≤ m.brk) (hlen : desc_len m A = 0) (hcap : desc_cap m A = 0) (k : Nat)
    (hk1 : 1 ≤ k) :
    k < 2 ^ 63 →
    (∀ j, j < k → ∀ mj, run_appends dl arr elem ret n j m = some mj → mj.brk < 2 ^ 64) →
    ∃ mk, run_appends dl arr elem ret n k m = some mk ∧ eval mk.env arr = A ∧
      A + 32 ≤ mk.brk ∧ desc_len mk A = k ∧ A + 32 ≤ desc_data mk A ∧
      ∃ e, desc_cap mk A = 2 ^ e ∧ k ≤ 2 ^ e ∧ (e = 0 ∨ 2 ^ (e - 1) < k) := by
  induction k, hk1 using Nat.le_induction with
  | base =>
    intro _ hb
    obtain ⟨m1, hr, h1, h2, h3, _, h5⟩ := append_step dl hdl arr elem ret n m A harr helem hA
      hbrk (hb 0 (by omega) m rfl) (fun hlt => by omega)
    have h6 := h5 (by omega)
    refine ⟨m1, by simp only [run_appends]; exact hr, h1, h2, by rw [h3, hlen]; rfl, by omega,
      0, ?_, by norm_num, Or.inl rfl⟩
    rw [h6.1, if_pos hcap]
    rfl
  | succ k hk1 ih =>
    intro hk hb
    obtain ⟨mk, hr, hA1, hbrk1, hl, hd, e, hc, hle, hmin⟩ := ih (by omega)
      (fun j hj => hb j (by omega))
    obtain ⟨m1, hr1, h1, h2, h3, h4, h5⟩ := append_step dl hdl arr elem ret n mk A harr helem
      hA1 hbrk1 (hb k (by omega) mk hr) (fun _ => hd)
    have hrun : run_appends dl arr elem ret n (k + 1) m = some m1 := by
      simp only [run_appends, hr]
      exact hr1
    have hlen1 : desc_len m1 A = k + 1 := by
      rw [h3, hl]
      exact Nat.mod_eq_of_lt (by omega)
    by_cases hlt : desc_len mk A < desc_cap mk A
    · refine ⟨m1, hrun, h1, h2, hlen1, by rw [(h4 hlt).2]; exact hd, e, by rw [(h4 hlt).1, hc],
        by rw [hl, hc] at hlt; omega, ?_⟩
      rcases hmin with h0 | h0
      · left; exact h0
      · right; omega
    · have hkc : 2 ^ e = k := by rw [hl, hc] at hlt; omega
      have hpos : desc_cap mk A ≠ 0 := by rw [hc, hkc]; omega
      refine ⟨m1, hrun, h1, h2, hlen1, by rw [(h5 hlt).2]; exact hbrk1, e + 1, ?_, ?_, ?_⟩
      · rw [(h5 hlt).1, if_neg hpos, hc, pow_succ]
        exact Nat.mod_eq_of_lt (by omega)
      · rw [pow_succ]; omega
      · right
        rw [Nat.add_sub_cancel, hkc]
        omega

/-- C28: in the model of the code emitted for `append` (a 64-bit data layout, the
descriptor at the address `A` below the break), absent 64-bit overflow: (1) for a
descriptor with `len ≤ cap` whose buffer lies after it, the run ends with `len ≤ cap`
again; (2) from `len = 0` and `cap = 0`, after `k ≥ 1` runs `len = k` and `cap = 2 ^ e`
for the least `e` with `k ≤ 2 ^ e`. -/
theorem C28_append_invariants (dl : DataLayout) (hdl : dl.is64) (arr elem : Value) (ret : Bool)
    (n : Nat) (m : Machine) (A : Nat)
    (harr : arr.before n) (helem : elem.before n) (hA : eval m.env arr = A)
    (hbrk : A + 32 ≤ m.brk) :
    (m.brk < 2 ^ 64 → (desc_len m A < desc_cap m A → A + 32 ≤ desc_data m A) →
      desc_len m A ≤ desc_cap m A → desc_len m A + 1 < 2 ^ 64 → 2 * desc_cap m A < 2 ^ 64 →
      ∃ m1, run dl (append_blocks dl arr elem ret n) 8 "entry" m = some m1 ∧
        desc_len m1 A ≤ desc_cap m1 A) ∧
    (desc_len m A = 0 → desc_cap m A = 0 → ∀ k, 1 ≤ k → k < 2 ^ 63 →
      (∀ j, j < k → ∀ mj, run_appends dl arr elem ret n j m = some mj → mj.brk < 2 ^ 64) →
      ∃ mk, run_appends dl arr elem ret n k m = some mk ∧ desc_len mk A = k ∧
        ∃ e, desc_cap mk A = 2 ^ e ∧ k ≤ 2 ^ e ∧ ∀ e', k ≤ 2 ^ e' → e ≤ e') := by
  constructor
  · intro hb hdata hle h1 h2
    obtain ⟨m1, hr, _, _, h3, h4, h5⟩ := append_step dl hdl arr elem ret n m A harr helem hA
      hbrk hb hdata
    refine ⟨m1, hr, ?_⟩
    rw [h3, Nat.mod_eq_of_lt h1]
    by_cases hlt : desc_len m A < desc_cap m A
    · rw [(h4 hlt).1]; omega
    · rw [(h5 hlt).1]
      split_ifs with h0
      · omega
      · rw [Nat.mod_eq_of_lt (by omega)]; omega
  · intro hlen hcap k hk1 hk hb
    obtain ⟨mk, hr, _, _, hl, _, e, hc, hle, hmin⟩ := appends_from_empty dl hdl arr elem ret n
      m A harr helem hA hbrk hlen hcap k hk1 hk hb
    refine ⟨mk, hr, hl, e, hc, hle, ?_⟩
    intro e' he'
    rcases hmin with h0 | h0
    · omega
    · by_contra hcon
      have : 2 ^ e' ≤ 2 ^ (e - 1) := Nat.pow_le_pow_right (by norm_num) (by omega)
      omega

/-- C28, an instance: three runs of the code of `append` for an element of a pointer
type on the empty descriptor at 1000 (`elem_size = 8`) give `len = 3` and `cap = 4`. -/
theorem C28_witness :
    ∃ mk, run_appends layout64 append_example_arr append_example_ptr false 2 3
        (append_example_machine 0 0 0 8 2000) = some mk ∧ desc_len mk 1000 = 3 ∧
      ∃ e, desc_cap mk 1000 = 2 ^ e ∧ 3 ≤ 2 ^ e ∧ ∀ e', 3 ≤ 2 ^ e' → e ≤ e' :=
  (C28_append_invariants layout64 layout64_is64 append_example_arr append_example_ptr false 2
    (append_example_machine 0 0 0 8 2000) 1000
    (fun id h => Nat.lt_succ_of_lt (append_example_before 0 _ id h))
    (append_example_before 1 _) rfl (by decide)).2 (by decide) (by decide) 3 (by decide)
    (by decide) (fun j hj mj h => by
      have key : ∀ j, j < 3 → ((run_appends layout64 append_example_arr append_example_ptr
          false 2 j (append_example_machine 0 0 0 8 2000)).map
            (fun mj => decide (mj.brk < 2 ^ 64))).getD true = true := by decide
      have hj2 := key j hj
      rw [h] at hj2
      simpa using hj2)

end codegen


namespace codegen

open ast

/-- The comparison `==` with a left operand of a pointer type and a right operand of no
floating-point type: the left operand is compared with the null pointer. -/
theorem binary_int_ptr_eq (L R : Value) (cg : CodeGen) (hL : L.type.isPointerTy = true) :
    binary_int "==" L R cg =
      Except.ok (some (Value.cast (cg.next_id + 1) "" CastOp.zext
        (Value.icmp cg.next_id "cmptmp" Pred.eq L (Value.const_null L.type)) LType.i32),
        { cg with
          code := cg.code ++ [Instr.value (Value.icmp cg.next_id "cmptmp" Pred.eq L
              (Value.const_null L.type)),
            Instr.value (Value.cast (cg.next_id + 1) "" CastOp.zext
              (Value.icmp cg.next_id "cmptmp" Pred.eq L (Value.const_null L.type)) LType.i32)],
          next_id := cg.next_id + 2 }) := by
  have hf : L.type.isFloatingPointTy = false := by
    cases h : L.type <;> simp_all [LType.isPointerTy, LType.isFloatingPointTy]
  have hi : L.type.isIntegerTy = false := by
    cases h : L.type <;> simp_all [LType.isPointerTy, LType.isIntegerTy]
  simp [binary_int, binary_arith, hf, hi, hL, zext_return, CodeGen.emit_value]

/-- The comparison `!=` with a left operand of a pointer type. -/
theorem binary_int_ptr_ne (L R : Value) (cg : CodeGen) (hL : L.type.isPointerTy = true) :
    binary_int "!=" L R cg =
      Except.ok (some (Value.cast (cg.next_id + 1) "" CastOp.zext
        (Value.icmp cg.next_id "cmptmp" Pred.ne L (Value.const_null L.type)) LType.i32),
        { cg with
          code := cg.code ++ [Instr.value (Value.icmp cg.next_id "cmptmp" Pred.ne L
              (Value.const_null L.type)),
            Instr.value (Value.cast (cg.next_id + 1) "" CastOp.zext
              (Value.icmp cg.next_id "cmptmp" Pred.ne L (Value.const_null L.type)) LType.i32)],
          next_id := cg.next_id + 2 }) := by
  have hf : L.type.isFloatingPointTy = false := by
    cases h : L.type <;> simp_all [LType.isPointerTy, LType.isFloatingPointTy]
  have hi : L.type.isIntegerTy = false := by
    cases h : L.type <;> simp_all [LType.isPointerTy, LType.isIntegerTy]
  simp [binary_int, binary_arith, hf, hi, hL, zext_return, CodeGen.emit_value]

/-- C29 (the code at the failing input): for operands that are lowered to `L` of a
pointer type and to `R` of no floating-point type, `codegen_binary` returns for `==`
the zero extension to `i32` of the comparison of `L` with the null pointer of the type
of `L`, and for `!=` the same with the other predicate: `R` is no operand of the
comparison, and the instructions made are the same for every `R`.  For `L` of an
integer type and `R` of a pointer type the function stops at the width of `R`. -/
theorem C29_pointer_comparison_ignores_right (codegen_expr : Lowering) (left right : Expr)
    (cg cg1 cg2 : CodeGen) (L R : Value)
    (hl : codegen_expr left cg = Except.ok (some L, cg1))
    (hr : codegen_expr right cg1 = Except.ok (some R, cg2))
    (hR : R.type.isFloatingPointTy = false) :
    (L.type.isPointerTy = true →
      codegen_binary codegen_expr "==" left right cg =
        Except.ok (some (Value.cast (cg2.next_id + 1) "" CastOp.zext
          (Value.icmp cg2.next_id "cmptmp" Pred.eq L (Value.const_null L.type)) LType.i32),
          { cg2 with
            code := cg2.code ++ [Instr.value (Value.icmp cg2.next_id "cmptmp" Pred.eq L
                (Value.const_null L.type)),
              Instr.value (Value.cast (cg2.next_id + 1) "" CastOp.zext
                (Value.icmp cg2.next_id "cmptmp" Pred.eq L (Value.const_null L.type))
                LType.i32)],
            next_id := cg2.next_id + 2 }) ∧
      codegen_binary codegen_expr "!=" left right cg =
        Except.ok (some (Value.cast (cg2.next_id + 1) "" CastOp.zext
          (Value.icmp cg2.next_id "cmptmp" Pred.ne L (Value.const_null L.type)) LType.i32),
          { cg2 with
            code := cg2.code ++ [Instr.value (Value.icmp cg2.next_id "cmptmp" Pred.ne L
                (Value.const_null L.type)),
              Instr.value (Value.cast (cg2.next_id + 1) "" CastOp.zext
                (Value.icmp cg2.next_id "cmptmp" Pred.ne L (Value.const_null L.type))
                LType.i32)],
            next_id := cg2.next_id + 2 })) ∧
    (L.type.isIntegerTy = true → R.type.isPointerTy = true →
      codegen_binary codegen_expr "==" left right cg =
        Except.error "getIntegerBitWidth: the type is no integer type") := by
  constructor
  · intro hL
    have hf : L.type.isFloatingPointTy = false := by
      cases h : L.type <;> simp_all [LType.isPointerTy, LType.isFloatingPointTy]
    constructor
    · simp only [codegen_binary, hl, hr, hf, hR, Bool.or_self, Bool.false_eq_true, if_false]
      exact binary_int_ptr_eq L R cg2 hL
    · simp only [codegen_binary, hl, hr, hf, hR, Bool.or_self, Bool.false_eq_true, if_false]
      exact binary_int_ptr_ne L R cg2 hL
  · intro hL hRp
    have hf : L.type.isFloatingPointTy = false := by
      cases h : L.type <;> simp_all [LType.isIntegerTy, LType.isFloatingPointTy]
    have hb : R.type.int_bits = none := by
      cases h : R.type <;> simp_all [LType.isPointerTy, LType.int_bits]
    simp only [codegen_binary, hl, hr, hf, hR, Bool.or_self, Bool.false_eq_true, if_false]
    simp [binary_int, binary_arith, hf, hL, int_target, hb]

/-- C29 at `p == q` and `p == p` in the body of `fn f(p *i32, q *i32)`, as the parser
returns it: both are lowered to the same value, the comparison of `p` with the null
pointer. -/
theorem C29_witness :
    (path.parse_source 60 "fn f(p *i32, q *i32) i32 \x7b\n return p == q\n\x7d").map
        (fun r => (r.1, r.2.diags)) =
      some ({ decls := [Decl.FuncDecl "f" none
          [{ name := "p", type := Ty.PointerType (Ty.NamedType "i32") },
           { name := "q", type := Ty.PointerType (Ty.NamedType "i32") }]
          (some (Ty.NamedType "i32")) false
          [Stmt.ReturnStmt (some (Expr.BinaryExpr "==" (Expr.Ident "p") (Expr.Ident "q")))]] },
        []) ∧
    codegen_binary ident_lowering "==" (Expr.Ident "p") (Expr.Ident "q") example_ptr_state =
      Except.ok (some (Value.cast 3 "" CastOp.zext
        (Value.icmp 2 "cmptmp" Pred.eq (Value.param 0 (LType.ptr LType.i32))
          (Value.const_null (LType.ptr LType.i32))) LType.i32),
        { example_ptr_state with
          code := [Instr.value (Value.icmp 2 "cmptmp" Pred.eq (Value.param 0 (LType.ptr LType.i32))
              (Value.const_null (LType.ptr LType.i32))),
            Instr.value (Value.cast 3 "" CastOp.zext
              (Value.icmp 2 "cmptmp" Pred.eq (Value.param 0 (LType.ptr LType.i32))
                (Value.const_null (LType.ptr LType.i32))) LType.i32)],
          next_id := 4 }) ∧
    codegen_binary ident_lowering "==" (Expr.Ident "p") (Expr.Ident "p") example_ptr_state =
      codegen_binary ident_lowering "==" (Expr.Ident "p") (Expr.Ident "q") example_ptr_state :=
  ⟨by decide,
   ((C29_pointer_comparison_ignores_right ident_lowering (Expr.Ident "p") (Expr.Ident "q")
      example_ptr_state example_ptr_state example_ptr_state
      (Value.param 0 (LType.ptr LType.i32)) (Value.param 1 (LType.ptr LType.i32))
      rfl rfl rfl).1 rfl).1,
   ((C29_pointer_comparison_ignores_right ident_lowering (Expr.Ident "p") (Expr.Ident "p")
      example_ptr_state example_ptr_state example_ptr_state
      (Value.param 0 (LType.ptr LType.i32)) (Value.param 0 (LType.ptr LType.i32))
      rfl rfl rfl).1 rfl).1.trans
    ((C29_pointer_comparison_ignores_right ident_lowering (Expr.Ident "p") (Expr.Ident "q")
      example_ptr_state example_ptr_state example_ptr_state
      (Value.param 0 (LType.ptr LType.i32)) (Value.param 1 (LType.ptr LType.i32))
      rfl rfl rfl).1 rfl).1.symm⟩

end codegen


namespace codegen

open ast

theorem same_of_isPointerTy (t u : LType) (h : t.isPointerTy = true) :
    t.same (LType.ptr u) = true := by
  cases t <;> simp_all [LType.isPointerTy, LType.same]

/-- C25 (the code at the failing input): for an identifier `x` whose encoded type is
`string_params`, the type with which `codegen_function_decl` binds a parameter of the
declared type `string`, and whose value `v` has a pointer type, `len(x)` is lowered to
the load of an `i32` from the field 1 of `v` taken as a slice descriptor; the only
instructions made are that address and that load, so `strlen` is not called.  For the
encoded type `string` and pointers of 8 bytes it is the call of `strlen`, truncated. -/
theorem C25_len_of_string_param (codegen_expr : Lowering) (dl : DataLayout) (x : String)
    (cg cg1 : CodeGen) (v : Value)
    (hx : codegen_expr (Expr.Ident x) cg = Except.ok (some v, cg1))
    (hv : v.type.isPointerTy = true) :
    (parse_type_chain (resolve_type_name (some (Ty.NamedType "string")))).base ++ "_params" =
      "string_params" ∧
    (cg1.lookup_local_type x = some "string_params" →
      codegen_len_call codegen_expr dl [Expr.Ident x] cg =
        Except.ok (some (Value.load (cg1.next_id + 1) "len" LType.i32
          (Value.gep2 cg1.next_id "len_ptr" arrayStruct v (Value.const_int LType.i32 0)
            (Value.const_int LType.i32 1))),
          { cg1 with
            code := cg1.code ++ [Instr.value (Value.gep2 cg1.next_id "len_ptr" arrayStruct v
                (Value.const_int LType.i32 0) (Value.const_int LType.i32 1)),
              Instr.value (Value.load (cg1.next_id + 1) "len" LType.i32
                (Value.gep2 cg1.next_id "len_ptr" arrayStruct v (Value.const_int LType.i32 0)
                  (Value.const_int LType.i32 1)))],
            next_id := cg1.next_id + 2 })) ∧
    (cg1.lookup_local_type x = some "string" → dl.pointer_bytes = 8 →
      codegen_len_call codegen_expr dl [Expr.Ident x] cg =
        Except.ok (some (Value.cast (cg1.next_id + 1) "strlen_trunc" CastOp.trunc
          (Value.call cg1.next_id "strlen_call" "strlen" LType.i64) LType.i32),
          { cg1 with
            code := cg1.code ++ [Instr.call
                (Value.call cg1.next_id "strlen_call" "strlen" LType.i64) [v],
              Instr.value (Value.cast (cg1.next_id + 1) "strlen_trunc" CastOp.trunc
                (Value.call cg1.next_id "strlen_call" "strlen" LType.i64) LType.i32)],
            next_id := cg1.next_id + 2 })) := by
  refine ⟨by decide, ?_, ?_⟩
  · intro ht
    simp [codegen_len_call, hx, len_is_str, ht, len_of_value, hv, len_arr_ptr,
      CodeGen.create_bitcast, same_of_isPointerTy _ _ hv, CodeGen.emit_value]
  · intro ht h8
    simp [codegen_len_call, hx, len_is_str, ht, len_of_value, hv, h8,
      CodeGen.create_bitcast, same_of_isPointerTy _ _ hv, CodeGen.emit_value,
      CodeGen.create_call, int_type_of_bits]

/-- C25 at `len(s)` in the body of `fn f(s string)`: the load of the `len` field of a
descriptor at `s`. -/
theorem C25_witness :
    (path.parse_source 60 "fn f(s string) i32 \x7b\n return len(s)\n\x7d").map
        (fun r => (r.1, r.2.diags)) =
      some ({ decls := [Decl.FuncDecl "f" none [{ name := "s", type := Ty.NamedType "string" }]
          (some (Ty.NamedType "i32")) false
          [Stmt.ReturnStmt (some (Expr.CallExpr (Expr.Ident "len") [Expr.Ident "s"]))]] },
        []) ∧
    codegen_len_call ident_lowering layout64 [Expr.Ident "s"] example_string_param_state =
      Except.ok (some (Value.load 2 "len" LType.i32
        (Value.gep2 1 "len_ptr" arrayStruct (Value.param 0 (LType.ptr LType.i8))
          (Value.const_int LType.i32 0) (Value.const_int LType.i32 1))),
        { example_string_param_state with
          code := [Instr.value (Value.gep2 1 "len_ptr" arrayStruct
              (Value.param 0 (LType.ptr LType.i8))
              (Value.const_int LType.i32 0) (Value.const_int LType.i32 1)),
            Instr.value (Value.load 2 "len" LType.i32
              (Value.gep2 1 "len_ptr" arrayStruct (Value.param 0 (LType.ptr LType.i8))
                (Value.const_int LType.i32 0) (Value.const_int LType.i32 1)))],
          next_id := 3 }) :=
  ⟨by decide,
    (C25_len_of_string_param ident_lowering layout64 "s" example_string_param_state
      example_string_param_state (Value.param 0 (LType.ptr LType.i8)) rfl rfl).2.1 rfl⟩

end codegen


namespace codegen

open ast

/-- The operand that `println` makes of an integer value of less than 64 bits has the
type `i32`. -/
theorem println_arg_int (v : Value) (cg : CodeGen) (hi : v.type.isIntegerTy = true)
    (h64 : v.type ≠ LType.i64) :
    (println_arg v cg).1 = "%lld" ∧ (println_arg v cg).2.1.type = LType.i32 ∧
    (println_arg v cg).2.1 =
      (if v.type = LType.i32 then v
       else Value.cast cg.next_id "cast_i64" CastOp.int_cast v LType.i32) := by
  have hp : v.type.isPointerTy = false := by
    cases h : v.type <;> simp_all [LType.isPointerTy, LType.isIntegerTy]
  have hf : v.type.isFloatingPointTy = false := by
    cases h : v.type <;> simp_all [LType.isFloatingPointTy, LType.isIntegerTy]
  simp only [println_arg, hp, hf, hi, h64, Bool.false_eq_true, if_false, if_true, ne_eq,
    not_false_eq_true, CodeGen.create_int_cast, true_and]
  by_cases h32 : v.type = LType.i32
  · have hs : v.type.same LType.i32 = true := by rw [h32]; rfl
    simp only [hs, if_true]
    exact ⟨h32, by rw [if_pos h32]⟩
  · have hs : v.type.same LType.i32 = false := by
      cases h : v.type <;> simp_all [LType.same]
    simp only [hs, if_false, Bool.false_eq_true, CodeGen.emit_value]
    exact ⟨rfl, by rw [if_neg h32]⟩

/-- C22 (the code at the failing input): for `println(e)` with `e` lowered to a value
`v` of an integer type of less than 64 bits, the format is `%lld` and a line feed, and
the operand that `printf` gets for it has the type `i32`: it is `v` itself when `v` is
an `i32`, and else the cast of `v` to `i32` that is named `cast_i64`. -/
theorem C22_println_integer_operand (codegen_expr : Lowering) (e : Expr) (cg cg1 : CodeGen)
    (v : Value) (he : codegen_expr e cg = Except.ok (some v, cg1))
    (hi : v.type.isIntegerTy = true) (h64 : v.type ≠ LType.i64) :
    (println_arg v cg1).2.1.type = LType.i32 ∧
    (println_arg v cg1).2.1 =
      (if v.type = LType.i32 then v
       else Value.cast cg1.next_id "cast_i64" CastOp.int_cast v LType.i32) ∧
    codegen_println_call codegen_expr [e] cg =
      Except.ok (some (Value.call ((println_arg v cg1).2.2.next_id + 1) "call_printf" "printf"
          LType.i32),
        { (println_arg v cg1).2.2 with
          code := (println_arg v cg1).2.2.code ++
            [Instr.call (Value.call ((println_arg v cg1).2.2.next_id + 1) "call_printf"
                "printf" LType.i32)
              [Value.global_string (println_arg v cg1).2.2.next_id ".fmt" "%lld\n",
               (println_arg v cg1).2.1]],
          next_id := (println_arg v cg1).2.2.next_id + 2 }) := by
  obtain ⟨h1, h2, h3⟩ := println_arg_int v cg1 hi h64
  refine ⟨h2, h3, ?_⟩
  simp only [codegen_println_call, List.isEmpty_cons, Bool.false_eq_true, if_false,
    println_args, he, List.isEmpty_nil, Bool.not_true, h1, List.nil_append,
    CodeGen.make_global_string, CodeGen.create_call]
  have hs : ("" ++ "%lld" ++ "" ++ "\n" : String) = "%lld\n" := by decide
  have hn : (".fmt" : String).isEmpty = false := by decide
  simp [hs, hn]

/-- C22 at `println(1)`: `printf` gets the format `%lld` with a line feed and the
constant 1 of the type `i32`. -/
theorem C22_witness :
    (path.parse_source 60 "fn main() \x7b\n println(1)\n\x7d").map
        (fun r => (r.1, r.2.diags)) =
      some ({ decls := [Decl.FuncDecl "main" none [] none false
          [Stmt.ExprStmt (Expr.CallExpr (Expr.Ident "println")
            [Expr.Literal "1" lex.TokenType.INT])]] }, []) ∧
    codegen_println_call literal_lowering [Expr.Literal "1" lex.TokenType.INT] {} =
      Except.ok (some (Value.call 1 "call_printf" "printf" LType.i32),
        { code := [Instr.call (Value.call 1 "call_printf" "printf" LType.i32)
            [Value.global_string 0 ".fmt" "%lld\n", Value.const_int LType.i32 1]],
          next_id := 2 }) ∧
    (Value.const_int LType.i32 1).type = LType.i32 :=
  ⟨by decide, (C22_println_integer_operand literal_lowering (Expr.Literal "1" lex.TokenType.INT) {} {}
      (Value.const_int LType.i32 1) rfl rfl (by decide)).2.2.trans rfl,
    rfl⟩

end codegen


namespace codegen

open ast

/-- C23 (the code at the failing input): an assignment `x = e` where `x` has no binding
and is no function returns `nullptr` and leaves the state of the generator as it is, so
the flag `failed` is not set and no message is printed (for the target `&x` the error
`unknown identifier in & LHS` is recorded); and for the program `fn main()` with the
body `x = 1`, with verifiers that accept, `generate` returns true with `failed` false
and no message. -/
theorem C23_unknown_assign_target_is_silent (ext : External) (x : String) (value : Expr)
    (cg : CodeGen) (hx : cg.lookup_local x = none) :
    codegen_assign ext (Expr.Ident x) value cg = Except.ok (none, cg) ∧
    codegen_stmt ext (Stmt.AssignStmt (Expr.Ident x) value) cg = Except.ok (none, cg) ∧
    codegen_assign ext (Expr.UnaryExpr "&" (Expr.Ident x)) value cg =
      Except.ok (none, cg.error ("unknown identifier in & LHS: " ++ x)) ∧
    (path.parse_source 40 "fn main() \x7b\n x = 1\n\x7d").map (fun r => (r.1, r.2.diags)) =
      some (example_assign_program, []) ∧
    (generate example_external example_assign_program CodeGen.create).map
        (fun r => (r.1, r.2.failed, r.2.errors)) = Except.ok (true, false, []) := by
  refine ⟨?_, ?_, ?_, by decide, by rfl⟩
  · simp [codegen_assign, assign_target, hx]
  · simp [codegen_stmt, codegen_assign, assign_target, hx]
  · simp [codegen_assign, assign_target, hx]

/-- C23 at `x = 1` in an empty state: nothing is recorded. -/
theorem C23_witness :
    codegen_stmt example_external
        (Stmt.AssignStmt (Expr.Ident "x") (Expr.Literal "1" lex.TokenType.INT)) {} =
      Except.ok (none, {}) ∧
    ({} : CodeGen).failed = false :=
  ⟨(C23_unknown_assign_target_is_silent example_external "x"
      (Expr.Literal "1" lex.TokenType.INT) {} rfl).2.1, rfl⟩

end codegen


namespace codegen

open ast

theorem lookup_map_set {β : Type} (m : List (String × β)) (key : String) (v : β) :
    (map_set m key v).lookup key = some v := by
  simp [map_set, List.lookup]

theorem return_type_fields (ret_type : Option Ty) (cg : CodeGen) :
    (return_type ret_type cg).2.functions = cg.functions ∧
    (return_type ret_type cg).2.function_protos = cg.function_protos ∧
    (return_type ret_type cg).2.locals_stack = cg.locals_stack ∧
    (return_type ret_type cg).2.locals_stack_type = cg.locals_stack_type ∧
    (return_type ret_type cg).2.next_id = cg.next_id := by
  cases ret_type <;> simp [return_type, CodeGen.resolve_or_int]

/-- The entry of a function with one parameter, from empty scope stacks: the parameter
is bound in a scope of its own, under the scope of the body. -/
theorem function_entry_one (name : String) (p : Param) (ret_type : Option Ty) (cg : CodeGen)
    (hp : p.variadic = false) (hs : cg.locals_stack = []) (hst : cg.locals_stack_type = [])
    (hf : cg.functions.lookup name = none) :
    ∃ rt v cg6, function_entry name [p] ret_type cg = Except.ok (rt, cg6) ∧
      cg6.locals_stack = [[(p.name, v)], []] ∧
      cg6.locals_stack_type =
        [[(p.name, (parse_type_chain (resolve_type_name (some p.type))).base ++ "_params")],
          []] := by
  have h1 : variadic_not_last [p] = false := rfl
  have h3 : arg_types [p] cg =
      ([(cg.resolve_or_int p.type).1], (cg.resolve_or_int p.type).2) := by
    simp [arg_types, hp]
  obtain ⟨r1, r2, r3, r4, r5⟩ := return_type_fields ret_type (cg.resolve_or_int p.type).2
  have hf2 : (return_type ret_type (cg.resolve_or_int p.type).2).2.functions.lookup name =
      none := by
    rw [r1]; exact hf
  simp only [function_entry, h1, h3, Bool.false_eq_true, if_false, hf2]
  simp only [CodeGen.create_function, lookup_map_set, CodeGen.add_entry_block, make_args,
    bind_args, List.getLast?_singleton, hp, List.filter, Bool.not_false, List.get?_cons_zero,
    CodeGen.set_insert_point, bind_arg, Option.map_some', Value.type]
  have e3 : (return_type ret_type (cg.resolve_or_int p.type).2).2.locals_stack = [] := by
    rw [r3]; exact hs
  have e4 : (return_type ret_type (cg.resolve_or_int p.type).2).2.locals_stack_type = [] := by
    rw [r4]; exact hst
  by_cases hpt : (cg.resolve_or_int p.type).1.isPointerTy = true
  · refine ⟨_, Value.param (return_type ret_type (cg.resolve_or_int p.type).2).2.next_id
      (cg.resolve_or_int p.type).1, _, rfl, ?_, ?_⟩ <;>
      simp [hpt, CodeGen.bind_local, CodeGen.push_scope, e3, e4, set_back, map_set]
  · refine ⟨_, Value.alloca ((return_type ret_type (cg.resolve_or_int p.type).2).2.next_id + 1)
      p.name (cg.resolve_or_int p.type).1, _, rfl, ?_, ?_⟩ <;>
      simp [hpt, CodeGen.bind_local, CodeGen.push_scope, e3, e4, set_back, map_set,
        CodeGen.emit_value, CodeGen.create_store]

/-- The body of a function whose statements leave the scope stacks as they find them,
with a verifier that accepts: the innermost scope is popped, and no other. -/
theorem function_body_pops (ext : External) (name : String) (rt : LType) (body : List Stmt)
    (cg : CodeGen) (hv : ∀ c, ext.verifyFunction name c = false)
    (hb : ∃ c, codegen_block ext body cg = Except.ok c ∧ c.locals_stack = cg.locals_stack ∧
      c.locals_stack_type = cg.locals_stack_type) :
    ∃ c, function_body ext name rt body cg = Except.ok (true, c) ∧
      c.locals_stack = cg.locals_stack.dropLast ∧
      c.locals_stack_type = cg.locals_stack_type.dropLast := by
  obtain ⟨c7, h7, hs, hst⟩ := hb
  simp only [function_body, h7, hv, Bool.false_eq_true, if_false]
  refine ⟨_, rfl, ?_, ?_⟩
  · simp only [CodeGen.pop_scope]
    split_ifs <;> simp [CodeGen.emit, hs]
  · simp only [CodeGen.pop_scope]
    split_ifs <;> simp [CodeGen.emit, hst]

/-- C24 (the code at the failing input): `codegen_function_decl` for a function with one
parameter `p`, called with empty scope stacks for a function that the module does not
have yet, with a body whose statements leave the scope stacks as they find them and a
verifier that accepts, returns with the binding of `p` in place: the stacks have one
scope with `p` in it, where they had none, and `lookup_local` finds `p`. -/
theorem C24_parameter_binding_remains (ext : External) (name : String) (p : Param)
    (ret_type : Option Ty) (body : List Stmt) (cg : CodeGen)
    (hp : p.variadic = false) (hs : cg.locals_stack = []) (hst : cg.locals_stack_type = [])
    (hf : cg.functions.lookup name = none)
    (hv : ∀ c, ext.verifyFunction name c = false)
    (hbody : ∀ c, ∃ c1, codegen_block ext body c = Except.ok c1 ∧
      c1.locals_stack = c.locals_stack ∧ c1.locals_stack_type = c.locals_stack_type) :
    ∃ v cg1, codegen_function_decl ext name [p] ret_type body cg = Except.ok (true, cg1) ∧
      cg1.locals_stack = [[(p.name, v)]] ∧
      cg1.locals_stack_type =
        [[(p.name, (parse_type_chain (resolve_type_name (some p.type))).base ++ "_params")]] ∧
      cg1.lookup_local p.name = some v := by
  obtain ⟨rt, v, cg6, he, h1, h2⟩ := function_entry_one name p ret_type cg hp hs hst hf
  obtain ⟨c, hc, h3, h4⟩ := function_body_pops ext name rt body cg6 hv (hbody cg6)
  refine ⟨v, c, ?_, ?_, ?_, ?_⟩
  · simp only [codegen_function_decl, he]
    exact hc
  · rw [h3, h1]; rfl
  · rw [h4, h2]; rfl
  · simp [CodeGen.lookup_local, h3, h1, List.lookup]

/-- C24 at `fn f(a i32)` with an empty body, in the state that the constructor leaves:
after the call the name `a` is bound to the `alloca` of the parameter. -/
theorem C24_witness :
    (path.parse_source 40 "fn f(a i32) \x7b\n\x7d").map (fun r => (r.1, r.2.diags)) =
      some (example_param_program, []) ∧
    CodeGen.create.locals_stack = [] ∧
    ∃ v cg1, codegen_function_decl example_external "f"
        [{ name := "a", type := Ty.NamedType "i32" }] none [] CodeGen.create =
          Except.ok (true, cg1) ∧
      cg1.locals_stack = [[("a", v)]] ∧
      cg1.locals_stack_type = [[("a", "i32_params")]] ∧
      cg1.lookup_local "a" = some v :=
  ⟨by decide, rfl,
    C24_parameter_binding_remains example_external "f"
      { name := "a", type := Ty.NamedType "i32" } none [] CodeGen.create rfl rfl rfl rfl
      (fun _ => rfl) (fun c => ⟨c, rfl, rfl, rfl⟩)⟩

end codegen


namespace codegen

open ast

set_option maxHeartbeats 1000000 in
/-- The blocks of the index read for a collection of a pointer type and an index of an
integer type. -/
theorem index_blocks_eq (dl : DataLayout) (colVal idxVal : Value) (n : Nat)
    (hcol : colVal.type.isPointerTy = true) (hidx : idxVal.type.isIntegerTy = true) :
    index_blocks dl colVal idxVal n =
      some (index.elemPtrI8 colVal (index.idx64 idxVal n) (index.base idxVal n),
        index.code colVal idxVal n) := by
  have hs := same_of_pointer colVal.type arrayStruct hcol
  cases hT : idxVal.type <;> simp [hT, LType.isIntegerTy] at hidx <;>
    simp [index_blocks, index_arr_ptr, index_check, hcol, hs, hT, Builder.pointer_cast,
      Builder.sext_or_trunc, LType.bits, Builder.value, Builder.emit, Builder.create_block,
      Builder.set_insert_point, Builder.call, Builder.result, block_code, index.code,
      index.entry_code, index.ok_code, index.oob_code, index.idx64, index.base,
      index.elemPtrI8, index.dataPtr, index.elemSizeVal, index.offsetBytes, index.inRange,
      index.lenVal, index.lenFieldPtr, List.filter, LType.isIntegerTy, Nat.add_assoc]

set_option maxHeartbeats 1000000 in
/-- The blocks of the index address are the same. -/
theorem index_addr_blocks_eq (dl : DataLayout) (colVal idxVal : Value) (n : Nat)
    (hcol : colVal.type.isPointerTy = true) (hidx : idxVal.type.isIntegerTy = true) :
    index_addr_blocks dl colVal idxVal n =
      some (index.elemPtrI8 colVal (index.idx64 idxVal n) (index.base idxVal n),
        index.code colVal idxVal n) := by
  have hs := same_of_pointer colVal.type arrayStruct hcol
  cases hT : idxVal.type <;> simp [hT, LType.isIntegerTy] at hidx <;>
    simp [index_addr_blocks, index_addr_arr_ptr, index_check, hcol, hs, hT,
      Builder.pointer_cast,
      Builder.sext_or_trunc, LType.bits, Builder.value, Builder.emit, Builder.create_block,
      Builder.set_insert_point, Builder.call, Builder.result, block_code, index.code,
      index.entry_code, index.ok_code, index.oob_code, index.idx64, index.base,
      index.elemPtrI8, index.dataPtr, index.elemSizeVal, index.offsetBytes, index.inRange,
      index.lenVal, index.lenFieldPtr, List.filter, LType.isIntegerTy, Nat.add_assoc]

theorem eval_cast (env : Nat → Nat) (id : Nat) (s : String) (op : CastOp) (v : Value)
    (t : LType) : eval env (Value.cast id s op v t) = env id := rfl

theorem sign_extend_same (x : Nat) : sign_extend 64 64 x = x := by
  simp only [sign_extend]
  split_ifs <;> omega

set_option maxHeartbeats 1000000 in
/-- The run of the instructions of the bounds check in the current block: the branch
goes to `idx_ok` when the index, sign-extended to 64 bits, is less than `len` as an
unsigned number, and to `idx_oob` when it is not; the memory stays as it is. -/
theorem entry_code_run (dl : DataLayout) (hdl : dl.is64) (arrPtr idxVal : Value) (n : Nat)
    (m : Machine) (A : Nat) (harr : arrPtr.before n) (hib : idxVal.before n)
    (hidx : idxVal.type.isIntegerTy = true) (hA : eval m.env arrPtr = A) :
    ∃ m1, exec_instrs dl (index.entry_code arrPtr idxVal n) m =
        some (m1, some (if sign_extend idxVal.type.bits 64 (eval m.env idxVal) < desc_len m A
          then "idx_ok" else "idx_oob")) ∧
      m1.mem = m.mem ∧ m1.brk = m.brk := by
  have ea := fun env id x hid => eval_set_env env arrPtr n id x harr hid
  have ei := fun env id x hid => eval_set_env env idxVal n id x hib hid
  cases hT : idxVal.type <;> simp [hT, LType.isIntegerTy] at hidx
  all_goals
    simp [index.entry_code, index.idx64, index.base, index.inRange, index.lenVal,
      index.lenFieldPtr, hT, exec_instrs, exec_instr, exec_value, Value.result_id, ea, ei, hA,
      hdl.2.1, arrayStruct, desc_len, LType.bits, sign_extend_same, Nat.add_assoc, eval_cast,
      set_env_apply]
  all_goals
    refine ⟨_, ⟨rfl, ?_⟩, rfl, rfl⟩
    split_ifs <;> first | rfl | (exfalso; omega)

/-- With `len` below `2 ^ 63`, the unsigned comparison of the sign-extended index with
`len` holds exactly for the indices from 0 up to `len`. -/
theorem in_range_iff (t : LType) (ht : t.isIntegerTy = true) (x len : Nat)
    (hx : x < 2 ^ t.bits) (hlen : len < 2 ^ 63) :
    sign_extend t.bits 64 x < len ↔
      0 ≤ to_signed t.bits x ∧ to_signed t.bits x < (len : Int) := by
  cases t <;> simp [LType.isIntegerTy] at ht <;>
    simp only [LType.bits, sign_extend, to_signed] at hx ⊢ <;>
    norm_num at hx hlen ⊢ <;>
    split_ifs <;> constructor <;> intro h <;> omega

/-- A collection that is not taken as a C string goes on to the bounds check in
`codegen_index`. -/
theorem index_c_string_none (collection : Expr) (idxVal : Value) (cg : CodeGen)
    (hs : not_c_string_case collection cg) :
    index_c_string collection idxVal cg = Except.ok none := by
  cases collection <;> try rfl
  obtain ⟨t, ht, h1, h2⟩ := hs
  simp [index_c_string, ht, h1, h2]

/-- A collection that is not taken as a C string goes on to the bounds check in
`codegen_index_addr`. -/
theorem index_addr_c_string_none (collection : Expr) (colVal idxVal : Value) (cg : CodeGen)
    (hs : not_c_string_case collection cg) :
    index_addr_c_string collection colVal idxVal cg = Except.ok none := by
  cases collection <;> try rfl
  obtain ⟨t, ht, h1, h2⟩ := hs
  simp [index_addr_c_string, ht, h1, h2]

/-- The encoded type that `codegen_function_decl` binds for a parameter `a []string` is
`string_params`, the one of a parameter `s string`: such a parameter is taken as a C
string by `codegen_index` and `codegen_index_addr`. -/
theorem string_slice_parameter_type :
    (parse_type_chain (resolve_type_name
        (some (Ty.ArrayType (Ty.NamedType "string") true 0)))).base ++ "_params" =
      "string_params" ∧
    is_c_string "string_params" "string_params" = true := by
  decide

/-- The bounds check: for a collection on which the test for a C string fails, lowered
to a value of a pointer type, and an index lowered to a value of an integer type, `codegen_index` and
`codegen_index_addr` make the same three blocks: the current block ends with the sign
extension of the index to 64 bits (when it is narrower), the load of the field `len`,
their unsigned comparison and the branch on it; `idx_oob` is the call of `abort` and
`unreachable`; the address of the element is made in `idx_ok`.  Run on the machine, the
branch goes to `idx_ok` when the comparison holds and to `idx_oob` when it fails; for
`len < 2 ^ 63` it holds exactly when the index is at least 0 and less than `len`. -/
theorem index_bounds_check (codegen_expr : Lowering) (dl : DataLayout) (hdl : dl.is64)
    (collection idx : Expr) (cg cg1 cg2 : CodeGen) (colVal idxVal : Value)
    (m : Machine) (A : Nat)
    (hc : codegen_expr collection cg = Except.ok (some colVal, cg1))
    (hx : codegen_expr idx cg1 = Except.ok (some idxVal, cg2))
    (hs : not_c_string_case collection cg2)
    (hcol : colVal.type.isPointerTy = true) (hidx : idxVal.type.isIntegerTy = true)
    (hcb : colVal.before cg2.next_id) (hib : idxVal.before cg2.next_id)
    (hA : eval m.env colVal = A) (hi : eval m.env idxVal < 2 ^ idxVal.type.bits) :
    codegen_index codegen_expr dl collection idx cg =
      Except.ok (IndexCode.checked
        (index.elemPtrI8 colVal (index.idx64 idxVal cg2.next_id) (index.base idxVal cg2.next_id))
        [{ name := "entry", instrs := index.entry_code colVal idxVal cg2.next_id },
         { name := "idx_ok",
           instrs := index.ok_code colVal (index.idx64 idxVal cg2.next_id)
             (index.base idxVal cg2.next_id) },
         { name := "idx_oob",
           instrs := [Instr.call
               (Value.call (index.base idxVal cg2.next_id + 3) "" "abort" LType.void) [],
             Instr.unreachable] }] cg2) ∧
    codegen_index_addr codegen_expr dl collection idx cg =
      codegen_index codegen_expr dl collection idx cg ∧
    Instr.value (index.elemPtrI8 colVal (index.idx64 idxVal cg2.next_id)
        (index.base idxVal cg2.next_id)) ∈
      index.ok_code colVal (index.idx64 idxVal cg2.next_id) (index.base idxVal cg2.next_id) ∧
    (∃ m1, exec_instrs dl (index.entry_code colVal idxVal cg2.next_id) m =
        some (m1, some (if sign_extend idxVal.type.bits 64 (eval m.env idxVal) < desc_len m A
          then "idx_ok" else "idx_oob")) ∧
      m1.mem = m.mem) ∧
    (desc_len m A < 2 ^ 63 →
      (sign_extend idxVal.type.bits 64 (eval m.env idxVal) < desc_len m A ↔
        0 ≤ to_signed idxVal.type.bits (eval m.env idxVal) ∧
        to_signed idxVal.type.bits (eval m.env idxVal) < (desc_len m A : Int))) := by
  have e1 : codegen_index codegen_expr dl collection idx cg =
      Except.ok (IndexCode.checked
        (index.elemPtrI8 colVal (index.idx64 idxVal cg2.next_id) (index.base idxVal cg2.next_id))
        (index.code colVal idxVal cg2.next_id) cg2) := by
    simp only [codegen_index, hc, hx, index_c_string_none collection idxVal cg2 hs,
      index_blocks_eq dl colVal idxVal cg2.next_id hcol hidx]
  have e2 : codegen_index_addr codegen_expr dl collection idx cg =
      Except.ok (IndexCode.checked
        (index.elemPtrI8 colVal (index.idx64 idxVal cg2.next_id) (index.base idxVal cg2.next_id))
        (index.code colVal idxVal cg2.next_id) cg2) := by
    simp only [codegen_index_addr, hc, hx,
      index_addr_c_string_none collection colVal idxVal cg2 hs,
      index_addr_blocks_eq dl colVal idxVal cg2.next_id hcol hidx]
  refine ⟨?_, ?_, ?_, ?_, ?_⟩
  · rw [e1]
    rfl
  · rw [e1, e2]
  · simp [index.ok_code]
  · obtain ⟨m1, h1, h2, _⟩ :=
      entry_code_run dl hdl colVal idxVal cg2.next_id m A hcb hib hidx hA
    exact ⟨m1, h1, h2⟩
  · intro hlen
    exact in_range_iff idxVal.type hidx _ _ hi hlen

/-- The bounds check at `a[i]` in the body of `fn f(a []i32, i i32)` with the index -1
and a descriptor with `len = 2`. -/
theorem index_bounds_check_example :
    (∃ m1, exec_instrs layout64
        (index.entry_code (Value.param 0 (LType.ptr LType.i32))
          (Value.load 3 "i.val" LType.i32 (Value.alloca 2 "i" LType.i32)) 4)
        example_slice_machine =
        some (m1, some "idx_oob") ∧
      m1.mem = example_slice_machine.mem) ∧
    codegen_index_addr ident_lowering layout64 (Expr.Ident "a") (Expr.Ident "i")
        example_slice_state =
      codegen_index ident_lowering layout64 (Expr.Ident "a") (Expr.Ident "i")
        example_slice_state :=
  have h := index_bounds_check ident_lowering layout64 layout64_is64 (Expr.Ident "a")
    (Expr.Ident "i") example_slice_state example_slice_state
    { example_slice_state with
      code := [Instr.value (Value.load 3 "i.val" LType.i32 (Value.alloca 2 "i" LType.i32))],
      next_id := 4 }
    (Value.param 0 (LType.ptr LType.i32))
    (Value.load 3 "i.val" LType.i32 (Value.alloca 2 "i" LType.i32))
    example_slice_machine 1000 rfl rfl ⟨"i32_params", rfl, by decide, by decide⟩ rfl rfl
    (by intro j h; cases h; decide)
    (by intro j h; cases h; decide) rfl (by decide)
  ⟨h.2.2.2.1, h.2.1⟩

/-- The instructions of the C-string case of `codegen_index` run to their end on every
machine, for every value of the index, and leave the memory as it is. -/
theorem index_c_string_run (dl : DataLayout) (v idxVal : Value) (n : Nat) (m : Machine) :
    ∃ m1, exec_instrs dl
        [Instr.value (Value.gep1 n "" LType.i8 v idxVal),
         Instr.value (Value.load (n + 1) "" LType.i8 (Value.gep1 n "" LType.i8 v idxVal)),
         Instr.value (Value.cast (n + 2) "" CastOp.zext
           (Value.load (n + 1) "" LType.i8 (Value.gep1 n "" LType.i8 v idxVal)) LType.i32)] m =
        some (m1, none) ∧ m1.mem = m.mem ∧ m1.brk = m.brk := by
  simp [exec_instrs, exec_instr, exec_value, Value.result_id]

/-- C21 (the code at the failing input): a slice parameter declared `a []string` is bound
with the encoded type `string_params`, that of a parameter of the type `string`.  For an
identifier with that encoded type, bound to the value `v`, `codegen_index` returns the
byte at the address `v + i`, extended to an `i32`: the only instructions made are that
address, the load and the extension, which run to their end for every value of the index
on every machine, so the index is not compared with `len` and no block with `abort` is
made; `codegen_index_addr` returns the address `v + i`, after the sign extension of an
index of the type `i32`.  An identifier whose encoded type fails the test for a C string
(`i32_params` of a parameter `[]i32`, `string[]` of a local slice of strings) gets the
blocks of the bounds check. -/
theorem C21_string_slice_parameter_is_unchecked (codegen_expr : Lowering) (dl : DataLayout)
    (name : String) (idx : Expr) (cg cg1 cg2 : CodeGen) (colVal idxVal v : Value)
    (hc : codegen_expr (Expr.Ident name) cg = Except.ok (some colVal, cg1))
    (hx : codegen_expr idx cg1 = Except.ok (some idxVal, cg2))
    (hv : cg2.lookup_local name = some v) :
    (parse_type_chain (resolve_type_name
        (some (Ty.ArrayType (Ty.NamedType "string") true 0)))).base ++ "_params" =
      "string_params" ∧
    (cg2.lookup_local_type name = some "string_params" →
      codegen_index codegen_expr dl (Expr.Ident name) idx cg =
        Except.ok (IndexCode.returned
          (some (Value.cast (cg2.next_id + 2) "" CastOp.zext
            (Value.load (cg2.next_id + 1) "" LType.i8
              (Value.gep1 cg2.next_id "" LType.i8 v idxVal)) LType.i32))
          { cg2 with
            code := cg2.code ++
              [Instr.value (Value.gep1 cg2.next_id "" LType.i8 v idxVal),
               Instr.value (Value.load (cg2.next_id + 1) "" LType.i8
                 (Value.gep1 cg2.next_id "" LType.i8 v idxVal)),
               Instr.value (Value.cast (cg2.next_id + 2) "" CastOp.zext
                 (Value.load (cg2.next_id + 1) "" LType.i8
                   (Value.gep1 cg2.next_id "" LType.i8 v idxVal)) LType.i32)],
            next_id := cg2.next_id + 3 }) ∧
      (∀ m : Machine, ∃ m1, exec_instrs dl
          [Instr.value (Value.gep1 cg2.next_id "" LType.i8 v idxVal),
           Instr.value (Value.load (cg2.next_id + 1) "" LType.i8
             (Value.gep1 cg2.next_id "" LType.i8 v idxVal)),
           Instr.value (Value.cast (cg2.next_id + 2) "" CastOp.zext
             (Value.load (cg2.next_id + 1) "" LType.i8
               (Value.gep1 cg2.next_id "" LType.i8 v idxVal)) LType.i32)] m =
          some (m1, none) ∧ m1.mem = m.mem ∧ m1.brk = m.brk) ∧
      (idxVal.type = LType.i32 →
        codegen_index_addr codegen_expr dl (Expr.Ident name) idx cg =
          Except.ok (IndexCode.returned
            (some (Value.gep1 (cg2.next_id + 1) "charptr_params" LType.i8 v
              (Value.cast cg2.next_id "idx_i64" CastOp.sext idxVal LType.i64)))
            { cg2 with
              code := cg2.code ++
                [Instr.value (Value.cast cg2.next_id "idx_i64" CastOp.sext idxVal LType.i64),
                 Instr.value (Value.gep1 (cg2.next_id + 1) "charptr_params" LType.i8 v
                   (Value.cast cg2.next_id "idx_i64" CastOp.sext idxVal LType.i64))],
              next_id := cg2.next_id + 2 }))) ∧
    (∀ t, cg2.lookup_local_type name = some t → is_c_string t "string" = false →
      is_c_string t "string_params" = false → colVal.type.isPointerTy = true →
      idxVal.type.isIntegerTy = true →
      codegen_index codegen_expr dl (Expr.Ident name) idx cg =
        Except.ok (IndexCode.checked
          (index.elemPtrI8 colVal (index.idx64 idxVal cg2.next_id)
            (index.base idxVal cg2.next_id))
          (index.code colVal idxVal cg2.next_id) cg2) ∧
      codegen_index_addr codegen_expr dl (Expr.Ident name) idx cg =
        codegen_index codegen_expr dl (Expr.Ident name) idx cg) := by
  have hs1 : is_c_string "string_params" "string" = false := by decide
  have hs2 : is_c_string "string_params" "string_params" = true := by decide
  refine ⟨by decide, ?_, ?_⟩
  · intro ht
    refine ⟨?_, fun m => index_c_string_run dl v idxVal cg2.next_id m, ?_⟩
    · simp [codegen_index, hc, hx, index_c_string, ht, hv, hs1, hs2, CodeGen.emit_value,
        Nat.add_assoc]
    · intro h32
      simp [codegen_index_addr, hc, hx, index_addr_c_string, ht, hv, hs1, hs2, h32,
        CodeGen.emit_value, CodeGen.sext_or_trunc, LType.bits, LType.isIntegerTy,
        Nat.add_assoc]
  · intro t ht h1 h2 hcol hidx
    have hn : not_c_string_case (Expr.Ident name) cg2 := ⟨t, ht, h1, h2⟩
    have e1 : codegen_index codegen_expr dl (Expr.Ident name) idx cg =
        Except.ok (IndexCode.checked
          (index.elemPtrI8 colVal (index.idx64 idxVal cg2.next_id)
            (index.base idxVal cg2.next_id))
          (index.code colVal idxVal cg2.next_id) cg2) := by
      simp only [codegen_index, hc, hx, index_c_string_none (Expr.Ident name) idxVal cg2 hn,
        index_blocks_eq dl colVal idxVal cg2.next_id hcol hidx]
    refine ⟨e1, ?_⟩
    rw [e1]
    simp only [codegen_index_addr, hc, hx,
      index_addr_c_string_none (Expr.Ident name) colVal idxVal cg2 hn,
      index_addr_blocks_eq dl colVal idxVal cg2.next_id hcol hidx]

/-- C21 at `a[i]` in the body of `fn f(a []string, i i32) i32`, in the state that the
first part of `codegen_function_decl` makes: the parameter `a` has the encoded type
`string_params`, and the index read is the address `a + i`, the load of a byte and its
extension, after the load of `i`. -/
theorem C21_witness :
    (path.parse_source 80 "fn f(a []string, i i32) i32 \x7b\n return a[i]\n\x7d").map
        (fun r => (r.1, r.2.diags)) = some (example_string_slice_program, []) ∧
    example_string_slice_state.lookup_local_type "a" = some "string_params" ∧
    example_string_slice_state.lookup_local "a" =
      some (Value.param 1 (LType.ptr (LType.ptr LType.i8))) ∧
    ∃ cg3, codegen_index ident_lowering layout64 (Expr.Ident "a") (Expr.Ident "i")
        example_string_slice_state =
      Except.ok (IndexCode.returned
        (some (Value.cast 7 "" CastOp.zext
          (Value.load 6 "" LType.i8
            (Value.gep1 5 "" LType.i8 (Value.param 1 (LType.ptr (LType.ptr LType.i8)))
              (Value.load 4 "i.val" LType.i32 (Value.alloca 3 "i" LType.i32)))) LType.i32))
        cg3) :=
  ⟨by decide, rfl, rfl, _,
    ((C21_string_slice_parameter_is_unchecked ident_lowering layout64 "a" (Expr.Ident "i")
      example_string_slice_state example_string_slice_state
      (example_string_slice_state.emit_value (fun id =>
        Value.load id "i.val" LType.i32 (Value.alloca 3 "i" LType.i32))).2
      (Value.param 1 (LType.ptr (LType.ptr LType.i8)))
      (Value.load 4 "i.val" LType.i32 (Value.alloca 3 "i" LType.i32))
      (Value.param 1 (LType.ptr (LType.ptr LType.i8))) rfl rfl rfl).2.1 rfl).1⟩

end codegen
